import Mathlib

/-!
# Door Locker Security System: the Control ECU and the HMI ECU

A shallow embedding of `Control_ECU.c`, `EEPROM.c`, `I2C.c`, `HMI_ECU.c` and
`KEYPAD.c`.

* A `uint8 *` buffer is a function from the index to the byte stored there.
* Each node is a record of its C variables, of the environment it talks to
  (bytes still to arrive on the UART, the status values the two-wire bus will
  report, the cells of the EEPROM) and of a trace of everything it has done.
* A blocking receive on an exhausted input never returns: such code yields `none`.
* `for (i = 0; i < PASSWORD_SIZE; i++)` loops recurse on the number of
  iterations still to run, next to the index `i`.
* The scan of `KEYPAD.c` runs on the pins of its port and on the set of keys
  held down; the nodes see the keypad as the stream of keys it returns.
* The tick counter is not `volatile`, so a wait loop `while (G_Timer1_Count < n);`
  has two readings: `waitTicks` tests the counter anew each time and sees every
  tick, `waitTicks.readOnce` tests a value read once. Runs are taken with
  `waitTicks`; that a timed pass returns is a fact of that reading only.
-/

namespace DoorLocker

/-- A `uint8 *` argument: the byte found at every index. -/
abbrev Buf := Nat → Nat

/-- The assignment `p[i] = v`. -/
def Buf.store (p : Buf) (i v : Nat) : Buf := fun k => if k = i then v else p k

/-- The first five bytes of a buffer, in index order. -/
def Buf.first5 (p : Buf) : List Nat := [p 0, p 1, p 2, p 3, p 4]

/-- A buffer holding the given bytes from index 0 on and 0 elsewhere. -/
def Buf.ofList (l : List Nat) : Buf := fun k => l.getD k 0

/-- Motor states named in the calls of `DcMotor_Rotate`. -/
inductive DcMotor_State
  | STOP
  | CW
  | A_CW
  deriving DecidableEq, Repr

/-- The steps taken on the two-wire bus: start condition, byte written, byte
read without acknowledge, stop condition, status register read. -/
inductive TwiOp
  | start
  | write (b : Nat)
  | readNack (b : Nat)
  | stop
  | status (st : Nat)
  deriving DecidableEq, Repr

/-- Everything a node does that its environment can observe, in the order done. -/
inductive Ev
  | recv (b : Nat)
  | send (b : Nat)
  | eepromWrite (addr data result : Nat)
  | eepromRead (addr result : Nat)
  | delay (ms : Nat)
  | motor (state : DcMotor_State) (speed : Nat)
  | buzzer (active : Bool)
  | timer0Init
  | timer0DeInit
  | timer1Init
  | timer1SetCallBack
  | timer1DeInit
  | tick
  | key (k : Nat)
  | lcdClear
  | lcdString (text : String)
  | lcdMove (row col : Nat)
  | lcdChar (c : Nat)
  deriving DecidableEq, Repr

/-- The bytes sent on the UART, in order. -/
def sentOf : List Ev → List Nat
  | [] => []
  | Ev.send b :: t => b :: sentOf t
  | _ :: t => sentOf t

/-- The calls of `EEPROM_WriteByte`, in order, as pairs (address, data). -/
def writesOf : List Ev → List (Nat × Nat)
  | [] => []
  | Ev.eepromWrite a d _ :: t => (a, d) :: writesOf t
  | _ :: t => writesOf t

/-- The values returned by the calls of `EEPROM_WriteByte`, in order. -/
def writeResultsOf : List Ev → List Nat
  | [] => []
  | Ev.eepromWrite _ _ r :: t => r :: writeResultsOf t
  | _ :: t => writeResultsOf t

/-- The values returned by the calls of `EEPROM_ReadByte`, in order. -/
def readResultsOf : List Ev → List Nat
  | [] => []
  | Ev.eepromRead _ r :: t => r :: readResultsOf t
  | _ :: t => readResultsOf t

namespace Control

/-! ## Macros of `Control_ECU.c`, `EEPROM.h` and `I2C.h` -/

abbrev HMI_READY : Nat := 0x10
abbrev CONTROL_READY : Nat := 0x20
abbrev PASSWORD_SIZE : Nat := 5
abbrev PASSWORDS_UNMATCHED : Nat := 0x30
abbrev PASSWORDS_MATCHED : Nat := 0x40
abbrev PASS_RECEIVED : Nat := 0x06
abbrev DISPLAY_ERROR : Nat := 0x0C
abbrev OPEN_THE_DOOR : Nat := 0x03
abbrev CHANGE_PASSWORD : Nat := 0x04

abbrev RECEIVE_FIRST_PASSWORD : Nat := 0x00
abbrev RECEIVE_AND_CHECK_CONFIRMED_PASSWORD : Nat := 0x01
abbrev RECEIVING_MAIN_OPTION : Nat := 0x02
abbrev PASSWORD_ERROR : Nat := 0x04

abbrev ERROR : Nat := 0
abbrev SUCCESS : Nat := 1

abbrev TWI_START : Nat := 0x08
abbrev TWI_REP_START : Nat := 0x10
abbrev TWI_MT_SLA_W_ACK : Nat := 0x18
abbrev TWI_MT_SLA_R_ACK : Nat := 0x40
abbrev TWI_MT_DATA_ACK : Nat := 0x28
abbrev TWI_MR_DATA_ACK : Nat := 0x50
abbrev TWI_MR_DATA_NACK : Nat := 0x58

/-! ## The Control node and its surroundings -/

/-- The two-wire bus with the memory chip on it. The list `twsr` holds the
values the register `TWSR` will show at the successive reads by
`TWI_GetStatus` (0xF8, no state information, once the list is used up);
`eeprom` holds the cells of the chip, `frame` the bytes put on the bus since
the last start condition, `ptr` the address pointer of the chip and `pending`
a data byte the chip has latched and will commit at the stop condition; `ops`
lists the bus steps taken so far. -/
structure Bus where
  twsr : List Nat
  eeprom : Nat → Nat
  frame : List Nat
  ptr : Nat
  pending : Option Nat
  ops : List TwiOp

/-- The variables of `Control_ECU.c` (the globals and the failure counter `i`
of `main`), the surroundings of the node, and the trace of what it has done.
The list `rx` holds the bytes that will arrive on the UART, in order; `bus`
is the two-wire bus; `timer1` tells whether Timer1 is running and `callBack`
whether `Timer1_CallBack` is registered with it. -/
structure State where
  Control_ECU_Sequence : Nat
  G_Pass1 : Buf
  G_Pass2 : Buf
  G_Timer1_Count : Nat
  i : Nat
  rx : List Nat
  bus : Bus
  timer1 : Bool
  callBack : Bool
  trace : List Ev

/-- Append one event to the trace. -/
def State.log (s : State) (e : Ev) : State := { s with trace := s.trace ++ [e] }

/-- Modelled from the spec: `UART.c` is not among the sources; `UART_SendByte`
is the serial link's `sendByte(b)`, which transmits one byte and always
returns. -/
def UART_SendByte (b : Nat) (s : State) : State := s.log (Ev.send b)

/-- Modelled from the spec: `UART.c` is not among the sources;
`UART_ReceiveByte` is the serial link's blocking `recvByte()`: it returns the
next byte to arrive and never returns when no byte arrives any more. -/
def UART_ReceiveByte (s : State) : Option (Nat × State) :=
  match s.rx with
  | [] => none
  | b :: r => some (b, { s with rx := r, trace := s.trace ++ [Ev.recv b] })

/-- The wait loop `while (UART_ReceiveByte() != X);`. The first argument
bounds the number of iterations; the number of bytes still to arrive is
enough, since every iteration takes one. -/
def awaitByte.loop (X : Nat) : Nat → State → Option State
  | 0, _ => none
  | k + 1, s =>
    match UART_ReceiveByte s with
    | none => none
    | some (b, s1) => if b ≠ X then awaitByte.loop X k s1 else some s1

/-- The wait loop `while (UART_ReceiveByte() != X);`. -/
def awaitByte (X : Nat) (s : State) : Option State :=
  awaitByte.loop X s.rx.length s

/-- The call `_delay_ms(ms)`. -/
def _delay_ms (ms : Nat) (s : State) : State := s.log (Ev.delay ms)

/-! ## `I2C.c`: the two-wire bus, with the memory chip on it -/

/-- The function `TWI_Start`: a (repeated) start condition opens a new frame;
a byte the chip had latched without a stop condition is dropped. -/
def TWI_Start (b : Bus) : Bus :=
  { b with frame := [], pending := none, ops := b.ops ++ [TwiOp.start] }

/-- The function `TWI_Stop`: at the stop condition the chip commits the data
byte it has latched, if any, to the cell its pointer addresses. -/
def TWI_Stop (b : Bus) : Bus :=
  match b.pending with
  | some d =>
    { b with eeprom := Buf.store b.eeprom b.ptr d, pending := none, frame := [],
             ops := b.ops ++ [TwiOp.stop] }
  | none => { b with frame := [], ops := b.ops ++ [TwiOp.stop] }

/-- The function `TWI_WriteByte`: the byte goes on the bus. In a frame opened
with a device address for writing (even first byte, block bits in bits 3..1)
the second byte sets the chip's pointer and the third is latched as data. -/
def TWI_WriteByte (Byte : Nat) (b : Bus) : Bus :=
  let b1 := { b with frame := b.frame ++ [Byte], ops := b.ops ++ [TwiOp.write Byte] }
  match b.frame with
  | [sla] => if sla % 2 = 0 then { b1 with ptr := ((sla >>> 1) &&& 7) * 256 + Byte } else b1
  | [sla, _] => if sla % 2 = 0 then { b1 with pending := some Byte } else b1
  | _ => b1

/-- The function `TWI_ReadByteWithNACK`: the chip puts the byte of the cell
its pointer addresses on the bus. -/
def TWI_ReadByteWithNACK (b : Bus) : Nat × Bus :=
  (b.eeprom b.ptr, { b with ops := b.ops ++ [TwiOp.readNack (b.eeprom b.ptr)] })

/-- The function `TWI_GetStatus`: `status = TWSR & 0xF8`. -/
def TWI_GetStatus (b : Bus) : Nat × Bus :=
  let status := b.twsr.headD 0xF8 &&& 0xF8
  (status, { b with twsr := b.twsr.tail, ops := b.ops ++ [TwiOp.status status] })

/-! ## `EEPROM.c` -/

/-- The body of `EEPROM_WriteByte(uint16 EEPROM_Byte_Address, uint8 EEPROM_Data)`,
on the bus. -/
def EEPROM_WriteByte.body (EEPROM_Byte_Address EEPROM_Data : Nat) (b : Bus) : Nat × Bus :=
  let r := TWI_GetStatus (TWI_Start b)
  if r.1 ≠ TWI_START then (ERROR, r.2) else
  let r := TWI_GetStatus
    (TWI_WriteByte ((0xA0 ||| ((EEPROM_Byte_Address &&& 0x0700) >>> 7)) % 256) r.2)
  if r.1 ≠ TWI_MT_SLA_W_ACK then (ERROR, r.2) else
  let r := TWI_GetStatus (TWI_WriteByte (EEPROM_Byte_Address % 256) r.2)
  if r.1 ≠ TWI_MT_DATA_ACK then (ERROR, r.2) else
  let r := TWI_GetStatus (TWI_WriteByte EEPROM_Data r.2)
  if r.1 ≠ TWI_MT_DATA_ACK then (ERROR, r.2) else
  (SUCCESS, TWI_Stop r.2)

/-- The function `EEPROM_WriteByte`; the call and the value it returns are
entered in the trace of the node. -/
def EEPROM_WriteByte (EEPROM_Byte_Address EEPROM_Data : Nat) (s : State) : Nat × State :=
  let r := EEPROM_WriteByte.body EEPROM_Byte_Address EEPROM_Data s.bus
  (r.1, { s with bus := r.2,
                 trace := s.trace ++ [Ev.eepromWrite EEPROM_Byte_Address EEPROM_Data r.1] })

/-- The body of `EEPROM_ReadByte(uint16 EEPROM_Byte_Address, uint8 *EEPROM_Data)`,
on the bus. The argument `old` is the byte `*EEPROM_Data` holds at the call;
the result is the value returned, the byte `*EEPROM_Data` holds at the return,
and the bus. -/
def EEPROM_ReadByte.body (EEPROM_Byte_Address old : Nat) (b : Bus) : Nat × Nat × Bus :=
  let r := TWI_GetStatus (TWI_Start b)
  if r.1 ≠ TWI_START then (ERROR, old, r.2) else
  let r := TWI_GetStatus
    (TWI_WriteByte ((0xA0 ||| ((EEPROM_Byte_Address &&& 0x0700) >>> 7)) % 256) r.2)
  if r.1 ≠ TWI_MT_SLA_W_ACK then (ERROR, old, r.2) else
  let r := TWI_GetStatus (TWI_WriteByte (EEPROM_Byte_Address % 256) r.2)
  if r.1 ≠ TWI_MT_DATA_ACK then (ERROR, old, r.2) else
  let r := TWI_GetStatus (TWI_Start r.2)
  if r.1 ≠ TWI_REP_START then (ERROR, old, r.2) else
  let r := TWI_GetStatus
    (TWI_WriteByte ((0xA0 ||| ((EEPROM_Byte_Address &&& 0x0700) >>> 7) ||| 1) % 256) r.2)
  if r.1 ≠ TWI_MT_SLA_R_ACK then (ERROR, old, r.2) else
  let d := TWI_ReadByteWithNACK r.2
  let r := TWI_GetStatus d.2
  if r.1 ≠ TWI_MR_DATA_NACK then (ERROR, d.1, r.2) else
  (SUCCESS, d.1, TWI_Stop r.2)

/-- The function `EEPROM_ReadByte`; the call and the value it returns are
entered in the trace of the node. -/
def EEPROM_ReadByte (EEPROM_Byte_Address old : Nat) (s : State) : Nat × Nat × State :=
  let r := EEPROM_ReadByte.body EEPROM_Byte_Address old s.bus
  (r.1, r.2.1, { s with bus := r.2.2,
                        trace := s.trace ++ [Ev.eepromRead EEPROM_Byte_Address r.1] })

/-! ## `Control_ECU.c` -/

/-- The function `Timer1_CallBack`: `G_Timer1_Count++` on a `uint8`. -/
def Timer1_CallBack (s : State) : State :=
  { s with G_Timer1_Count := (s.G_Timer1_Count + 1) % 256, trace := s.trace ++ [Ev.tick] }

/-- The receiving loop of `ReceivePassword`: iterations still to run, index `i`. -/
def ReceivePassword.loop : Nat → Nat → Buf → State → Option (Buf × State)
  | 0, _, pass, s => some (pass, s)
  | k + 1, i, pass, s =>
    match UART_ReceiveByte s with
    | none => none
    | some (b, s1) => ReceivePassword.loop k (i + 1) (pass.store i b) s1

/-- The function `ReceivePassword(uint8 *pass)`: the buffer at the call goes
in, the buffer at the return comes out. -/
def ReceivePassword (pass : Buf) (s : State) : Option (Buf × State) :=
  match awaitByte HMI_READY s with
  | none => none
  | some s1 =>
    match ReceivePassword.loop PASSWORD_SIZE 0 pass (UART_SendByte CONTROL_READY s1) with
    | none => none
    | some (pass1, s2) => some (pass1, UART_SendByte PASS_RECEIVED s2)

/-- The reading loop of `CheckPassword`: iterations still to run, index `i`. -/
def CheckPassword.readLoop : Nat → Nat → Buf → State → Buf × State
  | 0, _, Pass2_Receive, s => (Pass2_Receive, s)
  | k + 1, i, Pass2_Receive, s =>
    let r := EEPROM_ReadByte (0x0000 + i) (Pass2_Receive i) s
    CheckPassword.readLoop k (i + 1) (Pass2_Receive.store i r.2.1) (_delay_ms 10 r.2.2)

/-- The comparing loop of `CheckPassword`: iterations still to run, index `i`. -/
def CheckPassword.compareLoop (Pass1_Receive Pass2_Receive : Buf) : Nat → Nat → Nat
  | 0, _ => PASSWORDS_MATCHED
  | k + 1, i =>
    if Pass1_Receive i ≠ Pass2_Receive i then PASSWORDS_UNMATCHED
    else CheckPassword.compareLoop Pass1_Receive Pass2_Receive k (i + 1)

/-- The function `CheckPassword(uint8 *Pass1_Receive, uint8 *Pass2_Receive)`:
the value returned, the second buffer at the return, and the state. -/
def CheckPassword (Pass1_Receive Pass2_Receive : Buf) (s : State) : Nat × Buf × State :=
  let r := CheckPassword.readLoop PASSWORD_SIZE 0 Pass2_Receive s
  (CheckPassword.compareLoop Pass1_Receive r.1 PASSWORD_SIZE 0, r.1, r.2)

/-- The loop of `ComparePasswords`: the first argument counts the iterations
still to run (`PASSWORD_SIZE - i`), the second is the index `i`. -/
def ComparePasswords.loop (Pass1_Receive Pass2_Receive : Buf) : Nat → Nat → Nat
  | 0, _ => PASSWORDS_MATCHED
  | k + 1, i =>
    if Pass1_Receive i ≠ Pass2_Receive i then PASSWORDS_UNMATCHED
    else ComparePasswords.loop Pass1_Receive Pass2_Receive k (i + 1)

/-- The function `ComparePasswords(uint8 *Pass1_Receive, uint8 *Pass2_Receive)`. -/
def ComparePasswords (Pass1_Receive Pass2_Receive : Buf) : Nat :=
  ComparePasswords.loop Pass1_Receive Pass2_Receive PASSWORD_SIZE 0

/-- The loop of `SavePassword`: iterations still to run, index `i`. -/
def SavePassword.loop (Pass_Receive : Buf) : Nat → Nat → State → State
  | 0, _, s => s
  | k + 1, i, s =>
    let r := EEPROM_WriteByte (0x0000 + i) (Pass_Receive i) s
    SavePassword.loop Pass_Receive k (i + 1) (_delay_ms 10 r.2)

/-- The function `SavePassword(uint8 *Pass_Receive)`. -/
def SavePassword (Pass_Receive : Buf) (s : State) : State :=
  SavePassword.loop Pass_Receive PASSWORD_SIZE 0 s

/-- Modelled from the spec: `TIMER1.c` is not among the sources; the timer's
`start(periodTicks)` makes the tick source run. -/
def Timer1_NonPWm_Mode_Init (s : State) : State :=
  { s with timer1 := true, trace := s.trace ++ [Ev.timer1Init] }

/-- Modelled from the spec: `TIMER1.c` is not among the sources; the timer's
`onTick(callback)` registers the callback run at every tick. -/
def Timer1_SetCallBack (s : State) : State :=
  { s with callBack := true, trace := s.trace ++ [Ev.timer1SetCallBack] }

/-- Modelled from the spec: `TIMER1.c` is not among the sources; the timer's
`stop()` stops the tick source. -/
def Timer1_DeInit (s : State) : State :=
  { s with timer1 := false, trace := s.trace ++ [Ev.timer1DeInit] }

/-- Modelled from the spec: `TIMER0.c` is not among the sources; the call
`Timer0_PWM_Mode_Init(&Timer0_Config)` is recorded in the trace. -/
def Timer0_PWM_Mode_Init (s : State) : State := s.log Ev.timer0Init

/-- Modelled from the spec: `TIMER0.c` is not among the sources; the call
`Timer0_DeInit()` is recorded in the trace. -/
def Timer0_DeInit (s : State) : State := s.log Ev.timer0DeInit

/-- Modelled from the spec: `DC_Motor.c` is not among the sources; the call
`DcMotor_Rotate(state, speed)` is the actuator's `setMotor(direction,
speedPercent)`, recorded in the trace. -/
def DcMotor_Rotate (state : DcMotor_State) (speed : Nat) (s : State) : State :=
  s.log (Ev.motor state speed)

/-- The function `Buzzer_ON`: it drives the buzzer pin high through
`GPIO_WritePin`, which is not among the sources; the call is recorded in the
trace as the alarm being switched on. -/
def Buzzer_ON (s : State) : State := s.log (Ev.buzzer true)

/-- The function `Buzzer_OFF`: it drives the buzzer pin low through
`GPIO_WritePin`, which is not among the sources; the call is recorded in the
trace as the alarm being switched off. -/
def Buzzer_OFF (s : State) : State := s.log (Ev.buzzer false)

/-- The wait loop `while (G_Timer1_Count < n);` with ticks arriving one at a
time: iterations still allowed, then the state. -/
def waitTicks.loop (n : Nat) : Nat → State → State
  | 0, s => s
  | k + 1, s => if s.G_Timer1_Count < n then waitTicks.loop n k (Timer1_CallBack s) else s

/-- The wait loop `while (G_Timer1_Count < n);` as it runs when every test of
the loop reads the counter anew and so sees each increment of
`Timer1_CallBack`. Only the timer interrupt changes the counter, so the loop
never ends unless the count is reached already or Timer1 runs with the
callback registered; then at most `n` ticks are needed. The counter is not
declared `volatile`, so the source does not promise this reading of the loop:
`waitTicks.readOnce` is the other one, and every return of a wait in this
model is a return under this reading only. -/
def waitTicks (n : Nat) (s : State) : Option State :=
  if n ≤ s.G_Timer1_Count then some s
  else if s.timer1 && s.callBack then some (waitTicks.loop n n s)
  else none

/-- The `case RECEIVE_FIRST_PASSWORD:` of `main`. -/
def case_RECEIVE_FIRST_PASSWORD (s : State) : Option State :=
  match ReceivePassword s.G_Pass1 s with
  | none => none
  | some (p, s1) =>
    some { s1 with G_Pass1 := p, Control_ECU_Sequence := (s1.Control_ECU_Sequence + 1) % 256 }

/-- The `case RECEIVE_AND_CHECK_CONFIRMED_PASSWORD:` of `main`. -/
def case_RECEIVE_AND_CHECK_CONFIRMED_PASSWORD (s : State) : Option State :=
  match ReceivePassword s.G_Pass2 s with
  | none => none
  | some (p, s1) =>
    let s2 := { s1 with G_Pass2 := p }
    let Check := ComparePasswords s2.G_Pass1 s2.G_Pass2
    match awaitByte HMI_READY (UART_SendByte CONTROL_READY s2) with
    | none => none
    | some s3 =>
      if Check = PASSWORDS_MATCHED then
        let s4 := SavePassword s3.G_Pass1 (UART_SendByte PASSWORDS_MATCHED s3)
        some { s4 with Control_ECU_Sequence := (s4.Control_ECU_Sequence + 1) % 256 }
      else
        some { UART_SendByte PASSWORDS_UNMATCHED s3 with
               Control_ECU_Sequence := RECEIVE_FIRST_PASSWORD }

/-- The lines of `case RECEIVING_MAIN_OPTION:` from `ReceivePassword(G_Pass1)`
to the end of the `if (Pass_Check == PASSWORDS_MATCHED)` statement; they are
written twice in the source, once per branch of `if (Result == '+')`, and
differ only in the state chosen on a match (`onMatch`). -/
def mainOptionBranch (onMatch : Nat) (s : State) : Option State :=
  match ReceivePassword s.G_Pass1 s with
  | none => none
  | some (p, s1) =>
    let s2 := { s1 with G_Pass1 := p }
    let r := CheckPassword s2.G_Pass1 s2.G_Pass2 s2
    let Pass_Check := r.1
    let s3 := { r.2.2 with G_Pass2 := r.2.1 }
    match awaitByte HMI_READY (UART_SendByte CONTROL_READY s3) with
    | none => none
    | some s4 =>
      if Pass_Check = PASSWORDS_MATCHED then
        some { UART_SendByte PASSWORDS_MATCHED s4 with Control_ECU_Sequence := onMatch }
      else
        let s5 := UART_SendByte PASSWORDS_UNMATCHED s4
        some { s5 with i := (s5.i + 1) % 256, Control_ECU_Sequence := RECEIVING_MAIN_OPTION }

/-- The `case RECEIVING_MAIN_OPTION:` of `main`. -/
def case_RECEIVING_MAIN_OPTION (s : State) : Option State :=
  match awaitByte HMI_READY s with
  | none => none
  | some s1 =>
    match UART_ReceiveByte (UART_SendByte CONTROL_READY s1) with
    | none => none
    | some (Result, s2) =>
      match (if Result = 43 then mainOptionBranch OPEN_THE_DOOR s2
             else mainOptionBranch RECEIVE_FIRST_PASSWORD s2) with
      | none => none
      | some s3 =>
        if s3.i = 3 then some { s3 with Control_ECU_Sequence := PASSWORD_ERROR, i := 0 }
        else some s3

/-- The `case OPEN_THE_DOOR:` of `main`. -/
def case_OPEN_THE_DOOR (s : State) : Option State :=
  match awaitByte HMI_READY s with
  | none => none
  | some s1 =>
    match awaitByte OPEN_THE_DOOR (UART_SendByte CONTROL_READY s1) with
    | none => none
    | some s2 =>
      let s3 := Timer1_SetCallBack (Timer1_NonPWm_Mode_Init (Timer0_PWM_Mode_Init s2))
      match waitTicks 5 (DcMotor_Rotate DcMotor_State.CW 100 s3) with
      | none => none
      | some s4 =>
        match waitTicks 1 (DcMotor_Rotate DcMotor_State.STOP 0 { s4 with G_Timer1_Count := 0 }) with
        | none => none
        | some s5 =>
          match waitTicks 5 (DcMotor_Rotate DcMotor_State.A_CW 100 { s5 with G_Timer1_Count := 0 }) with
          | none => none
          | some s6 =>
            let s7 := DcMotor_Rotate DcMotor_State.STOP 0 s6
            let s8 := Timer0_DeInit (Timer1_DeInit { s7 with G_Timer1_Count := 0 })
            some { s8 with Control_ECU_Sequence := RECEIVING_MAIN_OPTION }

/-- The `case PASSWORD_ERROR:` of `main`. -/
def case_PASSWORD_ERROR (s : State) : Option State :=
  match awaitByte HMI_READY (UART_SendByte CONTROL_READY s) with
  | none => none
  | some s1 =>
    let s2 := Timer1_SetCallBack (Timer1_NonPWm_Mode_Init (UART_SendByte DISPLAY_ERROR s1))
    match waitTicks 20 (Buzzer_ON s2) with
    | none => none
    | some s3 =>
      let s4 := Timer1_DeInit { Buzzer_OFF s3 with G_Timer1_Count := 0 }
      some { s4 with Control_ECU_Sequence := RECEIVING_MAIN_OPTION }

/-- One pass through the body of `while (1)` in `main`: the `switch` on
`Control_ECU_Sequence`, which has no `default:`. -/
def step (s : State) : Option State :=
  if s.Control_ECU_Sequence = RECEIVE_FIRST_PASSWORD then case_RECEIVE_FIRST_PASSWORD s
  else if s.Control_ECU_Sequence = RECEIVE_AND_CHECK_CONFIRMED_PASSWORD then
    case_RECEIVE_AND_CHECK_CONFIRMED_PASSWORD s
  else if s.Control_ECU_Sequence = RECEIVING_MAIN_OPTION then case_RECEIVING_MAIN_OPTION s
  else if s.Control_ECU_Sequence = OPEN_THE_DOOR then case_OPEN_THE_DOOR s
  else if s.Control_ECU_Sequence = PASSWORD_ERROR then case_PASSWORD_ERROR s
  else some s

/-- The first `n` passes through the body of `while (1)`. -/
def run : Nat → State → Option State
  | 0, s => some s
  | n + 1, s =>
    match step s with
    | none => none
    | some s1 => run n s1

/-- The bus before its first use, with the given status values to come and
the given cell contents. -/
def Bus.init (twsr : List Nat) (eeprom : Nat → Nat) : Bus :=
  { twsr := twsr, eeprom := eeprom, frame := [], ptr := 0, pending := none, ops := [] }

/-- The node when `main` enters `while (1)`: globals as initialised, `i = 0`,
`CONTROL_READY` sent, in the given surroundings. -/
def boot (rx twsr : List Nat) (eeprom : Nat → Nat) : State :=
  UART_SendByte CONTROL_READY
    { Control_ECU_Sequence := 0, G_Pass1 := fun _ => 0, G_Pass2 := fun _ => 0,
      G_Timer1_Count := 0, i := 0, rx := rx, bus := Bus.init twsr eeprom,
      timer1 := false, callBack := false, trace := [] }

/-- A list of events that holds neither a byte sent nor a storage call. -/
def Quiet (ev : List Ev) : Prop :=
  sentOf ev = [] ∧ writesOf ev = [] ∧ writeResultsOf ev = [] ∧ readResultsOf ev = []

/-- The state in which the case `RECEIVE_AND_CHECK_CONFIRMED_PASSWORD` sends
its verdict, on an input that starts with `HMI_READY`, five bytes and
`HMI_READY`. -/
def confirmReceived (s : State) (q0 q1 q2 q3 q4 : Nat) (rest : List Nat) : State :=
  { s with
    rx := rest,
    trace := s.trace ++ [Ev.recv HMI_READY, Ev.send CONTROL_READY, Ev.recv q0,
      Ev.recv q1, Ev.recv q2, Ev.recv q3, Ev.recv q4, Ev.send PASS_RECEIVED,
      Ev.send CONTROL_READY, Ev.recv HMI_READY],
    G_Pass2 := ((((s.G_Pass2.store 0 q0).store 1 q1).store 2 q2).store 3 q3).store 4 q4 }

/-! ## Sample surroundings, used to run the node on concrete inputs -/

/-- The status values of one byte write that succeeds. -/
def goodWrite : List Nat := [0x08, 0x18, 0x28, 0x28]

/-- The status values of one byte read that succeeds. -/
def goodRead : List Nat := [0x08, 0x18, 0x28, 0x10, 0x40, 0x58]

/-- The status values of five byte reads that succeed. -/
def goodCheck : List Nat := goodRead ++ goodRead ++ goodRead ++ goodRead ++ goodRead

/-- The status values of five byte writes that succeed. -/
def goodSave : List Nat := goodWrite ++ goodWrite ++ goodWrite ++ goodWrite ++ goodWrite

/-- The status values of five good byte writes followed by five good byte reads. -/
def goodSaveThenCheck : List Nat := goodSave ++ goodCheck

/-- The bytes the HMI sends while a password is entered and then confirmed:
`HMI_READY`, the entry, `HMI_READY`, the confirmation, and the `HMI_READY` of
the verdict handshake. -/
def enrollInput (P Q : List Nat) : List Nat :=
  HMI_READY :: (P ++ HMI_READY :: (Q ++ [HMI_READY]))

/-- The bytes the HMI sends in one pass through its main options: `HMI_READY`,
the command byte, `HMI_READY`, the entry, and the `HMI_READY` of the verdict
handshake. -/
def optionInput (cmd : Nat) (E : List Nat) : List Nat :=
  HMI_READY :: cmd :: HMI_READY :: (E ++ [HMI_READY])

/-- The node after the password 1,2,3,4,5 has been entered, confirmed and
saved on a bus that works (the state of boot should the run block). -/
def enrolled (rest twsr : List Nat) : State :=
  (run 2 (boot (enrollInput [1, 2, 3, 4, 5] [1, 2, 3, 4, 5] ++ rest) (goodSave ++ twsr)
    (fun _ => 255))).getD (boot [] [] (fun _ => 255))

/-- The state in which `case RECEIVING_MAIN_OPTION:` calls `CheckPassword`, on
an input that starts with `HMI_READY`, a command byte, `HMI_READY` and five
bytes; `rest` is the input still unread then. -/
def optionReceived (s : State) (cmd e0 e1 e2 e3 e4 : Nat) (rest : List Nat) : State :=
  { s with
    rx := rest,
    G_Pass1 := ((((s.G_Pass1.store 0 e0).store 1 e1).store 2 e2).store 3 e3).store 4 e4,
    trace := s.trace ++ [Ev.recv HMI_READY, Ev.send CONTROL_READY, Ev.recv cmd,
      Ev.recv HMI_READY, Ev.send CONTROL_READY, Ev.recv e0, Ev.recv e1, Ev.recv e2, Ev.recv e3,
      Ev.recv e4, Ev.send PASS_RECEIVED] }

/-- The state at the end of a pass in `RECEIVING_MAIN_OPTION`, from the
counter `i0` at its start, the command byte, the result `c` of the call of
`CheckPassword` and the input `rest` left after the `HMI_READY` of the verdict
handshake. -/
def optionOutcome (i0 cmd : Nat) (c : Nat × Buf × State) (rest : List Nat) : State :=
  if c.1 = PASSWORDS_MATCHED then
    { c.2.2 with
      G_Pass2 := c.2.1, rx := rest,
      trace := c.2.2.trace ++ [Ev.send CONTROL_READY, Ev.recv HMI_READY,
        Ev.send PASSWORDS_MATCHED],
      i := if i0 = 3 then 0 else i0,
      Control_ECU_Sequence :=
        if i0 = 3 then PASSWORD_ERROR
        else if cmd = 43 then OPEN_THE_DOOR else RECEIVE_FIRST_PASSWORD }
  else
    { c.2.2 with
      G_Pass2 := c.2.1, rx := rest,
      trace := c.2.2.trace ++ [Ev.send CONTROL_READY, Ev.recv HMI_READY,
        Ev.send PASSWORDS_UNMATCHED],
      i := if (i0 + 1) % 256 = 3 then 0 else (i0 + 1) % 256,
      Control_ECU_Sequence :=
        if (i0 + 1) % 256 = 3 then PASSWORD_ERROR else RECEIVING_MAIN_OPTION }

/-- Three passes through the main options with the entry 1,2,3,4,0 and the
commands `'+'` (43), `'-'` (45), `'+'`. -/
def threeWrong : List Nat :=
  optionInput 43 [1, 2, 3, 4, 0] ++ optionInput 45 [1, 2, 3, 4, 0] ++ optionInput 43 [1, 2, 3, 4, 0]

/-- The bytes Control receives when, after enrollment, two wrong entries are
followed by the right one with the command `'+'`, the door cycle (`HMI_READY`
and the open command 0x03) and one more wrong entry. -/
def wrongWrongRightWrong : List Nat :=
  optionInput 43 [1, 2, 3, 4, 0] ++ optionInput 45 [1, 2, 3, 4, 0] ++
    optionInput 43 [1, 2, 3, 4, 5] ++ [HMI_READY, OPEN_THE_DOOR] ++ optionInput 43 [0, 0, 0, 0, 0]

/-- The Control node before a pass in `RECEIVE_AND_CHECK_CONFIRMED_PASSWORD`
that receives the entry 0,0,0,0,0, equal to the first entry it holds, on a bus
where every write succeeds. -/
def confirmSample : State :=
  { boot [HMI_READY, 0, 0, 0, 0, 0, HMI_READY] goodSave (fun _ => 0) with
    Control_ECU_Sequence := RECEIVE_AND_CHECK_CONFIRMED_PASSWORD }

/-- The Control node before a pass in `RECEIVING_MAIN_OPTION` that receives
the command `'+'` and the entry 0,0,0,0,0, on a bus where every read
succeeds. -/
def optionSample : State :=
  { boot [HMI_READY, 43, HMI_READY, 0, 0, 0, 0, 0, HMI_READY] goodCheck (fun _ => 0) with
    Control_ECU_Sequence := RECEIVING_MAIN_OPTION }

/-- The Control node before a pass in `PASSWORD_ERROR` during which the HMI
node answers. -/
def errorSample : State :=
  { boot [HMI_READY] [] (fun _ => 0) with Control_ECU_Sequence := PASSWORD_ERROR }

/-! ## Predicates used to state properties of runs -/

/-- In pass `m` (counted from 0) of the run from `s0` a password was fully
confirmed: the pass started in `RECEIVE_AND_CHECK_CONFIRMED_PASSWORD` and
ended in `RECEIVING_MAIN_OPTION`, and `P` lists the five bytes that the entry
buffer and the confirmation buffer both hold at its end. -/
def ConfirmedAt (s0 : State) (m : Nat) (P : List Nat) : Prop :=
  ∃ a t, run m s0 = some a ∧
    a.Control_ECU_Sequence = RECEIVE_AND_CHECK_CONFIRMED_PASSWORD ∧
    step a = some t ∧ t.Control_ECU_Sequence = RECEIVING_MAIN_OPTION ∧
    Buf.first5 t.G_Pass1 = P ∧ Buf.first5 t.G_Pass2 = P

/-- The last byte the node has sent. -/
def lastSent (s : State) : Option Nat := (sentOf s.trace).getLast?

/-- The Control node at the top of its loop in `OPEN_THE_DOOR`: from boot, the
password 1,2,3,4,5 has been entered, confirmed and saved, then entered again
with the command `'+'`; `HMI_READY` and the open command are still to arrive
(the state of boot should the run block). -/
def doorSample : State :=
  (run 3 (boot (enrollInput [1, 2, 3, 4, 5] [1, 2, 3, 4, 5] ++ optionInput 43 [1, 2, 3, 4, 5] ++
    [HMI_READY, OPEN_THE_DOOR]) (goodSave ++ goodCheck) (fun _ => 255))).getD
    (boot [] [] (fun _ => 255))

/-- The Control node at the top of its loop in `PASSWORD_ERROR`: from boot, the
password 1,2,3,4,5 has been entered, confirmed and saved, then three wrong
entries have been made; `HMI_READY` is still to arrive (the state of boot
should the run block). -/
def lockoutSample : State :=
  (run 5 (boot (enrollInput [1, 2, 3, 4, 5] [1, 2, 3, 4, 5] ++ threeWrong ++ [HMI_READY])
    (goodSave ++ goodCheck ++ goodCheck ++ goodCheck) (fun _ => 255))).getD
    (boot [] [] (fun _ => 255))

/-- The Control node at the top of its loop in
`RECEIVE_AND_CHECK_CONFIRMED_PASSWORD`: from boot, the first entry 1,2,3,4,5
has been received; the confirmation 1,2,3,4,5 and the `HMI_READY` of the
verdict exchange are still to arrive (the state of boot should the run
block). -/
def firstEntered : State :=
  (run 1 (boot (enrollInput [1, 2, 3, 4, 5] [1, 2, 3, 4, 5]) [] (fun _ => 255))).getD
    (boot [] [] (fun _ => 255))

/-- The Control node, from boot, after the password 1,2,3,4,5 has been
entered, confirmed and saved and the entry 1,2,3,4,0 has been made with the
command `'+'`, on a bus that works: three passes; `none` should the run
block. -/
def oneWrong : Option State :=
  run 3 (boot (enrollInput [1, 2, 3, 4, 5] [1, 2, 3, 4, 5] ++ optionInput 43 [1, 2, 3, 4, 0])
    (goodSave ++ goodCheck) (fun _ => 255))

/-- The value `TWI_GetStatus` returns at its call number `k` (from 0) on the
bus `b`: `TWSR & 0xF8` for the value the register shows at that read. -/
def statusAt (b : Bus) (k : Nat) : Nat := b.twsr.getD k 0xF8 &&& 0xF8

/-! ## The wait loops when the counter is read once -/

/-- The wait loop `while (G_Timer1_Count < n);` as it runs when its test uses a
value of the counter read once on entry. `G_Timer1_Count` is a plain `uint8`,
not declared `volatile`, and the body of the loop is empty: nothing the loop
does changes the counter, so a compiler may keep it in a register. The loop
then returns at once when the count is reached on entry and never otherwise,
whatever Timer1 and `Timer1_CallBack` do. -/
def waitTicks.readOnce (n : Nat) (s : State) : Option State :=
  if n ≤ s.G_Timer1_Count then some s else none

/-- The `case OPEN_THE_DOOR:` of `main`, with the way its three wait loops run
given as `wait`. -/
def case_OPEN_THE_DOOR.via (wait : Nat → State → Option State) (s : State) : Option State :=
  match awaitByte HMI_READY s with
  | none => none
  | some s1 =>
    match awaitByte OPEN_THE_DOOR (UART_SendByte CONTROL_READY s1) with
    | none => none
    | some s2 =>
      let s3 := Timer1_SetCallBack (Timer1_NonPWm_Mode_Init (Timer0_PWM_Mode_Init s2))
      match wait 5 (DcMotor_Rotate DcMotor_State.CW 100 s3) with
      | none => none
      | some s4 =>
        match wait 1 (DcMotor_Rotate DcMotor_State.STOP 0 { s4 with G_Timer1_Count := 0 }) with
        | none => none
        | some s5 =>
          match wait 5 (DcMotor_Rotate DcMotor_State.A_CW 100 { s5 with G_Timer1_Count := 0 }) with
          | none => none
          | some s6 =>
            let s7 := DcMotor_Rotate DcMotor_State.STOP 0 s6
            let s8 := Timer0_DeInit (Timer1_DeInit { s7 with G_Timer1_Count := 0 })
            some { s8 with Control_ECU_Sequence := RECEIVING_MAIN_OPTION }

/-- The `case PASSWORD_ERROR:` of `main`, with the way its wait loop runs given
as `wait`. -/
def case_PASSWORD_ERROR.via (wait : Nat → State → Option State) (s : State) : Option State :=
  match awaitByte HMI_READY (UART_SendByte CONTROL_READY s) with
  | none => none
  | some s1 =>
    let s2 := Timer1_SetCallBack (Timer1_NonPWm_Mode_Init (UART_SendByte DISPLAY_ERROR s1))
    match wait 20 (Buzzer_ON s2) with
    | none => none
    | some s3 =>
      let s4 := Timer1_DeInit { Buzzer_OFF s3 with G_Timer1_Count := 0 }
      some { s4 with Control_ECU_Sequence := RECEIVING_MAIN_OPTION }

/-- The state in which the pass of `doorSample` enters its first wait loop,
`while (G_Timer1_Count < 5);`: the exchange is done, the open command is
received, both timers are started and the motor is set to CW at 100. -/
def doorWait : State :=
  DcMotor_Rotate DcMotor_State.CW 100
    (Timer1_SetCallBack (Timer1_NonPWm_Mode_Init (Timer0_PWM_Mode_Init
      { doorSample with
        rx := [],
        trace := doorSample.trace ++
          [Ev.recv HMI_READY, Ev.send CONTROL_READY, Ev.recv OPEN_THE_DOOR] })))

/-- The state in which the pass of `lockoutSample` enters its wait loop,
`while (G_Timer1_Count < 20);`: the exchange is done, `DISPLAY_ERROR` is sent,
Timer1 is started and the buzzer is on. -/
def lockoutWait : State :=
  Buzzer_ON (Timer1_SetCallBack (Timer1_NonPWm_Mode_Init
    { lockoutSample with
      rx := [],
      trace := lockoutSample.trace ++
        [Ev.send CONTROL_READY, Ev.recv HMI_READY, Ev.send DISPLAY_ERROR] }))

end Control

namespace HMI

/-! ## Macros of `HMI_ECU.c` -/

abbrev HMI_READY : Nat := 0x10
abbrev CONTROL_READY : Nat := 0x20
abbrev PASSWORD_SIZE : Nat := 5
abbrev PASSWORDS_UNMATCHED : Nat := 0x30
abbrev PASSWORDS_MATCHED : Nat := 0x40
abbrev PASS_RECEIVED : Nat := 0x06
abbrev DISPLAY_ERROR : Nat := 0x0C
abbrev OPEN_THE_DOOR : Nat := 0x03
abbrev CHANGE_PASSWORD : Nat := 0x04

abbrev ENTER_PASSWORD : Nat := 0x00
abbrev CONFIRM_PASSWORD : Nat := 0x01
abbrev MAIN_OPTIONS_DISPLAY : Nat := 0x02
abbrev MAIN_OPTION_SELECTION : Nat := 0x03
abbrev OPENING_DOOR : Nat := 0x04
abbrev PASSWORD_ERROR : Nat := 0x05

/-- The character `'+'`. -/
abbrev PLUS : Nat := 43

/-- The character `'-'`. -/
abbrev MINUS : Nat := 45

/-- The character `'='`. -/
abbrev EQUALS : Nat := 61

/-- The character `'*'`. -/
abbrev STAR : Nat := 42

/-! ## The HMI node and its surroundings -/

/-- The variables of `HMI_ECU.c` (the globals and the failure counter `i` of
`main`, which the source does not initialise), the surroundings of the node,
and the trace of what it has done. The list `rx` holds the bytes that will
arrive on the UART, in order; `keys` holds the values the successive calls of
`KEYPAD_GetPressedKey` will return; `timer1` tells whether Timer1 is running
and `callBack` whether `Timer1_CallBack` is registered with it. -/
structure State where
  HMI_ECU_Sequence : Nat
  Key_Pressed : Nat
  G_Timer1_Count : Nat
  Counter : Nat
  PassArr1_Send : Buf
  PassArr2_Send : Buf
  i : Nat
  rx : List Nat
  keys : List Nat
  timer1 : Bool
  callBack : Bool
  trace : List Ev

/-- Append one event to the trace. -/
def State.log (s : State) (e : Ev) : State := { s with trace := s.trace ++ [e] }

/-- Modelled from the spec: `UART.c` is not among the sources; `UART_SendByte`
is the serial link's `sendByte(b)`, which transmits one byte and always
returns. -/
def UART_SendByte (b : Nat) (s : State) : State := s.log (Ev.send b)

/-- Modelled from the spec: `UART.c` is not among the sources;
`UART_ReceiveByte` is the serial link's blocking `recvByte()`: it returns the
next byte to arrive and never returns when no byte arrives any more. -/
def UART_ReceiveByte (s : State) : Option (Nat × State) :=
  match s.rx with
  | [] => none
  | b :: r => some (b, { s with rx := r, trace := s.trace ++ [Ev.recv b] })

/-- The wait loop `while (UART_ReceiveByte() != X);`: iterations still
allowed (the number of bytes still to arrive is enough), then the state. -/
def awaitByte.loop (X : Nat) : Nat → State → Option State
  | 0, _ => none
  | k + 1, s =>
    match UART_ReceiveByte s with
    | none => none
    | some (b, s1) => if b ≠ X then awaitByte.loop X k s1 else some s1

/-- The wait loop `while (UART_ReceiveByte() != X);`. -/
def awaitByte (X : Nat) (s : State) : Option State :=
  awaitByte.loop X s.rx.length s

/-- The call `_delay_ms(ms)`. -/
def _delay_ms (ms : Nat) (s : State) : State := s.log (Ev.delay ms)

/-- Modelled from the spec: `LCD.c` is not among the sources; the display's
`clear()`. -/
def LCD_ClearString (s : State) : State := s.log Ev.lcdClear

/-- Modelled from the spec: `LCD.c` is not among the sources; the display's
`showText(text)`. -/
def LCD_DisplayString (text : String) (s : State) : State := s.log (Ev.lcdString text)

/-- Modelled from the spec: `LCD.c` is not among the sources; the display's
`moveCursor(row, col)`. -/
def LCD_MoveCursor (row col : Nat) (s : State) : State := s.log (Ev.lcdMove row col)

/-- Modelled from the spec: `LCD.c` is not among the sources; the display's
`showChar(ch)`. -/
def LCD_DisplayCharacter (c : Nat) (s : State) : State := s.log (Ev.lcdChar c)

/-- The function `KEYPAD_GetPressedKey` as `HMI_ECU.c` calls it: a blocking
call that returns the next key pressed and never returns when no key is
pressed any more; `keys` lists the values its successive calls return, which
are `uint8`. Its scan of the matrix in `KEYPAD.c` is embedded apart, as
`Keypad.KEYPAD_GetPressedKey`. -/
def KEYPAD_GetPressedKey (s : State) : Option (Nat × State) :=
  match s.keys with
  | [] => none
  | k :: r => some (k, { s with keys := r, trace := s.trace ++ [Ev.key k] })

/-- The function `Timer1_CallBack`: `G_Timer1_Count++` on a `uint8`. -/
def Timer1_CallBack (s : State) : State :=
  { s with G_Timer1_Count := (s.G_Timer1_Count + 1) % 256, trace := s.trace ++ [Ev.tick] }

/-- Modelled from the spec: `TIMER1.c` is not among the sources; the timer's
`start(periodTicks)` makes the tick source run. -/
def Timer1_NonPWm_Mode_Init (s : State) : State :=
  { s with timer1 := true, trace := s.trace ++ [Ev.timer1Init] }

/-- Modelled from the spec: `TIMER1.c` is not among the sources; the timer's
`onTick(callback)` registers the callback run at every tick. -/
def Timer1_SetCallBack (s : State) : State :=
  { s with callBack := true, trace := s.trace ++ [Ev.timer1SetCallBack] }

/-- Modelled from the spec: `TIMER1.c` is not among the sources; the timer's
`stop()` stops the tick source. -/
def Timer1_DeInit (s : State) : State :=
  { s with timer1 := false, trace := s.trace ++ [Ev.timer1DeInit] }

/-- The wait loop `while (G_Timer1_Count < n);` with ticks arriving one at a
time: iterations still allowed, then the state. -/
def waitTicks.loop (n : Nat) : Nat → State → State
  | 0, s => s
  | k + 1, s => if s.G_Timer1_Count < n then waitTicks.loop n k (Timer1_CallBack s) else s

/-- The wait loop `while (G_Timer1_Count < n);` as it runs when every test of
the loop reads the counter anew and so sees each increment of
`Timer1_CallBack`. Only the timer interrupt changes the counter, so the loop
never ends unless the count is reached already or Timer1 runs with the
callback registered; then at most `n` ticks are needed. The counter is not
declared `volatile`, so the source does not promise this reading of the loop:
`waitTicks.readOnce` is the other one, and every return of a wait in this
model is a return under this reading only. -/
def waitTicks (n : Nat) (s : State) : Option State :=
  if n ≤ s.G_Timer1_Count then some s
  else if s.timer1 && s.callBack then some (waitTicks.loop n n s)
  else none

/-- The sending loop of `SendPassword`: iterations still to run, index `i`. -/
def SendPassword.loop (pass_Ptr1 : Buf) : Nat → Nat → State → State
  | 0, _, s => s
  | k + 1, i, s => SendPassword.loop pass_Ptr1 k (i + 1) (UART_SendByte (pass_Ptr1 i) s)

/-- The function `SendPassword(uint8 *pass_Ptr1)`. -/
def SendPassword (pass_Ptr1 : Buf) (s : State) : Option State :=
  match awaitByte CONTROL_READY (UART_SendByte HMI_READY s) with
  | none => none
  | some s1 => awaitByte PASS_RECEIVED (SendPassword.loop pass_Ptr1 PASSWORD_SIZE 0 s1)

/-- The wait loop `while (Key_Pressed != '=') Key_Pressed = KEYPAD_GetPressedKey();`:
iterations still allowed (the number of keys still to come is enough). -/
def awaitEnter.loop : Nat → State → Option State
  | 0, s => if s.Key_Pressed ≠ EQUALS then none else some s
  | k + 1, s =>
    if s.Key_Pressed ≠ EQUALS then
      match KEYPAD_GetPressedKey s with
      | none => none
      | some (key, s1) => awaitEnter.loop k { s1 with Key_Pressed := key }
    else some s

/-- The wait loop `while (Key_Pressed != '=') Key_Pressed = KEYPAD_GetPressedKey();`. -/
def awaitEnter (s : State) : Option State := awaitEnter.loop s.keys.length s

/-- The capture loop `for (Counter = 0; Counter < PASSWORD_SIZE; Counter++)` of
`EnterPassword` (`first = true`, buffer `PassArr1_Send`) and of
`ConfirmPassword` (`first = false`, buffer `PassArr2_Send`), entered with
`Counter` already set: iterations still allowed (the number of keys still to
come is enough), then the state. `Counter` is a `uint8`: `Counter--` and
`Counter++` wrap modulo 256. -/
def capture.loop (first : Bool) : Nat → State → Option State
  | 0, s => if s.Counter < PASSWORD_SIZE then none else some s
  | k + 1, s =>
    if s.Counter < PASSWORD_SIZE then
      match KEYPAD_GetPressedKey s with
      | none => none
      | some (key, s1) =>
        let s2 := { s1 with Key_Pressed := key }
        let s3 :=
          if 0 ≤ key ∧ key ≤ 9 then
            let s4 := LCD_DisplayCharacter STAR s2
            if first then { s4 with PassArr1_Send := s4.PassArr1_Send.store s4.Counter key }
            else { s4 with PassArr2_Send := s4.PassArr2_Send.store s4.Counter key }
          else { s2 with Counter := (s2.Counter + 255) % 256 }
        capture.loop first k { s3 with Counter := (s3.Counter + 1) % 256 }
    else some s

/-- The capture loop with its initialisation `Counter = 0`. -/
def capture (first : Bool) (s : State) : Option State :=
  capture.loop first s.keys.length { s with Counter := 0 }

/-- The function `EnterPassword`. -/
def EnterPassword (s : State) : Option State :=
  let s1 := LCD_MoveCursor 1 0 (LCD_DisplayString "Plz Enter Pass: " (LCD_ClearString s))
  match capture true s1 with
  | none => none
  | some s2 =>
    match awaitEnter s2 with
    | none => none
    | some s3 => SendPassword s3.PassArr1_Send s3

/-- The function `ConfirmPassword`. -/
def ConfirmPassword (s : State) : Option State :=
  let s1 := LCD_MoveCursor 1 11 (LCD_DisplayString "Same Pass: "
    (LCD_MoveCursor 1 0 (LCD_DisplayString "Plz re-enter the" (LCD_ClearString s))))
  match capture false s1 with
  | none => none
  | some s2 =>
    match awaitEnter s2 with
    | none => none
    | some s3 => SendPassword s3.PassArr2_Send s3

/-- The wait loop of `MainOptions`,
`while ((Key_Pressed != '+') && (Key_Pressed != '-')) Key_Pressed = KEYPAD_GetPressedKey();`:
iterations still allowed (the number of keys still to come is enough). -/
def awaitOption.loop : Nat → State → Option State
  | 0, s => if s.Key_Pressed ≠ PLUS ∧ s.Key_Pressed ≠ MINUS then none else some s
  | k + 1, s =>
    if s.Key_Pressed ≠ PLUS ∧ s.Key_Pressed ≠ MINUS then
      match KEYPAD_GetPressedKey s with
      | none => none
      | some (key, s1) => awaitOption.loop k { s1 with Key_Pressed := key }
    else some s

/-- The function `MainOptions`. -/
def MainOptions (s : State) : Option State :=
  let s1 := LCD_DisplayString "- : Change Pass "
    (LCD_MoveCursor 1 0 (LCD_DisplayString "+ : Open Door " (LCD_ClearString s)))
  awaitOption.loop s1.keys.length s1

/-- The `case ENTER_PASSWORD:` of `main`. -/
def case_ENTER_PASSWORD (s : State) : Option State :=
  match EnterPassword s with
  | none => none
  | some s1 => some { s1 with HMI_ECU_Sequence := (s1.HMI_ECU_Sequence + 1) % 256 }

/-- The `case CONFIRM_PASSWORD:` of `main`. -/
def case_CONFIRM_PASSWORD (s : State) : Option State :=
  match ConfirmPassword s with
  | none => none
  | some s1 =>
    match awaitByte CONTROL_READY s1 with
    | none => none
    | some s2 =>
      match UART_ReceiveByte (UART_SendByte HMI_READY s2) with
      | none => none
      | some (v, s3) =>
        if v = PASSWORDS_MATCHED then
          let s4 := _delay_ms 2000 (LCD_DisplayString "Password Saved"
            (LCD_MoveCursor 1 0 (LCD_DisplayString "Done!" (LCD_ClearString s3))))
          some { s4 with HMI_ECU_Sequence := (s4.HMI_ECU_Sequence + 1) % 256 }
        else
          let s4 := _delay_ms 2000 (LCD_DisplayString "Not Matched"
            (LCD_MoveCursor 1 0 (LCD_DisplayString "ERROR! Passwords" (LCD_ClearString s3))))
          some { s4 with HMI_ECU_Sequence := ENTER_PASSWORD }

/-- The lines of `case MAIN_OPTIONS_DISPLAY:` from `EnterPassword()` to the end
of the `if (UART_ReceiveByte() == PASSWORDS_MATCHED)` statement; they are
written twice in the source, once per branch of `if (Key_Pressed == '+')`, and
differ only in the state chosen on a match (`onMatch`). -/
def mainOptionBranch (onMatch : Nat) (s : State) : Option State :=
  match EnterPassword s with
  | none => none
  | some s1 =>
    match awaitByte CONTROL_READY s1 with
    | none => none
    | some s2 =>
      match UART_ReceiveByte (UART_SendByte HMI_READY s2) with
      | none => none
      | some (v, s3) =>
        if v = PASSWORDS_MATCHED then
          let s4 := _delay_ms 2000 (LCD_DisplayString "Successful!" (LCD_ClearString s3))
          some { s4 with HMI_ECU_Sequence := onMatch }
        else
          let s4 := _delay_ms 2000 (LCD_DisplayString "Wrong Password"
            (LCD_MoveCursor 1 0 (LCD_DisplayString "ERROR!" (LCD_ClearString s3))))
          some { s4 with i := (s4.i + 1) % 256, HMI_ECU_Sequence := MAIN_OPTIONS_DISPLAY }

/-- The `case MAIN_OPTIONS_DISPLAY:` of `main`. -/
def case_MAIN_OPTIONS_DISPLAY (s : State) : Option State :=
  match MainOptions s with
  | none => none
  | some s1 =>
    match awaitByte CONTROL_READY (UART_SendByte HMI_READY s1) with
    | none => none
    | some s2 =>
      let s3 := UART_SendByte s2.Key_Pressed s2
      match (if s3.Key_Pressed = PLUS then mainOptionBranch OPENING_DOOR s3
             else mainOptionBranch ENTER_PASSWORD s3) with
      | none => none
      | some s4 =>
        if s4.i = 3 then some { s4 with HMI_ECU_Sequence := PASSWORD_ERROR, i := 0 }
        else some s4

/-- The `case OPENING_DOOR:` of `main`. -/
def case_OPENING_DOOR (s : State) : Option State :=
  match awaitByte CONTROL_READY (UART_SendByte HMI_READY s) with
  | none => none
  | some s1 =>
    let s2 := Timer1_SetCallBack (Timer1_NonPWm_Mode_Init (UART_SendByte OPEN_THE_DOOR s1))
    let s3 := LCD_DisplayString "Unlocking..."
      (LCD_MoveCursor 1 0 (LCD_DisplayString "Door is" (LCD_ClearString s2)))
    match waitTicks 6 s3 with
    | none => none
    | some s4 =>
      let s5 := LCD_DisplayString "Locking..."
        (LCD_MoveCursor 1 0 (LCD_DisplayString "Door is"
          (LCD_ClearString { s4 with G_Timer1_Count := 0 })))
      match waitTicks 5 s5 with
      | none => none
      | some s6 =>
        let s7 := Timer1_DeInit { s6 with G_Timer1_Count := 0 }
        some { s7 with HMI_ECU_Sequence := MAIN_OPTIONS_DISPLAY }

/-- The `case PASSWORD_ERROR:` of `main`. -/
def case_PASSWORD_ERROR (s : State) : Option State :=
  match awaitByte CONTROL_READY s with
  | none => none
  | some s1 =>
    match awaitByte DISPLAY_ERROR (UART_SendByte HMI_READY s1) with
    | none => none
    | some s2 =>
      let s3 := Timer1_SetCallBack (Timer1_NonPWm_Mode_Init s2)
      let s4 := LCD_DisplayString "Try Again Later"
        (LCD_MoveCursor 1 0 (LCD_DisplayString "ERROR Happened!" (LCD_ClearString s3)))
      match waitTicks 20 s4 with
      | none => none
      | some s5 =>
        let s6 := Timer1_DeInit { s5 with G_Timer1_Count := 0 }
        some { s6 with HMI_ECU_Sequence := MAIN_OPTIONS_DISPLAY }

/-- One pass through the body of `while (1)` in `main`: the `switch` on
`HMI_ECU_Sequence`. The `default:` branch shows its message and stays in
`while (1);` for ever, so the pass never returns. -/
def step (s : State) : Option State :=
  if s.HMI_ECU_Sequence = ENTER_PASSWORD then case_ENTER_PASSWORD s
  else if s.HMI_ECU_Sequence = CONFIRM_PASSWORD then case_CONFIRM_PASSWORD s
  else if s.HMI_ECU_Sequence = MAIN_OPTIONS_DISPLAY then case_MAIN_OPTIONS_DISPLAY s
  else if s.HMI_ECU_Sequence = OPENING_DOOR then case_OPENING_DOOR s
  else if s.HMI_ECU_Sequence = PASSWORD_ERROR then case_PASSWORD_ERROR s
  else none

/-- The first `n` passes through the body of `while (1)`. -/
def run : Nat → State → Option State
  | 0, s => some s
  | n + 1, s =>
    match step s with
    | none => none
    | some s1 => run n s1

/-- The node when `main` enters `while (1)`: globals as initialised, the
local `i` with whatever value `i0` it happens to hold, and `CONTROL_READY`
awaited; `none` when that byte never arrives. -/
def boot (i0 : Nat) (rx keys : List Nat) : Option State :=
  awaitByte CONTROL_READY
    { HMI_ECU_Sequence := 0, Key_Pressed := 0, G_Timer1_Count := 0, Counter := 0,
      PassArr1_Send := fun _ => 0, PassArr2_Send := fun _ => 0, i := i0 % 256, rx := rx,
      keys := keys, timer1 := false, callBack := false, trace := [] }

/-! ## Sample surroundings, used to run the node on concrete inputs -/

/-- The HMI node at rest in the state `seq`, with failure counter `i0`, the
bytes `rx` still to arrive and the keys `keys` still to be pressed. -/
def sample (seq i0 : Nat) (rx keys : List Nat) : State :=
  { HMI_ECU_Sequence := seq, Key_Pressed := 0, G_Timer1_Count := 0, Counter := 0,
    PassArr1_Send := fun _ => 0, PassArr2_Send := fun _ => 0, i := i0, rx := rx,
    keys := keys, timer1 := false, callBack := false, trace := [] }

/-- The HMI node before a pass in `MAIN_OPTIONS_DISPLAY` in which the user
presses `'+'`, then 1,2,3,4,5 and `'='`, and the Control node answers every
exchange, with the verdict `PASSWORDS_MATCHED`. -/
def optionsSample : State :=
  sample MAIN_OPTIONS_DISPLAY 0
    [CONTROL_READY, CONTROL_READY, PASS_RECEIVED, CONTROL_READY, PASSWORDS_MATCHED]
    [PLUS, 1, 2, 3, 4, 5, EQUALS]

/-- What the capture loop does with the keys `ks`, one after the other: each
key is read from the keypad, and a key of value 0..9 is followed by a `'*'` on
the display. -/
def keyEvents : List Nat → List Ev
  | [] => []
  | k :: r => (if k ≤ 9 then [Ev.key k, Ev.lcdChar STAR] else [Ev.key k]) ++ keyEvents r

/-- The bytes the Control node sends while a password is entered and then
confirmed, from boot on: `CONTROL_READY` at boot, then for each of the two
entries `CONTROL_READY` and `PASS_RECEIVED`, then `CONTROL_READY` and the
verdict `PASSWORDS_MATCHED`. -/
def enrollReplies : List Nat :=
  [CONTROL_READY, CONTROL_READY, PASS_RECEIVED, CONTROL_READY, PASS_RECEIVED, CONTROL_READY,
    PASSWORDS_MATCHED]

/-- The bytes the Control node sends in one pass through the main options:
`CONTROL_READY` for the command, `CONTROL_READY` and `PASS_RECEIVED` for the
entry, `CONTROL_READY` and the verdict. -/
def optionReplies (verdict : Nat) : List Nat :=
  [CONTROL_READY, CONTROL_READY, PASS_RECEIVED, CONTROL_READY, verdict]

/-- The keys of one password entry: five digits and `'='`. -/
def entryKeys (d0 d1 d2 d3 d4 : Nat) : List Nat := [d0, d1, d2, d3, d4, EQUALS]

/-- The HMI node when `main` enters `while (1)` with `i` holding 0, before the
password 1,2,3,4,5 is entered and confirmed and then entered again with the
command `'+'`; `rest` is what the Control node sends after that (a node that
has not started should the boot block). -/
def doorBoot (rest : List Nat) : State :=
  (boot 0 (enrollReplies ++ optionReplies PASSWORDS_MATCHED ++ rest)
    (entryKeys 1 2 3 4 5 ++ entryKeys 1 2 3 4 5 ++ PLUS :: entryKeys 1 2 3 4 5)).getD
    (sample 0 0 [] [])

/-- The HMI node at the top of its loop in `OPENING_DOOR`, three passes after
`doorBoot`, with `CONTROL_READY` still to arrive. -/
def doorSample : State := (run 3 (doorBoot [CONTROL_READY])).getD (sample 0 0 [] [])

/-- The HMI node when `main` enters `while (1)` with `i` holding 0, before the
password 1,2,3,4,5 is entered and confirmed and then three wrong entries are
made; `rest` is what the Control node sends after that. -/
def lockoutBoot (rest : List Nat) : State :=
  (boot 0 (enrollReplies ++ optionReplies PASSWORDS_UNMATCHED ++
      optionReplies PASSWORDS_UNMATCHED ++ optionReplies PASSWORDS_UNMATCHED ++ rest)
    (entryKeys 1 2 3 4 5 ++ entryKeys 1 2 3 4 5 ++ PLUS :: entryKeys 1 2 3 4 0 ++
      MINUS :: entryKeys 1 2 3 4 0 ++ PLUS :: entryKeys 1 2 3 4 0)).getD
    (sample 0 0 [] [])

/-- The HMI node at the top of its loop in `PASSWORD_ERROR`, five passes after
`lockoutBoot`, with `CONTROL_READY` and `DISPLAY_ERROR` still to arrive. -/
def lockoutSample : State :=
  (run 5 (lockoutBoot [CONTROL_READY, DISPLAY_ERROR])).getD (sample 0 0 [] [])

/-- The HMI node at the top of its loop in `MAIN_OPTIONS_DISPLAY`, two passes
after `doorBoot`: the password has been entered and confirmed, and the keys
`'+'`, 1, 2, 3, 4, 5, `'='` are still to be pressed. -/
def menuSample : State := (run 2 (doorBoot [])).getD (sample 0 0 [] [])

/-- The HMI node, from a boot at which the local `i` of `main` holds `i0`,
after the password 1,2,3,4,5 has been entered and confirmed and the entry
1,2,3,4,0 has been made with the command `'+'` and refused: three passes;
`none` should the boot or the run block. -/
def oneWrongFrom (i0 : Nat) : Option State :=
  (boot i0 (enrollReplies ++ optionReplies PASSWORDS_UNMATCHED)
    (entryKeys 1 2 3 4 5 ++ entryKeys 1 2 3 4 5 ++ PLUS :: entryKeys 1 2 3 4 0)).bind (run 3)

/-! ## The wait loops when the counter is read once -/

/-- The wait loop `while (G_Timer1_Count < n);` as it runs when its test uses a
value of the counter read once on entry. `G_Timer1_Count` is a plain `uint8`,
not declared `volatile`, and the body of the loop is empty: nothing the loop
does changes the counter, so a compiler may keep it in a register. The loop
then returns at once when the count is reached on entry and never otherwise,
whatever Timer1 and `Timer1_CallBack` do. -/
def waitTicks.readOnce (n : Nat) (s : State) : Option State :=
  if n ≤ s.G_Timer1_Count then some s else none

/-- The `case OPENING_DOOR:` of `main`, with the way its two wait loops run
given as `wait`. -/
def case_OPENING_DOOR.via (wait : Nat → State → Option State) (s : State) : Option State :=
  match awaitByte CONTROL_READY (UART_SendByte HMI_READY s) with
  | none => none
  | some s1 =>
    let s2 := Timer1_SetCallBack (Timer1_NonPWm_Mode_Init (UART_SendByte OPEN_THE_DOOR s1))
    let s3 := LCD_DisplayString "Unlocking..."
      (LCD_MoveCursor 1 0 (LCD_DisplayString "Door is" (LCD_ClearString s2)))
    match wait 6 s3 with
    | none => none
    | some s4 =>
      let s5 := LCD_DisplayString "Locking..."
        (LCD_MoveCursor 1 0 (LCD_DisplayString "Door is"
          (LCD_ClearString { s4 with G_Timer1_Count := 0 })))
      match wait 5 s5 with
      | none => none
      | some s6 =>
        let s7 := Timer1_DeInit { s6 with G_Timer1_Count := 0 }
        some { s7 with HMI_ECU_Sequence := MAIN_OPTIONS_DISPLAY }

/-- The `case PASSWORD_ERROR:` of `main`, with the way its wait loop runs given
as `wait`. -/
def case_PASSWORD_ERROR.via (wait : Nat → State → Option State) (s : State) : Option State :=
  match awaitByte CONTROL_READY s with
  | none => none
  | some s1 =>
    match awaitByte DISPLAY_ERROR (UART_SendByte HMI_READY s1) with
    | none => none
    | some s2 =>
      let s3 := Timer1_SetCallBack (Timer1_NonPWm_Mode_Init s2)
      let s4 := LCD_DisplayString "Try Again Later"
        (LCD_MoveCursor 1 0 (LCD_DisplayString "ERROR Happened!" (LCD_ClearString s3)))
      match wait 20 s4 with
      | none => none
      | some s5 =>
        let s6 := Timer1_DeInit { s5 with G_Timer1_Count := 0 }
        some { s6 with HMI_ECU_Sequence := MAIN_OPTIONS_DISPLAY }

/-- The state in which the pass of `doorSample` enters its first wait loop,
`while (G_Timer1_Count < 6);`: the exchange is done, the open command is sent,
Timer1 is started and the unlocking message is shown. -/
def doorWait : State :=
  LCD_DisplayString "Unlocking..."
    (LCD_MoveCursor 1 0 (LCD_DisplayString "Door is" (LCD_ClearString
      (Timer1_SetCallBack (Timer1_NonPWm_Mode_Init
        { doorSample with
          rx := [],
          trace := doorSample.trace ++
            [Ev.send HMI_READY, Ev.recv CONTROL_READY, Ev.send OPEN_THE_DOOR] })))))

/-- The state in which the pass of `lockoutSample` enters its wait loop,
`while (G_Timer1_Count < 20);`: the exchange is done, `DISPLAY_ERROR` is
received, Timer1 is started and the error message is shown. -/
def lockoutWait : State :=
  LCD_DisplayString "Try Again Later"
    (LCD_MoveCursor 1 0 (LCD_DisplayString "ERROR Happened!" (LCD_ClearString
      (Timer1_SetCallBack (Timer1_NonPWm_Mode_Init
        { lockoutSample with
          rx := [],
          trace := lockoutSample.trace ++
            [Ev.recv CONTROL_READY, Ev.send HMI_READY, Ev.recv DISPLAY_ERROR] })))))

end HMI

/-! ## The two orders of a ready exchange before a payload -/

/-- The events of a payload transfer whose sender announces itself first: the
token `own` is sent, bytes are received up to and including the first `peer`,
and then the bytes of `payload` are sent, in order. -/
def SendsReadyThenWaits (own peer : Nat) (payload : List Nat) (ev : List Ev) : Prop :=
  ∃ junk : List Nat, peer ∉ junk ∧
    ev = Ev.send own :: (junk.map Ev.recv ++ Ev.recv peer :: payload.map Ev.send)

/-- The events of a payload transfer whose sender waits first: bytes are
received up to and including the first `peer`, the token `own` is sent, and
then the bytes of `payload` are sent, in order. -/
def WaitsThenSendsReady (own peer : Nat) (payload : List Nat) (ev : List Ev) : Prop :=
  ∃ junk : List Nat, peer ∉ junk ∧
    ev = junk.map Ev.recv ++ Ev.recv peer :: Ev.send own :: payload.map Ev.send

/-! ## The serial link between the two nodes -/

/-- The bytes taken from the UART, in order. -/
def recvOf : List Ev → List Nat
  | [] => []
  | Ev.recv b :: t => b :: recvOf t
  | _ :: t => recvOf t

/-- The next event of a node, played against the queue `q` of bytes the peer
has sent to it and it has not taken yet. A byte sent goes to the peer (third
component); a byte received must be the oldest one in the queue, which it
leaves; any other event is local. The result is `none` when the node has no
event left, or when its next event is a reception that the queue cannot
serve. -/
def play (ev : List Ev) (q : List Nat) : Option (List Ev × List Nat × List Nat) :=
  match ev with
  | [] => none
  | Ev.recv b :: r =>
    match q with
    | [] => none
    | x :: q1 => if x = b then some (r, q1, []) else none
  | Ev.send b :: r => some (r, q, [b])
  | _ :: r => some (r, q, [])

/-- The events `evH` of the HMI node and `evC` of the Control node played
against each other over a lossless link that keeps the order of the bytes in
each direction: `toH` and `toC` are the bytes under way to each node. At each
step the HMI node moves if it can, otherwise the Control node does. The result
is what is still under way when both lists are played out, and `none` when
some event can never be played (a node receives a byte the peer has not sent,
or not in that order). The first argument bounds the number of steps; the
number of events is enough. -/
def link : Nat → List Ev → List Ev → List Nat → List Nat → Option (List Nat × List Nat)
  | 0, evH, evC, toH, toC => if evH = [] ∧ evC = [] then some (toH, toC) else none
  | k + 1, evH, evC, toH, toC =>
    match play evH toH with
    | some (evH1, toH1, out) => link k evH1 evC toH1 (toC ++ out)
    | none =>
      match play evC toC with
      | some (evC1, toC1, out) => link k evH evC1 (toH ++ out) toC1
      | none => if evH = [] ∧ evC = [] then some (toH, toC) else none

/-- The two lists of events fit together as one run of the two nodes over the
link, started with nothing under way, in which every byte sent has been
received. -/
@[reducible] def Linked (evH evC : List Ev) : Prop :=
  link (evH.length + evC.length) evH evC [] [] = some ([], [])

/-- A run of `SendPassword(P)` on the HMI node against `ReceivePassword(buf)`
on the Control node: both calls return, the first from `sH` to `tH` with the
events `evH`, the second from `sC` to `tC` with the buffer `p` and the events
`evC`, and the events fit together over the link. -/
def Transfer (P buf : Buf) (sH tH : HMI.State) (sC : Control.State) (p : Buf)
    (tC : Control.State) (evH evC : List Ev) : Prop :=
  HMI.SendPassword P sH = some tH ∧ Control.ReceivePassword buf sC = some (p, tC) ∧
  tH.trace = sH.trace ++ evH ∧ tC.trace = sC.trace ++ evC ∧ Linked evH evC

/-! ## `KEYPAD.c`: the scan of the keypad matrix -/

namespace Keypad

/-- The macro `KEYPAD_NUMBER_OF_ROWS` of `KEYPAD.h`. -/
abbrev KEYPAD_NUMBER_OF_ROWS : Nat := 4

/-- The macro `KEYPAD_NUMBER_OF_COLUMNS` of `KEYPAD.h`. -/
abbrev KEYPAD_NUMBER_OF_COLUMNS : Nat := 4

/-- Modelled from the spec: `KEYPAD.h` sets `KEYPAD_ROW0_PIN_ID` to `PIN0_ID`,
whose header is not among the sources; the pins of a port are numbered from 0,
and the rows are on the pins 0..3. -/
abbrev KEYPAD_ROW0_PIN_ID : Nat := 0

/-- Modelled from the spec: `KEYPAD.h` sets `KEYPAD_COL0_PIN_ID` to `PIN4_ID`,
whose header is not among the sources; the columns are on the pins 4..7. -/
abbrev KEYPAD_COL0_PIN_ID : Nat := 4

/-- Modelled from the spec: the header that defines `LOGIC_LOW` is not among
the sources; it is the low one of the two levels of a pin. -/
abbrev LOGIC_LOW : Nat := 0

/-- Modelled from the spec: the header that defines `LOGIC_HIGH` is not among
the sources; it is the high one of the two levels of a pin. -/
abbrev LOGIC_HIGH : Nat := 1

/-- Modelled from the spec: the header that defines `INPUT_PIN` is not among
the sources; it is the direction of a pin that is read. -/
abbrev INPUT_PIN : Nat := 0

/-- Modelled from the spec: the header that defines `OUTPUT_PIN` is not among
the sources; it is the direction of a pin that is driven. -/
abbrev OUTPUT_PIN : Nat := 1

/-- Modelled from the spec: `GPIO.c` is not among the sources. The pins of the
port of the keypad (all its pins are on `PORTC_ID`, which the model leaves
out): the direction of each pin and the level written to it. -/
structure Pins where
  direction : Nat → Nat
  level : Nat → Nat

/-- Modelled from the spec: `GPIO.c` is not among the sources;
`GPIO_SetupPinDirection` sets the direction of one pin. -/
def GPIO_SetupPinDirection (pin_num direction : Nat) (p : Pins) : Pins :=
  { p with direction := fun k => if k = pin_num then direction else p.direction k }

/-- Modelled from the spec: `GPIO.c` is not among the sources; `GPIO_WritePin`
writes the level of one pin. -/
def GPIO_WritePin (pin_num value : Nat) (p : Pins) : Pins :=
  { p with level := fun k => if k = pin_num then value else p.level k }

/-- Modelled from the spec: `GPIO.c` is not among the sources; `GPIO_ReadPin`
on a column pin of the matrix. The argument `held` tells which keys, by row
and column, are held down. The column reads `LOGIC_LOW` exactly when a key
held connects it to a row pin that is an output written low; otherwise it is
pulled to `LOGIC_HIGH`. -/
def GPIO_ReadPin (held : Nat → Nat → Bool) (pin_num : Nat) (p : Pins) : Nat :=
  if (List.range KEYPAD_NUMBER_OF_ROWS).any (fun r =>
      decide (p.direction (KEYPAD_ROW0_PIN_ID + r) = OUTPUT_PIN) &&
      decide (p.level (KEYPAD_ROW0_PIN_ID + r) = LOGIC_LOW) &&
      held r (pin_num - KEYPAD_COL0_PIN_ID)) then LOGIC_LOW
  else LOGIC_HIGH

/-- The function `KEYPAD_4x4_AdjustKeyNumber(uint8 Pressed_Button)`. -/
def KEYPAD_4x4_AdjustKeyNumber (Pressed_Button : Nat) : Nat :=
  match Pressed_Button with
  | 1 => 7
  | 2 => 8
  | 3 => 9
  | 4 => 37
  | 5 => 4
  | 6 => 5
  | 7 => 6
  | 8 => 42
  | 9 => 1
  | 10 => 2
  | 11 => 3
  | 12 => 45
  | 13 => 13
  | 14 => 0
  | 15 => 61
  | 16 => 43
  | _ => Pressed_Button

/-- The loop `for (col = 0; col < KEYPAD_NUMBER_OF_COLUMNS; col++)` of
`KEYPAD_GetPressedKey`, in the row `row`: iterations still to run, then the
column `col`; the key returned from inside the loop, if any. -/
def KEYPAD_GetPressedKey.cols (held : Nat → Nat → Bool) (row : Nat) :
    Nat → Nat → Pins → Option Nat
  | 0, _, _ => none
  | k + 1, col, p =>
    if GPIO_ReadPin held (KEYPAD_COL0_PIN_ID + col) p = LOGIC_LOW then
      some (KEYPAD_4x4_AdjustKeyNumber ((row * KEYPAD_NUMBER_OF_COLUMNS + col + 1) % 256))
    else KEYPAD_GetPressedKey.cols held row k (col + 1) p

/-- The loop `for (row = 0; row < KEYPAD_NUMBER_OF_ROWS; row++)` of
`KEYPAD_GetPressedKey`: iterations still to run, then the row `row`; the key
returned from inside the loop, if any, and the pins. -/
def KEYPAD_GetPressedKey.rows (held : Nat → Nat → Bool) : Nat → Nat → Pins → Option Nat × Pins
  | 0, _, p => (none, p)
  | k + 1, row, p =>
    let p1 := GPIO_WritePin (KEYPAD_ROW0_PIN_ID + row) LOGIC_LOW
      (GPIO_SetupPinDirection (KEYPAD_ROW0_PIN_ID + row) OUTPUT_PIN p)
    match KEYPAD_GetPressedKey.cols held row KEYPAD_NUMBER_OF_COLUMNS 0 p1 with
    | some key => (some key, p1)
    | none =>
      KEYPAD_GetPressedKey.rows held k (row + 1)
        (GPIO_SetupPinDirection (KEYPAD_ROW0_PIN_ID + row) INPUT_PIN p1)

/-- The loop `while (1)` of `KEYPAD_GetPressedKey`, one scan of the matrix per
pass after `_delay_ms(200)`, with the same keys held in every pass: passes
still allowed, then the pins; `none` when no pass finds a key. -/
def KEYPAD_GetPressedKey.loop (held : Nat → Nat → Bool) : Nat → Pins → Option Nat
  | 0, _ => none
  | n + 1, p =>
    match KEYPAD_GetPressedKey.rows held KEYPAD_NUMBER_OF_ROWS 0 p with
    | (some key, _) => some key
    | (none, p1) => KEYPAD_GetPressedKey.loop held n p1

/-- The function `KEYPAD_GetPressedKey` of `KEYPAD.c`, with the keys `held`
held down, `passes` passes of its loop allowed, from the pins `p`: the eight
pins are made inputs, then the matrix is scanned. -/
def KEYPAD_GetPressedKey (held : Nat → Nat → Bool) (passes : Nat) (p : Pins) : Option Nat :=
  KEYPAD_GetPressedKey.loop held passes
    (GPIO_SetupPinDirection (KEYPAD_COL0_PIN_ID + 3) INPUT_PIN
    (GPIO_SetupPinDirection (KEYPAD_COL0_PIN_ID + 2) INPUT_PIN
    (GPIO_SetupPinDirection (KEYPAD_COL0_PIN_ID + 1) INPUT_PIN
    (GPIO_SetupPinDirection KEYPAD_COL0_PIN_ID INPUT_PIN
    (GPIO_SetupPinDirection (KEYPAD_ROW0_PIN_ID + 3) INPUT_PIN
    (GPIO_SetupPinDirection (KEYPAD_ROW0_PIN_ID + 2) INPUT_PIN
    (GPIO_SetupPinDirection (KEYPAD_ROW0_PIN_ID + 1) INPUT_PIN
    (GPIO_SetupPinDirection KEYPAD_ROW0_PIN_ID INPUT_PIN p))))))))

/-- The pins before the first call: every pin an input, every level low. -/
def Pins.reset : Pins := { direction := fun _ => INPUT_PIN, level := fun _ => LOGIC_LOW }

/-- The keys of the given (row, column) pairs held down, and no other. -/
def heldOf (l : List (Nat × Nat)) : Nat → Nat → Bool := fun r c => l.contains (r, c)

end Keypad

/-! ## Theorems -/

namespace Control

/-- The comparison loop run for `k` iterations from index `i` reports a match
exactly when the two buffers agree on the indices `i .. i + k - 1`. -/
theorem ComparePasswords_loop_matched (A B : Buf) (k i : Nat) :
    ComparePasswords.loop A B k i = PASSWORDS_MATCHED ↔ ∀ j, i ≤ j → j < i + k → A j = B j := by
  induction k generalizing i with
  | zero =>
    simp only [ComparePasswords.loop, true_iff]
    intro j h1 h2
    omega
  | succ k ih =>
    simp only [ComparePasswords.loop]
    by_cases h : A i = B i
    · simp only [h, ne_eq, not_true_eq_false, if_false, ih]
      constructor
      · intro hj j h1 h2
        rcases Nat.eq_or_lt_of_le h1 with rfl | h3
        · exact h
        · exact hj j h3 (by omega)
      · intro hj j h1 h2
        exact hj j (by omega) (by omega)
    · simp only [ne_eq, h, not_false_eq_true, if_true]
      constructor
      · intro hc
        exact absurd hc (by decide)
      · intro hj
        exact absurd (hj i (Nat.le_refl i) (by omega)) h

/-- The comparison loop returns one of the two verdict bytes. -/
theorem ComparePasswords_loop_verdict (A B : Buf) (k i : Nat) :
    ComparePasswords.loop A B k i = PASSWORDS_MATCHED ∨
      ComparePasswords.loop A B k i = PASSWORDS_UNMATCHED := by
  induction k generalizing i with
  | zero => exact Or.inl rfl
  | succ k ih =>
    simp only [ComparePasswords.loop]
    split
    · exact Or.inr rfl
    · exact ih (i + 1)

/-- C1: `ComparePasswords A B` is `PASSWORDS_MATCHED` (0x40) exactly when
`A[i] = B[i]` for every `i` in `0..4`, and it is `PASSWORDS_UNMATCHED` (0x30)
in every other case. -/
theorem C1_ComparePasswords_iff (A B : Buf) :
    (ComparePasswords A B = 0x40 ↔ ∀ i, i < 5 → A i = B i) ∧
      (ComparePasswords A B = 0x30 ↔ ¬ ∀ i, i < 5 → A i = B i) := by
  have hm : ComparePasswords A B = 0x40 ↔ ∀ i, i < 5 → A i = B i := by
    unfold ComparePasswords
    rw [ComparePasswords_loop_matched]
    constructor
    · intro h i hi
      exact h i (Nat.zero_le i) (by simpa using hi)
    · intro h i _ hi
      exact h i (by simpa using hi)
  refine ⟨hm, ?_⟩
  rw [← hm]
  rcases ComparePasswords_loop_verdict A B PASSWORD_SIZE 0 with h | h
  · unfold ComparePasswords
    rw [h]
    decide
  · unfold ComparePasswords
    rw [h]
    decide

/-! ### Projections of a trace -/

theorem sentOf_append (a b : List Ev) : sentOf (a ++ b) = sentOf a ++ sentOf b := by
  induction a with
  | nil => rfl
  | cons e t ih => cases e <;> simp [sentOf, ih]

theorem writesOf_append (a b : List Ev) : writesOf (a ++ b) = writesOf a ++ writesOf b := by
  induction a with
  | nil => rfl
  | cons e t ih => cases e <;> simp [writesOf, ih]

theorem writeResultsOf_append (a b : List Ev) :
    writeResultsOf (a ++ b) = writeResultsOf a ++ writeResultsOf b := by
  induction a with
  | nil => rfl
  | cons e t ih => cases e <;> simp [writeResultsOf, ih]

theorem readResultsOf_append (a b : List Ev) :
    readResultsOf (a ++ b) = readResultsOf a ++ readResultsOf b := by
  induction a with
  | nil => rfl
  | cons e t ih => cases e <;> simp [readResultsOf, ih]

theorem Quiet_nil : Quiet [] := ⟨rfl, rfl, rfl, rfl⟩

theorem Quiet_append {a b : List Ev} (ha : Quiet a) (hb : Quiet b) : Quiet (a ++ b) := by
  obtain ⟨a1, a2, a3, a4⟩ := ha
  obtain ⟨b1, b2, b3, b4⟩ := hb
  refine ⟨?_, ?_, ?_, ?_⟩
  · rw [sentOf_append, a1, b1]; rfl
  · rw [writesOf_append, a2, b2]; rfl
  · rw [writeResultsOf_append, a3, b3]; rfl
  · rw [readResultsOf_append, a4, b4]; rfl

theorem Quiet_recv (l : List Nat) : Quiet (l.map Ev.recv) := by
  induction l with
  | nil => exact Quiet_nil
  | cons b t ih =>
    obtain ⟨h1, h2, h3, h4⟩ := ih
    exact ⟨by simpa [sentOf] using h1, by simpa [writesOf] using h2,
      by simpa [writeResultsOf] using h3, by simpa [readResultsOf] using h4⟩

theorem Quiet_ticks (n : Nat) : Quiet (List.replicate n Ev.tick) := by
  induction n with
  | zero => exact Quiet_nil
  | succ n ih =>
    obtain ⟨h1, h2, h3, h4⟩ := ih
    exact ⟨by simpa [List.replicate_succ, sentOf] using h1,
      by simpa [List.replicate_succ, writesOf] using h2,
      by simpa [List.replicate_succ, writeResultsOf] using h3,
      by simpa [List.replicate_succ, readResultsOf] using h4⟩

/-! ### The UART -/

theorem UART_ReceiveByte_cons (s : State) (b : Nat) (r : List Nat) (h : s.rx = b :: r) :
    UART_ReceiveByte s = some (b, { s with rx := r, trace := s.trace ++ [Ev.recv b] }) := by
  simp [UART_ReceiveByte, h]

theorem UART_ReceiveByte_some (s : State) (b : Nat) (s1 : State)
    (h : UART_ReceiveByte s = some (b, s1)) :
    ∃ r, s.rx = b :: r ∧ s1 = { s with rx := r, trace := s.trace ++ [Ev.recv b] } := by
  unfold UART_ReceiveByte at h
  split at h
  · exact absurd h (by simp)
  · rename_i b0 r hr
    simp only [Option.some.injEq, Prod.mk.injEq] at h
    obtain ⟨rfl, rfl⟩ := h
    exact ⟨r, hr, rfl⟩

theorem awaitByte_loop_junk (X : Nat) (junk rest : List Nat) (hj : X ∉ junk) :
    ∀ (k : Nat) (s : State), junk.length < k → s.rx = junk ++ X :: rest →
      awaitByte.loop X k s =
        some { s with rx := rest, trace := s.trace ++ (junk.map Ev.recv ++ [Ev.recv X]) } := by
  induction junk with
  | nil =>
    intro k s hk h
    cases k with
    | zero => omega
    | succ k =>
      simp only [List.nil_append] at h
      simp [awaitByte.loop, UART_ReceiveByte, h]
  | cons j t ih =>
    intro k s hk h
    cases k with
    | zero => omega
    | succ k =>
      have hjX : j ≠ X := fun e => hj (by simp [e])
      have ht : X ∉ t := fun e => hj (by simp [e])
      simp only [List.cons_append] at h
      simp only [awaitByte.loop, UART_ReceiveByte, h, ne_eq, hjX, not_false_eq_true, if_true]
      rw [ih ht k _ (by simpa using hk) rfl]
      simp

/-- The wait loop on an input that holds the awaited byte: the bytes before
its first occurrence are taken and dropped, the byte itself is taken, the rest
stays unread. -/
theorem awaitByte_junk (X : Nat) (junk rest : List Nat) (s : State) (hj : X ∉ junk)
    (h : s.rx = junk ++ X :: rest) :
    awaitByte X s =
      some { s with rx := rest, trace := s.trace ++ (junk.map Ev.recv ++ [Ev.recv X]) } := by
  unfold awaitByte
  exact awaitByte_loop_junk X junk rest hj _ s (by simp [h]) h

theorem awaitByte_cons (X : Nat) (rest : List Nat) (s : State) (h : s.rx = X :: rest) :
    awaitByte X s = some { s with rx := rest, trace := s.trace ++ [Ev.recv X] } := by
  simpa using awaitByte_junk X [] rest s (by simp) (by simpa using h)

theorem awaitByte_loop_some (X : Nat) :
    ∀ (k : Nat) (s s1 : State), awaitByte.loop X k s = some s1 →
      ∃ (r : List Nat) (ev : List Ev),
        s1 = { s with rx := r, trace := s.trace ++ ev } ∧ Quiet ev := by
  intro k
  induction k with
  | zero =>
    intro s s1 h
    simp [awaitByte.loop] at h
  | succ k ih =>
    intro s s1 h
    simp only [awaitByte.loop] at h
    split at h
    · exact absurd h (by simp)
    · rename_i b s2 hrecv
      obtain ⟨r, _, rfl⟩ := UART_ReceiveByte_some s b s2 hrecv
      split at h
      · obtain ⟨r2, ev, rfl, hq⟩ := ih _ _ h
        exact ⟨r2, [Ev.recv b] ++ ev, by simp, Quiet_append (Quiet_recv [b]) hq⟩
      · simp only [Option.some.injEq] at h
        subst h
        exact ⟨r, [Ev.recv b], rfl, Quiet_recv [b]⟩

/-- A wait loop that returns has only taken bytes from the UART. -/
theorem awaitByte_some (X : Nat) (s s1 : State) (h : awaitByte X s = some s1) :
    ∃ (r : List Nat) (ev : List Ev),
      s1 = { s with rx := r, trace := s.trace ++ ev } ∧ Quiet ev :=
  awaitByte_loop_some X _ s s1 h

theorem ReceivePassword_loop_some :
    ∀ (k i : Nat) (pass : Buf) (s : State) (p : Buf) (s1 : State),
      ReceivePassword.loop k i pass s = some (p, s1) →
      ∃ (r : List Nat) (ev : List Ev),
        s1 = { s with rx := r, trace := s.trace ++ ev } ∧ Quiet ev := by
  intro k
  induction k with
  | zero =>
    intro i pass s p s1 h
    simp only [ReceivePassword.loop, Option.some.injEq, Prod.mk.injEq] at h
    obtain ⟨_, rfl⟩ := h
    exact ⟨s.rx, [], by simp, Quiet_nil⟩
  | succ k ih =>
    intro i pass s p s1 h
    simp only [ReceivePassword.loop] at h
    split at h
    · exact absurd h (by simp)
    · rename_i b s2 hrecv
      obtain ⟨r, _, rfl⟩ := UART_ReceiveByte_some s b s2 hrecv
      obtain ⟨r2, ev, rfl, hq⟩ := ih _ _ _ _ _ h
      exact ⟨r2, [Ev.recv b] ++ ev, by simp, Quiet_append (Quiet_recv [b]) hq⟩

/-- A call of `ReceivePassword` that returns has taken bytes from the UART and
sent `CONTROL_READY` and then `PASS_RECEIVED`; it has made no storage call. -/
theorem ReceivePassword_some (pass : Buf) (s : State) (p : Buf) (s1 : State)
    (h : ReceivePassword pass s = some (p, s1)) :
    ∃ (r : List Nat) (ev : List Ev),
      s1 = { s with rx := r, trace := s.trace ++ ev } ∧
      sentOf ev = [CONTROL_READY, PASS_RECEIVED] ∧ writesOf ev = [] ∧
      writeResultsOf ev = [] ∧ readResultsOf ev = [] := by
  unfold ReceivePassword at h
  split at h
  · exact absurd h (by simp)
  · rename_i s2 hwait
    obtain ⟨r1, ev1, rfl, q1⟩ := awaitByte_some _ _ _ hwait
    split at h
    · exact absurd h (by simp)
    · rename_i p1 s3 hloop
      obtain ⟨r2, ev2, rfl, q2⟩ := ReceivePassword_loop_some _ _ _ _ _ _ hloop
      simp only [Option.some.injEq, Prod.mk.injEq] at h
      obtain ⟨_, rfl⟩ := h
      refine ⟨r2, ev1 ++ [Ev.send CONTROL_READY] ++ ev2 ++ [Ev.send PASS_RECEIVED], ?_, ?_, ?_, ?_, ?_⟩
      · simp [UART_SendByte, State.log]
      · simp [sentOf_append, q1.1, q2.1, sentOf]
      · simp [writesOf_append, q1.2.1, q2.2.1, writesOf]
      · simp [writeResultsOf_append, q1.2.2.1, q2.2.2.1, writeResultsOf]
      · simp [readResultsOf_append, q1.2.2.2, q2.2.2.2, readResultsOf]

/-- The call of `ReceivePassword` on an input that starts with `HMI_READY`
and five bytes: the five bytes fill the buffer in index order. -/
theorem ReceivePassword_run (pass : Buf) (s : State) (p0 p1 p2 p3 p4 : Nat) (rest : List Nat)
    (h : s.rx = HMI_READY :: p0 :: p1 :: p2 :: p3 :: p4 :: rest) :
    ReceivePassword pass s =
      some (((((pass.store 0 p0).store 1 p1).store 2 p2).store 3 p3).store 4 p4,
        { s with rx := rest,
                 trace := s.trace ++ [Ev.recv HMI_READY, Ev.send CONTROL_READY, Ev.recv p0,
                   Ev.recv p1, Ev.recv p2, Ev.recv p3, Ev.recv p4, Ev.send PASS_RECEIVED] }) := by
  simp [ReceivePassword, awaitByte_cons HMI_READY _ s h, ReceivePassword.loop, UART_ReceiveByte,
    UART_SendByte, State.log]

/-! ### The memory chip -/

set_option maxRecDepth 20000 in
theorem and_0700_eq_zero (a : Nat) (ha : a < 256) : a &&& 0x0700 = 0 :=
  (by decide : ∀ a, a < 256 → a &&& 0x0700 = 0) a ha

/-- A call of `EEPROM_WriteByte` that returns `SUCCESS` leaves the data in the
cell addressed and changes no other cell. -/
theorem EEPROM_WriteByte_body_success (a d : Nat) (ha : a < 256) (b : Bus)
    (h : (EEPROM_WriteByte.body a d b).1 = SUCCESS) :
    (EEPROM_WriteByte.body a d b).2.eeprom = Buf.store b.eeprom a d := by
  have hm : a % 256 = a := Nat.mod_eq_of_lt ha
  have h80 : 80 &&& 7 = 0 := by decide
  revert h
  unfold EEPROM_WriteByte.body
  simp only [and_0700_eq_zero a ha, hm]
  split_ifs <;>
    simp [TWI_Start, TWI_GetStatus, TWI_WriteByte, TWI_Stop, h80]

/-- A call of `EEPROM_WriteByte` that returns `ERROR` changes no cell. -/
theorem EEPROM_WriteByte_body_error (a d : Nat) (ha : a < 256) (b : Bus)
    (h : (EEPROM_WriteByte.body a d b).1 ≠ SUCCESS) :
    (EEPROM_WriteByte.body a d b).2.eeprom = b.eeprom := by
  have hm : a % 256 = a := Nat.mod_eq_of_lt ha
  revert h
  unfold EEPROM_WriteByte.body
  simp only [and_0700_eq_zero a ha, hm]
  split_ifs <;>
    simp [TWI_Start, TWI_GetStatus, TWI_WriteByte, TWI_Stop]

/-- A call of `EEPROM_ReadByte` changes no cell. -/
theorem EEPROM_ReadByte_body_eeprom (a old : Nat) (ha : a < 256) (b : Bus) :
    (EEPROM_ReadByte.body a old b).2.2.eeprom = b.eeprom := by
  have hm : a % 256 = a := Nat.mod_eq_of_lt ha
  unfold EEPROM_ReadByte.body
  simp only [and_0700_eq_zero a ha, hm]
  split_ifs <;>
    simp [TWI_Start, TWI_GetStatus, TWI_WriteByte, TWI_Stop, TWI_ReadByteWithNACK]

/-- A call of `EEPROM_ReadByte` that returns `SUCCESS` delivers the byte of the
cell addressed. -/
theorem EEPROM_ReadByte_body_success (a old : Nat) (ha : a < 256) (b : Bus)
    (h : (EEPROM_ReadByte.body a old b).1 = SUCCESS) :
    (EEPROM_ReadByte.body a old b).2.1 = b.eeprom a := by
  have hm : a % 256 = a := Nat.mod_eq_of_lt ha
  have h80 : 80 &&& 7 = 0 := by decide
  revert h
  unfold EEPROM_ReadByte.body
  simp only [and_0700_eq_zero a ha, hm]
  split_ifs <;>
    simp [TWI_Start, TWI_GetStatus, TWI_WriteByte, TWI_Stop, TWI_ReadByteWithNACK, h80]

/-- What the loop of `SavePassword` does, whatever the bus reports: it changes
the bus and the trace only, sends nothing, and calls `EEPROM_WriteByte` once
per index, in index order, with the byte of the buffer at that index. When
every call returns `SUCCESS` the cells of these indices hold the bytes of the
buffer; cells of other indices are never changed. -/
theorem SavePassword_loop_shape (P : Buf) :
    ∀ (k i : Nat) (s : State), i + k ≤ 256 →
      ∃ (b : Bus) (ev : List Ev),
        SavePassword.loop P k i s = { s with bus := b, trace := s.trace ++ ev } ∧
        sentOf ev = [] ∧ readResultsOf ev = [] ∧
        writesOf ev = (List.range' i k).map (fun j => (j, P j)) ∧
        (writeResultsOf ev).length = k ∧
        ((∀ r ∈ writeResultsOf ev, r = SUCCESS) →
          ∀ a, i ≤ a → a < i + k → b.eeprom a = P a) ∧
        (∀ a, a < i ∨ i + k ≤ a → b.eeprom a = s.bus.eeprom a) := by
  intro k
  induction k with
  | zero =>
    intro i s _
    refine ⟨s.bus, [], by simp [SavePassword.loop], rfl, rfl, rfl, rfl, ?_, ?_⟩
    · intro _ a h1 h2
      omega
    · intro a _
      rfl
  | succ k ih =>
    intro i s hik
    have hi : i < 256 := by omega
    obtain ⟨b, ev, hs, h1, h2, h3, h4, h5, h6⟩ :=
      ih (i + 1) (_delay_ms 10 (EEPROM_WriteByte (0x0000 + i) (P i) s).2) (by omega)
    refine ⟨b, [Ev.eepromWrite i (P i) (EEPROM_WriteByte.body i (P i) s.bus).1, Ev.delay 10] ++ ev,
      ?_, ?_, ?_, ?_, ?_, ?_, ?_⟩
    · simp only [SavePassword.loop, hs]
      simp [_delay_ms, State.log, EEPROM_WriteByte]
    · simp [sentOf_append, h1, sentOf]
    · simp [readResultsOf_append, h2, readResultsOf]
    · simp [writesOf_append, h3, writesOf, List.range'_succ]
    · simp [writeResultsOf_append, h4, writeResultsOf]
    · intro hall a ha1 ha2
      have hr0 : (EEPROM_WriteByte.body i (P i) s.bus).1 = SUCCESS :=
        hall _ (by simp [writeResultsOf_append, writeResultsOf])
      have hrest : ∀ r ∈ writeResultsOf ev, r = SUCCESS := fun r hr =>
        hall r (by simp [writeResultsOf_append, writeResultsOf, hr])
      rcases Nat.eq_or_lt_of_le ha1 with rfl | hlt
      · rw [h6 i (Or.inl (Nat.lt_succ_self i))]
        simp only [_delay_ms, State.log, EEPROM_WriteByte, Nat.zero_add]
        rw [EEPROM_WriteByte_body_success i (P i) hi s.bus hr0]
        simp [Buf.store]
      · exact h5 hrest a hlt (by omega)
    · intro a ha
      rw [h6 a (by omega)]
      simp only [_delay_ms, State.log, EEPROM_WriteByte, Nat.zero_add]
      by_cases hr0 : (EEPROM_WriteByte.body i (P i) s.bus).1 = SUCCESS
      · rw [EEPROM_WriteByte_body_success i (P i) hi s.bus hr0]
        have : a ≠ i := by omega
        simp [Buf.store, this]
      · rw [EEPROM_WriteByte_body_error i (P i) hi s.bus hr0]

/-- What the reading loop of `CheckPassword` does, whatever the bus reports:
it changes the bus and the trace only, sends nothing, writes no cell, and
calls `EEPROM_ReadByte` once per index. When every call returns `SUCCESS` the
buffer holds, at these indices, the bytes of the cells; other indices of the
buffer are never changed. -/
theorem CheckPassword_readLoop_shape :
    ∀ (k i : Nat) (p2 : Buf) (s : State), i + k ≤ 256 →
      ∃ (b : Bus) (ev : List Ev),
        (CheckPassword.readLoop k i p2 s).2 = { s with bus := b, trace := s.trace ++ ev } ∧
        b.eeprom = s.bus.eeprom ∧
        sentOf ev = [] ∧ writesOf ev = [] ∧ writeResultsOf ev = [] ∧
        (readResultsOf ev).length = k ∧
        ((∀ r ∈ readResultsOf ev, r = SUCCESS) →
          ∀ a, i ≤ a → a < i + k → (CheckPassword.readLoop k i p2 s).1 a = s.bus.eeprom a) ∧
        (∀ a, a < i ∨ i + k ≤ a → (CheckPassword.readLoop k i p2 s).1 a = p2 a) := by
  intro k
  induction k with
  | zero =>
    intro i p2 s _
    refine ⟨s.bus, [], by simp [CheckPassword.readLoop], rfl, rfl, rfl, rfl, rfl, ?_, ?_⟩
    · intro _ a h1 h2
      omega
    · intro a _
      rfl
  | succ k ih =>
    intro i p2 s hik
    have hi : i < 256 := by omega
    obtain ⟨b, ev, hs, he, h1, h2, h3, h4, h5, h6⟩ :=
      ih (i + 1) (p2.store i (EEPROM_ReadByte (0x0000 + i) (p2 i) s).2.1)
        (_delay_ms 10 (EEPROM_ReadByte (0x0000 + i) (p2 i) s).2.2) (by omega)
    refine ⟨b, [Ev.eepromRead i (EEPROM_ReadByte.body i (p2 i) s.bus).1, Ev.delay 10] ++ ev,
      ?_, ?_, ?_, ?_, ?_, ?_, ?_, ?_⟩
    · simp only [CheckPassword.readLoop, hs]
      simp [_delay_ms, State.log, EEPROM_ReadByte]
    · rw [he]
      simp only [_delay_ms, State.log, EEPROM_ReadByte, Nat.zero_add]
      exact EEPROM_ReadByte_body_eeprom i (p2 i) hi s.bus
    · simp [sentOf_append, h1, sentOf]
    · simp [writesOf_append, h2, writesOf]
    · simp [writeResultsOf_append, h3, writeResultsOf]
    · simp [readResultsOf_append, h4, readResultsOf]
    · intro hall a ha1 ha2
      have hr0 : (EEPROM_ReadByte.body i (p2 i) s.bus).1 = SUCCESS :=
        hall _ (by simp [readResultsOf_append, readResultsOf])
      have hrest : ∀ r ∈ readResultsOf ev, r = SUCCESS := fun r hr =>
        hall r (by simp [readResultsOf_append, readResultsOf, hr])
      simp only [CheckPassword.readLoop]
      rcases Nat.eq_or_lt_of_le ha1 with rfl | hlt
      · rw [h6 i (Or.inl (Nat.lt_succ_self i))]
        simp only [EEPROM_ReadByte, Nat.zero_add, Buf.store, if_true]
        exact EEPROM_ReadByte_body_success i (p2 i) hi s.bus hr0
      · rw [h5 hrest a hlt (by omega)]
        simp only [_delay_ms, State.log, EEPROM_ReadByte, Nat.zero_add]
        rw [EEPROM_ReadByte_body_eeprom i (p2 i) hi s.bus]
    · intro a ha
      simp only [CheckPassword.readLoop]
      rw [h6 a (by omega)]
      have : a ≠ i := by omega
      simp [Buf.store, this]

/-- The comparing loop of `CheckPassword` is the loop of `ComparePasswords`. -/
theorem CheckPassword_compareLoop_eq (A B : Buf) (k i : Nat) :
    CheckPassword.compareLoop A B k i = ComparePasswords.loop A B k i := by
  induction k generalizing i with
  | zero => rfl
  | succ k ih => simp only [CheckPassword.compareLoop, ComparePasswords.loop, ih]

theorem waitTicks_loop_shape (n : Nat) :
    ∀ (k : Nat) (s : State),
      ∃ (c m : Nat), waitTicks.loop n k s =
        { s with G_Timer1_Count := c, trace := s.trace ++ List.replicate m Ev.tick } := by
  intro k
  induction k with
  | zero =>
    intro s
    exact ⟨s.G_Timer1_Count, 0, by simp [waitTicks.loop]⟩
  | succ k ih =>
    intro s
    simp only [waitTicks.loop]
    split
    · obtain ⟨c, m, h⟩ := ih (Timer1_CallBack s)
      refine ⟨c, m + 1, ?_⟩
      rw [h]
      simp [Timer1_CallBack, List.replicate_succ]
    · exact ⟨s.G_Timer1_Count, 0, by simp⟩

/-- A timed wait that returns has changed the tick counter and the trace only. -/
theorem waitTicks_some (n : Nat) (s s1 : State) (h : waitTicks n s = some s1) :
    ∃ (c : Nat) (ev : List Ev),
      s1 = { s with G_Timer1_Count := c, trace := s.trace ++ ev } ∧ Quiet ev := by
  unfold waitTicks at h
  split at h
  · simp only [Option.some.injEq] at h
    subst h
    exact ⟨s.G_Timer1_Count, [], by simp, Quiet_nil⟩
  · split at h
    · simp only [Option.some.injEq] at h
      obtain ⟨c, m, hc⟩ := waitTicks_loop_shape n n s
      exact ⟨c, List.replicate m Ev.tick, by rw [← h, hc], Quiet_ticks m⟩
    · exact absurd h (by simp)

/-- What `SavePassword` does, whatever the bus reports. -/
theorem SavePassword_shape (P : Buf) (s : State) :
    ∃ (b : Bus) (ev : List Ev),
      SavePassword P s = { s with bus := b, trace := s.trace ++ ev } ∧
      sentOf ev = [] ∧ readResultsOf ev = [] ∧
      writesOf ev = [(0, P 0), (1, P 1), (2, P 2), (3, P 3), (4, P 4)] ∧
      (writeResultsOf ev).length = 5 ∧
      ((∀ r ∈ writeResultsOf ev, r = SUCCESS) → Buf.first5 b.eeprom = Buf.first5 P) := by
  obtain ⟨b, ev, h0, h1, h2, h3, h4, h5, _⟩ := SavePassword_loop_shape P PASSWORD_SIZE 0 s (by decide)
  refine ⟨b, ev, h0, h1, h2, ?_, h4, ?_⟩
  · rw [h3]
    rfl
  · intro hall
    have := h5 hall
    simp only [Buf.first5]
    rw [this 0 (by omega) (by decide), this 1 (by omega) (by decide), this 2 (by omega) (by decide),
      this 3 (by omega) (by decide), this 4 (by omega) (by decide)]

/-- What `CheckPassword` does, whatever the bus reports. -/
theorem CheckPassword_shape (A B : Buf) (s : State) :
    ∃ (b : Bus) (ev : List Ev),
      (CheckPassword A B s).2.2 = { s with bus := b, trace := s.trace ++ ev } ∧
      b.eeprom = s.bus.eeprom ∧
      sentOf ev = [] ∧ writesOf ev = [] ∧ writeResultsOf ev = [] ∧
      (readResultsOf ev).length = 5 ∧
      ((∀ r ∈ readResultsOf ev, r = SUCCESS) →
        Buf.first5 (CheckPassword A B s).2.1 = Buf.first5 s.bus.eeprom) ∧
      (CheckPassword A B s).1 = ComparePasswords A (CheckPassword A B s).2.1 := by
  obtain ⟨b, ev, h0, he, h1, h2, h3, h4, h5, _⟩ :=
    CheckPassword_readLoop_shape PASSWORD_SIZE 0 B s (by decide)
  refine ⟨b, ev, h0, he, h1, h2, h3, h4, ?_, ?_⟩
  · intro hall
    have := h5 hall
    simp only [Buf.first5, CheckPassword]
    rw [this 0 (by omega) (by decide), this 1 (by omega) (by decide), this 2 (by omega) (by decide),
      this 3 (by omega) (by decide), this 4 (by omega) (by decide)]
  · simp only [CheckPassword, ComparePasswords, CheckPassword_compareLoop_eq]

/-- Two buffers agree on the indices `0..4` exactly when their first five
bytes are the same list. -/
theorem first5_eq_iff (A B : Buf) : Buf.first5 A = Buf.first5 B ↔ ∀ i, i < 5 → A i = B i := by
  constructor
  · intro h i hi
    simp only [Buf.first5, List.cons.injEq, and_true] at h
    obtain ⟨h0, h1, h2, h3, h4⟩ := h
    interval_cases i <;> assumption
  · intro h
    simp only [Buf.first5]
    rw [h 0 (by decide), h 1 (by decide), h 2 (by decide), h 3 (by decide), h 4 (by decide)]

/-- The verdict of `ComparePasswords` in terms of the first five bytes. -/
theorem ComparePasswords_matched_iff (A B : Buf) :
    ComparePasswords A B = PASSWORDS_MATCHED ↔ Buf.first5 A = Buf.first5 B := by
  rw [first5_eq_iff]
  unfold ComparePasswords
  rw [ComparePasswords_loop_matched]
  constructor
  · intro h i hi
    exact h i (Nat.zero_le i) (by simpa using hi)
  · intro h i _ hi
    exact h i (by simpa using hi)

theorem ComparePasswords_verdict (A B : Buf) :
    ComparePasswords A B = PASSWORDS_MATCHED ∨ ComparePasswords A B = PASSWORDS_UNMATCHED :=
  ComparePasswords_loop_verdict A B PASSWORD_SIZE 0

/-- C2: storage round trip. When the five byte writes of `SavePassword P` and
the five byte reads of the `CheckPassword` that follows all return `SUCCESS`,
the bytes `CheckPassword` reads into its second buffer are `P[0..4]` in
order, and it returns `PASSWORDS_MATCHED` exactly when its first buffer agrees
with `P` on the indices `0..4`. -/
theorem C2_storage_round_trip (P Q buf : Buf) (s : State)
    (hw : writeResultsOf (SavePassword P s).trace =
      writeResultsOf s.trace ++ List.replicate PASSWORD_SIZE SUCCESS)
    (hr : readResultsOf (CheckPassword Q buf (SavePassword P s)).2.2.trace =
      readResultsOf (SavePassword P s).trace ++ List.replicate PASSWORD_SIZE SUCCESS) :
    (∀ i, i < 5 → (CheckPassword Q buf (SavePassword P s)).2.1 i = P i) ∧
      ((CheckPassword Q buf (SavePassword P s)).1 = PASSWORDS_MATCHED ↔
        ∀ i, i < 5 → Q i = P i) := by
  obtain ⟨b, ev, hs, _, _, _, _, hcells⟩ := SavePassword_shape P s
  obtain ⟨b2, ev2, hs2, he2, _, _, _, _, hbuf, hres⟩ := CheckPassword_shape Q buf (SavePassword P s)
  have hwev : writeResultsOf ev = List.replicate PASSWORD_SIZE SUCCESS := by
    rw [hs] at hw
    simpa [writeResultsOf_append] using hw
  have hrev : readResultsOf ev2 = List.replicate PASSWORD_SIZE SUCCESS := by
    rw [hs2] at hr
    simpa [readResultsOf_append] using hr
  have h1 : Buf.first5 b.eeprom = Buf.first5 P :=
    hcells (fun r hr => by rw [hwev] at hr; exact (List.mem_replicate.mp hr).2)
  have h2 : Buf.first5 (CheckPassword Q buf (SavePassword P s)).2.1 = Buf.first5 P := by
    rw [hbuf (fun r hr => by rw [hrev] at hr; exact (List.mem_replicate.mp hr).2), hs]
    exact h1
  refine ⟨(first5_eq_iff _ _).mp h2, ?_⟩
  rw [hres, ComparePasswords_matched_iff, h2, first5_eq_iff]

/-- C2 at a concrete input: the password 1,2,3,4,5 saved on a bus whose
fifty status values are those of five good writes and five good reads. -/
theorem C2_storage_round_trip_witness :
    (∀ i, i < 5 → (CheckPassword (Buf.ofList [1, 2, 3, 4, 5]) (fun _ => 0)
        (SavePassword (Buf.ofList [1, 2, 3, 4, 5]) (boot [] goodSaveThenCheck (fun _ => 255)))).2.1 i
          = Buf.ofList [1, 2, 3, 4, 5] i) ∧
      ((CheckPassword (Buf.ofList [1, 2, 3, 4, 5]) (fun _ => 0)
        (SavePassword (Buf.ofList [1, 2, 3, 4, 5]) (boot [] goodSaveThenCheck (fun _ => 255)))).1
          = PASSWORDS_MATCHED ↔
        ∀ i, i < 5 → Buf.ofList [1, 2, 3, 4, 5] i = Buf.ofList [1, 2, 3, 4, 5] i) :=
  C2_storage_round_trip (Buf.ofList [1, 2, 3, 4, 5]) (Buf.ofList [1, 2, 3, 4, 5]) (fun _ => 0)
    (boot [] goodSaveThenCheck (fun _ => 255)) (by decide) (by decide)

/-! ### What `SavePassword` and `CheckPassword` leave alone -/

@[simp]
theorem SavePassword_Control_ECU_Sequence (P : Buf) (s : State) :
    (SavePassword P s).Control_ECU_Sequence = s.Control_ECU_Sequence := by
  obtain ⟨b, ev, h, -⟩ := SavePassword_shape P s
  rw [h]

@[simp]
theorem SavePassword_G_Pass1 (P : Buf) (s : State) :
    (SavePassword P s).G_Pass1 = s.G_Pass1 := by
  obtain ⟨b, ev, h, -⟩ := SavePassword_shape P s
  rw [h]

@[simp]
theorem SavePassword_G_Pass2 (P : Buf) (s : State) :
    (SavePassword P s).G_Pass2 = s.G_Pass2 := by
  obtain ⟨b, ev, h, -⟩ := SavePassword_shape P s
  rw [h]

@[simp]
theorem SavePassword_G_Timer1_Count (P : Buf) (s : State) :
    (SavePassword P s).G_Timer1_Count = s.G_Timer1_Count := by
  obtain ⟨b, ev, h, -⟩ := SavePassword_shape P s
  rw [h]

@[simp]
theorem SavePassword_i (P : Buf) (s : State) :
    (SavePassword P s).i = s.i := by
  obtain ⟨b, ev, h, -⟩ := SavePassword_shape P s
  rw [h]

@[simp]
theorem SavePassword_rx (P : Buf) (s : State) :
    (SavePassword P s).rx = s.rx := by
  obtain ⟨b, ev, h, -⟩ := SavePassword_shape P s
  rw [h]

@[simp]
theorem SavePassword_timer1 (P : Buf) (s : State) :
    (SavePassword P s).timer1 = s.timer1 := by
  obtain ⟨b, ev, h, -⟩ := SavePassword_shape P s
  rw [h]

@[simp]
theorem SavePassword_callBack (P : Buf) (s : State) :
    (SavePassword P s).callBack = s.callBack := by
  obtain ⟨b, ev, h, -⟩ := SavePassword_shape P s
  rw [h]

@[simp]
theorem SavePassword_sentOf (P : Buf) (s : State) :
    sentOf (SavePassword P s).trace = sentOf s.trace := by
  obtain ⟨b, ev, h, h1, -⟩ := SavePassword_shape P s
  rw [h]
  simp [sentOf_append, h1]

@[simp]
theorem SavePassword_readResultsOf (P : Buf) (s : State) :
    readResultsOf (SavePassword P s).trace = readResultsOf s.trace := by
  obtain ⟨b, ev, h, _, h2, -⟩ := SavePassword_shape P s
  rw [h]
  simp [readResultsOf_append, h2]

@[simp]
theorem SavePassword_writesOf (P : Buf) (s : State) :
    writesOf (SavePassword P s).trace =
      writesOf s.trace ++ [(0, P 0), (1, P 1), (2, P 2), (3, P 3), (4, P 4)] := by
  obtain ⟨b, ev, h, _, _, h3, -⟩ := SavePassword_shape P s
  rw [h]
  simp [writesOf_append, h3]

@[simp]
theorem CheckPassword_Control_ECU_Sequence (A B : Buf) (s : State) :
    (CheckPassword A B s).2.2.Control_ECU_Sequence = s.Control_ECU_Sequence := by
  obtain ⟨b, ev, h, -⟩ := CheckPassword_shape A B s
  rw [h]

@[simp]
theorem CheckPassword_G_Pass1 (A B : Buf) (s : State) :
    (CheckPassword A B s).2.2.G_Pass1 = s.G_Pass1 := by
  obtain ⟨b, ev, h, -⟩ := CheckPassword_shape A B s
  rw [h]

@[simp]
theorem CheckPassword_G_Pass2 (A B : Buf) (s : State) :
    (CheckPassword A B s).2.2.G_Pass2 = s.G_Pass2 := by
  obtain ⟨b, ev, h, -⟩ := CheckPassword_shape A B s
  rw [h]

@[simp]
theorem CheckPassword_G_Timer1_Count (A B : Buf) (s : State) :
    (CheckPassword A B s).2.2.G_Timer1_Count = s.G_Timer1_Count := by
  obtain ⟨b, ev, h, -⟩ := CheckPassword_shape A B s
  rw [h]

@[simp]
theorem CheckPassword_i (A B : Buf) (s : State) :
    (CheckPassword A B s).2.2.i = s.i := by
  obtain ⟨b, ev, h, -⟩ := CheckPassword_shape A B s
  rw [h]

@[simp]
theorem CheckPassword_rx (A B : Buf) (s : State) :
    (CheckPassword A B s).2.2.rx = s.rx := by
  obtain ⟨b, ev, h, -⟩ := CheckPassword_shape A B s
  rw [h]

@[simp]
theorem CheckPassword_timer1 (A B : Buf) (s : State) :
    (CheckPassword A B s).2.2.timer1 = s.timer1 := by
  obtain ⟨b, ev, h, -⟩ := CheckPassword_shape A B s
  rw [h]

@[simp]
theorem CheckPassword_callBack (A B : Buf) (s : State) :
    (CheckPassword A B s).2.2.callBack = s.callBack := by
  obtain ⟨b, ev, h, -⟩ := CheckPassword_shape A B s
  rw [h]

@[simp]
theorem CheckPassword_eeprom (A B : Buf) (s : State) :
    (CheckPassword A B s).2.2.bus.eeprom = s.bus.eeprom := by
  obtain ⟨b, ev, h, he, -⟩ := CheckPassword_shape A B s
  rw [h]
  exact he

@[simp]
theorem CheckPassword_sentOf (A B : Buf) (s : State) :
    sentOf (CheckPassword A B s).2.2.trace = sentOf s.trace := by
  obtain ⟨b, ev, h, _, h1, -⟩ := CheckPassword_shape A B s
  rw [h]
  simp [sentOf_append, h1]

@[simp]
theorem CheckPassword_writesOf (A B : Buf) (s : State) :
    writesOf (CheckPassword A B s).2.2.trace = writesOf s.trace := by
  obtain ⟨b, ev, h, _, _, h2, -⟩ := CheckPassword_shape A B s
  rw [h]
  simp [writesOf_append, h2]

@[simp]
theorem CheckPassword_writeResultsOf (A B : Buf) (s : State) :
    writeResultsOf (CheckPassword A B s).2.2.trace = writeResultsOf s.trace := by
  obtain ⟨b, ev, h, _, _, _, h3, -⟩ := CheckPassword_shape A B s
  rw [h]
  simp [writeResultsOf_append, h3]

theorem first5_store5 (pass : Buf) (p0 p1 p2 p3 p4 : Nat) :
    Buf.first5 (((((pass.store 0 p0).store 1 p1).store 2 p2).store 3 p3).store 4 p4) =
      [p0, p1, p2, p3, p4] := by
  simp [Buf.first5, Buf.store]

theorem length_five {α : Type} (l : List α) (h : l.length = 5) :
    ∃ a b c d e, l = [a, b, c, d, e] := by
  match l, h with
  | [a, b, c, d, e], _ => exact ⟨a, b, c, d, e, rfl⟩

/-- The case `RECEIVE_FIRST_PASSWORD` on an input that starts with `HMI_READY`
and five bytes. -/
theorem case_RECEIVE_FIRST_PASSWORD_run (s : State) (p0 p1 p2 p3 p4 : Nat) (rest : List Nat)
    (h : s.rx = HMI_READY :: p0 :: p1 :: p2 :: p3 :: p4 :: rest) :
    case_RECEIVE_FIRST_PASSWORD s =
      some { s with
        rx := rest,
        trace := s.trace ++ [Ev.recv HMI_READY, Ev.send CONTROL_READY, Ev.recv p0,
          Ev.recv p1, Ev.recv p2, Ev.recv p3, Ev.recv p4, Ev.send PASS_RECEIVED],
        G_Pass1 := ((((s.G_Pass1.store 0 p0).store 1 p1).store 2 p2).store 3 p3).store 4 p4,
        Control_ECU_Sequence := (s.Control_ECU_Sequence + 1) % 256 } := by
  simp [case_RECEIVE_FIRST_PASSWORD, ReceivePassword_run s.G_Pass1 s p0 p1 p2 p3 p4 rest h]

/-- The case `RECEIVE_AND_CHECK_CONFIRMED_PASSWORD` on an input that starts
with `HMI_READY`, five bytes and `HMI_READY`. -/
theorem case_RECEIVE_AND_CHECK_CONFIRMED_PASSWORD_run (s : State) (q0 q1 q2 q3 q4 : Nat)
    (rest : List Nat)
    (h : s.rx = HMI_READY :: q0 :: q1 :: q2 :: q3 :: q4 :: HMI_READY :: rest) :
    case_RECEIVE_AND_CHECK_CONFIRMED_PASSWORD s =
      if Buf.first5 s.G_Pass1 = [q0, q1, q2, q3, q4] then
        some { SavePassword s.G_Pass1
                (UART_SendByte PASSWORDS_MATCHED (confirmReceived s q0 q1 q2 q3 q4 rest)) with
               Control_ECU_Sequence := (s.Control_ECU_Sequence + 1) % 256 }
      else
        some { UART_SendByte PASSWORDS_UNMATCHED (confirmReceived s q0 q1 q2 q3 q4 rest) with
               Control_ECU_Sequence := RECEIVE_FIRST_PASSWORD } := by
  have hc : (ComparePasswords s.G_Pass1
      (((((s.G_Pass2.store 0 q0).store 1 q1).store 2 q2).store 3 q3).store 4 q4) = PASSWORDS_MATCHED)
      ↔ Buf.first5 s.G_Pass1 = [q0, q1, q2, q3, q4] := by
    rw [ComparePasswords_matched_iff, first5_store5]
  simp only [case_RECEIVE_AND_CHECK_CONFIRMED_PASSWORD,
    ReceivePassword_run s.G_Pass2 s q0 q1 q2 q3 q4 (HMI_READY :: rest) h]
  rw [awaitByte_cons HMI_READY rest _ (by simp [UART_SendByte, State.log])]
  simp only [hc]
  split <;> simp [UART_SendByte, State.log, confirmReceived]

theorem step_RECEIVE_FIRST_PASSWORD (s : State)
    (h : s.Control_ECU_Sequence = RECEIVE_FIRST_PASSWORD) :
    step s = case_RECEIVE_FIRST_PASSWORD s := by
  simp [step, h]

theorem step_RECEIVE_AND_CHECK_CONFIRMED_PASSWORD (s : State)
    (h : s.Control_ECU_Sequence = RECEIVE_AND_CHECK_CONFIRMED_PASSWORD) :
    step s = case_RECEIVE_AND_CHECK_CONFIRMED_PASSWORD s := by
  simp [step, h]

theorem step_RECEIVING_MAIN_OPTION (s : State)
    (h : s.Control_ECU_Sequence = RECEIVING_MAIN_OPTION) :
    step s = case_RECEIVING_MAIN_OPTION s := by
  simp [step, h]

theorem step_OPEN_THE_DOOR (s : State) (h : s.Control_ECU_Sequence = OPEN_THE_DOOR) :
    step s = case_OPEN_THE_DOOR s := by
  simp [step, h]

theorem step_PASSWORD_ERROR (s : State) (h : s.Control_ECU_Sequence = PASSWORD_ERROR) :
    step s = case_PASSWORD_ERROR s := by
  simp [step, h]

theorem run_zero (s : State) : run 0 s = some s := rfl

theorem run_succ_of_step (n : Nat) (s s1 : State) (h : step s = some s1) :
    run (n + 1) s = run n s1 := by
  simp [run, h]

theorem run_two (s s1 s2 : State) (h1 : step s = some s1) (h2 : step s1 = some s2) :
    run 2 s = some s2 := by
  rw [run_succ_of_step 1 s s1 h1, run_succ_of_step 0 s1 s2 h2, run_zero]

/-- C3: enrollment success. From the state `RECEIVE_FIRST_PASSWORD`, on an
input that delivers the five bytes `P` and then the same five bytes again
(each after `HMI_READY`, followed by the `HMI_READY` of the verdict
handshake), two passes of the loop return; Control has sent the verdict
`PASSWORDS_MATCHED`, has called `EEPROM_WriteByte` exactly five times, with
`P[0..4]` for the addresses 0,1,2,3,4 in that order, and is in the state
`RECEIVING_MAIN_OPTION`; when the five calls return `SUCCESS` the cells
`0..4` hold `P`. -/
theorem C3_enrollment_success (s : State) (P rest : List Nat)
    (hseq : s.Control_ECU_Sequence = RECEIVE_FIRST_PASSWORD) (hP : P.length = 5)
    (hrx : s.rx = HMI_READY :: (P ++ HMI_READY :: (P ++ HMI_READY :: rest))) :
    ∃ s2, run 2 s = some s2 ∧
      sentOf s2.trace = sentOf s.trace ++
        [CONTROL_READY, PASS_RECEIVED, CONTROL_READY, PASS_RECEIVED, CONTROL_READY,
          PASSWORDS_MATCHED] ∧
      writesOf s2.trace = writesOf s.trace ++ List.zip [0, 1, 2, 3, 4] P ∧
      s2.Control_ECU_Sequence = RECEIVING_MAIN_OPTION ∧
      (writeResultsOf s2.trace = writeResultsOf s.trace ++ List.replicate 5 SUCCESS →
        Buf.first5 s2.bus.eeprom = P) := by
  obtain ⟨p0, p1, p2, p3, p4, rfl⟩ := length_five P hP
  obtain ⟨seq, g1, g2, cnt, i, rx, bus, t1, cb, tr⟩ := s
  simp only [List.cons_append, List.nil_append] at hrx hseq
  subst hrx hseq
  have h1 := case_RECEIVE_FIRST_PASSWORD_run
    ⟨RECEIVE_FIRST_PASSWORD, g1, g2, cnt, i,
      HMI_READY :: p0 :: p1 :: p2 :: p3 :: p4 :: HMI_READY :: p0 :: p1 :: p2 :: p3 :: p4 ::
        HMI_READY :: rest, bus, t1, cb, tr⟩
    p0 p1 p2 p3 p4 (HMI_READY :: p0 :: p1 :: p2 :: p3 :: p4 :: HMI_READY :: rest) rfl
  have h2 := case_RECEIVE_AND_CHECK_CONFIRMED_PASSWORD_run
    ⟨RECEIVE_AND_CHECK_CONFIRMED_PASSWORD,
      ((((g1.store 0 p0).store 1 p1).store 2 p2).store 3 p3).store 4 p4, g2, cnt, i,
      HMI_READY :: p0 :: p1 :: p2 :: p3 :: p4 :: HMI_READY :: rest, bus, t1, cb,
      tr ++ [Ev.recv HMI_READY, Ev.send CONTROL_READY, Ev.recv p0,
        Ev.recv p1, Ev.recv p2, Ev.recv p3, Ev.recv p4, Ev.send PASS_RECEIVED]⟩
    p0 p1 p2 p3 p4 rest rfl
  simp only [first5_store5, if_true] at h2
  obtain ⟨b, ev, hsave, _, _, _, _, hcells⟩ := SavePassword_shape
    (((((g1.store 0 p0).store 1 p1).store 2 p2).store 3 p3).store 4 p4)
    (UART_SendByte PASSWORDS_MATCHED (confirmReceived
      ⟨RECEIVE_AND_CHECK_CONFIRMED_PASSWORD,
        ((((g1.store 0 p0).store 1 p1).store 2 p2).store 3 p3).store 4 p4, g2, cnt, i,
        HMI_READY :: p0 :: p1 :: p2 :: p3 :: p4 :: HMI_READY :: rest, bus, t1, cb,
        tr ++ [Ev.recv HMI_READY, Ev.send CONTROL_READY, Ev.recv p0,
          Ev.recv p1, Ev.recv p2, Ev.recv p3, Ev.recv p4, Ev.send PASS_RECEIVED]⟩
      p0 p1 p2 p3 p4 rest))
  refine ⟨_, run_two _ _ _ ((step_RECEIVE_FIRST_PASSWORD _ rfl).trans h1)
    ((step_RECEIVE_AND_CHECK_CONFIRMED_PASSWORD _ rfl).trans h2), ?_, ?_, ?_, ?_⟩
  · simp [UART_SendByte, State.log, confirmReceived, sentOf_append, sentOf]
  · simp [UART_SendByte, State.log, confirmReceived, writesOf_append, writesOf, Buf.store]
  · rfl
  · intro hw
    simp only at hw ⊢
    rw [hsave] at hw ⊢
    have hev : writeResultsOf ev = List.replicate 5 SUCCESS := by
      simpa [UART_SendByte, State.log, confirmReceived, writeResultsOf_append, writeResultsOf]
        using hw
    simp only
    rw [hcells (fun r hr => by rw [hev] at hr; exact (List.mem_replicate.mp hr).2), first5_store5]

/-- C3 at the input of the scenario: password 1,2,3,4,5 entered and confirmed. -/
theorem C3_enrollment_success_witness :
    ∃ s2, run 2 (boot (HMI_READY :: ([1, 2, 3, 4, 5] ++ HMI_READY :: ([1, 2, 3, 4, 5] ++
        HMI_READY :: []))) goodSave (fun _ => 255)) = some s2 ∧
      sentOf s2.trace = sentOf (boot (HMI_READY :: ([1, 2, 3, 4, 5] ++ HMI_READY ::
        ([1, 2, 3, 4, 5] ++ HMI_READY :: []))) goodSave (fun _ => 255)).trace ++
        [CONTROL_READY, PASS_RECEIVED, CONTROL_READY, PASS_RECEIVED, CONTROL_READY,
          PASSWORDS_MATCHED] ∧
      writesOf s2.trace = writesOf (boot (HMI_READY :: ([1, 2, 3, 4, 5] ++ HMI_READY ::
        ([1, 2, 3, 4, 5] ++ HMI_READY :: []))) goodSave (fun _ => 255)).trace ++
          List.zip [0, 1, 2, 3, 4] [1, 2, 3, 4, 5] ∧
      s2.Control_ECU_Sequence = RECEIVING_MAIN_OPTION ∧
      (writeResultsOf s2.trace = writeResultsOf (boot (HMI_READY :: ([1, 2, 3, 4, 5] ++
        HMI_READY :: ([1, 2, 3, 4, 5] ++ HMI_READY :: []))) goodSave (fun _ => 255)).trace ++
          List.replicate 5 SUCCESS →
        Buf.first5 s2.bus.eeprom = [1, 2, 3, 4, 5]) :=
  C3_enrollment_success
    (boot (HMI_READY :: ([1, 2, 3, 4, 5] ++ HMI_READY :: ([1, 2, 3, 4, 5] ++ HMI_READY :: [])))
      goodSave (fun _ => 255))
    [1, 2, 3, 4, 5] [] rfl rfl rfl

/-- C4: enrollment mismatch. From the state `RECEIVE_FIRST_PASSWORD`, on an
input that delivers the five bytes `P` and then five bytes `Q` different from
`P`, two passes of the loop return; Control has called `EEPROM_WriteByte` not
once and has left the bus and the memory chip untouched, has sent the verdict
`PASSWORDS_UNMATCHED`, and is in the state `RECEIVE_FIRST_PASSWORD`. -/
theorem C4_enrollment_mismatch (s : State) (P Q rest : List Nat)
    (hseq : s.Control_ECU_Sequence = RECEIVE_FIRST_PASSWORD) (hP : P.length = 5)
    (hQ : Q.length = 5) (hne : P ≠ Q)
    (hrx : s.rx = HMI_READY :: (P ++ HMI_READY :: (Q ++ HMI_READY :: rest))) :
    ∃ s2, run 2 s = some s2 ∧
      writesOf s2.trace = writesOf s.trace ∧ s2.bus = s.bus ∧
      sentOf s2.trace = sentOf s.trace ++
        [CONTROL_READY, PASS_RECEIVED, CONTROL_READY, PASS_RECEIVED, CONTROL_READY,
          PASSWORDS_UNMATCHED] ∧
      s2.Control_ECU_Sequence = RECEIVE_FIRST_PASSWORD := by
  obtain ⟨p0, p1, p2, p3, p4, rfl⟩ := length_five P hP
  obtain ⟨q0, q1, q2, q3, q4, rfl⟩ := length_five Q hQ
  obtain ⟨seq, g1, g2, cnt, i, rx, bus, t1, cb, tr⟩ := s
  simp only [List.cons_append, List.nil_append] at hrx hseq
  subst hrx hseq
  have h1 := case_RECEIVE_FIRST_PASSWORD_run
    ⟨RECEIVE_FIRST_PASSWORD, g1, g2, cnt, i,
      HMI_READY :: p0 :: p1 :: p2 :: p3 :: p4 :: HMI_READY :: q0 :: q1 :: q2 :: q3 :: q4 ::
        HMI_READY :: rest, bus, t1, cb, tr⟩
    p0 p1 p2 p3 p4 (HMI_READY :: q0 :: q1 :: q2 :: q3 :: q4 :: HMI_READY :: rest) rfl
  have h2 := case_RECEIVE_AND_CHECK_CONFIRMED_PASSWORD_run
    ⟨RECEIVE_AND_CHECK_CONFIRMED_PASSWORD,
      ((((g1.store 0 p0).store 1 p1).store 2 p2).store 3 p3).store 4 p4, g2, cnt, i,
      HMI_READY :: q0 :: q1 :: q2 :: q3 :: q4 :: HMI_READY :: rest, bus, t1, cb,
      tr ++ [Ev.recv HMI_READY, Ev.send CONTROL_READY, Ev.recv p0,
        Ev.recv p1, Ev.recv p2, Ev.recv p3, Ev.recv p4, Ev.send PASS_RECEIVED]⟩
    q0 q1 q2 q3 q4 rest rfl
  simp only [first5_store5, hne, if_false] at h2
  refine ⟨_, run_two _ _ _ ((step_RECEIVE_FIRST_PASSWORD _ rfl).trans h1)
    ((step_RECEIVE_AND_CHECK_CONFIRMED_PASSWORD _ rfl).trans h2), ?_, ?_, ?_, ?_⟩
  · simp [UART_SendByte, State.log, confirmReceived, writesOf_append, writesOf]
  · rfl
  · simp [UART_SendByte, State.log, confirmReceived, sentOf_append, sentOf]
  · rfl

/-- C4 at the input of the scenario: 1,2,3,4,5 entered, 1,2,3,4,6 given as
confirmation. -/
theorem C4_enrollment_mismatch_witness :
    ∃ s2, run 2 (boot (HMI_READY :: ([1, 2, 3, 4, 5] ++ HMI_READY :: ([1, 2, 3, 4, 6] ++
        HMI_READY :: []))) goodSave (fun _ => 255)) = some s2 ∧
      writesOf s2.trace = writesOf (boot (HMI_READY :: ([1, 2, 3, 4, 5] ++ HMI_READY ::
        ([1, 2, 3, 4, 6] ++ HMI_READY :: []))) goodSave (fun _ => 255)).trace ∧
      s2.bus = (boot (HMI_READY :: ([1, 2, 3, 4, 5] ++ HMI_READY ::
        ([1, 2, 3, 4, 6] ++ HMI_READY :: []))) goodSave (fun _ => 255)).bus ∧
      sentOf s2.trace = sentOf (boot (HMI_READY :: ([1, 2, 3, 4, 5] ++ HMI_READY ::
        ([1, 2, 3, 4, 6] ++ HMI_READY :: []))) goodSave (fun _ => 255)).trace ++
        [CONTROL_READY, PASS_RECEIVED, CONTROL_READY, PASS_RECEIVED, CONTROL_READY,
          PASSWORDS_UNMATCHED] ∧
      s2.Control_ECU_Sequence = RECEIVE_FIRST_PASSWORD :=
  C4_enrollment_mismatch
    (boot (HMI_READY :: ([1, 2, 3, 4, 5] ++ HMI_READY :: ([1, 2, 3, 4, 6] ++ HMI_READY :: [])))
      goodSave (fun _ => 255))
    [1, 2, 3, 4, 5] [1, 2, 3, 4, 6] [] rfl rfl rfl (by decide) rfl

/-! ### What one pass of the loop can do, case by case -/

/-- A pass in the state `RECEIVE_FIRST_PASSWORD` that returns. -/
theorem case_RECEIVE_FIRST_PASSWORD_some (s s1 : State)
    (h : case_RECEIVE_FIRST_PASSWORD s = some s1) :
    ∃ (p : Buf) (r : List Nat) (ev : List Ev),
      s1 = { s with rx := r, trace := s.trace ++ ev, G_Pass1 := p,
                    Control_ECU_Sequence := (s.Control_ECU_Sequence + 1) % 256 } ∧
      sentOf ev = [CONTROL_READY, PASS_RECEIVED] ∧ writesOf ev = [] ∧
      writeResultsOf ev = [] ∧ readResultsOf ev = [] := by
  unfold case_RECEIVE_FIRST_PASSWORD at h
  split at h
  · exact absurd h (by simp)
  · rename_i p s2 hrecv
    obtain ⟨r, ev, rfl, h1, h2, h3, h4⟩ := ReceivePassword_some _ _ _ _ hrecv
    simp only [Option.some.injEq] at h
    exact ⟨p, r, ev, h.symm, h1, h2, h3, h4⟩

/-- A pass in the state `RECEIVE_AND_CHECK_CONFIRMED_PASSWORD` that returns:
either the two entries agree on the indices `0..4`, the verdict is
`PASSWORDS_MATCHED`, the first entry is saved (five calls of
`EEPROM_WriteByte`) and the state advances; or they do not agree, the verdict
is `PASSWORDS_UNMATCHED`, nothing touches the bus and the state is
`RECEIVE_FIRST_PASSWORD`. -/
theorem case_RECEIVE_AND_CHECK_CONFIRMED_PASSWORD_some (s s1 : State)
    (h : case_RECEIVE_AND_CHECK_CONFIRMED_PASSWORD s = some s1) :
    ∃ (p : Buf) (r : List Nat) (ev : List Ev),
      sentOf ev = [CONTROL_READY, PASS_RECEIVED, CONTROL_READY] ∧ writesOf ev = [] ∧
      writeResultsOf ev = [] ∧ readResultsOf ev = [] ∧
      ((Buf.first5 s.G_Pass1 = Buf.first5 p ∧
          ∃ (b : Bus) (ev2 : List Ev),
            s1 = { s with rx := r, G_Pass2 := p, bus := b,
                          trace := s.trace ++ (ev ++ [Ev.send PASSWORDS_MATCHED] ++ ev2),
                          Control_ECU_Sequence := (s.Control_ECU_Sequence + 1) % 256 } ∧
            sentOf ev2 = [] ∧ readResultsOf ev2 = [] ∧
            writesOf ev2 = [(0, s.G_Pass1 0), (1, s.G_Pass1 1), (2, s.G_Pass1 2),
              (3, s.G_Pass1 3), (4, s.G_Pass1 4)] ∧
            (writeResultsOf ev2).length = 5 ∧
            ((∀ x ∈ writeResultsOf ev2, x = SUCCESS) →
              Buf.first5 b.eeprom = Buf.first5 s.G_Pass1)) ∨
        (Buf.first5 s.G_Pass1 ≠ Buf.first5 p ∧
          s1 = { s with rx := r, G_Pass2 := p,
                        trace := s.trace ++ (ev ++ [Ev.send PASSWORDS_UNMATCHED]),
                        Control_ECU_Sequence := RECEIVE_FIRST_PASSWORD })) := by
  unfold case_RECEIVE_AND_CHECK_CONFIRMED_PASSWORD at h
  split at h
  · exact absurd h (by simp)
  · rename_i p s2 hrecv
    obtain ⟨r, ev, rfl, h1, h2, h3, h4⟩ := ReceivePassword_some _ _ _ _ hrecv
    simp only at h
    split at h
    · exact absurd h (by simp)
    · rename_i s3 hwait
      obtain ⟨r2, ev2, rfl, q⟩ := awaitByte_some _ _ _ hwait
      refine ⟨p, r2, ev ++ [Ev.send CONTROL_READY] ++ ev2, ?_, ?_, ?_, ?_, ?_⟩
      · simp [sentOf_append, h1, q.1, sentOf]
      · simp [writesOf_append, h2, q.2.1, writesOf]
      · simp [writeResultsOf_append, h3, q.2.2.1, writeResultsOf]
      · simp [readResultsOf_append, h4, q.2.2.2, readResultsOf]
      · split at h
        · rename_i hm
          left
          refine ⟨(ComparePasswords_matched_iff _ _).mp hm, ?_⟩
          simp only [Option.some.injEq] at h
          generalize hX : UART_SendByte PASSWORDS_MATCHED _ = X at h
          generalize hG : (UART_SendByte CONTROL_READY _).G_Pass1 = G at h
          have hg : G = s.G_Pass1 := by
            rw [← hG]
            rfl
          subst hg
          obtain ⟨b, ev3, hsave, c1, c2, c3, c4, c5⟩ := SavePassword_shape s.G_Pass1 X
          rw [hsave] at h
          subst hX
          refine ⟨b, ev3, ?_, c1, c2, c3, c4, c5⟩
          rw [← h]
          simp [UART_SendByte, State.log]
        · rename_i hm
          right
          refine ⟨fun e => hm ((ComparePasswords_matched_iff _ _).mpr e), ?_⟩
          simp only [Option.some.injEq] at h
          rw [← h]
          simp [UART_SendByte, State.log]

/-- The verdict part of a pass in `RECEIVING_MAIN_OPTION` that returns: the
entry is received, the stored bytes are read, and either the verdict is
`PASSWORDS_MATCHED` and the state is the one given for a match, or the verdict
is `PASSWORDS_UNMATCHED`, the counter `i` is incremented and the state is
`RECEIVING_MAIN_OPTION`. No cell of the chip changes. -/
theorem mainOptionBranch_some (onMatch : Nat) (s s1 : State)
    (h : mainOptionBranch onMatch s = some s1) :
    ∃ (p p2 : Buf) (r : List Nat) (b : Bus) (ev : List Ev),
      b.eeprom = s.bus.eeprom ∧ writesOf ev = [] ∧ writeResultsOf ev = [] ∧
      ((sentOf ev = [CONTROL_READY, PASS_RECEIVED, CONTROL_READY, PASSWORDS_MATCHED] ∧
          s1 = { s with rx := r, G_Pass1 := p, G_Pass2 := p2, bus := b,
                        trace := s.trace ++ ev, Control_ECU_Sequence := onMatch }) ∨
        (sentOf ev = [CONTROL_READY, PASS_RECEIVED, CONTROL_READY, PASSWORDS_UNMATCHED] ∧
          s1 = { s with rx := r, G_Pass1 := p, G_Pass2 := p2, bus := b,
                        trace := s.trace ++ ev, i := (s.i + 1) % 256,
                        Control_ECU_Sequence := RECEIVING_MAIN_OPTION })) := by
  unfold mainOptionBranch at h
  split at h
  · exact absurd h (by simp)
  · rename_i p s2 hrecv
    obtain ⟨r, ev, rfl, h1, h2, h3, h4⟩ := ReceivePassword_some _ _ _ _ hrecv
    simp only at h
    obtain ⟨b, ev2, hc, he, c1, c2, c3, -⟩ := CheckPassword_shape p s.G_Pass2
      { s with rx := r, trace := s.trace ++ ev, G_Pass1 := p }
    rw [hc] at h
    split at h
    · exact absurd h (by simp)
    · rename_i s3 hwait
      obtain ⟨r2, ev3, rfl, q⟩ := awaitByte_some _ _ _ hwait
      split at h
      · simp only [Option.some.injEq] at h
        refine ⟨p, (CheckPassword p s.G_Pass2
            { s with rx := r, trace := s.trace ++ ev, G_Pass1 := p }).2.1, r2, b,
          ev ++ ev2 ++ [Ev.send CONTROL_READY] ++ ev3 ++ [Ev.send PASSWORDS_MATCHED],
          he, ?_, ?_, Or.inl ⟨?_, ?_⟩⟩
        · simp [writesOf_append, h2, c2, q.2.1, writesOf]
        · simp [writeResultsOf_append, h3, c3, q.2.2.1, writeResultsOf]
        · simp [sentOf_append, h1, c1, q.1, sentOf]
        · rw [← h]
          simp [UART_SendByte, State.log]
      · simp only [Option.some.injEq] at h
        refine ⟨p, (CheckPassword p s.G_Pass2
            { s with rx := r, trace := s.trace ++ ev, G_Pass1 := p }).2.1, r2, b,
          ev ++ ev2 ++ [Ev.send CONTROL_READY] ++ ev3 ++ [Ev.send PASSWORDS_UNMATCHED],
          he, ?_, ?_, Or.inr ⟨?_, ?_⟩⟩
        · simp [writesOf_append, h2, c2, q.2.1, writesOf]
        · simp [writeResultsOf_append, h3, c3, q.2.2.1, writeResultsOf]
        · simp [sentOf_append, h1, c1, q.1, sentOf]
        · rw [← h]
          simp [UART_SendByte, State.log]

/-- A pass in the state `RECEIVING_MAIN_OPTION` that returns: the verdict sent
is `PASSWORDS_MATCHED` or `PASSWORDS_UNMATCHED`; the counter `i` grows by one
exactly on a mismatch; the final test `i == 3` then decides between
`PASSWORD_ERROR` with `i = 0` and the state chosen before. No cell of the chip
changes and `EEPROM_WriteByte` is not called. -/
theorem case_RECEIVING_MAIN_OPTION_some (s s1 : State)
    (h : case_RECEIVING_MAIN_OPTION s = some s1) :
    ∃ (Result : Nat) (p p2 : Buf) (r : List Nat) (b : Bus) (ev : List Ev),
      b.eeprom = s.bus.eeprom ∧ writesOf ev = [] ∧ writeResultsOf ev = [] ∧
      ((sentOf ev = [CONTROL_READY, CONTROL_READY, PASS_RECEIVED, CONTROL_READY,
            PASSWORDS_MATCHED] ∧
          s1 = { s with rx := r, G_Pass1 := p, G_Pass2 := p2, bus := b,
                        trace := s.trace ++ ev,
                        i := if s.i = 3 then 0 else s.i,
                        Control_ECU_Sequence :=
                          if s.i = 3 then PASSWORD_ERROR
                          else if Result = 43 then OPEN_THE_DOOR else RECEIVE_FIRST_PASSWORD }) ∨
        (sentOf ev = [CONTROL_READY, CONTROL_READY, PASS_RECEIVED, CONTROL_READY,
            PASSWORDS_UNMATCHED] ∧
          s1 = { s with rx := r, G_Pass1 := p, G_Pass2 := p2, bus := b,
                        trace := s.trace ++ ev,
                        i := if (s.i + 1) % 256 = 3 then 0 else (s.i + 1) % 256,
                        Control_ECU_Sequence :=
                          if (s.i + 1) % 256 = 3 then PASSWORD_ERROR
                          else RECEIVING_MAIN_OPTION })) := by
  unfold case_RECEIVING_MAIN_OPTION at h
  split at h
  · exact absurd h (by simp)
  · rename_i s2 hwait
    obtain ⟨r1, ev1, rfl, q1⟩ := awaitByte_some _ _ _ hwait
    split at h
    · exact absurd h (by simp)
    · rename_i Result s3 hrecv
      obtain ⟨r2, _, rfl⟩ := UART_ReceiveByte_some _ _ _ hrecv
      split at h
      · exact absurd h (by simp)
      · rename_i s4 hbranch
        have hb : ∃ onMatch, onMatch = (if Result = 43 then OPEN_THE_DOOR
            else RECEIVE_FIRST_PASSWORD) ∧ mainOptionBranch onMatch
              { UART_SendByte CONTROL_READY
                  { s with rx := r1, trace := s.trace ++ ev1 } with
                rx := r2,
                trace := (UART_SendByte CONTROL_READY
                  { s with rx := r1, trace := s.trace ++ ev1 }).trace ++ [Ev.recv Result] }
              = some s4 := by
          by_cases hR : Result = 43
          · exact ⟨OPEN_THE_DOOR, by simp [hR], by simpa [hR] using hbranch⟩
          · exact ⟨RECEIVE_FIRST_PASSWORD, by simp [hR], by simpa [hR] using hbranch⟩
        obtain ⟨onMatch, hon, hbr⟩ := hb
        obtain ⟨p, p2, r, b, ev, he, w1, w2, hcase⟩ := mainOptionBranch_some _ _ _ hbr
        refine ⟨Result, p, p2, r, b,
          ev1 ++ [Ev.send CONTROL_READY, Ev.recv Result] ++ ev, he, ?_, ?_, ?_⟩
        · simp [writesOf_append, q1.2.1, w1, writesOf]
        · simp [writeResultsOf_append, q1.2.2.1, w2, writeResultsOf]
        · rcases hcase with ⟨hs, rfl⟩ | ⟨hs, rfl⟩
          · left
            refine ⟨by simp [sentOf_append, q1.1, hs, sentOf], ?_⟩
            simp only [UART_SendByte, State.log] at h ⊢
            split at h
            · rename_i h3
              simp only [Option.some.injEq] at h
              rw [← h]
              simp [h3]
            · rename_i h3
              simp only [Option.some.injEq] at h
              rw [← h]
              simp [h3, hon]
          · right
            refine ⟨by simp [sentOf_append, q1.1, hs, sentOf], ?_⟩
            simp only [UART_SendByte, State.log] at h ⊢
            split at h
            · rename_i h3
              simp only [Option.some.injEq] at h
              rw [← h]
              simp [h3]
            · rename_i h3
              simp only [Option.some.injEq] at h
              rw [← h]
              simp [h3]

/-- A pass in the state `OPEN_THE_DOOR` that returns changes neither the
counter `i`, nor the buffers, nor the bus; it calls no storage function and
ends in `RECEIVING_MAIN_OPTION` with the tick counter at 0. -/
theorem case_OPEN_THE_DOOR_some (s s1 : State) (h : case_OPEN_THE_DOOR s = some s1) :
    ∃ (r : List Nat) (ev : List Ev),
      s1 = { s with rx := r, trace := s.trace ++ ev, G_Timer1_Count := 0, timer1 := false,
                    callBack := true, Control_ECU_Sequence := RECEIVING_MAIN_OPTION } ∧
      sentOf ev = [CONTROL_READY] ∧ writesOf ev = [] ∧ writeResultsOf ev = [] ∧
      readResultsOf ev = [] := by
  unfold case_OPEN_THE_DOOR at h
  split at h
  · exact absurd h (by simp)
  · rename_i s2 hw1
    obtain ⟨r1, ev1, rfl, q1⟩ := awaitByte_some _ _ _ hw1
    split at h
    · exact absurd h (by simp)
    · rename_i s3 hw2
      obtain ⟨r2, ev2, rfl, q2⟩ := awaitByte_some _ _ _ hw2
      simp only at h
      split at h
      · exact absurd h (by simp)
      · rename_i s4 ht1
        obtain ⟨c1, ev3, rfl, q3⟩ := waitTicks_some _ _ _ ht1
        split at h
        · exact absurd h (by simp)
        · rename_i s5 ht2
          obtain ⟨c2, ev4, rfl, q4⟩ := waitTicks_some _ _ _ ht2
          split at h
          · exact absurd h (by simp)
          · rename_i s6 ht3
            obtain ⟨c3, ev5, rfl, q5⟩ := waitTicks_some _ _ _ ht3
            simp only [Option.some.injEq] at h
            refine ⟨r2, ev1 ++ [Ev.send CONTROL_READY] ++ ev2 ++
              [Ev.timer0Init, Ev.timer1Init, Ev.timer1SetCallBack,
                Ev.motor DcMotor_State.CW 100] ++ ev3 ++ [Ev.motor DcMotor_State.STOP 0] ++ ev4 ++
              [Ev.motor DcMotor_State.A_CW 100] ++ ev5 ++
              [Ev.motor DcMotor_State.STOP 0, Ev.timer1DeInit, Ev.timer0DeInit], ?_, ?_, ?_, ?_, ?_⟩
            · rw [← h]
              simp [UART_SendByte, State.log, Timer0_PWM_Mode_Init, Timer1_NonPWm_Mode_Init,
                Timer1_SetCallBack, DcMotor_Rotate, Timer1_DeInit, Timer0_DeInit]
            · simp [sentOf_append, q1.1, q2.1, q3.1, q4.1, q5.1, sentOf]
            · simp [writesOf_append, q1.2.1, q2.2.1, q3.2.1, q4.2.1, q5.2.1, writesOf]
            · simp [writeResultsOf_append, q1.2.2.1, q2.2.2.1, q3.2.2.1, q4.2.2.1, q5.2.2.1,
                writeResultsOf]
            · simp [readResultsOf_append, q1.2.2.2, q2.2.2.2, q3.2.2.2, q4.2.2.2, q5.2.2.2,
                readResultsOf]

/-- A pass in the state `PASSWORD_ERROR` that returns changes neither the
counter `i`, nor the buffers, nor the bus; it calls no storage function and
ends in `RECEIVING_MAIN_OPTION` with the tick counter at 0. -/
theorem case_PASSWORD_ERROR_some (s s1 : State) (h : case_PASSWORD_ERROR s = some s1) :
    ∃ (r : List Nat) (ev : List Ev),
      s1 = { s with rx := r, trace := s.trace ++ ev, G_Timer1_Count := 0, timer1 := false,
                    callBack := true, Control_ECU_Sequence := RECEIVING_MAIN_OPTION } ∧
      sentOf ev = [CONTROL_READY, DISPLAY_ERROR] ∧ writesOf ev = [] ∧ writeResultsOf ev = [] ∧
      readResultsOf ev = [] := by
  unfold case_PASSWORD_ERROR at h
  split at h
  · exact absurd h (by simp)
  · rename_i s2 hw1
    obtain ⟨r1, ev1, rfl, q1⟩ := awaitByte_some _ _ _ hw1
    simp only at h
    split at h
    · exact absurd h (by simp)
    · rename_i s3 ht1
      obtain ⟨c1, ev2, rfl, q2⟩ := waitTicks_some _ _ _ ht1
      simp only [Option.some.injEq] at h
      refine ⟨r1, [Ev.send CONTROL_READY] ++ ev1 ++
        [Ev.send DISPLAY_ERROR, Ev.timer1Init, Ev.timer1SetCallBack, Ev.buzzer true] ++ ev2 ++
        [Ev.buzzer false, Ev.timer1DeInit], ?_, ?_, ?_, ?_, ?_⟩
      · rw [← h]
        simp [UART_SendByte, State.log, Timer1_NonPWm_Mode_Init, Timer1_SetCallBack, Buzzer_ON,
          Buzzer_OFF, Timer1_DeInit]
      · simp [sentOf_append, q1.1, q2.1, sentOf]
      · simp [writesOf_append, q1.2.1, q2.2.1, writesOf]
      · simp [writeResultsOf_append, q1.2.2.1, q2.2.2.1, writeResultsOf]
      · simp [readResultsOf_append, q1.2.2.2, q2.2.2.2, readResultsOf]

/-! ### Facts that hold along every run -/

/-- The states a `switch` without `default:` passes through unchanged. -/
theorem step_other (s : State) (h0 : s.Control_ECU_Sequence ≠ RECEIVE_FIRST_PASSWORD)
    (h1 : s.Control_ECU_Sequence ≠ RECEIVE_AND_CHECK_CONFIRMED_PASSWORD)
    (h2 : s.Control_ECU_Sequence ≠ RECEIVING_MAIN_OPTION)
    (h3 : s.Control_ECU_Sequence ≠ OPEN_THE_DOOR)
    (h4 : s.Control_ECU_Sequence ≠ PASSWORD_ERROR) : step s = some s := by
  simp [step, h0, h1, h2, h3, h4]

/-- One pass of the loop keeps the failure counter below 3 and the sequence
variable among the five cases. -/
theorem step_inv (s s1 : State) (hi : s.i < 3) (hq : s.Control_ECU_Sequence ≤ 4)
    (h : step s = some s1) : s1.i < 3 ∧ s1.Control_ECU_Sequence ≤ 4 := by
  have hcases : s.Control_ECU_Sequence = 0 ∨ s.Control_ECU_Sequence = 1 ∨
      s.Control_ECU_Sequence = 2 ∨ s.Control_ECU_Sequence = 3 ∨ s.Control_ECU_Sequence = 4 := by
    omega
  rcases hcases with h0 | h0 | h0 | h0 | h0
  · rw [step_RECEIVE_FIRST_PASSWORD s h0] at h
    obtain ⟨p, r, ev, rfl, -⟩ := case_RECEIVE_FIRST_PASSWORD_some s s1 h
    simp [hi, h0]
  · rw [step_RECEIVE_AND_CHECK_CONFIRMED_PASSWORD s h0] at h
    obtain ⟨p, r, ev, _, _, _, _, hc⟩ := case_RECEIVE_AND_CHECK_CONFIRMED_PASSWORD_some s s1 h
    rcases hc with ⟨_, b, ev2, rfl, -⟩ | ⟨_, rfl⟩
    · simp [hi, h0]
    · simp [hi]
  · rw [step_RECEIVING_MAIN_OPTION s h0] at h
    obtain ⟨c, p, p2, r, b, ev, _, _, _, hc⟩ := case_RECEIVING_MAIN_OPTION_some s s1 h
    rcases hc with ⟨_, rfl⟩ | ⟨_, rfl⟩
    · have h3 : s.i ≠ 3 := by omega
      simp only [h3, if_false]
      refine ⟨hi, ?_⟩
      split <;> decide
    · simp only
      have hm : (s.i + 1) % 256 = s.i + 1 := Nat.mod_eq_of_lt (by omega)
      rw [hm]
      split
      · exact ⟨by decide, by decide⟩
      · exact ⟨by omega, by decide⟩
  · rw [step_OPEN_THE_DOOR s h0] at h
    obtain ⟨r, ev, rfl, -⟩ := case_OPEN_THE_DOOR_some s s1 h
    exact ⟨hi, (by decide : RECEIVING_MAIN_OPTION ≤ 4)⟩
  · rw [step_PASSWORD_ERROR s h0] at h
    obtain ⟨r, ev, rfl, -⟩ := case_PASSWORD_ERROR_some s s1 h
    exact ⟨hi, (by decide : RECEIVING_MAIN_OPTION ≤ 4)⟩

/-- At the top of the loop, in every run from boot, the failure counter is
below 3 and the sequence variable is one of the five cases. -/
theorem run_boot_inv (rx twsr : List Nat) (ee : Nat → Nat) :
    ∀ (n : Nat) (s : State), run n (boot rx twsr ee) = some s →
      s.i < 3 ∧ s.Control_ECU_Sequence ≤ 4 := by
  have gen : ∀ (n : Nat) (s0 s : State), s0.i < 3 → s0.Control_ECU_Sequence ≤ 4 →
      run n s0 = some s → s.i < 3 ∧ s.Control_ECU_Sequence ≤ 4 := by
    intro n
    induction n with
    | zero =>
      intro s0 s hi hq h
      simp only [run, Option.some.injEq] at h
      subst h
      exact ⟨hi, hq⟩
    | succ n ih =>
      intro s0 s hi hq h
      simp only [run] at h
      split at h
      · exact absurd h (by simp)
      · rename_i s1 hs1
        obtain ⟨hi1, hq1⟩ := step_inv s0 s1 hi hq hs1
        exact ih s1 s hi1 hq1 h
  intro n s h
  exact gen n (boot rx twsr ee) s (by simp [boot, UART_SendByte, State.log])
    (by simp [boot, UART_SendByte, State.log]) h

/-- The last pass of a run: a run of `n + 1` passes is a run of `n` passes
followed by one more pass. -/
theorem run_succ_last (n : Nat) : ∀ (s s2 : State),
    run (n + 1) s = some s2 ↔ ∃ s1, run n s = some s1 ∧ step s1 = some s2 := by
  induction n with
  | zero =>
    intro s s2
    simp only [run]
    constructor
    · intro h
      refine ⟨s, rfl, ?_⟩
      split at h
      · exact absurd h (by simp)
      · rename_i s1 hs1
        rw [hs1, h]
    · rintro ⟨s1, h1, h2⟩
      simp only [Option.some.injEq] at h1
      subst h1
      rw [h2]
  | succ n ih =>
    intro s s2
    constructor
    · intro h
      rw [run] at h
      split at h
      · exact absurd h (by simp)
      · rename_i s1 hs1
        obtain ⟨m, hm1, hm2⟩ := (ih s1 s2).mp h
        exact ⟨m, by rw [run_succ_of_step n s s1 hs1]; exact hm1, hm2⟩
    · rintro ⟨m, hm1, hm2⟩
      rw [run] at hm1
      split at hm1
      · exact absurd hm1 (by simp)
      · rename_i s1 hs1
        rw [run_succ_of_step (n + 1) s s1 hs1]
        exact (ih s1 s2).mpr ⟨m, hm1, hm2⟩

/-- What one pass of the loop does to the storage: it extends the trace, and
either it is a pass in `RECEIVE_AND_CHECK_CONFIRMED_PASSWORD` whose two
entries agree, which ends in `RECEIVING_MAIN_OPTION` and, when every write
call of the trace has returned `SUCCESS`, leaves the confirmed entry in the
cells `0..4`; or it leaves every cell as it was. -/
theorem step_storage (s s1 : State) (h : step s = some s1) :
    (∃ ev, s1.trace = s.trace ++ ev) ∧
      ((s.Control_ECU_Sequence = RECEIVE_AND_CHECK_CONFIRMED_PASSWORD ∧
          s1.Control_ECU_Sequence = RECEIVING_MAIN_OPTION ∧
          Buf.first5 s1.G_Pass2 = Buf.first5 s1.G_Pass1 ∧
          ((∀ r ∈ writeResultsOf s1.trace, r = SUCCESS) →
            Buf.first5 s1.bus.eeprom = Buf.first5 s1.G_Pass1)) ∨
        s1.bus.eeprom = s.bus.eeprom) := by
  by_cases h0 : s.Control_ECU_Sequence = RECEIVE_FIRST_PASSWORD
  · rw [step_RECEIVE_FIRST_PASSWORD s h0] at h
    obtain ⟨p, r, ev, rfl, -⟩ := case_RECEIVE_FIRST_PASSWORD_some s s1 h
    exact ⟨⟨ev, rfl⟩, Or.inr rfl⟩
  by_cases h1 : s.Control_ECU_Sequence = RECEIVE_AND_CHECK_CONFIRMED_PASSWORD
  · rw [step_RECEIVE_AND_CHECK_CONFIRMED_PASSWORD s h1] at h
    obtain ⟨p, r, ev, _, _, _, _, hc⟩ := case_RECEIVE_AND_CHECK_CONFIRMED_PASSWORD_some s s1 h
    rcases hc with ⟨hm, b, ev2, rfl, _, _, _, _, hcells⟩ | ⟨_, rfl⟩
    · refine ⟨⟨_, rfl⟩, Or.inl ⟨h1, ?_, ?_, ?_⟩⟩
      · simp only [h1]
        rfl
      · simp [hm]
      · intro hall
        exact hcells (fun x hx => hall x (by simp [writeResultsOf_append, writeResultsOf, hx]))
    · exact ⟨⟨_, rfl⟩, Or.inr rfl⟩
  by_cases h2 : s.Control_ECU_Sequence = RECEIVING_MAIN_OPTION
  · rw [step_RECEIVING_MAIN_OPTION s h2] at h
    obtain ⟨c, p, p2, r, b, ev, he, _, _, hc⟩ := case_RECEIVING_MAIN_OPTION_some s s1 h
    rcases hc with ⟨_, rfl⟩ | ⟨_, rfl⟩
    · exact ⟨⟨ev, rfl⟩, Or.inr he⟩
    · exact ⟨⟨ev, rfl⟩, Or.inr he⟩
  by_cases h3 : s.Control_ECU_Sequence = OPEN_THE_DOOR
  · rw [step_OPEN_THE_DOOR s h3] at h
    obtain ⟨r, ev, rfl, -⟩ := case_OPEN_THE_DOOR_some s s1 h
    exact ⟨⟨ev, rfl⟩, Or.inr rfl⟩
  by_cases h4 : s.Control_ECU_Sequence = PASSWORD_ERROR
  · rw [step_PASSWORD_ERROR s h4] at h
    obtain ⟨r, ev, rfl, -⟩ := case_PASSWORD_ERROR_some s s1 h
    exact ⟨⟨ev, rfl⟩, Or.inr rfl⟩
  · rw [step_other s h0 h1 h2 h3 h4] at h
    simp only [Option.some.injEq] at h
    subst h
    exact ⟨⟨[], by simp⟩, Or.inr rfl⟩

theorem some_getD_of_isSome {α : Type} (o : Option α) (d : α) (h : o.isSome = true) :
    o = some (o.getD d) := by
  cases o with
  | none => exact absurd h (by simp)
  | some a => rfl

/-- C5, counterexample: the password 1,2,3,4,5 is entered and confirmed
on a bus where the first byte write succeeds and the second fails at its first
status check (status 0x00), as do all later ones. After the two passes Control
is at the top of its loop in `RECEIVING_MAIN_OPTION`, and the cells `0..4` hold
1,255,255,255,255: the first digit of the confirmed password followed by four
bytes of the initial contents (255 everywhere). -/
theorem C5_partial_write_counterexample :
    (run 2 (boot (enrollInput [1, 2, 3, 4, 5] [1, 2, 3, 4, 5]) (goodWrite ++ [0x00])
        (fun _ => 255))).map
      (fun s => (s.Control_ECU_Sequence, Buf.first5 s.bus.eeprom, Buf.first5 s.G_Pass1,
        Buf.first5 s.G_Pass2, writeResultsOf s.trace)) =
      some (RECEIVING_MAIN_OPTION, [1, 255, 255, 255, 255], [1, 2, 3, 4, 5], [1, 2, 3, 4, 5],
        [SUCCESS, ERROR, ERROR, ERROR, ERROR]) := by
  decide

/-- C5, amended: in every run of Control from boot and for every behaviour
of the bus, whenever Control is at the top of its loop and every call of
`EEPROM_WriteByte` made so far has returned `SUCCESS`, the cells `0..4` either
all hold their initial contents or all hold the five bytes of one fully
confirmed password (entry and confirmation received and found equal in an
earlier pass of the run). -/
theorem C5_never_partial_while_writes_succeed (rx twsr : List Nat) (ee : Nat → Nat) :
    ∀ (n : Nat) (s : State), run n (boot rx twsr ee) = some s →
      (∀ x ∈ writeResultsOf s.trace, x = SUCCESS) →
      Buf.first5 s.bus.eeprom = Buf.first5 ee ∨
        ∃ m P, m < n ∧ ConfirmedAt (boot rx twsr ee) m P ∧ Buf.first5 s.bus.eeprom = P := by
  intro n
  induction n with
  | zero =>
    intro s hrun _
    simp only [run, Option.some.injEq] at hrun
    subst hrun
    exact Or.inl rfl
  | succ n ih =>
    intro s hrun hok
    obtain ⟨s1, hs1, hstep⟩ := (run_succ_last n _ s).mp hrun
    obtain ⟨⟨ev, htr⟩, hor⟩ := step_storage s1 s hstep
    have hok1 : ∀ x ∈ writeResultsOf s1.trace, x = SUCCESS := fun x hx =>
      hok x (by rw [htr, writeResultsOf_append]; exact List.mem_append_left _ hx)
    rcases hor with ⟨hq1, hq2, hPP, hcells⟩ | hsame
    · exact Or.inr ⟨n, Buf.first5 s.G_Pass1, Nat.lt_succ_self n,
        ⟨s1, s, hs1, hq1, hstep, hq2, rfl, hPP⟩, hcells hok⟩
    · rcases ih s1 hs1 hok1 with h | ⟨m, P, hm, hc, hP⟩
      · exact Or.inl (by rw [hsame]; exact h)
      · exact Or.inr ⟨m, P, Nat.lt_succ_of_lt hm, hc, by rw [hsame]; exact hP⟩

/-- C5, amended, at a concrete run: password 1,2,3,4,5 entered, confirmed
and saved on a bus that works. -/
theorem C5_never_partial_while_writes_succeed_witness :
    Buf.first5 (enrolled [] []).bus.eeprom = Buf.first5 (fun _ => 255) ∨
      ∃ m P, m < 2 ∧
        ConfirmedAt (boot (enrollInput [1, 2, 3, 4, 5] [1, 2, 3, 4, 5] ++ []) (goodSave ++ [])
          (fun _ => 255)) m P ∧
        Buf.first5 (enrolled [] []).bus.eeprom = P :=
  C5_never_partial_while_writes_succeed _ _ _ 2 (enrolled [] [])
    (some_getD_of_isSome _ _ (by decide)) (by decide)

/-- The pass in `RECEIVING_MAIN_OPTION` on an input that starts with
`HMI_READY`, a command byte, `HMI_READY`, five bytes and `HMI_READY`. -/
theorem case_RECEIVING_MAIN_OPTION_run (s : State) (cmd e0 e1 e2 e3 e4 : Nat) (rest : List Nat)
    (h : s.rx = HMI_READY :: cmd :: HMI_READY :: e0 :: e1 :: e2 :: e3 :: e4 :: HMI_READY :: rest) :
    case_RECEIVING_MAIN_OPTION s =
      some (optionOutcome s.i cmd
        (CheckPassword (((((s.G_Pass1.store 0 e0).store 1 e1).store 2 e2).store 3 e3).store 4 e4)
          s.G_Pass2 (optionReceived s cmd e0 e1 e2 e3 e4 (HMI_READY :: rest))) rest) := by
  obtain ⟨seq, g1, g2, cnt, i, rx, bus, t1, cb, tr⟩ := s
  simp only at h
  subst h
  by_cases hc : cmd = 43
  · simp only [case_RECEIVING_MAIN_OPTION, mainOptionBranch, ReceivePassword, awaitByte,
      awaitByte.loop, ReceivePassword.loop, UART_ReceiveByte, UART_SendByte, State.log,
      optionOutcome, optionReceived, hc, List.length_cons, CheckPassword_rx, CheckPassword_i,
      CheckPassword_G_Pass1, CheckPassword_G_Pass2, CheckPassword_G_Timer1_Count,
      CheckPassword_timer1, CheckPassword_callBack, CheckPassword_Control_ECU_Sequence, ne_eq,
      not_true_eq_false, if_false, if_true, List.append_assoc, List.cons_append,
      List.nil_append]
    generalize CheckPassword _ _ _ = c
    by_cases hv : c.1 = PASSWORDS_MATCHED <;> by_cases h3 : i = 3 <;>
      by_cases h4 : (i + 1) % 256 = 3 <;> simp [hv, h3, h4]
  · simp only [case_RECEIVING_MAIN_OPTION, mainOptionBranch, ReceivePassword, awaitByte,
      awaitByte.loop, ReceivePassword.loop, UART_ReceiveByte, UART_SendByte, State.log,
      optionOutcome, optionReceived, hc, List.length_cons, CheckPassword_rx, CheckPassword_i,
      CheckPassword_G_Pass1, CheckPassword_G_Pass2, CheckPassword_G_Timer1_Count,
      CheckPassword_timer1, CheckPassword_callBack, CheckPassword_Control_ECU_Sequence, ne_eq,
      not_true_eq_false, if_false, if_true, List.append_assoc, List.cons_append,
      List.nil_append]
    generalize CheckPassword _ _ _ = c
    by_cases hv : c.1 = PASSWORDS_MATCHED <;> by_cases h3 : i = 3 <;>
      by_cases h4 : (i + 1) % 256 = 3 <;> simp [hv, h3, h4]

/-- The trace of `optionOutcome` ends with the verdict handshake, whatever the verdict. -/
theorem optionOutcome_readResultsOf (i0 cmd : Nat) (c : Nat × Buf × State) (rest : List Nat) :
    readResultsOf (optionOutcome i0 cmd c rest).trace = readResultsOf c.2.2.trace := by
  unfold optionOutcome
  split <;> simp [readResultsOf_append, readResultsOf]

/-- C6: main-option success. In every run from boot, when Control is in
`RECEIVING_MAIN_OPTION`, receives a command byte and an entry equal to the
five bytes `S` held by the cells `0..4`, and the five reads of the pass return
`SUCCESS`, the pass returns, Control sends `PASSWORDS_MATCHED` and it moves to
`OPEN_THE_DOOR` when the command byte is `'+'` (43) and to
`RECEIVE_FIRST_PASSWORD` for any other command byte. -/
theorem C6_main_option_success (rx0 twsr0 : List Nat) (ee0 : Nat → Nat) (n : Nat) (s : State)
    (hrun : run n (boot rx0 twsr0 ee0) = some s)
    (hseq : s.Control_ECU_Sequence = RECEIVING_MAIN_OPTION)
    (cmd : Nat) (S rest : List Nat) (hS : S.length = 5)
    (hrx : s.rx = HMI_READY :: cmd :: HMI_READY :: (S ++ HMI_READY :: rest))
    (hstored : Buf.first5 s.bus.eeprom = S)
    (hreads : (step s).map (fun t => readResultsOf t.trace) =
      some (readResultsOf s.trace ++ List.replicate 5 SUCCESS)) :
    ∃ t, step s = some t ∧
      sentOf t.trace = sentOf s.trace ++
        [CONTROL_READY, CONTROL_READY, PASS_RECEIVED, CONTROL_READY, PASSWORDS_MATCHED] ∧
      (cmd = 43 → t.Control_ECU_Sequence = OPEN_THE_DOOR) ∧
      (cmd ≠ 43 → t.Control_ECU_Sequence = RECEIVE_FIRST_PASSWORD) := by
  obtain ⟨e0, e1, e2, e3, e4, rfl⟩ := length_five S hS
  simp only [List.cons_append, List.nil_append] at hrx
  have hi : s.i < 3 := (run_boot_inv rx0 twsr0 ee0 n s hrun).1
  have hi3 : s.i ≠ 3 := by omega
  have hstep : step s = some _ :=
    (step_RECEIVING_MAIN_OPTION s hseq).trans
      (case_RECEIVING_MAIN_OPTION_run s cmd e0 e1 e2 e3 e4 rest hrx)
  obtain ⟨b, ev, hc22, hee, c1, c2, c3, c4, hbuf, hver⟩ := CheckPassword_shape
    (((((s.G_Pass1.store 0 e0).store 1 e1).store 2 e2).store 3 e3).store 4 e4) s.G_Pass2
    (optionReceived s cmd e0 e1 e2 e3 e4 (HMI_READY :: rest))
  rw [hstep] at hreads
  simp only [Option.map_some', Option.some.injEq, optionOutcome_readResultsOf] at hreads
  rw [hc22] at hreads
  have hev : readResultsOf ev = List.replicate 5 SUCCESS := by
    simpa [optionReceived, readResultsOf_append, readResultsOf] using hreads
  have hp2 := hbuf (fun x hx => by rw [hev] at hx; exact (List.mem_replicate.mp hx).2)
  have hmatch : (CheckPassword
      (((((s.G_Pass1.store 0 e0).store 1 e1).store 2 e2).store 3 e3).store 4 e4) s.G_Pass2
      (optionReceived s cmd e0 e1 e2 e3 e4 (HMI_READY :: rest))).1 = PASSWORDS_MATCHED := by
    rw [hver, ComparePasswords_matched_iff, hp2, first5_store5]
    simpa [optionReceived] using hstored.symm
  refine ⟨_, hstep, ?_, ?_, ?_⟩
  · simp only [optionOutcome, hmatch, if_true, sentOf_append, CheckPassword_sentOf]
    simp [optionReceived, sentOf_append, sentOf]
  · intro hcmd
    rw [optionOutcome, if_pos hmatch]
    simp [hi3, hcmd]
  · intro hcmd
    rw [optionOutcome, if_pos hmatch]
    simp [hi3, hcmd]

/-- C6 at the input of the scenario: stored password 1,2,3,4,5, command `'+'`
(43), entry 1,2,3,4,5. -/
theorem C6_main_option_success_witness :
    ∃ t, step (enrolled (optionInput 43 [1, 2, 3, 4, 5]) goodCheck) = some t ∧
      sentOf t.trace = sentOf (enrolled (optionInput 43 [1, 2, 3, 4, 5]) goodCheck).trace ++
        [CONTROL_READY, CONTROL_READY, PASS_RECEIVED, CONTROL_READY, PASSWORDS_MATCHED] ∧
      ((43 : Nat) = 43 → t.Control_ECU_Sequence = OPEN_THE_DOOR) ∧
      ((43 : Nat) ≠ 43 → t.Control_ECU_Sequence = RECEIVE_FIRST_PASSWORD) :=
  C6_main_option_success _ _ _ 2 (enrolled (optionInput 43 [1, 2, 3, 4, 5]) goodCheck)
    (some_getD_of_isSome _ _ (by decide)) (by decide) 43 [1, 2, 3, 4, 5] [] rfl (by decide)
    (by decide) (by decide)

/-- The last byte sent once a list of bytes ending in `v` has been sent. -/
theorem getLast?_append_verdict (l pre : List Nat) (v : Nat) :
    (l ++ (pre ++ [v])).getLast? = some v := by
  rw [← List.append_assoc, List.getLast?_append, List.getLast?_singleton]
  rfl

/-- A pass in `RECEIVING_MAIN_OPTION` that returns ends with the verdict as
the last byte sent: either `PASSWORDS_MATCHED`, with the counter `i` left as
it was (unless it was 3), or `PASSWORDS_UNMATCHED`, with the counter one
higher; then the test `i == 3` applies. -/
theorem pass_RECEIVING_MAIN_OPTION (s t : State)
    (hseq : s.Control_ECU_Sequence = RECEIVING_MAIN_OPTION) (h : step s = some t) :
    (lastSent t = some PASSWORDS_MATCHED ∧ t.i = (if s.i = 3 then 0 else s.i) ∧
        (s.i ≠ 3 → t.Control_ECU_Sequence = OPEN_THE_DOOR ∨
          t.Control_ECU_Sequence = RECEIVE_FIRST_PASSWORD)) ∨
      (lastSent t = some PASSWORDS_UNMATCHED ∧
        t.i = (if (s.i + 1) % 256 = 3 then 0 else (s.i + 1) % 256) ∧
        t.Control_ECU_Sequence =
          (if (s.i + 1) % 256 = 3 then PASSWORD_ERROR else RECEIVING_MAIN_OPTION)) := by
  rw [step_RECEIVING_MAIN_OPTION s hseq] at h
  obtain ⟨c, p, p2, r, b, ev, _, _, _, hc⟩ := case_RECEIVING_MAIN_OPTION_some s t h
  rcases hc with ⟨hs, rfl⟩ | ⟨hs, rfl⟩
  · left
    refine ⟨?_, rfl, ?_⟩
    · simp only [lastSent, sentOf_append, hs]
      exact getLast?_append_verdict _ [CONTROL_READY, CONTROL_READY, PASS_RECEIVED, CONTROL_READY] _
    · intro h3
      simp only [h3, if_false]
      split
      · exact Or.inl rfl
      · exact Or.inr rfl
  · right
    refine ⟨?_, rfl, rfl⟩
    simp only [lastSent, sentOf_append, hs]
    exact getLast?_append_verdict _ [CONTROL_READY, CONTROL_READY, PASS_RECEIVED, CONTROL_READY] _

theorem run_one (s t : State) : run 1 s = some t ↔ step s = some t := by
  rw [run_succ_last 0 s t]
  constructor
  · rintro ⟨s1, h1, h2⟩
    simp only [run, Option.some.injEq] at h1
    subst h1
    exact h2
  · intro h
    exact ⟨s, rfl, h⟩

/-- C7: lockout boundary. From `RECEIVING_MAIN_OPTION` with the failure
counter at 0, when each of the next three passes ends with the verdict
`PASSWORDS_UNMATCHED`, Control is still in `RECEIVING_MAIN_OPTION` after the
first (counter 1) and after the second (counter 2), and is in `PASSWORD_ERROR`
with the counter back at 0 after the third. -/
theorem C7_lockout_boundary (s : State)
    (hseq : s.Control_ECU_Sequence = RECEIVING_MAIN_OPTION) (hi : s.i = 0)
    (v1 : (run 1 s).bind lastSent = some PASSWORDS_UNMATCHED)
    (v2 : (run 2 s).bind lastSent = some PASSWORDS_UNMATCHED)
    (v3 : (run 3 s).bind lastSent = some PASSWORDS_UNMATCHED) :
    ∃ s1 s2 s3, run 1 s = some s1 ∧ run 2 s = some s2 ∧ run 3 s = some s3 ∧
      (s1.Control_ECU_Sequence = RECEIVING_MAIN_OPTION ∧ s1.i = 1) ∧
      (s2.Control_ECU_Sequence = RECEIVING_MAIN_OPTION ∧ s2.i = 2) ∧
      (s3.Control_ECU_Sequence = PASSWORD_ERROR ∧ s3.i = 0) := by
  obtain ⟨s1, hr1, hv1⟩ := Option.bind_eq_some.mp v1
  obtain ⟨s2, hr2, hv2⟩ := Option.bind_eq_some.mp v2
  obtain ⟨s3, hr3, hv3⟩ := Option.bind_eq_some.mp v3
  have hstep1 : step s = some s1 := (run_one s s1).mp hr1
  obtain ⟨m1, hm1, hstep2⟩ := (run_succ_last 1 s s2).mp hr2
  obtain ⟨m2, hm2, hstep3⟩ := (run_succ_last 2 s s3).mp hr3
  rw [hr1] at hm1
  rw [hr2] at hm2
  simp only [Option.some.injEq] at hm1 hm2
  subst hm1 hm2
  have p1 : s1.Control_ECU_Sequence = RECEIVING_MAIN_OPTION ∧ s1.i = 1 := by
    rcases pass_RECEIVING_MAIN_OPTION s s1 hseq hstep1 with ⟨hm, -⟩ | ⟨_, h2, h3⟩
    · rw [hv1] at hm
      exact absurd hm (by decide)
    · rw [hi] at h2 h3
      exact ⟨h3, h2⟩
  have p2 : s2.Control_ECU_Sequence = RECEIVING_MAIN_OPTION ∧ s2.i = 2 := by
    rcases pass_RECEIVING_MAIN_OPTION s1 s2 p1.1 hstep2 with ⟨hm, -⟩ | ⟨_, h2, h3⟩
    · rw [hv2] at hm
      exact absurd hm (by decide)
    · rw [p1.2] at h2 h3
      exact ⟨h3, h2⟩
  have p3 : s3.Control_ECU_Sequence = PASSWORD_ERROR ∧ s3.i = 0 := by
    rcases pass_RECEIVING_MAIN_OPTION s2 s3 p2.1 hstep3 with ⟨hm, -⟩ | ⟨_, h2, h3⟩
    · rw [hv3] at hm
      exact absurd hm (by decide)
    · rw [p2.2] at h2 h3
      exact ⟨h3, h2⟩
  exact ⟨s1, s2, s3, hr1, hr2, hr3, p1, p2, p3⟩

/-- C7 at a concrete input: stored password 1,2,3,4,5 and three entries
1,2,3,4,0 with the commands `'+'`, `'-'`, `'+'`. -/
theorem C7_lockout_boundary_witness :
    ∃ s1 s2 s3,
      run 1 (enrolled threeWrong (goodCheck ++ goodCheck ++ goodCheck)) = some s1 ∧
      run 2 (enrolled threeWrong (goodCheck ++ goodCheck ++ goodCheck)) = some s2 ∧
      run 3 (enrolled threeWrong (goodCheck ++ goodCheck ++ goodCheck)) = some s3 ∧
      (s1.Control_ECU_Sequence = RECEIVING_MAIN_OPTION ∧ s1.i = 1) ∧
      (s2.Control_ECU_Sequence = RECEIVING_MAIN_OPTION ∧ s2.i = 2) ∧
      (s3.Control_ECU_Sequence = PASSWORD_ERROR ∧ s3.i = 0) :=
  C7_lockout_boundary (enrolled threeWrong (goodCheck ++ goodCheck ++ goodCheck))
    (by decide) (by decide) (by decide) (by decide) (by decide)

set_option maxRecDepth 100000 in
/-- C8, counterexample: after enrollment of 1,2,3,4,5 the entries are
wrong, wrong, right (command `'+'`), then the door cycle runs, then one more
wrong entry. After the pass with the verdict `PASSWORDS_MATCHED` (pass 3 of
the run from the enrolled state) the failure counter is 2, not 0, and Control
is in `OPEN_THE_DOOR`; after the next wrong entry (pass 5) Control is in
`PASSWORD_ERROR`. -/
theorem C8_counter_not_reset_counterexample :
    (run 3 (enrolled wrongWrongRightWrong (goodCheck ++ goodCheck ++ goodCheck ++ goodCheck))).map
        (fun s => (lastSent s, s.i, s.Control_ECU_Sequence)) =
      some (some PASSWORDS_MATCHED, 2, OPEN_THE_DOOR) ∧
    (run 5 (enrolled wrongWrongRightWrong (goodCheck ++ goodCheck ++ goodCheck ++ goodCheck))).map
        (fun s => (lastSent s, s.i, s.Control_ECU_Sequence)) =
      some (some PASSWORDS_UNMATCHED, 0, PASSWORD_ERROR) := by
  decide

/-- C8, amended: in every run from boot, a pass in `RECEIVING_MAIN_OPTION`
whose verdict is `PASSWORDS_MATCHED` (either command) returns with the failure
counter at the value it had before the pass, in `OPEN_THE_DOOR` or in
`RECEIVE_FIRST_PASSWORD`; the counter is not reset by a success. -/
theorem C8_counter_kept_on_match (rx0 twsr0 : List Nat) (ee0 : Nat → Nat) (n : Nat) (s : State)
    (hrun : run n (boot rx0 twsr0 ee0) = some s)
    (hseq : s.Control_ECU_Sequence = RECEIVING_MAIN_OPTION)
    (hv : (step s).bind lastSent = some PASSWORDS_MATCHED) :
    ∃ t, step s = some t ∧ t.i = s.i ∧
      (t.Control_ECU_Sequence = OPEN_THE_DOOR ∨
        t.Control_ECU_Sequence = RECEIVE_FIRST_PASSWORD) := by
  obtain ⟨t, hstep, hvt⟩ := Option.bind_eq_some.mp hv
  have hi : s.i < 3 := (run_boot_inv rx0 twsr0 ee0 n s hrun).1
  have hi3 : s.i ≠ 3 := by omega
  rcases pass_RECEIVING_MAIN_OPTION s t hseq hstep with ⟨_, h2, h3⟩ | ⟨hm, -⟩
  · refine ⟨t, hstep, ?_, h3 hi3⟩
    rw [h2, if_neg hi3]
  · rw [hvt] at hm
    exact absurd hm (by decide)

set_option maxRecDepth 100000 in
/-- C8, amended, at a concrete run: after two wrong entries the right entry
leaves the counter at 2. -/
theorem C8_counter_kept_on_match_witness :
    ∃ t, step ((run 4 (boot (enrollInput [1, 2, 3, 4, 5] [1, 2, 3, 4, 5] ++ wrongWrongRightWrong)
        (goodSave ++ (goodCheck ++ goodCheck ++ goodCheck ++ goodCheck)) (fun _ => 255))).getD
          (boot [] [] (fun _ => 255))) = some t ∧
      t.i = ((run 4 (boot (enrollInput [1, 2, 3, 4, 5] [1, 2, 3, 4, 5] ++ wrongWrongRightWrong)
        (goodSave ++ (goodCheck ++ goodCheck ++ goodCheck ++ goodCheck)) (fun _ => 255))).getD
          (boot [] [] (fun _ => 255))).i ∧
      (t.Control_ECU_Sequence = OPEN_THE_DOOR ∨
        t.Control_ECU_Sequence = RECEIVE_FIRST_PASSWORD) :=
  C8_counter_kept_on_match _ _ _ 4 _ (some_getD_of_isSome _ _ (by decide)) (by decide)
    (by decide)

/-- The reading loop of `CheckPassword` acts on the bus alone: from two states
with the same bus it reads the same bytes, leaves the same bus and adds the
same events. -/
theorem CheckPassword_readLoop_local :
    ∀ (k i : Nat) (p2 : Buf) (s t : State), s.bus = t.bus →
      (CheckPassword.readLoop k i p2 s).1 = (CheckPassword.readLoop k i p2 t).1 ∧
      (CheckPassword.readLoop k i p2 s).2.bus = (CheckPassword.readLoop k i p2 t).2.bus ∧
      ∃ ev, (CheckPassword.readLoop k i p2 s).2.trace = s.trace ++ ev ∧
        (CheckPassword.readLoop k i p2 t).2.trace = t.trace ++ ev := by
  intro k
  induction k with
  | zero =>
    intro i p2 s t h
    exact ⟨rfl, h, [], by simp [CheckPassword.readLoop], by simp [CheckPassword.readLoop]⟩
  | succ k ih =>
    intro i p2 s t h
    simp only [CheckPassword.readLoop, EEPROM_ReadByte, _delay_ms, State.log, h]
    obtain ⟨h1, h2, ev, h3, h4⟩ := ih (i + 1)
      (p2.store i (EEPROM_ReadByte.body (0 + i) (p2 i) t.bus).2.1)
      { s with bus := (EEPROM_ReadByte.body (0 + i) (p2 i) t.bus).2.2,
               trace := s.trace ++ [Ev.eepromRead (0 + i) (EEPROM_ReadByte.body (0 + i) (p2 i) t.bus).1]
                 ++ [Ev.delay 10] }
      { t with bus := (EEPROM_ReadByte.body (0 + i) (p2 i) t.bus).2.2,
               trace := t.trace ++ [Ev.eepromRead (0 + i) (EEPROM_ReadByte.body (0 + i) (p2 i) t.bus).1]
                 ++ [Ev.delay 10] } rfl
    refine ⟨h1, h2, [Ev.eepromRead (0 + i) (EEPROM_ReadByte.body (0 + i) (p2 i) t.bus).1,
      Ev.delay 10] ++ ev, ?_, ?_⟩
    · rw [h3]
      simp
    · rw [h4]
      simp

/-- The function `CheckPassword` acts on the bus alone: from two states with
the same bus it returns the same verdict, reads the same bytes, leaves the
same bus and adds the same events. -/
theorem CheckPassword_local (A B : Buf) (s t : State) (h : s.bus = t.bus) :
    (CheckPassword A B s).1 = (CheckPassword A B t).1 ∧
    (CheckPassword A B s).2.1 = (CheckPassword A B t).2.1 ∧
    (CheckPassword A B s).2.2.bus = (CheckPassword A B t).2.2.bus ∧
    ∃ ev, (CheckPassword A B s).2.2.trace = s.trace ++ ev ∧
      (CheckPassword A B t).2.2.trace = t.trace ++ ev := by
  obtain ⟨h1, h2, ev, h3, h4⟩ := CheckPassword_readLoop_local PASSWORD_SIZE 0 B s t h
  simp only [CheckPassword]
  exact ⟨by rw [h1], h1, h2, ev, h3, h4⟩

theorem optionInput_cons (cmd e0 e1 e2 e3 e4 : Nat) (rest : List Nat) :
    optionInput cmd [e0, e1, e2, e3, e4] ++ rest =
      HMI_READY :: cmd :: HMI_READY :: e0 :: e1 :: e2 :: e3 :: e4 :: HMI_READY :: rest := by
  simp [optionInput]

theorem lastSent_optionOutcome (i0 cmd : Nat) (c : Nat × Buf × State) (rest : List Nat) :
    lastSent (optionOutcome i0 cmd c rest) =
      some (if c.1 = PASSWORDS_MATCHED then PASSWORDS_MATCHED else PASSWORDS_UNMATCHED) := by
  unfold optionOutcome lastSent
  split
  · simp only [sentOf_append]
    exact getLast?_append_verdict _ [CONTROL_READY] _
  · simp only [sentOf_append]
    exact getLast?_append_verdict _ [CONTROL_READY] _

/-- One pass in `RECEIVING_MAIN_OPTION` on a well-formed input: it returns,
leaves the cells alone and the rest of the input unread, and makes five read
calls; when these return `SUCCESS` and the entry differs from the bytes of the
cells `0..4`, the verdict is `PASSWORDS_UNMATCHED` and the counter goes up by
one, with the test `i == 3` applied. -/
theorem option_pass (s : State) (cmd e0 e1 e2 e3 e4 : Nat) (rest : List Nat)
    (hseq : s.Control_ECU_Sequence = RECEIVING_MAIN_OPTION)
    (hrx : s.rx = optionInput cmd [e0, e1, e2, e3, e4] ++ rest) :
    ∃ (t : State) (rr : List Nat), step s = some t ∧ t.rx = rest ∧
      t.bus.eeprom = s.bus.eeprom ∧
      readResultsOf t.trace = readResultsOf s.trace ++ rr ∧
      ((∀ x ∈ rr, x = SUCCESS) → Buf.first5 s.bus.eeprom ≠ [e0, e1, e2, e3, e4] →
        lastSent t = some PASSWORDS_UNMATCHED ∧
        t.i = (if (s.i + 1) % 256 = 3 then 0 else (s.i + 1) % 256) ∧
        t.Control_ECU_Sequence =
          (if (s.i + 1) % 256 = 3 then PASSWORD_ERROR else RECEIVING_MAIN_OPTION)) := by
  rw [optionInput_cons] at hrx
  have hstep : step s = some _ :=
    (step_RECEIVING_MAIN_OPTION s hseq).trans
      (case_RECEIVING_MAIN_OPTION_run s cmd e0 e1 e2 e3 e4 rest hrx)
  obtain ⟨b, ev, hc22, hee, c1, c2, c3, c4, hbuf, hver⟩ := CheckPassword_shape
    (((((s.G_Pass1.store 0 e0).store 1 e1).store 2 e2).store 3 e3).store 4 e4) s.G_Pass2
    (optionReceived s cmd e0 e1 e2 e3 e4 (HMI_READY :: rest))
  refine ⟨_, readResultsOf ev, hstep, ?_, ?_, ?_, ?_⟩
  · unfold optionOutcome
    split <;> rfl
  · have : (optionOutcome s.i cmd (CheckPassword
        (((((s.G_Pass1.store 0 e0).store 1 e1).store 2 e2).store 3 e3).store 4 e4) s.G_Pass2
        (optionReceived s cmd e0 e1 e2 e3 e4 (HMI_READY :: rest))) rest).bus =
          (CheckPassword
        (((((s.G_Pass1.store 0 e0).store 1 e1).store 2 e2).store 3 e3).store 4 e4) s.G_Pass2
        (optionReceived s cmd e0 e1 e2 e3 e4 (HMI_READY :: rest))).2.2.bus := by
      unfold optionOutcome
      split <;> rfl
    rw [this, CheckPassword_eeprom]
    rfl
  · rw [optionOutcome_readResultsOf, hc22]
    simp [optionReceived, readResultsOf_append, readResultsOf]
  · intro hall hne
    have hp2 := hbuf hall
    have hmis : (CheckPassword
        (((((s.G_Pass1.store 0 e0).store 1 e1).store 2 e2).store 3 e3).store 4 e4) s.G_Pass2
        (optionReceived s cmd e0 e1 e2 e3 e4 (HMI_READY :: rest))).1 ≠ PASSWORDS_MATCHED := by
      rw [hver]
      intro e
      rw [ComparePasswords_matched_iff, hp2, first5_store5] at e
      exact hne (by simpa [optionReceived] using e.symm)
    refine ⟨?_, ?_, ?_⟩
    · rw [lastSent_optionOutcome, if_neg hmis]
    · rw [optionOutcome, if_neg hmis]
    · rw [optionOutcome, if_neg hmis]

theorem mem_of_append_eq_replicate (R0 pre rr more : List Nat) (n : Nat)
    (h : R0 ++ pre ++ rr ++ more = R0 ++ List.replicate n SUCCESS) : ∀ x ∈ rr, x = SUCCESS := by
  intro x hx
  rw [List.append_assoc, List.append_assoc] at h
  have h2 : pre ++ (rr ++ more) = List.replicate n SUCCESS := List.append_cancel_left h
  have hx2 : x ∈ pre ++ (rr ++ more) :=
    List.mem_append_right _ (List.mem_append_left _ hx)
  rw [h2] at hx2
  exact (List.mem_replicate.mp hx2).2

/-- C9: the command byte influences neither the verdict nor the lockout.
First part: two passes in `RECEIVING_MAIN_OPTION` from the same state (same
counter, same buffers, same bus and chip) on inputs that differ in the command
byte alone both return, send the same bytes (so the same verdict), and on the
verdict `PASSWORDS_UNMATCHED` end with the same counter and in the same state.
Second part: from the counter 0, three entries that each differ from the bytes
held by the cells `0..4`, read without failure, lead to `PASSWORD_ERROR` with
the counter back at 0, for every choice of the three command bytes. -/
theorem C9_command_byte_independence :
    (∀ (s : State) (c1 c2 : Nat) (E rest : List Nat),
      s.Control_ECU_Sequence = RECEIVING_MAIN_OPTION → E.length = 5 →
      ∃ a b, step { s with rx := optionInput c1 E ++ rest } = some a ∧
        step { s with rx := optionInput c2 E ++ rest } = some b ∧
        sentOf a.trace = sentOf b.trace ∧ lastSent a = lastSent b ∧
        (lastSent a = some PASSWORDS_UNMATCHED →
          a.i = b.i ∧ a.Control_ECU_Sequence = b.Control_ECU_Sequence)) ∧
    (∀ (s : State) (c1 c2 c3 : Nat) (E1 E2 E3 rest : List Nat),
      s.Control_ECU_Sequence = RECEIVING_MAIN_OPTION → s.i = 0 →
      E1.length = 5 → E2.length = 5 → E3.length = 5 →
      s.rx = optionInput c1 E1 ++ (optionInput c2 E2 ++ (optionInput c3 E3 ++ rest)) →
      Buf.first5 s.bus.eeprom ≠ E1 → Buf.first5 s.bus.eeprom ≠ E2 →
      Buf.first5 s.bus.eeprom ≠ E3 →
      (run 3 s).map (fun t => readResultsOf t.trace) =
        some (readResultsOf s.trace ++ List.replicate 15 SUCCESS) →
      ∃ t, run 3 s = some t ∧ t.Control_ECU_Sequence = PASSWORD_ERROR ∧ t.i = 0) := by
  constructor
  · intro s c1 c2 E rest hseq hE
    obtain ⟨e0, e1, e2, e3, e4, rfl⟩ := length_five E hE
    have hA := case_RECEIVING_MAIN_OPTION_run
      { s with rx := optionInput c1 [e0, e1, e2, e3, e4] ++ rest } c1 e0 e1 e2 e3 e4 rest
      (optionInput_cons c1 e0 e1 e2 e3 e4 rest)
    have hB := case_RECEIVING_MAIN_OPTION_run
      { s with rx := optionInput c2 [e0, e1, e2, e3, e4] ++ rest } c2 e0 e1 e2 e3 e4 rest
      (optionInput_cons c2 e0 e1 e2 e3 e4 rest)
    obtain ⟨l1, l2, l3, ev, l4, l5⟩ := CheckPassword_local
      (((((s.G_Pass1.store 0 e0).store 1 e1).store 2 e2).store 3 e3).store 4 e4) s.G_Pass2
      (optionReceived { s with rx := optionInput c1 [e0, e1, e2, e3, e4] ++ rest }
        c1 e0 e1 e2 e3 e4 (HMI_READY :: rest))
      (optionReceived { s with rx := optionInput c2 [e0, e1, e2, e3, e4] ++ rest }
        c2 e0 e1 e2 e3 e4 (HMI_READY :: rest)) rfl
    refine ⟨_, _,
      (step_RECEIVING_MAIN_OPTION
        { s with rx := optionInput c1 [e0, e1, e2, e3, e4] ++ rest } hseq).trans hA,
      (step_RECEIVING_MAIN_OPTION
        { s with rx := optionInput c2 [e0, e1, e2, e3, e4] ++ rest } hseq).trans hB, ?_, ?_, ?_⟩
    · simp only [optionOutcome, l1]
      split
      · simp only [sentOf_append, l4, l5]
        simp [optionReceived, sentOf_append, sentOf]
      · simp only [sentOf_append, l4, l5]
        simp [optionReceived, sentOf_append, sentOf]
    · rw [lastSent_optionOutcome, lastSent_optionOutcome]
      simp only [l1]
    · intro hl
      rw [lastSent_optionOutcome] at hl
      have hm : ¬ (CheckPassword
          (((((s.G_Pass1.store 0 e0).store 1 e1).store 2 e2).store 3 e3).store 4 e4) s.G_Pass2
          (optionReceived { s with rx := optionInput c1 [e0, e1, e2, e3, e4] ++ rest }
            c1 e0 e1 e2 e3 e4 (HMI_READY :: rest))).1 = PASSWORDS_MATCHED := by
        intro hm
        rw [if_pos hm] at hl
        exact absurd hl (by decide)
      have hm2 := hm
      rw [l1] at hm2
      rw [optionOutcome, optionOutcome, if_neg hm, if_neg hm2]
      exact ⟨rfl, rfl⟩
  · intro s c1 c2 c3 E1 E2 E3 rest hseq hi h1 h2 h3 hrx n1 n2 n3 hreads
    obtain ⟨a0, a1, a2, a3, a4, rfl⟩ := length_five E1 h1
    obtain ⟨b0, b1, b2, b3, b4, rfl⟩ := length_five E2 h2
    obtain ⟨d0, d1, d2, d3, d4, rfl⟩ := length_five E3 h3
    obtain ⟨t3, hr3, hres⟩ := Option.map_eq_some'.mp hreads
    obtain ⟨m2, hr2, hs3⟩ := (run_succ_last 2 s t3).mp hr3
    obtain ⟨m1, hr1, hs2⟩ := (run_succ_last 1 s m2).mp hr2
    have hs1 : step s = some m1 := (run_one s m1).mp hr1
    obtain ⟨⟨ev2, htr2⟩, -⟩ := step_storage m1 m2 hs2
    obtain ⟨⟨ev3, htr3⟩, -⟩ := step_storage m2 t3 hs3
    -- first pass
    obtain ⟨t, rr1, hst, hrx1, hee1, hrr1, hout1⟩ := option_pass s c1 a0 a1 a2 a3 a4 _ hseq hrx
    rw [hs1] at hst
    simp only [Option.some.injEq] at hst
    subst hst
    have hall1 : ∀ x ∈ rr1, x = SUCCESS := by
      apply mem_of_append_eq_replicate (readResultsOf s.trace) [] rr1
        (readResultsOf ev2 ++ readResultsOf ev3) 15
      rw [← hres, htr3, htr2, readResultsOf_append, readResultsOf_append, hrr1]
      simp
    obtain ⟨-, hi1, hq1⟩ := hout1 hall1 n1
    rw [hi] at hi1 hq1
    have e1 : ((0 + 1) % 256 = 3) = False := by decide
    simp only [e1, if_false] at hi1 hq1
    have hi1' : m1.i = 1 := hi1
    -- second pass
    obtain ⟨t, rr2, hst, hrx2, hee2, hrr2, hout2⟩ := option_pass m1 c2 b0 b1 b2 b3 b4 _ hq1 hrx1
    rw [hs2] at hst
    simp only [Option.some.injEq] at hst
    subst hst
    have hall2 : ∀ x ∈ rr2, x = SUCCESS := by
      apply mem_of_append_eq_replicate (readResultsOf s.trace) rr1 rr2 (readResultsOf ev3) 15
      rw [← hres, htr3, readResultsOf_append, hrr2, hrr1]
    obtain ⟨-, hi2, hq2⟩ := hout2 hall2 (by rw [hee1]; exact n2)
    rw [hi1'] at hi2 hq2
    have e2 : ((1 + 1) % 256 = 3) = False := by decide
    simp only [e2, if_false] at hi2 hq2
    -- third pass
    obtain ⟨t, rr3, hst, hrx3, hee3, hrr3, hout3⟩ := option_pass m2 c3 d0 d1 d2 d3 d4 _ hq2 hrx2
    rw [hs3] at hst
    simp only [Option.some.injEq] at hst
    subst hst
    have hall3 : ∀ x ∈ rr3, x = SUCCESS := by
      apply mem_of_append_eq_replicate (readResultsOf s.trace) (rr1 ++ rr2) rr3 [] 15
      rw [← hres, hrr3, hrr2, hrr1]
      simp
    obtain ⟨-, hi3, hq3⟩ := hout3 hall3 (by rw [hee2, hee1]; exact n3)
    rw [hi2] at hi3 hq3
    have e3 : (((1 + 1) % 256 + 1) % 256 = 3) = True := by decide
    simp only [e3, if_true] at hi3 hq3
    exact ⟨t3, hr3, hq3, hi3⟩

set_option maxRecDepth 100000 in
/-- C9 at concrete inputs: the wrong entry 1,2,3,4,0 with the commands `'+'`
(43) and `'-'` (45) after enrollment of 1,2,3,4,5, and three such entries in a
row with the commands `'+'`, `'-'`, `'+'`. -/
theorem C9_command_byte_independence_witness :
    (∃ a b,
      step { enrolled [] goodCheck with rx := optionInput 43 [1, 2, 3, 4, 0] ++ [] } = some a ∧
      step { enrolled [] goodCheck with rx := optionInput 45 [1, 2, 3, 4, 0] ++ [] } = some b ∧
      sentOf a.trace = sentOf b.trace ∧ lastSent a = lastSent b ∧
      (lastSent a = some PASSWORDS_UNMATCHED →
        a.i = b.i ∧ a.Control_ECU_Sequence = b.Control_ECU_Sequence)) ∧
    (∃ t, run 3 (enrolled threeWrong (goodCheck ++ goodCheck ++ goodCheck)) = some t ∧
      t.Control_ECU_Sequence = PASSWORD_ERROR ∧ t.i = 0) :=
  ⟨C9_command_byte_independence.1 (enrolled [] goodCheck) 43 45 [1, 2, 3, 4, 0] []
      (by decide) rfl,
    C9_command_byte_independence.2 (enrolled threeWrong (goodCheck ++ goodCheck ++ goodCheck))
      43 45 43 [1, 2, 3, 4, 0] [1, 2, 3, 4, 0] [1, 2, 3, 4, 0] [] (by decide) (by decide)
      rfl rfl rfl (by decide) (by decide) (by decide) (by decide) (by decide)⟩

/-! ### The order of the events around a wait loop -/

theorem awaitByte_loop_exact (X : Nat) :
    ∀ (k : Nat) (s s1 : State), awaitByte.loop X k s = some s1 →
      ∃ (junk rest : List Nat), X ∉ junk ∧ s.rx = junk ++ X :: rest ∧
        s1 = { s with rx := rest, trace := s.trace ++ (junk.map Ev.recv ++ [Ev.recv X]) } := by
  intro k
  induction k with
  | zero =>
    intro s s1 h
    simp [awaitByte.loop] at h
  | succ k ih =>
    intro s s1 h
    simp only [awaitByte.loop] at h
    split at h
    · exact absurd h (by simp)
    · rename_i b s2 hrecv
      obtain ⟨r, hr, rfl⟩ := UART_ReceiveByte_some s b s2 hrecv
      split at h
      · rename_i hb
        obtain ⟨junk, rest, hj, hrx, rfl⟩ := ih _ _ h
        simp only at hrx
        refine ⟨b :: junk, rest, ?_, ?_, ?_⟩
        · simp only [List.mem_cons, not_or]
          exact ⟨fun e => hb e.symm, hj⟩
        · simp [hr, hrx]
        · simp
      · rename_i hb
        have hbX : b = X := by simpa using hb
        subst hbX
        simp only [Option.some.injEq] at h
        subst h
        exact ⟨[], r, by simp, by simpa using hr, by simp⟩

/-- A wait loop that returns has taken the bytes before the first occurrence
of the awaited byte, then that byte, and nothing else. -/
theorem awaitByte_exact (X : Nat) (s s1 : State) (h : awaitByte X s = some s1) :
    ∃ (junk rest : List Nat), X ∉ junk ∧ s.rx = junk ++ X :: rest ∧
      s1 = { s with rx := rest, trace := s.trace ++ (junk.map Ev.recv ++ [Ev.recv X]) } :=
  awaitByte_loop_exact X _ s s1 h


/-- The verdict transfer of the case `RECEIVE_AND_CHECK_CONFIRMED_PASSWORD`:
after the entry is received, `CONTROL_READY` is sent, bytes are received up to
the first `HMI_READY`, and then the verdict is sent; nothing is sent after
it. -/
theorem case_RECEIVE_AND_CHECK_CONFIRMED_PASSWORD_order (s t : State)
    (h : case_RECEIVE_AND_CHECK_CONFIRMED_PASSWORD s = some t) :
    ∃ (pre ev tail : List Ev) (v : Nat),
      t.trace = s.trace ++ pre ++ ev ++ tail ∧
      sentOf pre = [CONTROL_READY, PASS_RECEIVED] ∧
      SendsReadyThenWaits CONTROL_READY HMI_READY [v] ev ∧
      (v = PASSWORDS_MATCHED ∨ v = PASSWORDS_UNMATCHED) ∧ sentOf tail = [] := by
  unfold case_RECEIVE_AND_CHECK_CONFIRMED_PASSWORD at h
  split at h
  · exact absurd h (by simp)
  · rename_i p s2 hrecv
    obtain ⟨r, pre, rfl, h1, -⟩ := ReceivePassword_some _ _ _ _ hrecv
    simp only at h
    split at h
    · exact absurd h (by simp)
    · rename_i s3 hwait
      obtain ⟨junk, rest, hj, -, rfl⟩ := awaitByte_exact _ _ _ hwait
      split at h
      · simp only [Option.some.injEq] at h
        generalize hX : UART_SendByte PASSWORDS_MATCHED _ = X at h
        generalize hG : State.G_Pass1 _ = G at h
        obtain ⟨b, ev3, hsave, c1, -⟩ := SavePassword_shape G X
        rw [hsave] at h
        subst hX
        refine ⟨pre, _, ev3, PASSWORDS_MATCHED, ?_, h1, ⟨junk, hj, rfl⟩, Or.inl rfl, c1⟩
        rw [← h]
        simp [UART_SendByte, State.log]
      · simp only [Option.some.injEq] at h
        refine ⟨pre, _, [], PASSWORDS_UNMATCHED, ?_, h1, ⟨junk, hj, rfl⟩, Or.inr rfl, rfl⟩
        rw [← h]
        simp [UART_SendByte, State.log]

/-- The verdict transfer of the case `RECEIVING_MAIN_OPTION`, from the call of
`ReceivePassword` on: after the entry is received and the stored bytes are
read, `CONTROL_READY` is sent, bytes are received up to the first `HMI_READY`,
and then the verdict is sent, last. -/
theorem mainOptionBranch_order (onMatch : Nat) (s t : State)
    (h : mainOptionBranch onMatch s = some t) :
    ∃ (pre ev : List Ev) (v : Nat),
      t.trace = s.trace ++ pre ++ ev ∧
      sentOf pre = [CONTROL_READY, PASS_RECEIVED] ∧
      SendsReadyThenWaits CONTROL_READY HMI_READY [v] ev ∧
      (v = PASSWORDS_MATCHED ∨ v = PASSWORDS_UNMATCHED) ∧
      (t.i = s.i ∨ t.i = (s.i + 1) % 256) := by
  unfold mainOptionBranch at h
  split at h
  · exact absurd h (by simp)
  · rename_i p s2 hrecv
    obtain ⟨r, ev, rfl, h1, -⟩ := ReceivePassword_some _ _ _ _ hrecv
    simp only at h
    obtain ⟨b, ev2, hc, -, c1, -⟩ := CheckPassword_shape p s.G_Pass2
      { s with rx := r, trace := s.trace ++ ev, G_Pass1 := p }
    rw [hc] at h
    split at h
    · exact absurd h (by simp)
    · rename_i s3 hwait
      obtain ⟨junk, rest, hj, -, rfl⟩ := awaitByte_exact _ _ _ hwait
      split at h
      · simp only [Option.some.injEq] at h
        refine ⟨ev ++ ev2, _, PASSWORDS_MATCHED, ?_, ?_, ⟨junk, hj, rfl⟩, Or.inl rfl, ?_⟩
        · rw [← h]
          simp [UART_SendByte, State.log]
        · simp [sentOf_append, h1, c1]
        · rw [← h]
          simp [UART_SendByte, State.log]
      · simp only [Option.some.injEq] at h
        refine ⟨ev ++ ev2, _, PASSWORDS_UNMATCHED, ?_, ?_, ⟨junk, hj, rfl⟩, Or.inr rfl, ?_⟩
        · rw [← h]
          simp [UART_SendByte, State.log]
        · simp [sentOf_append, h1, c1]
        · rw [← h]
          simp [UART_SendByte, State.log]

/-- The verdict transfer of the case `RECEIVING_MAIN_OPTION`: after the command
byte and the entry are received and the stored bytes are read, `CONTROL_READY`
is sent, bytes are received up to the first `HMI_READY`, and then the verdict
is sent, last. -/
theorem case_RECEIVING_MAIN_OPTION_order (s t : State)
    (h : case_RECEIVING_MAIN_OPTION s = some t) :
    ∃ (pre ev : List Ev) (v : Nat),
      t.trace = s.trace ++ pre ++ ev ∧
      sentOf pre = [CONTROL_READY, CONTROL_READY, PASS_RECEIVED] ∧
      SendsReadyThenWaits CONTROL_READY HMI_READY [v] ev ∧
      (v = PASSWORDS_MATCHED ∨ v = PASSWORDS_UNMATCHED) := by
  unfold case_RECEIVING_MAIN_OPTION at h
  split at h
  · exact absurd h (by simp)
  · rename_i s2 hwait
    obtain ⟨r1, ev1, rfl, q1⟩ := awaitByte_some _ _ _ hwait
    split at h
    · exact absurd h (by simp)
    · rename_i Result s3 hrecv
      obtain ⟨r2, -, rfl⟩ := UART_ReceiveByte_some _ _ _ hrecv
      split at h
      · exact absurd h (by simp)
      · rename_i s4 hbranch
        have hb : ∃ onMatch, mainOptionBranch onMatch
              { UART_SendByte CONTROL_READY
                  { s with rx := r1, trace := s.trace ++ ev1 } with
                rx := r2,
                trace := (UART_SendByte CONTROL_READY
                  { s with rx := r1, trace := s.trace ++ ev1 }).trace ++ [Ev.recv Result] }
              = some s4 := by
          by_cases hR : Result = 43
          · exact ⟨OPEN_THE_DOOR, by simpa [hR] using hbranch⟩
          · exact ⟨RECEIVE_FIRST_PASSWORD, by simpa [hR] using hbranch⟩
        obtain ⟨onMatch, hbr⟩ := hb
        obtain ⟨pre, ev, v, ht, hs, hord, hv, -⟩ := mainOptionBranch_order _ _ _ hbr
        have htr : t.trace = s4.trace := by
          split at h
          · simp only [Option.some.injEq] at h
            rw [← h]
          · simp only [Option.some.injEq] at h
            rw [← h]
        refine ⟨ev1 ++ [Ev.send CONTROL_READY, Ev.recv Result] ++ pre, ev, v, ?_, ?_, hord, hv⟩
        · rw [htr, ht]
          simp [UART_SendByte, State.log]
        · simp [sentOf_append, q1.1, hs, sentOf]

/-- The display-error transfer of the case `PASSWORD_ERROR`: `CONTROL_READY`
is sent first, bytes are received up to the first `HMI_READY`, and then
`DISPLAY_ERROR` is sent; nothing is sent after it. -/
theorem case_PASSWORD_ERROR_order (s t : State) (h : case_PASSWORD_ERROR s = some t) :
    ∃ (ev tail : List Ev),
      t.trace = s.trace ++ ev ++ tail ∧
      SendsReadyThenWaits CONTROL_READY HMI_READY [DISPLAY_ERROR] ev ∧ sentOf tail = [] := by
  unfold case_PASSWORD_ERROR at h
  split at h
  · exact absurd h (by simp)
  · rename_i s2 hw1
    obtain ⟨junk, rest, hj, -, rfl⟩ := awaitByte_exact _ _ _ hw1
    simp only at h
    split at h
    · exact absurd h (by simp)
    · rename_i s3 ht1
      obtain ⟨c1, ev2, rfl, q2⟩ := waitTicks_some _ _ _ ht1
      simp only [Option.some.injEq] at h
      refine ⟨_, [Ev.timer1Init, Ev.timer1SetCallBack, Ev.buzzer true] ++ ev2 ++
        [Ev.buzzer false, Ev.timer1DeInit], ?_, ⟨junk, hj, rfl⟩, ?_⟩
      · rw [← h]
        simp [UART_SendByte, State.log, Timer1_NonPWm_Mode_Init, Timer1_SetCallBack, Buzzer_ON,
          Buzzer_OFF, Timer1_DeInit]
      · simp [sentOf_append, q2.1, sentOf]

end Control

namespace HMI

theorem UART_ReceiveByte_some_hmi (s : State) (b : Nat) (s1 : State)
    (h : UART_ReceiveByte s = some (b, s1)) :
    ∃ r, s.rx = b :: r ∧ s1 = { s with rx := r, trace := s.trace ++ [Ev.recv b] } := by
  unfold UART_ReceiveByte at h
  split at h
  · exact absurd h (by simp)
  · rename_i b0 r hr
    simp only [Option.some.injEq, Prod.mk.injEq] at h
    obtain ⟨rfl, rfl⟩ := h
    exact ⟨r, hr, rfl⟩

theorem KEYPAD_GetPressedKey_some (s : State) (k : Nat) (s1 : State)
    (h : KEYPAD_GetPressedKey s = some (k, s1)) :
    ∃ r, s.keys = k :: r ∧ s1 = { s with keys := r, trace := s.trace ++ [Ev.key k] } := by
  unfold KEYPAD_GetPressedKey at h
  split at h
  · exact absurd h (by simp)
  · rename_i b0 r hr
    simp only [Option.some.injEq, Prod.mk.injEq] at h
    obtain ⟨rfl, rfl⟩ := h
    exact ⟨r, hr, rfl⟩

theorem awaitByte_loop_exact_hmi (X : Nat) :
    ∀ (k : Nat) (s s1 : State), awaitByte.loop X k s = some s1 →
      ∃ (junk rest : List Nat), X ∉ junk ∧ s.rx = junk ++ X :: rest ∧
        s1 = { s with rx := rest, trace := s.trace ++ (junk.map Ev.recv ++ [Ev.recv X]) } := by
  intro k
  induction k with
  | zero =>
    intro s s1 h
    simp [awaitByte.loop] at h
  | succ k ih =>
    intro s s1 h
    simp only [awaitByte.loop] at h
    split at h
    · exact absurd h (by simp)
    · rename_i b s2 hrecv
      obtain ⟨r, hr, rfl⟩ := UART_ReceiveByte_some_hmi s b s2 hrecv
      split at h
      · rename_i hb
        obtain ⟨junk, rest, hj, hrx, rfl⟩ := ih _ _ h
        simp only at hrx
        refine ⟨b :: junk, rest, ?_, ?_, ?_⟩
        · simp only [List.mem_cons, not_or]
          exact ⟨fun e => hb e.symm, hj⟩
        · simp [hr, hrx]
        · simp
      · rename_i hb
        have hbX : b = X := by simpa using hb
        subst hbX
        simp only [Option.some.injEq] at h
        subst h
        exact ⟨[], r, by simp, by simpa using hr, by simp⟩

/-- A wait loop of the HMI node that returns has taken the bytes before the
first occurrence of the awaited byte, then that byte, and nothing else. -/
theorem awaitByte_exact_hmi (X : Nat) (s s1 : State) (h : awaitByte X s = some s1) :
    ∃ (junk rest : List Nat), X ∉ junk ∧ s.rx = junk ++ X :: rest ∧
      s1 = { s with rx := rest, trace := s.trace ++ (junk.map Ev.recv ++ [Ev.recv X]) } :=
  awaitByte_loop_exact_hmi X _ s s1 h

/-- The sending loop of `SendPassword` sends the bytes at the indices `0..4`,
in order, and does nothing else. -/
theorem SendPassword_loop_five (p : Buf) (s : State) :
    SendPassword.loop p PASSWORD_SIZE 0 s =
      { s with trace := s.trace ++ (Buf.first5 p).map Ev.send } := by
  simp [SendPassword.loop, UART_SendByte, State.log, Buf.first5]

/-- A call of `SendPassword` that returns: `HMI_READY` is sent first, then
bytes are received up to the first `CONTROL_READY`, then the five bytes are
sent, then bytes are received up to the first `PASS_RECEIVED`. -/
theorem SendPassword_some (p : Buf) (s t : State) (h : SendPassword p s = some t) :
    ∃ (junk junk2 rest : List Nat), CONTROL_READY ∉ junk ∧ PASS_RECEIVED ∉ junk2 ∧
      t = { s with rx := rest,
                   trace := s.trace ++
                     (Ev.send HMI_READY ::
                       (junk.map Ev.recv ++ Ev.recv CONTROL_READY :: (Buf.first5 p).map Ev.send)) ++
                     (junk2.map Ev.recv ++ [Ev.recv PASS_RECEIVED]) } := by
  unfold SendPassword at h
  split at h
  · exact absurd h (by simp)
  · rename_i s1 hw
    obtain ⟨junk, rest, hj, -, rfl⟩ := awaitByte_exact_hmi _ _ _ hw
    rw [SendPassword_loop_five] at h
    obtain ⟨junk2, rest2, hj2, -, rfl⟩ := awaitByte_exact_hmi _ _ _ h
    exact ⟨junk, junk2, rest2, hj, hj2, by simp [UART_SendByte, State.log]⟩

theorem awaitOption_loop_some :
    ∀ (k : Nat) (s t : State), awaitOption.loop k s = some t →
      ∃ ev : List Ev, t.trace = s.trace ++ ev ∧ sentOf ev = [] ∧
        (t.Key_Pressed = PLUS ∨ t.Key_Pressed = MINUS) := by
  intro k
  induction k with
  | zero =>
    intro s t h
    simp only [awaitOption.loop] at h
    split at h
    · exact absurd h (by simp)
    · rename_i hc
      simp only [Option.some.injEq] at h
      subst h
      exact ⟨[], by simp, rfl, by omega⟩
  | succ k ih =>
    intro s t h
    simp only [awaitOption.loop] at h
    split at h
    · split at h
      · exact absurd h (by simp)
      · rename_i key s1 hkey
        obtain ⟨r, -, rfl⟩ := KEYPAD_GetPressedKey_some _ _ _ hkey
        obtain ⟨ev, h1, h2, h3⟩ := ih _ _ h
        exact ⟨[Ev.key key] ++ ev, by simp [h1], by simp [Control.sentOf_append, h2, sentOf], h3⟩
    · rename_i hc
      simp only [Option.some.injEq] at h
      subst h
      exact ⟨[], by simp, rfl, by omega⟩

/-- A call of `MainOptions` that returns has sent nothing, and leaves `'+'` or
`'-'` in `Key_Pressed`. -/
theorem MainOptions_some (s t : State) (h : MainOptions s = some t) :
    ∃ ev : List Ev, t.trace = s.trace ++ ev ∧ sentOf ev = [] ∧
      (t.Key_Pressed = PLUS ∨ t.Key_Pressed = MINUS) := by
  unfold MainOptions at h
  obtain ⟨ev, h1, h2, h3⟩ := awaitOption_loop_some _ _ _ h
  refine ⟨[Ev.lcdClear, Ev.lcdString "+ : Open Door ", Ev.lcdMove 1 0,
    Ev.lcdString "- : Change Pass "] ++ ev, ?_, ?_, h3⟩
  · rw [h1]
    simp [LCD_ClearString, LCD_DisplayString, LCD_MoveCursor, State.log]
  · simp [Control.sentOf_append, h2, sentOf]

theorem awaitEnter_loop_some :
    ∀ (k : Nat) (s t : State), awaitEnter.loop k s = some t →
      ∃ ev : List Ev, t.trace = s.trace ++ ev := by
  intro k
  induction k with
  | zero =>
    intro s t h
    simp only [awaitEnter.loop] at h
    split at h
    · exact absurd h (by simp)
    · simp only [Option.some.injEq] at h
      subst h
      exact ⟨[], by simp⟩
  | succ k ih =>
    intro s t h
    simp only [awaitEnter.loop] at h
    split at h
    · split at h
      · exact absurd h (by simp)
      · rename_i key s1 hkey
        obtain ⟨r, -, rfl⟩ := KEYPAD_GetPressedKey_some _ _ _ hkey
        obtain ⟨ev, h1⟩ := ih _ _ h
        exact ⟨[Ev.key key] ++ ev, by simp [h1]⟩
    · simp only [Option.some.injEq] at h
      subst h
      exact ⟨[], by simp⟩

theorem capture_loop_some (first : Bool) :
    ∀ (k : Nat) (s t : State), capture.loop first k s = some t →
      ∃ ev : List Ev, t.trace = s.trace ++ ev := by
  intro k
  induction k with
  | zero =>
    intro s t h
    simp only [capture.loop] at h
    split at h
    · exact absurd h (by simp)
    · simp only [Option.some.injEq] at h
      subst h
      exact ⟨[], by simp⟩
  | succ k ih =>
    intro s t h
    simp only [capture.loop] at h
    split at h
    · split at h
      · exact absurd h (by simp)
      · rename_i key s1 hkey
        obtain ⟨r, -, rfl⟩ := KEYPAD_GetPressedKey_some _ _ _ hkey
        obtain ⟨ev, h1⟩ := ih _ _ h
        by_cases hk : key ≤ 9
        · cases first
          · exact ⟨[Ev.key key, Ev.lcdChar STAR] ++ ev,
              by simp [h1, hk, LCD_DisplayCharacter, State.log]⟩
          · exact ⟨[Ev.key key, Ev.lcdChar STAR] ++ ev,
              by simp [h1, hk, LCD_DisplayCharacter, State.log]⟩
        · exact ⟨[Ev.key key] ++ ev, by simp [h1, hk]⟩
    · simp only [Option.some.injEq] at h
      subst h
      exact ⟨[], by simp⟩

/-- A call of `EnterPassword` that returns only adds events to the trace. -/
theorem EnterPassword_some (s t : State) (h : EnterPassword s = some t) :
    ∃ ev : List Ev, t.trace = s.trace ++ ev := by
  unfold EnterPassword at h
  simp only at h
  split at h
  · exact absurd h (by simp)
  · rename_i s2 hcap
    obtain ⟨ev1, h1⟩ := capture_loop_some _ _ _ _ hcap
    split at h
    · exact absurd h (by simp)
    · rename_i s3 hent
      obtain ⟨ev2, h2⟩ := awaitEnter_loop_some _ _ _ hent
      obtain ⟨junk, junk2, rest, -, -, rfl⟩ := SendPassword_some _ _ _ h
      refine ⟨[Ev.lcdClear, Ev.lcdString "Plz Enter Pass: ", Ev.lcdMove 1 0] ++ ev1 ++ ev2 ++
        (Ev.send HMI_READY :: (junk.map Ev.recv ++
          Ev.recv CONTROL_READY :: (Buf.first5 s3.PassArr1_Send).map Ev.send) ++
          (junk2.map Ev.recv ++ [Ev.recv PASS_RECEIVED])), ?_⟩
      simp only [h2, h1]
      simp [capture, LCD_ClearString, LCD_DisplayString, LCD_MoveCursor, State.log]

theorem mainOptionBranch_some_hmi (onMatch : Nat) (s t : State)
    (h : mainOptionBranch onMatch s = some t) :
    ∃ ev : List Ev, t.trace = s.trace ++ ev := by
  unfold mainOptionBranch at h
  split at h
  · exact absurd h (by simp)
  · rename_i s1 hent
    obtain ⟨ev1, h1⟩ := EnterPassword_some _ _ hent
    split at h
    · exact absurd h (by simp)
    · rename_i s2 hw
      obtain ⟨junk, rest, -, -, rfl⟩ := awaitByte_exact_hmi _ _ _ hw
      split at h
      · exact absurd h (by simp)
      · rename_i v s3 hrecv
        obtain ⟨r, -, rfl⟩ := UART_ReceiveByte_some_hmi _ _ _ hrecv
        split at h
        · simp only [Option.some.injEq] at h
          refine ⟨ev1 ++ (junk.map Ev.recv ++ [Ev.recv CONTROL_READY]) ++ [Ev.send HMI_READY,
            Ev.recv v, Ev.lcdClear, Ev.lcdString "Successful!", Ev.delay 2000], ?_⟩
          rw [← h]
          simp [h1, UART_SendByte, State.log, LCD_ClearString, LCD_DisplayString, _delay_ms]
        · simp only [Option.some.injEq] at h
          refine ⟨ev1 ++ (junk.map Ev.recv ++ [Ev.recv CONTROL_READY]) ++ [Ev.send HMI_READY,
            Ev.recv v, Ev.lcdClear, Ev.lcdString "ERROR!", Ev.lcdMove 1 0,
            Ev.lcdString "Wrong Password", Ev.delay 2000], ?_⟩
          rw [← h]
          simp [h1, UART_SendByte, State.log, LCD_ClearString, LCD_DisplayString, _delay_ms,
            LCD_MoveCursor]

theorem waitTicks_loop_shape_hmi (n : Nat) :
    ∀ (k : Nat) (s : State),
      ∃ (c m : Nat), waitTicks.loop n k s =
        { s with G_Timer1_Count := c, trace := s.trace ++ List.replicate m Ev.tick } := by
  intro k
  induction k with
  | zero =>
    intro s
    exact ⟨s.G_Timer1_Count, 0, by simp [waitTicks.loop]⟩
  | succ k ih =>
    intro s
    simp only [waitTicks.loop]
    split
    · obtain ⟨c, m, h⟩ := ih (Timer1_CallBack s)
      refine ⟨c, m + 1, ?_⟩
      rw [h]
      simp [Timer1_CallBack, List.replicate_succ]
    · exact ⟨s.G_Timer1_Count, 0, by simp⟩

/-- A timed wait of the HMI node that returns has changed the tick counter and
the trace only, and has sent nothing. -/
theorem waitTicks_some_hmi (n : Nat) (s s1 : State) (h : waitTicks n s = some s1) :
    ∃ (c : Nat) (ev : List Ev),
      s1 = { s with G_Timer1_Count := c, trace := s.trace ++ ev } ∧ sentOf ev = [] := by
  unfold waitTicks at h
  split at h
  · simp only [Option.some.injEq] at h
    subst h
    exact ⟨s.G_Timer1_Count, [], by simp, rfl⟩
  · split at h
    · simp only [Option.some.injEq] at h
      obtain ⟨c, m, hc⟩ := waitTicks_loop_shape_hmi n n s
      exact ⟨c, List.replicate m Ev.tick, by rw [← h, hc], (Control.Quiet_ticks m).1⟩
    · exact absurd h (by simp)

/-- The command transfer of the case `MAIN_OPTIONS_DISPLAY`: nothing is sent
while the options are shown and a key is awaited; then `HMI_READY` is sent,
bytes are received up to the first `CONTROL_READY`, and then the command byte,
`'+'` or `'-'`, is sent. -/
theorem case_MAIN_OPTIONS_DISPLAY_order (s t : State)
    (h : case_MAIN_OPTIONS_DISPLAY s = some t) :
    ∃ (pre ev tail : List Ev) (cmd : Nat),
      t.trace = s.trace ++ pre ++ ev ++ tail ∧ sentOf pre = [] ∧
      SendsReadyThenWaits HMI_READY CONTROL_READY [cmd] ev ∧ (cmd = PLUS ∨ cmd = MINUS) := by
  unfold case_MAIN_OPTIONS_DISPLAY at h
  split at h
  · exact absurd h (by simp)
  · rename_i s1 hmain
    obtain ⟨pre, h1, h2, h3⟩ := MainOptions_some _ _ hmain
    split at h
    · exact absurd h (by simp)
    · rename_i s2 hw
      obtain ⟨junk, rest, hj, -, rfl⟩ := awaitByte_exact_hmi _ _ _ hw
      simp only at h
      split at h
      · exact absurd h (by simp)
      · rename_i s4 hbranch
        have hb : ∃ onMatch s3, s3.trace = s1.trace ++
              (Ev.send HMI_READY :: (junk.map Ev.recv ++
                Ev.recv CONTROL_READY :: [s1.Key_Pressed].map Ev.send)) ∧
            mainOptionBranch onMatch s3 = some s4 := by
          split at hbranch
          · exact ⟨_, _, by simp [UART_SendByte, State.log], hbranch⟩
          · exact ⟨_, _, by simp [UART_SendByte, State.log], hbranch⟩
        obtain ⟨onMatch, s3, h3t, hbr⟩ := hb
        obtain ⟨tail, h4⟩ := mainOptionBranch_some_hmi _ _ _ hbr
        have htr : t.trace = s4.trace := by
          split at h
          · simp only [Option.some.injEq] at h
            rw [← h]
          · simp only [Option.some.injEq] at h
            rw [← h]
        refine ⟨pre, _, tail, s1.Key_Pressed, ?_, h2, ⟨junk, hj, rfl⟩, h3⟩
        rw [htr, h4, h3t, h1]

/-- The open-command transfer of the case `OPENING_DOOR`: `HMI_READY` is sent
first, bytes are received up to the first `CONTROL_READY`, and then
`OPEN_THE_DOOR` is sent; nothing is sent after it. -/
theorem case_OPENING_DOOR_order (s t : State) (h : case_OPENING_DOOR s = some t) :
    ∃ (ev tail : List Ev),
      t.trace = s.trace ++ ev ++ tail ∧
      SendsReadyThenWaits HMI_READY CONTROL_READY [OPEN_THE_DOOR] ev ∧ sentOf tail = [] := by
  unfold case_OPENING_DOOR at h
  split at h
  · exact absurd h (by simp)
  · rename_i s1 hw
    obtain ⟨junk, rest, hj, -, rfl⟩ := awaitByte_exact_hmi _ _ _ hw
    simp only at h
    split at h
    · exact absurd h (by simp)
    · rename_i s4 ht1
      obtain ⟨c1, ev1, rfl, q1⟩ := waitTicks_some_hmi _ _ _ ht1
      split at h
      · exact absurd h (by simp)
      · rename_i s6 ht2
        obtain ⟨c2, ev2, rfl, q2⟩ := waitTicks_some_hmi _ _ _ ht2
        replace h := Option.some.inj h
        have ht : t.trace = s.trace ++
            (Ev.send HMI_READY :: (junk.map Ev.recv ++
              Ev.recv CONTROL_READY :: [OPEN_THE_DOOR].map Ev.send)) ++
            ([Ev.timer1Init, Ev.timer1SetCallBack, Ev.lcdClear, Ev.lcdString "Door is",
              Ev.lcdMove 1 0, Ev.lcdString "Unlocking..."] ++ ev1 ++ [Ev.lcdClear,
              Ev.lcdString "Door is", Ev.lcdMove 1 0, Ev.lcdString "Locking..."] ++ ev2 ++
              [Ev.timer1DeInit]) := by
          rw [← h]
          simp [UART_SendByte, State.log, Timer1_NonPWm_Mode_Init, Timer1_SetCallBack,
            LCD_ClearString, LCD_DisplayString, LCD_MoveCursor, Timer1_DeInit]
        refine ⟨_, _, ht, ⟨junk, hj, rfl⟩, ?_⟩
        simp [Control.sentOf_append, q1, q2, sentOf]

end HMI

/-! ### The order of the ready exchange before a payload -/

/-- C10, counterexample: `SendPassword` is called with the digits 1,2,3,4,5
while `CONTROL_READY` and `PASS_RECEIVED` are the bytes to arrive. The call
returns, and the first thing it does is send `HMI_READY`, before any byte is
received: its events do not begin with a transfer in which the peer's ready
token is received before the node's own ready token is sent. -/
theorem C10_own_ready_sent_first_counterexample :
    (HMI.SendPassword (Buf.ofList [1, 2, 3, 4, 5])
        (HMI.sample 0 0 [HMI.CONTROL_READY, HMI.PASS_RECEIVED] [])).map (fun t => t.trace) =
      some [Ev.send HMI.HMI_READY, Ev.recv HMI.CONTROL_READY, Ev.send 1, Ev.send 2, Ev.send 3,
        Ev.send 4, Ev.send 5, Ev.recv HMI.PASS_RECEIVED] ∧
    ¬ ∃ (ev tail : List Ev),
        (HMI.SendPassword (Buf.ofList [1, 2, 3, 4, 5])
          (HMI.sample 0 0 [HMI.CONTROL_READY, HMI.PASS_RECEIVED] [])).map (fun t => t.trace) =
          some (ev ++ tail) ∧
        WaitsThenSendsReady HMI.HMI_READY HMI.CONTROL_READY [1, 2, 3, 4, 5] ev := by
  have hrun : (HMI.SendPassword (Buf.ofList [1, 2, 3, 4, 5])
        (HMI.sample 0 0 [HMI.CONTROL_READY, HMI.PASS_RECEIVED] [])).map (fun t => t.trace) =
      some [Ev.send HMI.HMI_READY, Ev.recv HMI.CONTROL_READY, Ev.send 1, Ev.send 2, Ev.send 3,
        Ev.send 4, Ev.send 5, Ev.recv HMI.PASS_RECEIVED] := by decide
  refine ⟨hrun, ?_⟩
  rintro ⟨ev, tail, h, junk, -, rfl⟩
  rw [hrun] at h
  cases junk <;> simp at h

/-- C10, amended: in every payload transfer of either node, the node that
sends the payload first sends its own ready token and only then waits for the
peer's ready token, before any payload byte is sent. For each transfer, the
events of a call or pass that returns are: what precedes the transfer, then
the sender's own ready token, then bytes received up to the first ready token
of the peer, then the payload. The transfers are, in this order: the five
digits sent by `SendPassword`; the command byte sent by the HMI node in
`MAIN_OPTIONS_DISPLAY`; the open command sent by the HMI node in
`OPENING_DOOR`; the verdict sent by the Control node in
`RECEIVE_AND_CHECK_CONFIRMED_PASSWORD` and in `RECEIVING_MAIN_OPTION`; the
display-error token sent by the Control node in `PASSWORD_ERROR`. -/
theorem C10_sender_sends_ready_then_waits :
    (∀ (p : Buf) (s t : HMI.State), HMI.SendPassword p s = some t →
      ∃ (ev tail : List Ev), t.trace = s.trace ++ ev ++ tail ∧
        SendsReadyThenWaits HMI.HMI_READY HMI.CONTROL_READY (Buf.first5 p) ev ∧
        sentOf tail = []) ∧
    (∀ (s t : HMI.State), HMI.case_MAIN_OPTIONS_DISPLAY s = some t →
      ∃ (pre ev tail : List Ev) (cmd : Nat),
        t.trace = s.trace ++ pre ++ ev ++ tail ∧ sentOf pre = [] ∧
        SendsReadyThenWaits HMI.HMI_READY HMI.CONTROL_READY [cmd] ev ∧
        (cmd = HMI.PLUS ∨ cmd = HMI.MINUS)) ∧
    (∀ (s t : HMI.State), HMI.case_OPENING_DOOR s = some t →
      ∃ (ev tail : List Ev), t.trace = s.trace ++ ev ++ tail ∧
        SendsReadyThenWaits HMI.HMI_READY HMI.CONTROL_READY [HMI.OPEN_THE_DOOR] ev ∧
        sentOf tail = []) ∧
    (∀ (s t : Control.State), Control.case_RECEIVE_AND_CHECK_CONFIRMED_PASSWORD s = some t →
      ∃ (pre ev tail : List Ev) (v : Nat),
        t.trace = s.trace ++ pre ++ ev ++ tail ∧
        sentOf pre = [Control.CONTROL_READY, Control.PASS_RECEIVED] ∧
        SendsReadyThenWaits Control.CONTROL_READY Control.HMI_READY [v] ev ∧
        (v = Control.PASSWORDS_MATCHED ∨ v = Control.PASSWORDS_UNMATCHED) ∧ sentOf tail = []) ∧
    (∀ (s t : Control.State), Control.case_RECEIVING_MAIN_OPTION s = some t →
      ∃ (pre ev : List Ev) (v : Nat),
        t.trace = s.trace ++ pre ++ ev ∧
        sentOf pre = [Control.CONTROL_READY, Control.CONTROL_READY, Control.PASS_RECEIVED] ∧
        SendsReadyThenWaits Control.CONTROL_READY Control.HMI_READY [v] ev ∧
        (v = Control.PASSWORDS_MATCHED ∨ v = Control.PASSWORDS_UNMATCHED)) ∧
    (∀ (s t : Control.State), Control.case_PASSWORD_ERROR s = some t →
      ∃ (ev tail : List Ev), t.trace = s.trace ++ ev ++ tail ∧
        SendsReadyThenWaits Control.CONTROL_READY Control.HMI_READY [Control.DISPLAY_ERROR] ev ∧
        sentOf tail = []) := by
  refine ⟨?_, HMI.case_MAIN_OPTIONS_DISPLAY_order, HMI.case_OPENING_DOOR_order,
    Control.case_RECEIVE_AND_CHECK_CONFIRMED_PASSWORD_order,
    Control.case_RECEIVING_MAIN_OPTION_order, Control.case_PASSWORD_ERROR_order⟩
  intro p s t h
  obtain ⟨junk, junk2, rest, hj, -, rfl⟩ := HMI.SendPassword_some p s t h
  exact ⟨_, _, rfl, ⟨junk, hj, rfl⟩,
    by simp [Control.sentOf_append, (Control.Quiet_recv junk2).1, sentOf]⟩

set_option maxRecDepth 100000 in
/-- C10, amended, on concrete inputs: each of the six transfers, in a call or
pass that returns. -/
theorem C10_sender_sends_ready_then_waits_witness :
    (∃ (ev tail : List Ev),
      ((HMI.SendPassword (Buf.ofList [1, 2, 3, 4, 5])
          (HMI.sample 0 0 [HMI.CONTROL_READY, HMI.PASS_RECEIVED] [])).getD
          (HMI.sample 0 0 [] [])).trace =
        (HMI.sample 0 0 [HMI.CONTROL_READY, HMI.PASS_RECEIVED] []).trace ++ ev ++ tail ∧
      SendsReadyThenWaits HMI.HMI_READY HMI.CONTROL_READY
        (Buf.first5 (Buf.ofList [1, 2, 3, 4, 5])) ev ∧
      sentOf tail = []) ∧
    (∃ (pre ev tail : List Ev) (cmd : Nat),
      ((HMI.case_MAIN_OPTIONS_DISPLAY HMI.optionsSample).getD (HMI.sample 0 0 [] [])).trace =
        HMI.optionsSample.trace ++ pre ++ ev ++ tail ∧ sentOf pre = [] ∧
      SendsReadyThenWaits HMI.HMI_READY HMI.CONTROL_READY [cmd] ev ∧
      (cmd = HMI.PLUS ∨ cmd = HMI.MINUS)) ∧
    (∃ (ev tail : List Ev),
      ((HMI.case_OPENING_DOOR (HMI.sample 4 0 [HMI.CONTROL_READY] [])).getD
          (HMI.sample 0 0 [] [])).trace =
        (HMI.sample 4 0 [HMI.CONTROL_READY] []).trace ++ ev ++ tail ∧
      SendsReadyThenWaits HMI.HMI_READY HMI.CONTROL_READY [HMI.OPEN_THE_DOOR] ev ∧
      sentOf tail = []) ∧
    (∃ (pre ev tail : List Ev) (v : Nat),
      ((Control.case_RECEIVE_AND_CHECK_CONFIRMED_PASSWORD Control.confirmSample).getD
          Control.confirmSample).trace =
        Control.confirmSample.trace ++ pre ++ ev ++ tail ∧
      sentOf pre = [Control.CONTROL_READY, Control.PASS_RECEIVED] ∧
      SendsReadyThenWaits Control.CONTROL_READY Control.HMI_READY [v] ev ∧
      (v = Control.PASSWORDS_MATCHED ∨ v = Control.PASSWORDS_UNMATCHED) ∧ sentOf tail = []) ∧
    (∃ (pre ev : List Ev) (v : Nat),
      ((Control.case_RECEIVING_MAIN_OPTION Control.optionSample).getD
          Control.optionSample).trace =
        Control.optionSample.trace ++ pre ++ ev ∧
      sentOf pre = [Control.CONTROL_READY, Control.CONTROL_READY, Control.PASS_RECEIVED] ∧
      SendsReadyThenWaits Control.CONTROL_READY Control.HMI_READY [v] ev ∧
      (v = Control.PASSWORDS_MATCHED ∨ v = Control.PASSWORDS_UNMATCHED)) ∧
    (∃ (ev tail : List Ev),
      ((Control.case_PASSWORD_ERROR Control.errorSample).getD Control.errorSample).trace =
        Control.errorSample.trace ++ ev ++ tail ∧
      SendsReadyThenWaits Control.CONTROL_READY Control.HMI_READY [Control.DISPLAY_ERROR] ev ∧
      sentOf tail = []) :=
  ⟨C10_sender_sends_ready_then_waits.1 _ _ _ (Control.some_getD_of_isSome _ _ (by decide)),
   C10_sender_sends_ready_then_waits.2.1 _ _ (Control.some_getD_of_isSome _ _ (by decide)),
   C10_sender_sends_ready_then_waits.2.2.1 _ _ (Control.some_getD_of_isSome _ _ (by decide)),
   C10_sender_sends_ready_then_waits.2.2.2.1 _ _
     (Control.some_getD_of_isSome _ _ (by decide)),
   C10_sender_sends_ready_then_waits.2.2.2.2.1 _ _
     (Control.some_getD_of_isSome _ _ (by decide)),
   C10_sender_sends_ready_then_waits.2.2.2.2.2 _ _
     (Control.some_getD_of_isSome _ _ (by decide))⟩

namespace Control

/-- A call of `ReceivePassword` that returns has taken the bytes before the
first `HMI_READY`, then `HMI_READY`, sent `CONTROL_READY`, taken five bytes
into the indices `0..4` of the buffer, in order, and sent `PASS_RECEIVED`. -/
theorem ReceivePassword_exact (pass : Buf) (s : State) (p : Buf) (t : State)
    (h : ReceivePassword pass s = some (p, t)) :
    ∃ (junk : List Nat) (b0 b1 b2 b3 b4 : Nat) (rest : List Nat),
      HMI_READY ∉ junk ∧ s.rx = junk ++ HMI_READY :: b0 :: b1 :: b2 :: b3 :: b4 :: rest ∧
      p = ((((pass.store 0 b0).store 1 b1).store 2 b2).store 3 b3).store 4 b4 ∧
      t = { s with rx := rest,
                   trace := s.trace ++ (junk.map Ev.recv ++ [Ev.recv HMI_READY,
                     Ev.send CONTROL_READY, Ev.recv b0, Ev.recv b1, Ev.recv b2, Ev.recv b3,
                     Ev.recv b4, Ev.send PASS_RECEIVED]) } := by
  unfold ReceivePassword at h
  split at h
  · exact absurd h (by simp)
  · rename_i s1 hw
    obtain ⟨junk, rest, hj, hrx, rfl⟩ := awaitByte_exact _ _ _ hw
    obtain ⟨seq, g1, g2, cnt, i, rx, bus, t1, cb, tr⟩ := s
    simp only at hrx
    subst hrx
    match rest, h with
    | b0 :: b1 :: b2 :: b3 :: b4 :: rest, h =>
      simp [ReceivePassword.loop, UART_ReceiveByte, UART_SendByte, State.log] at h
      obtain ⟨rfl, rfl⟩ := h
      exact ⟨junk, b0, b1, b2, b3, b4, rest, hj, rfl, rfl, by simp⟩
    | [], h => simp [ReceivePassword.loop, UART_ReceiveByte, UART_SendByte, State.log] at h
    | [_], h => simp [ReceivePassword.loop, UART_ReceiveByte, UART_SendByte, State.log] at h
    | [_, _], h => simp [ReceivePassword.loop, UART_ReceiveByte, UART_SendByte, State.log] at h
    | [_, _, _], h => simp [ReceivePassword.loop, UART_ReceiveByte, UART_SendByte, State.log] at h
    | [_, _, _, _], h =>
      simp [ReceivePassword.loop, UART_ReceiveByte, UART_SendByte, State.log] at h

end Control

namespace HMI

/-- The wait loop of the HMI node on an input that holds the awaited byte: the
bytes before its first occurrence are taken and dropped, the byte itself is
taken, the rest stays unread. -/
theorem awaitByte_loop_junk_hmi (X : Nat) (junk rest : List Nat) (hj : X ∉ junk) :
    ∀ (k : Nat) (s : State), junk.length < k → s.rx = junk ++ X :: rest →
      awaitByte.loop X k s =
        some { s with rx := rest, trace := s.trace ++ (junk.map Ev.recv ++ [Ev.recv X]) } := by
  induction junk with
  | nil =>
    intro k s hk h
    cases k with
    | zero => omega
    | succ k =>
      simp only [List.nil_append] at h
      simp [awaitByte.loop, UART_ReceiveByte, h]
  | cons j t ih =>
    intro k s hk h
    cases k with
    | zero => omega
    | succ k =>
      have hjX : j ≠ X := fun e => hj (by simp [e])
      have ht : X ∉ t := fun e => hj (by simp [e])
      simp only [List.cons_append] at h
      simp only [awaitByte.loop, UART_ReceiveByte, h, ne_eq, hjX, not_false_eq_true, if_true]
      rw [ih ht k _ (by simpa using hk) rfl]
      simp

theorem awaitByte_junk_hmi (X : Nat) (junk rest : List Nat) (s : State) (hj : X ∉ junk)
    (h : s.rx = junk ++ X :: rest) :
    awaitByte X s =
      some { s with rx := rest, trace := s.trace ++ (junk.map Ev.recv ++ [Ev.recv X]) } := by
  unfold awaitByte
  exact awaitByte_loop_junk_hmi X junk rest hj _ s (by simp [h]) h

theorem awaitByte_cons_hmi (X : Nat) (rest : List Nat) (s : State) (h : s.rx = X :: rest) :
    awaitByte X s = some { s with rx := rest, trace := s.trace ++ [Ev.recv X] } := by
  simpa using awaitByte_junk_hmi X [] rest s (by simp) (by simpa using h)

/-- The call of `SendPassword` when `CONTROL_READY` and `PASS_RECEIVED` are
the next bytes to arrive. -/
theorem SendPassword_run (P : Buf) (s : State) (rest : List Nat)
    (h : s.rx = CONTROL_READY :: PASS_RECEIVED :: rest) :
    SendPassword P s =
      some { s with rx := rest,
                    trace := s.trace ++ [Ev.send HMI_READY, Ev.recv CONTROL_READY,
                      Ev.send (P 0), Ev.send (P 1), Ev.send (P 2), Ev.send (P 3), Ev.send (P 4),
                      Ev.recv PASS_RECEIVED] } := by
  obtain ⟨seq, key, cnt, ctr, p1, p2, i, rx, keys, t1, cb, tr⟩ := s
  simp only at h
  subst h
  simp [SendPassword, awaitByte, awaitByte.loop, UART_ReceiveByte, UART_SendByte, State.log,
    SendPassword.loop]

end HMI

/-! ### The link -/

theorem sentOf_map_recv (l : List Nat) : sentOf (l.map Ev.recv) = [] :=
  (Control.Quiet_recv l).1

theorem recvOf_append (a b : List Ev) : recvOf (a ++ b) = recvOf a ++ recvOf b := by
  induction a with
  | nil => rfl
  | cons e t ih => cases e <;> simp [recvOf, ih]

theorem recvOf_map_recv (l : List Nat) : recvOf (l.map Ev.recv) = l := by
  induction l with
  | nil => rfl
  | cons a t ih => simp [recvOf, ih]

theorem recvOf_map_send (l : List Nat) : recvOf (l.map Ev.send) = [] := by
  induction l with
  | nil => rfl
  | cons a t ih => simp [recvOf, ih]

theorem sentOf_map_send (l : List Nat) : sentOf (l.map Ev.send) = l := by
  induction l with
  | nil => rfl
  | cons a t ih => simp [sentOf, ih]

/-- One event played: what it takes from the queue and what it sends. -/
theorem play_some (ev : List Ev) (q : List Nat) (ev1 : List Ev) (q1 out : List Nat)
    (h : play ev q = some (ev1, q1, out)) :
    ∃ rc : List Nat, recvOf ev = rc ++ recvOf ev1 ∧ q = rc ++ q1 ∧
      sentOf ev = out ++ sentOf ev1 := by
  unfold play at h
  split at h
  · exact absurd h (by simp)
  · split at h
    · exact absurd h (by simp)
    · split at h
      · rename_i b r q0 x q2 hx
        simp only [Option.some.injEq, Prod.mk.injEq] at h
        obtain ⟨rfl, rfl, rfl⟩ := h
        exact ⟨[b], by simp [recvOf], by simp [hx], by simp [sentOf]⟩
      · exact absurd h (by simp)
  · simp only [Option.some.injEq, Prod.mk.injEq] at h
    obtain ⟨rfl, rfl, rfl⟩ := h
    exact ⟨[], by simp [recvOf], by simp, by simp [sentOf]⟩
  · rename_i e r hne1 hne2
    simp only [Option.some.injEq, Prod.mk.injEq] at h
    obtain ⟨rfl, rfl, rfl⟩ := h
    refine ⟨[], ?_, by simp, ?_⟩
    · cases e <;> simp [recvOf] at hne1 ⊢
    · cases e <;> simp [sentOf] at hne2 ⊢

/-- Over the link, what a node receives is the beginning of what the peer has
sent: the bytes under way at the start and the bytes sent are the bytes
received followed by the bytes still under way at the end. -/
theorem link_some :
    ∀ (k : Nat) (evH evC : List Ev) (toH toC qH qC : List Nat),
      link k evH evC toH toC = some (qH, qC) →
      toH ++ sentOf evC = recvOf evH ++ qH ∧ toC ++ sentOf evH = recvOf evC ++ qC := by
  intro k
  induction k with
  | zero =>
    intro evH evC toH toC qH qC h
    simp only [link] at h
    split at h
    · rename_i he
      simp only [Option.some.injEq, Prod.mk.injEq] at h
      obtain ⟨rfl, rfl⟩ := h
      simp [he.1, he.2, sentOf, recvOf]
    · exact absurd h (by simp)
  | succ k ih =>
    intro evH evC toH toC qH qC h
    simp only [link] at h
    split at h
    · rename_i evH1 toH1 out hp
      obtain ⟨rc, h1, h2, h3⟩ := play_some _ _ _ _ _ hp
      obtain ⟨a, b⟩ := ih _ _ _ _ _ _ h
      constructor
      · rw [h1, h2, List.append_assoc, a, List.append_assoc]
      · rw [h3, ← List.append_assoc, b]
    · split at h
      · rename_i evC1 toC1 out hp
        obtain ⟨rc, h1, h2, h3⟩ := play_some _ _ _ _ _ hp
        obtain ⟨a, b⟩ := ih _ _ _ _ _ _ h
        constructor
        · rw [h3, ← List.append_assoc, a]
        · rw [h1, h2, List.append_assoc, b, List.append_assoc]
      · split at h
        · rename_i he
          simp only [Option.some.injEq, Prod.mk.injEq] at h
          obtain ⟨rfl, rfl⟩ := h
          simp [he.1, he.2, sentOf, recvOf]
        · exact absurd h (by simp)

/-- Two lists of events that fit together over the link: each node has
received exactly what the other has sent. -/
theorem Linked_sent_recv (evH evC : List Ev) (h : Linked evH evC) :
    sentOf evC = recvOf evH ∧ sentOf evH = recvOf evC := by
  have := link_some _ _ _ _ _ _ _ h
  simpa using this

/-- C11: `SendPassword(P)` on the HMI node run against `ReceivePassword(buf)`
on the Control node over the link. Whatever the two nodes hold before, there
is such a run, in which both calls return; and in every such run the buffer
of the Control node holds `P` at the indices `0..4` (and is unchanged
elsewhere), the HMI node does exactly this: it sends `HMI_READY`, receives
`CONTROL_READY`, sends `P[0]` to `P[4]` in this order and receives
`PASS_RECEIVED`; and the Control node exactly this: it receives `HMI_READY`,
sends `CONTROL_READY`, receives the five bytes and sends `PASS_RECEIVED`
once. -/
theorem C11_password_transfer_round_trip (P buf : Buf) :
    (∀ (sH : HMI.State) (sC : Control.State),
      ∃ (tH : HMI.State) (p : Buf) (tC : Control.State) (evH evC : List Ev),
        Transfer P buf { sH with rx := [HMI.CONTROL_READY, HMI.PASS_RECEIVED] } tH
          { sC with rx := [Control.HMI_READY, P 0, P 1, P 2, P 3, P 4] } p tC evH evC) ∧
    (∀ (sH tH : HMI.State) (sC : Control.State) (p : Buf) (tC : Control.State)
        (evH evC : List Ev),
      Transfer P buf sH tH sC p tC evH evC →
        Buf.first5 p = Buf.first5 P ∧ (∀ k, 5 ≤ k → p k = buf k) ∧
        evH = [Ev.send HMI.HMI_READY, Ev.recv HMI.CONTROL_READY, Ev.send (P 0), Ev.send (P 1),
          Ev.send (P 2), Ev.send (P 3), Ev.send (P 4), Ev.recv HMI.PASS_RECEIVED] ∧
        evC = [Ev.recv Control.HMI_READY, Ev.send Control.CONTROL_READY, Ev.recv (P 0),
          Ev.recv (P 1), Ev.recv (P 2), Ev.recv (P 3), Ev.recv (P 4),
          Ev.send Control.PASS_RECEIVED]) := by
  constructor
  · intro sH sC
    refine ⟨_, _, _, _, _, HMI.SendPassword_run P _ [] rfl,
      Control.ReceivePassword_run buf _ (P 0) (P 1) (P 2) (P 3) (P 4) [] rfl, rfl, rfl, ?_⟩
    simp [Linked, link, play]
  · rintro sH tH sC p tC evH evC ⟨hS, hR, htH, htC, hL⟩
    obtain ⟨junk, junk2, rest, hj, hj2, rfl⟩ := HMI.SendPassword_some P sH tH hS
    obtain ⟨junkC, b0, b1, b2, b3, b4, restC, hjC, -, rfl, rfl⟩ :=
      Control.ReceivePassword_exact buf sC p tC hR
    have eH := List.append_cancel_left (htH.symm.trans (List.append_assoc _ _ _))
    have eC := List.append_cancel_left htC
    subst eH
    subst eC
    obtain ⟨h1, h2⟩ := Linked_sent_recv _ _ hL
    simp only [List.append_eq, List.append_assoc, List.cons_append, Control.sentOf_append,
      recvOf_append, sentOf_map_recv, recvOf_map_recv, recvOf_map_send, sentOf_map_send,
      sentOf, recvOf, List.nil_append, List.append_nil, Buf.first5, List.map_cons,
      List.map_nil] at h1 h2
    have hjunkC : junkC = [] := by
      cases junkC with
      | nil => rfl
      | cons x t =>
        simp only [List.cons_append, List.cons.injEq] at h2
        exact absurd (by simp [← h2.1]) hjC
    subst hjunkC
    have hjunk : junk = [] := by
      cases junk with
      | nil => rfl
      | cons x t =>
        simp only [List.cons_append, List.cons.injEq] at h1
        exact absurd (by simp [← h1.1]) hj
    subst hjunk
    simp only [List.nil_append, List.cons.injEq, and_true, true_and] at h1 h2
    obtain ⟨rfl, rfl, rfl, rfl, rfl⟩ := h2
    have hjunk2 : junk2 = [] := by
      cases junk2 with
      | nil => rfl
      | cons x t =>
        have := congrArg List.length h1
        simp at this
    subst hjunk2
    refine ⟨?_, ?_, by simp [Buf.first5], by simp⟩
    · simp [Buf.first5, Buf.store]
    · intro k hk
      simp only [Buf.store]
      rw [if_neg (by omega), if_neg (by omega), if_neg (by omega), if_neg (by omega),
        if_neg (by omega)]

set_option maxRecDepth 100000 in
/-- C11 on a concrete input: the digits 1,2,3,4,5 are transferred to a Control
node whose buffer holds zeros. -/
theorem C11_password_transfer_round_trip_witness :
    Buf.first5 ((Control.ReceivePassword (fun _ => 0)
        (Control.boot [Control.HMI_READY, 1, 2, 3, 4, 5] [] (fun _ => 0))).getD
        (fun _ => 0, Control.boot [] [] (fun _ => 0))).1 =
      Buf.first5 (Buf.ofList [1, 2, 3, 4, 5]) ∧
    (∀ k, 5 ≤ k →
      ((Control.ReceivePassword (fun _ => 0)
        (Control.boot [Control.HMI_READY, 1, 2, 3, 4, 5] [] (fun _ => 0))).getD
        (fun _ => 0, Control.boot [] [] (fun _ => 0))).1 k = (fun _ => 0) k) ∧
    [Ev.send 0x10, Ev.recv 0x20, Ev.send 1, Ev.send 2, Ev.send 3, Ev.send 4, Ev.send 5,
        Ev.recv 0x06] =
      [Ev.send HMI.HMI_READY, Ev.recv HMI.CONTROL_READY, Ev.send (Buf.ofList [1, 2, 3, 4, 5] 0),
        Ev.send (Buf.ofList [1, 2, 3, 4, 5] 1), Ev.send (Buf.ofList [1, 2, 3, 4, 5] 2),
        Ev.send (Buf.ofList [1, 2, 3, 4, 5] 3), Ev.send (Buf.ofList [1, 2, 3, 4, 5] 4),
        Ev.recv HMI.PASS_RECEIVED] ∧
    [Ev.recv 0x10, Ev.send 0x20, Ev.recv 1, Ev.recv 2, Ev.recv 3, Ev.recv 4, Ev.recv 5,
        Ev.send 0x06] =
      [Ev.recv Control.HMI_READY, Ev.send Control.CONTROL_READY,
        Ev.recv (Buf.ofList [1, 2, 3, 4, 5] 0), Ev.recv (Buf.ofList [1, 2, 3, 4, 5] 1),
        Ev.recv (Buf.ofList [1, 2, 3, 4, 5] 2), Ev.recv (Buf.ofList [1, 2, 3, 4, 5] 3),
        Ev.recv (Buf.ofList [1, 2, 3, 4, 5] 4), Ev.send Control.PASS_RECEIVED] :=
  (C11_password_transfer_round_trip (Buf.ofList [1, 2, 3, 4, 5]) (fun _ => 0)).2
    (HMI.sample 0 0 [HMI.CONTROL_READY, HMI.PASS_RECEIVED] []) _
    (Control.boot [Control.HMI_READY, 1, 2, 3, 4, 5] [] (fun _ => 0)) _ _ _ _
    ⟨Control.some_getD_of_isSome _ (HMI.sample 0 0 [] []) (by decide),
     Control.some_getD_of_isSome _ (fun _ => 0, Control.boot [] [] (fun _ => 0)) (by decide),
     by decide, by decide, by decide⟩

/-! ### The wait loops -/

/-- A list that holds `X` splits at the first occurrence of `X`. -/
theorem split_at_first (X : Nat) : ∀ (l : List Nat), X ∈ l →
    ∃ (junk rest : List Nat), l = junk ++ X :: rest ∧ X ∉ junk := by
  intro l
  induction l with
  | nil => intro h; exact absurd h (by simp)
  | cons a t ih =>
    intro h
    by_cases ha : a = X
    · exact ⟨[], t, by simp [ha], by simp⟩
    · have ht : X ∈ t := by
        rcases List.mem_cons.mp h with e | e
        · exact absurd e.symm ha
        · exact e
      obtain ⟨junk, rest, h1, h2⟩ := ih ht
      refine ⟨a :: junk, rest, by simp [h1], ?_⟩
      simp only [List.mem_cons, not_or]
      exact ⟨fun e => ha e.symm, h2⟩

/-- C12: a wait loop `while (UART_ReceiveByte() != X);`, on either node, run
when the bytes still to arrive hold `X`: the loop returns; the bytes to arrive
split as `junk`, in which `X` does not occur, then `X`, then `rest`; the loop
takes `junk` and `X` from the UART (its only events are these receptions, in
order), leaves `rest` unread, and changes nothing else of the node. -/
theorem C12_await_token (X : Nat) :
    (∀ s : Control.State, X ∈ s.rx →
      ∃ (junk rest : List Nat), s.rx = junk ++ X :: rest ∧ X ∉ junk ∧
        Control.awaitByte X s =
          some { s with rx := rest,
                        trace := s.trace ++ (junk.map Ev.recv ++ [Ev.recv X]) }) ∧
    (∀ s : HMI.State, X ∈ s.rx →
      ∃ (junk rest : List Nat), s.rx = junk ++ X :: rest ∧ X ∉ junk ∧
        HMI.awaitByte X s =
          some { s with rx := rest,
                        trace := s.trace ++ (junk.map Ev.recv ++ [Ev.recv X]) }) := by
  constructor
  · intro s h
    obtain ⟨junk, rest, h1, h2⟩ := split_at_first X s.rx h
    exact ⟨junk, rest, h1, h2, Control.awaitByte_junk X junk rest s h2 h1⟩
  · intro s h
    obtain ⟨junk, rest, h1, h2⟩ := split_at_first X s.rx h
    exact ⟨junk, rest, h1, h2, HMI.awaitByte_junk_hmi X junk rest s h2 h1⟩

/-- C12 on concrete inputs: the Control node awaits `OPEN_THE_DOOR` and the
HMI node awaits `PASS_RECEIVED`, each with two other bytes arriving first and
one byte arriving after. -/
theorem C12_await_token_witness :
    (∃ (junk rest : List Nat),
      (Control.boot [7, 0x10, 0x03, 9] [] (fun _ => 0)).rx = junk ++ 0x03 :: rest ∧
      0x03 ∉ junk ∧
      Control.awaitByte 0x03 (Control.boot [7, 0x10, 0x03, 9] [] (fun _ => 0)) =
        some { Control.boot [7, 0x10, 0x03, 9] [] (fun _ => 0) with
               rx := rest,
               trace := (Control.boot [7, 0x10, 0x03, 9] [] (fun _ => 0)).trace ++
                 (junk.map Ev.recv ++ [Ev.recv 0x03]) }) ∧
    (∃ (junk rest : List Nat),
      (HMI.sample 0 0 [0x20, 1, 0x06, 0x20] []).rx = junk ++ 0x06 :: rest ∧
      0x06 ∉ junk ∧
      HMI.awaitByte 0x06 (HMI.sample 0 0 [0x20, 1, 0x06, 0x20] []) =
        some { HMI.sample 0 0 [0x20, 1, 0x06, 0x20] [] with
               rx := rest,
               trace := (HMI.sample 0 0 [0x20, 1, 0x06, 0x20] []).trace ++
                 (junk.map Ev.recv ++ [Ev.recv 0x06]) }) :=
  ⟨(C12_await_token 0x03).1 _ (by decide), (C12_await_token 0x06).2 _ (by decide)⟩

namespace HMI

theorem keyEvents_append (a b : List Nat) : keyEvents (a ++ b) = keyEvents a ++ keyEvents b := by
  induction a with
  | nil => rfl
  | cons k t ih => simp [keyEvents, ih]

/-- The number of `'*'` shown is the number of keys of value 0..9. -/
theorem keyEvents_count (ks : List Nat) :
    (keyEvents ks).count (Ev.lcdChar STAR) = (ks.filter (fun k => decide (k ≤ 9))).length := by
  induction ks with
  | nil => rfl
  | cons k t ih =>
    by_cases hk : k ≤ 9
    · simp [keyEvents, hk, ih, List.count_cons]
    · simp [keyEvents, hk, ih, List.count_cons]

/-- The wait for the enter key, when the key held is not `'='` and the keys to
come hold `'='`: the keys before the first `'='` are read and dropped, `'='`
is read, the rest stays unread. -/
theorem awaitEnter_loop_run (mid rest : List Nat) (hm : EQUALS ∉ mid) :
    ∀ (k : Nat) (s : State), mid.length < k → s.Key_Pressed ≠ EQUALS →
      s.keys = mid ++ EQUALS :: rest →
      awaitEnter.loop k s =
        some { s with Key_Pressed := EQUALS, keys := rest,
                      trace := s.trace ++ (mid ++ [EQUALS]).map Ev.key } := by
  induction mid with
  | nil =>
    intro k s hk hne h
    cases k with
    | zero => omega
    | succ k =>
      simp only [List.nil_append] at h
      cases k <;> simp [awaitEnter.loop, KEYPAD_GetPressedKey, h, hne]
  | cons a t ih =>
    intro k s hk hne h
    cases k with
    | zero => omega
    | succ k =>
      have haX : a ≠ EQUALS := fun e => hm (by simp [e])
      have ht : EQUALS ∉ t := fun e => hm (by simp [e])
      simp only [List.cons_append] at h
      simp only [awaitEnter.loop, KEYPAD_GetPressedKey, h, ne_eq, hne, not_false_eq_true,
        if_true]
      rw [ih ht k _ (by simpa using hk) haX rfl]
      simp

theorem awaitEnter_run (mid rest : List Nat) (s : State) (hm : EQUALS ∉ mid)
    (hne : s.Key_Pressed ≠ EQUALS) (h : s.keys = mid ++ EQUALS :: rest) :
    awaitEnter s =
      some { s with Key_Pressed := EQUALS, keys := rest,
                    trace := s.trace ++ (mid ++ [EQUALS]).map Ev.key } := by
  unfold awaitEnter
  exact awaitEnter_loop_run mid rest hm _ s (by simp [h]) hne h

/-- The capture loop, entered with `Counter` digits already stored, on keys
`pre`, then a key `d` of value 0..9, then `rest`, where `pre` holds as many
keys of value 0..9 as are still missing but one: the loop reads `pre` and `d`
and leaves `rest`; it stores the keys of value 0..9 at the indices from
`Counter` on, in the order pressed, and changes no other index. -/
theorem capture_loop_run (first : Bool) :
    ∀ (pre : List Nat) (d : Nat) (rest : List Nat) (k : Nat) (s : State),
      d ≤ 9 → s.Counter + (pre.filter (fun k => decide (k ≤ 9))).length = 4 →
      s.keys = pre ++ d :: rest → pre.length < k →
      ∃ B : Buf,
        capture.loop first k s =
          some (if first then
              { s with Key_Pressed := d, Counter := 5, PassArr1_Send := B, keys := rest,
                       trace := s.trace ++ keyEvents (pre ++ [d]) }
            else
              { s with Key_Pressed := d, Counter := 5, PassArr2_Send := B, keys := rest,
                       trace := s.trace ++ keyEvents (pre ++ [d]) }) ∧
        (∀ j, j < s.Counter →
          B j = (if first then s.PassArr1_Send else s.PassArr2_Send) j) ∧
        (∀ j, 5 ≤ j → B j = (if first then s.PassArr1_Send else s.PassArr2_Send) j) ∧
        (∀ j v, (pre.filter (fun k => decide (k ≤ 9)) ++ [d])[j]? = some v →
          B (s.Counter + j) = v) := by
  intro pre
  induction pre with
  | nil =>
    intro d rest k s hd hc hk hlen
    obtain ⟨seq, key, cnt, ctr, p1, p2, i, rx, keys, t1, cb, tr⟩ := s
    simp only [List.filter_nil, List.length_nil, Nat.add_zero, List.nil_append] at hc hk
    subst hc
    subst hk
    cases k with
    | zero => simp at hlen
    | succ k =>
      refine ⟨(if first then p1 else p2).store 4 d, ?_, ?_, ?_, ?_⟩
      · cases first <;> cases k <;>
          simp [capture.loop, KEYPAD_GetPressedKey, hd, LCD_DisplayCharacter, State.log,
            keyEvents]
      · intro j hj
        simp only at hj
        simp only [Buf.store]
        rw [if_neg (by omega)]
      · intro j hj
        simp only [Buf.store]
        rw [if_neg (by omega)]
      · intro j v hv
        cases j with
        | zero =>
          simp only [List.filter_nil, List.nil_append, List.getElem?_cons_zero,
            Option.some.injEq] at hv
          simp [Buf.store, hv]
        | succ j => simp at hv
  | cons a t ih =>
    intro d rest k s hd hc hk hlen
    obtain ⟨seq, key, cnt, ctr, p1, p2, i, rx, keys, t1, cb, tr⟩ := s
    simp only [List.cons_append] at hk
    simp only at hc
    subst hk
    cases k with
    | zero => simp at hlen
    | succ k =>
      have hlen2 : t.length < k := by simpa using hlen
      by_cases ha : a ≤ 9
      · have hc2 : ctr + 1 + (t.filter (fun k => decide (k ≤ 9))).length = 4 := by
          simp [List.filter_cons, ha] at hc
          omega
        have hctr : ctr < 5 := by omega
        have hmod : (ctr + 1) % 256 = ctr + 1 := by omega
        cases first
        · obtain ⟨B, h0, h1, h2, h3⟩ := ih d rest k
            { HMI_ECU_Sequence := seq, Key_Pressed := a, G_Timer1_Count := cnt,
              Counter := ctr + 1, PassArr1_Send := p1, PassArr2_Send := p2.store ctr a, i := i,
              rx := rx, keys := t ++ d :: rest, timer1 := t1, callBack := cb,
              trace := tr ++ [Ev.key a, Ev.lcdChar STAR] } hd hc2 rfl hlen2
          refine ⟨B, ?_, ?_, ?_, ?_⟩
          · simp [capture.loop, KEYPAD_GetPressedKey, ha, hctr, hmod, LCD_DisplayCharacter,
              State.log] at h0 ⊢
            rw [h0]
            simp [keyEvents, ha]
          · intro j hj
            simp only at hj
            have := h1 j (by simp; omega)
            simp only [Bool.false_eq_true, if_false] at this ⊢
            rw [this]
            simp only [Buf.store]
            rw [if_neg (by omega)]
          · intro j hj
            have := h2 j hj
            simp only [Bool.false_eq_true, if_false] at this ⊢
            rw [this]
            simp only [Buf.store]
            rw [if_neg (by omega)]
          · intro j v hv
            simp only [List.filter_cons, ha, decide_True, if_true, List.cons_append] at hv
            cases j with
            | zero =>
              simp only [List.getElem?_cons_zero, Option.some.injEq] at hv
              have := h1 ctr (by simp)
              simp only [Bool.false_eq_true, if_false, Buf.store, if_true] at this
              simpa [hv] using this
            | succ j =>
              simp only [List.getElem?_cons_succ] at hv
              have := h3 j v hv
              simp only at this ⊢
              rw [← this]
              congr 1
              omega
        · obtain ⟨B, h0, h1, h2, h3⟩ := ih d rest k
            { HMI_ECU_Sequence := seq, Key_Pressed := a, G_Timer1_Count := cnt,
              Counter := ctr + 1, PassArr1_Send := p1.store ctr a, PassArr2_Send := p2, i := i,
              rx := rx, keys := t ++ d :: rest, timer1 := t1, callBack := cb,
              trace := tr ++ [Ev.key a, Ev.lcdChar STAR] } hd hc2 rfl hlen2
          refine ⟨B, ?_, ?_, ?_, ?_⟩
          · simp [capture.loop, KEYPAD_GetPressedKey, ha, hctr, hmod, LCD_DisplayCharacter,
              State.log] at h0 ⊢
            rw [h0]
            simp [keyEvents, ha]
          · intro j hj
            simp only at hj
            have := h1 j (by simp; omega)
            simp only [if_true] at this ⊢
            rw [this]
            simp only [Buf.store]
            rw [if_neg (by omega)]
          · intro j hj
            have := h2 j hj
            simp only [if_true] at this ⊢
            rw [this]
            simp only [Buf.store]
            rw [if_neg (by omega)]
          · intro j v hv
            simp only [List.filter_cons, ha, decide_True, if_true, List.cons_append] at hv
            cases j with
            | zero =>
              simp only [List.getElem?_cons_zero, Option.some.injEq] at hv
              have := h1 ctr (by simp)
              simp only [if_true, Buf.store] at this
              simpa [hv] using this
            | succ j =>
              simp only [List.getElem?_cons_succ] at hv
              have := h3 j v hv
              simp only at this ⊢
              rw [← this]
              congr 1
              omega
      · have hc2 : ctr + (t.filter (fun k => decide (k ≤ 9))).length = 4 := by
          simpa [List.filter_cons, ha] using hc
        have hctr : ctr < 5 := by omega
        have hmod : ((ctr + 255) % 256 + 1) % 256 = ctr := by omega
        obtain ⟨B, h0, h1, h2, h3⟩ := ih d rest k
          { HMI_ECU_Sequence := seq, Key_Pressed := a, G_Timer1_Count := cnt,
            Counter := ctr, PassArr1_Send := p1, PassArr2_Send := p2, i := i,
            rx := rx, keys := t ++ d :: rest, timer1 := t1, callBack := cb,
            trace := tr ++ [Ev.key a] } hd hc2 rfl hlen2
        refine ⟨B, ?_, h1, h2, ?_⟩
        · simp [capture.loop, KEYPAD_GetPressedKey, ha, hctr, hmod] at h0 ⊢
          rw [h0]
          cases first <;> simp [keyEvents, ha]
        · intro j v hv
          simp only [List.filter_cons, ha, decide_False, Bool.false_eq_true, if_false] at hv
          exact h3 j v hv

/-- The capture loop with its initialisation, on keys `pre`, a key `d` of
value 0..9 and `rest`, where `pre` holds exactly four keys of value 0..9. -/
theorem capture_run (first : Bool) (pre : List Nat) (d : Nat) (rest : List Nat) (s : State)
    (hd : d ≤ 9) (hpre : (pre.filter (fun k => decide (k ≤ 9))).length = 4)
    (hkeys : s.keys = pre ++ d :: rest) :
    ∃ B : Buf,
      capture first s =
        some (if first then
            { s with Key_Pressed := d, Counter := 5, PassArr1_Send := B, keys := rest,
                     trace := s.trace ++ keyEvents (pre ++ [d]) }
          else
            { s with Key_Pressed := d, Counter := 5, PassArr2_Send := B, keys := rest,
                     trace := s.trace ++ keyEvents (pre ++ [d]) }) ∧
      Buf.first5 B = pre.filter (fun k => decide (k ≤ 9)) ++ [d] ∧
      (∀ j, 5 ≤ j → B j = (if first then s.PassArr1_Send else s.PassArr2_Send) j) := by
  obtain ⟨B, h0, -, h2, h3⟩ := capture_loop_run first pre d rest s.keys.length
    { s with Counter := 0 } hd (by simpa using hpre) hkeys (by simp [hkeys])
  refine ⟨B, ?_, ?_, h2⟩
  · unfold capture
    rw [h0]
  · obtain ⟨x0, x1, x2, x3, x4, hx⟩ := Control.length_five
      (pre.filter (fun k => decide (k ≤ 9)) ++ [d]) (by simp [hpre])
    rw [hx] at h3 ⊢
    have e0 := h3 0 x0 rfl
    have e1 := h3 1 x1 rfl
    have e2 := h3 2 x2 rfl
    have e3 := h3 3 x3 rfl
    have e4 := h3 4 x4 rfl
    simp only [Nat.zero_add] at e0 e1 e2 e3 e4
    simp [Buf.first5, e0, e1, e2, e3, e4]

end HMI

/-! ### The keypad capture -/

/-- C13: `EnterPassword`, and likewise `ConfirmPassword`, on a key stream
`pre`, `d`, `mid`, `'='`, `rest` in which `pre` holds exactly four keys of
value 0..9, `d` is a key of value 0..9 (the fifth) and `'='` does not occur in
`mid`. After the prompt, the function reads `pre` and `d`, showing a `'*'`
after each key of value 0..9 and nothing after any other key (also `'='`),
five `'*'` in all; it then reads `mid` and `'='` and leaves `rest`; its buffer
then holds at the indices `0..4` the five keys of value 0..9 in the order
pressed; and it ends as the call of `SendPassword` on that buffer. -/
theorem C13_keypad_capture (s : HMI.State) (pre mid rest : List Nat) (d : Nat)
    (hd : d ≤ 9) (hpre : (pre.filter (fun k => decide (k ≤ 9))).length = 4)
    (hmid : HMI.EQUALS ∉ mid) (hkeys : s.keys = pre ++ d :: (mid ++ HMI.EQUALS :: rest)) :
    (∃ B : Buf, Buf.first5 B = pre.filter (fun k => decide (k ≤ 9)) ++ [d] ∧
      (∀ j, 5 ≤ j → B j = s.PassArr1_Send j) ∧
      HMI.EnterPassword s =
        HMI.SendPassword B
          { s with Key_Pressed := HMI.EQUALS, Counter := 5, PassArr1_Send := B, keys := rest,
                   trace := s.trace ++ ([Ev.lcdClear, Ev.lcdString "Plz Enter Pass: ",
                     Ev.lcdMove 1 0] ++ HMI.keyEvents (pre ++ [d]) ++
                     (mid ++ [HMI.EQUALS]).map Ev.key) }) ∧
    (∃ B : Buf, Buf.first5 B = pre.filter (fun k => decide (k ≤ 9)) ++ [d] ∧
      (∀ j, 5 ≤ j → B j = s.PassArr2_Send j) ∧
      HMI.ConfirmPassword s =
        HMI.SendPassword B
          { s with Key_Pressed := HMI.EQUALS, Counter := 5, PassArr2_Send := B, keys := rest,
                   trace := s.trace ++ ([Ev.lcdClear, Ev.lcdString "Plz re-enter the",
                     Ev.lcdMove 1 0, Ev.lcdString "Same Pass: ", Ev.lcdMove 1 11] ++
                     HMI.keyEvents (pre ++ [d]) ++ (mid ++ [HMI.EQUALS]).map Ev.key) }) ∧
    (HMI.keyEvents (pre ++ [d])).count (Ev.lcdChar HMI.STAR) = 5 := by
  have hne : d ≠ HMI.EQUALS := by
    intro e
    rw [e] at hd
    exact absurd hd (by decide)
  refine ⟨?_, ?_, ?_⟩
  · obtain ⟨B, h0, h1, h2⟩ := HMI.capture_run true pre d (mid ++ HMI.EQUALS :: rest)
      (HMI.LCD_MoveCursor 1 0 (HMI.LCD_DisplayString "Plz Enter Pass: " (HMI.LCD_ClearString s)))
      hd hpre hkeys
    refine ⟨B, h1, h2, ?_⟩
    unfold HMI.EnterPassword
    simp only [h0, if_true]
    rw [HMI.awaitEnter_run mid rest _ hmid hne rfl]
    simp [HMI.LCD_MoveCursor, HMI.LCD_DisplayString, HMI.LCD_ClearString, HMI.State.log]
  · obtain ⟨B, h0, h1, h2⟩ := HMI.capture_run false pre d (mid ++ HMI.EQUALS :: rest)
      (HMI.LCD_MoveCursor 1 11 (HMI.LCD_DisplayString "Same Pass: " (HMI.LCD_MoveCursor 1 0
        (HMI.LCD_DisplayString "Plz re-enter the" (HMI.LCD_ClearString s)))))
      hd hpre hkeys
    refine ⟨B, h1, h2, ?_⟩
    unfold HMI.ConfirmPassword
    simp only [h0, Bool.false_eq_true, if_false]
    rw [HMI.awaitEnter_run mid rest _ hmid hne rfl]
    simp [HMI.LCD_MoveCursor, HMI.LCD_DisplayString, HMI.LCD_ClearString, HMI.State.log]
  · rw [HMI.keyEvents_count]
    simp [hpre, hd]

/-- C13 on a concrete key stream: 1, `'+'`, 2, `'='`, 3, 4, 5, then 7, `'='`,
then 9. -/
theorem C13_keypad_capture_witness :
    (∃ B : Buf, Buf.first5 B = [1, 43, 2, 61, 3, 4].filter (fun k => decide (k ≤ 9)) ++ [5] ∧
      (∀ j, 5 ≤ j → B j = (HMI.sample 0 0 [] [1, 43, 2, 61, 3, 4, 5, 7, 61, 9]).PassArr1_Send j) ∧
      HMI.EnterPassword (HMI.sample 0 0 [] [1, 43, 2, 61, 3, 4, 5, 7, 61, 9]) =
        HMI.SendPassword B
          { HMI.sample 0 0 [] [1, 43, 2, 61, 3, 4, 5, 7, 61, 9] with
            Key_Pressed := HMI.EQUALS, Counter := 5, PassArr1_Send := B, keys := [9],
            trace := (HMI.sample 0 0 [] [1, 43, 2, 61, 3, 4, 5, 7, 61, 9]).trace ++
              ([Ev.lcdClear, Ev.lcdString "Plz Enter Pass: ", Ev.lcdMove 1 0] ++
                HMI.keyEvents ([1, 43, 2, 61, 3, 4] ++ [5]) ++
                ([7] ++ [HMI.EQUALS]).map Ev.key) }) ∧
    (∃ B : Buf, Buf.first5 B = [1, 43, 2, 61, 3, 4].filter (fun k => decide (k ≤ 9)) ++ [5] ∧
      (∀ j, 5 ≤ j → B j = (HMI.sample 0 0 [] [1, 43, 2, 61, 3, 4, 5, 7, 61, 9]).PassArr2_Send j) ∧
      HMI.ConfirmPassword (HMI.sample 0 0 [] [1, 43, 2, 61, 3, 4, 5, 7, 61, 9]) =
        HMI.SendPassword B
          { HMI.sample 0 0 [] [1, 43, 2, 61, 3, 4, 5, 7, 61, 9] with
            Key_Pressed := HMI.EQUALS, Counter := 5, PassArr2_Send := B, keys := [9],
            trace := (HMI.sample 0 0 [] [1, 43, 2, 61, 3, 4, 5, 7, 61, 9]).trace ++
              ([Ev.lcdClear, Ev.lcdString "Plz re-enter the", Ev.lcdMove 1 0,
                Ev.lcdString "Same Pass: ", Ev.lcdMove 1 11] ++
                HMI.keyEvents ([1, 43, 2, 61, 3, 4] ++ [5]) ++
                ([7] ++ [HMI.EQUALS]).map Ev.key) }) ∧
    (HMI.keyEvents ([1, 43, 2, 61, 3, 4] ++ [5])).count (Ev.lcdChar HMI.STAR) = 5 :=
  C13_keypad_capture (HMI.sample 0 0 [] [1, 43, 2, 61, 3, 4, 5, 7, 61, 9])
    [1, 43, 2, 61, 3, 4] [7] [9] 5 (by decide) (by decide) (by decide) rfl

namespace Control

/-! ### Timed waits -/

theorem waitTicks_loop_exact (n : Nat) (hn : n < 256) :
    ∀ (k : Nat) (s : State), s.G_Timer1_Count ≤ n → n - s.G_Timer1_Count ≤ k →
      waitTicks.loop n k s =
        { s with G_Timer1_Count := n,
                 trace := s.trace ++ List.replicate (n - s.G_Timer1_Count) Ev.tick } := by
  intro k
  induction k with
  | zero =>
    intro s h1 h2
    have e : s.G_Timer1_Count = n := by omega
    simp [waitTicks.loop, ← e]
  | succ k ih =>
    intro s h1 h2
    simp only [waitTicks.loop]
    split
    · rename_i hlt
      have hm : (s.G_Timer1_Count + 1) % 256 = s.G_Timer1_Count + 1 := by omega
      rw [ih (Timer1_CallBack s) (by simp [Timer1_CallBack, hm]; omega)
        (by simp [Timer1_CallBack, hm]; omega)]
      have e : n - s.G_Timer1_Count = (n - (s.G_Timer1_Count + 1)) + 1 := by omega
      simp [Timer1_CallBack, hm, e, List.replicate_succ]
    · rename_i hlt
      have e : s.G_Timer1_Count = n := by omega
      simp [← e]

/-- A timed wait entered with the tick counter at 0 while Timer1 runs with the
callback registered: it returns after exactly `n` ticks, with the counter at
`n`. -/
theorem waitTicks_run (n : Nat) (hn : n < 256) (s : State) (h0 : s.G_Timer1_Count = 0)
    (ht : s.timer1 = true) (hc : s.callBack = true) :
    waitTicks n s =
      some { s with G_Timer1_Count := n, trace := s.trace ++ List.replicate n Ev.tick } := by
  obtain ⟨seq, g1, g2, cnt, i, rx, bus, t1, cb, tr⟩ := s
  simp only at h0 ht hc
  subst h0
  subst ht
  subst hc
  unfold waitTicks
  by_cases hz : n = 0
  · subst hz
    simp
  · have h1 : ¬ n ≤ 0 := by omega
    simp only [h1, if_false, Bool.and_self, if_true]
    rw [waitTicks_loop_exact n hn n _ (by simp) (by simp)]
    simp

/-- One pass of the loop leaves the tick counter at 0 when it finds it so. -/
theorem step_count (s s1 : State) (hc : s.G_Timer1_Count = 0) (hq : s.Control_ECU_Sequence ≤ 4)
    (h : step s = some s1) : s1.G_Timer1_Count = 0 := by
  have hcases : s.Control_ECU_Sequence = 0 ∨ s.Control_ECU_Sequence = 1 ∨
      s.Control_ECU_Sequence = 2 ∨ s.Control_ECU_Sequence = 3 ∨ s.Control_ECU_Sequence = 4 := by
    omega
  rcases hcases with h0 | h0 | h0 | h0 | h0
  · rw [step_RECEIVE_FIRST_PASSWORD s h0] at h
    obtain ⟨p, r, ev, rfl, -⟩ := case_RECEIVE_FIRST_PASSWORD_some s s1 h
    exact hc
  · rw [step_RECEIVE_AND_CHECK_CONFIRMED_PASSWORD s h0] at h
    obtain ⟨p, r, ev, _, _, _, _, hcs⟩ := case_RECEIVE_AND_CHECK_CONFIRMED_PASSWORD_some s s1 h
    rcases hcs with ⟨_, b, ev2, rfl, -⟩ | ⟨_, rfl⟩
    · exact hc
    · exact hc
  · rw [step_RECEIVING_MAIN_OPTION s h0] at h
    obtain ⟨c, p, p2, r, b, ev, _, _, _, hcs⟩ := case_RECEIVING_MAIN_OPTION_some s s1 h
    rcases hcs with ⟨_, rfl⟩ | ⟨_, rfl⟩
    · exact hc
    · exact hc
  · rw [step_OPEN_THE_DOOR s h0] at h
    obtain ⟨r, ev, rfl, -⟩ := case_OPEN_THE_DOOR_some s s1 h
    rfl
  · rw [step_PASSWORD_ERROR s h0] at h
    obtain ⟨r, ev, rfl, -⟩ := case_PASSWORD_ERROR_some s s1 h
    rfl

/-- From boot on, the tick counter is 0 whenever the loop is at its top. -/
theorem run_boot_count (rx twsr : List Nat) (ee : Nat → Nat) :
    ∀ (n : Nat) (s : State), run n (boot rx twsr ee) = some s → s.G_Timer1_Count = 0 := by
  have gen : ∀ (n : Nat) (s0 s : State), s0.i < 3 → s0.Control_ECU_Sequence ≤ 4 →
      s0.G_Timer1_Count = 0 → run n s0 = some s → s.G_Timer1_Count = 0 := by
    intro n
    induction n with
    | zero =>
      intro s0 s hi hq hc h
      simp only [run, Option.some.injEq] at h
      subst h
      exact hc
    | succ n ih =>
      intro s0 s hi hq hc h
      simp only [run] at h
      split at h
      · exact absurd h (by simp)
      · rename_i s1 hs1
        obtain ⟨hi1, hq1⟩ := step_inv s0 s1 hi hq hs1
        exact ih s1 s hi1 hq1 (step_count s0 s1 hc hq hs1) h
  intro n s h
  exact gen n (boot rx twsr ee) s (by simp [boot, UART_SendByte, State.log])
    (by simp [boot, UART_SendByte, State.log]) (by simp [boot, UART_SendByte, State.log]) h

/-- A pass in `OPEN_THE_DOOR` entered with the tick counter at 0, when the
bytes to arrive hold `HMI_READY` and later `OPEN_THE_DOOR`. -/
theorem case_OPEN_THE_DOOR_run (s : State) (junk junk2 rest : List Nat)
    (hc : s.G_Timer1_Count = 0) (hj : HMI_READY ∉ junk) (hj2 : OPEN_THE_DOOR ∉ junk2)
    (hrx : s.rx = junk ++ HMI_READY :: (junk2 ++ OPEN_THE_DOOR :: rest)) :
    case_OPEN_THE_DOOR s =
      some { s with
        rx := rest, G_Timer1_Count := 0, timer1 := false, callBack := true,
        Control_ECU_Sequence := RECEIVING_MAIN_OPTION,
        trace := s.trace ++ (junk.map Ev.recv ++ [Ev.recv HMI_READY, Ev.send CONTROL_READY] ++
          (junk2.map Ev.recv ++ [Ev.recv OPEN_THE_DOOR])) ++
          ([Ev.timer0Init, Ev.timer1Init, Ev.timer1SetCallBack, Ev.motor DcMotor_State.CW 100] ++
            List.replicate 5 Ev.tick ++ [Ev.motor DcMotor_State.STOP 0] ++
            List.replicate 1 Ev.tick ++ [Ev.motor DcMotor_State.A_CW 100] ++
            List.replicate 5 Ev.tick ++
            [Ev.motor DcMotor_State.STOP 0, Ev.timer1DeInit, Ev.timer0DeInit]) } := by
  obtain ⟨seq, g1, g2, cnt, i, rx, bus, t1, cb, tr⟩ := s
  simp only at hc hrx
  subst hc
  subst hrx
  unfold case_OPEN_THE_DOOR
  rw [awaitByte_junk HMI_READY junk _ _ hj rfl]
  simp only
  rw [awaitByte_junk OPEN_THE_DOOR junk2 rest _ hj2 (by simp [UART_SendByte, State.log])]
  simp only
  rw [waitTicks_run 5 (by decide) _ (by simp [DcMotor_Rotate, Timer1_SetCallBack,
      Timer1_NonPWm_Mode_Init, Timer0_PWM_Mode_Init, UART_SendByte, State.log])
    (by simp [DcMotor_Rotate, Timer1_SetCallBack, Timer1_NonPWm_Mode_Init, State.log])
    (by simp [DcMotor_Rotate, Timer1_SetCallBack, State.log])]
  simp only
  rw [waitTicks_run 1 (by decide) _ (by simp [DcMotor_Rotate, State.log])
    (by simp [DcMotor_Rotate, Timer1_SetCallBack, Timer1_NonPWm_Mode_Init, State.log])
    (by simp [DcMotor_Rotate, Timer1_SetCallBack, State.log])]
  simp only
  rw [waitTicks_run 5 (by decide) _ (by simp [DcMotor_Rotate, State.log])
    (by simp [DcMotor_Rotate, Timer1_SetCallBack, Timer1_NonPWm_Mode_Init, State.log])
    (by simp [DcMotor_Rotate, Timer1_SetCallBack, State.log])]
  simp [DcMotor_Rotate, Timer1_SetCallBack, Timer1_NonPWm_Mode_Init, Timer0_PWM_Mode_Init,
    Timer1_DeInit, Timer0_DeInit, UART_SendByte, State.log]

/-- A pass in `PASSWORD_ERROR` entered with the tick counter at 0, when the
bytes to arrive hold `HMI_READY`. -/
theorem case_PASSWORD_ERROR_run (s : State) (junk rest : List Nat)
    (hc : s.G_Timer1_Count = 0) (hj : HMI_READY ∉ junk)
    (hrx : s.rx = junk ++ HMI_READY :: rest) :
    case_PASSWORD_ERROR s =
      some { s with
        rx := rest, G_Timer1_Count := 0, timer1 := false, callBack := true,
        Control_ECU_Sequence := RECEIVING_MAIN_OPTION,
        trace := s.trace ++ (Ev.send CONTROL_READY :: (junk.map Ev.recv ++
          [Ev.recv HMI_READY, Ev.send DISPLAY_ERROR])) ++
          ([Ev.timer1Init, Ev.timer1SetCallBack, Ev.buzzer true] ++
            List.replicate 20 Ev.tick ++ [Ev.buzzer false, Ev.timer1DeInit]) } := by
  obtain ⟨seq, g1, g2, cnt, i, rx, bus, t1, cb, tr⟩ := s
  simp only at hc hrx
  subst hc
  subst hrx
  unfold case_PASSWORD_ERROR
  rw [awaitByte_junk HMI_READY junk rest _ hj (by simp [UART_SendByte, State.log])]
  simp only
  rw [waitTicks_run 20 (by decide) _ (by simp [Buzzer_ON, Timer1_SetCallBack,
      Timer1_NonPWm_Mode_Init, UART_SendByte, State.log])
    (by simp [Buzzer_ON, Timer1_SetCallBack, Timer1_NonPWm_Mode_Init, State.log])
    (by simp [Buzzer_ON, Timer1_SetCallBack, State.log])]
  simp [Buzzer_ON, Buzzer_OFF, Timer1_SetCallBack, Timer1_NonPWm_Mode_Init, Timer1_DeInit,
    UART_SendByte, State.log]

end Control

namespace HMI

/-! ### Timed waits of the HMI node -/

theorem waitTicks_loop_exact_hmi (n : Nat) (hn : n < 256) :
    ∀ (k : Nat) (s : State), s.G_Timer1_Count ≤ n → n - s.G_Timer1_Count ≤ k →
      waitTicks.loop n k s =
        { s with G_Timer1_Count := n,
                 trace := s.trace ++ List.replicate (n - s.G_Timer1_Count) Ev.tick } := by
  intro k
  induction k with
  | zero =>
    intro s h1 h2
    have e : s.G_Timer1_Count = n := by omega
    simp [waitTicks.loop, ← e]
  | succ k ih =>
    intro s h1 h2
    simp only [waitTicks.loop]
    split
    · rename_i hlt
      have hm : (s.G_Timer1_Count + 1) % 256 = s.G_Timer1_Count + 1 := by omega
      rw [ih (Timer1_CallBack s) (by simp [Timer1_CallBack, hm]; omega)
        (by simp [Timer1_CallBack, hm]; omega)]
      have e : n - s.G_Timer1_Count = (n - (s.G_Timer1_Count + 1)) + 1 := by omega
      simp [Timer1_CallBack, hm, e, List.replicate_succ]
    · rename_i hlt
      have e : s.G_Timer1_Count = n := by omega
      simp [← e]

/-- A timed wait of the HMI node entered with the tick counter at 0 while
Timer1 runs with the callback registered: it returns after exactly `n` ticks,
with the counter at `n`. -/
theorem waitTicks_run_hmi (n : Nat) (hn : n < 256) (s : State) (h0 : s.G_Timer1_Count = 0)
    (ht : s.timer1 = true) (hc : s.callBack = true) :
    waitTicks n s =
      some { s with G_Timer1_Count := n, trace := s.trace ++ List.replicate n Ev.tick } := by
  obtain ⟨seq, key, cnt, ctr, p1, p2, i, rx, keys, t1, cb, tr⟩ := s
  simp only at h0 ht hc
  subst h0
  subst ht
  subst hc
  unfold waitTicks
  by_cases hz : n = 0
  · subst hz
    simp
  · have h1 : ¬ n ≤ 0 := by omega
    simp only [h1, if_false, Bool.and_self, if_true]
    rw [waitTicks_loop_exact_hmi n hn n _ (by simp) (by simp)]
    simp

/-- A pass in `OPENING_DOOR` entered with the tick counter at 0, when the
bytes to arrive hold `CONTROL_READY`. -/
theorem case_OPENING_DOOR_run (s : State) (junk rest : List Nat)
    (hc : s.G_Timer1_Count = 0) (hj : CONTROL_READY ∉ junk)
    (hrx : s.rx = junk ++ CONTROL_READY :: rest) :
    case_OPENING_DOOR s =
      some { s with
        rx := rest, G_Timer1_Count := 0, timer1 := false, callBack := true,
        HMI_ECU_Sequence := MAIN_OPTIONS_DISPLAY,
        trace := s.trace ++ (Ev.send HMI_READY :: (junk.map Ev.recv ++
          [Ev.recv CONTROL_READY, Ev.send OPEN_THE_DOOR])) ++
          ([Ev.timer1Init, Ev.timer1SetCallBack, Ev.lcdClear, Ev.lcdString "Door is",
            Ev.lcdMove 1 0, Ev.lcdString "Unlocking..."] ++ List.replicate 6 Ev.tick ++
            [Ev.lcdClear, Ev.lcdString "Door is", Ev.lcdMove 1 0, Ev.lcdString "Locking..."] ++
            List.replicate 5 Ev.tick ++ [Ev.timer1DeInit]) } := by
  obtain ⟨seq, key, cnt, ctr, p1, p2, i, rx, keys, t1, cb, tr⟩ := s
  simp only at hc hrx
  subst hc
  subst hrx
  unfold case_OPENING_DOOR
  rw [awaitByte_junk_hmi CONTROL_READY junk rest _ hj (by simp [UART_SendByte, State.log])]
  simp only
  rw [waitTicks_run_hmi 6 (by decide) _
    (by simp [LCD_DisplayString, LCD_MoveCursor, LCD_ClearString, Timer1_SetCallBack,
      Timer1_NonPWm_Mode_Init, UART_SendByte, State.log])
    (by simp [LCD_DisplayString, LCD_MoveCursor, LCD_ClearString, Timer1_SetCallBack,
      Timer1_NonPWm_Mode_Init, State.log])
    (by simp [LCD_DisplayString, LCD_MoveCursor, LCD_ClearString, Timer1_SetCallBack,
      State.log])]
  simp only
  rw [waitTicks_run_hmi 5 (by decide) _
    (by simp [LCD_DisplayString, LCD_MoveCursor, LCD_ClearString, State.log])
    (by simp [LCD_DisplayString, LCD_MoveCursor, LCD_ClearString, Timer1_SetCallBack,
      Timer1_NonPWm_Mode_Init, State.log])
    (by simp [LCD_DisplayString, LCD_MoveCursor, LCD_ClearString, Timer1_SetCallBack,
      State.log])]
  simp [LCD_DisplayString, LCD_MoveCursor, LCD_ClearString, Timer1_SetCallBack,
    Timer1_NonPWm_Mode_Init, Timer1_DeInit, UART_SendByte, State.log]

/-- A pass in `PASSWORD_ERROR` of the HMI node entered with the tick counter
at 0, when the bytes to arrive hold `CONTROL_READY` and later
`DISPLAY_ERROR`. -/
theorem case_PASSWORD_ERROR_run_hmi (s : State) (junk junk2 rest : List Nat)
    (hc : s.G_Timer1_Count = 0) (hj : CONTROL_READY ∉ junk) (hj2 : DISPLAY_ERROR ∉ junk2)
    (hrx : s.rx = junk ++ CONTROL_READY :: (junk2 ++ DISPLAY_ERROR :: rest)) :
    case_PASSWORD_ERROR s =
      some { s with
        rx := rest, G_Timer1_Count := 0, timer1 := false, callBack := true,
        HMI_ECU_Sequence := MAIN_OPTIONS_DISPLAY,
        trace := s.trace ++ (junk.map Ev.recv ++ [Ev.recv CONTROL_READY, Ev.send HMI_READY] ++
          (junk2.map Ev.recv ++ [Ev.recv DISPLAY_ERROR])) ++
          ([Ev.timer1Init, Ev.timer1SetCallBack, Ev.lcdClear, Ev.lcdString "ERROR Happened!",
            Ev.lcdMove 1 0, Ev.lcdString "Try Again Later"] ++ List.replicate 20 Ev.tick ++
            [Ev.timer1DeInit]) } := by
  obtain ⟨seq, key, cnt, ctr, p1, p2, i, rx, keys, t1, cb, tr⟩ := s
  simp only at hc hrx
  subst hc
  subst hrx
  unfold case_PASSWORD_ERROR
  rw [awaitByte_junk_hmi CONTROL_READY junk _ _ hj rfl]
  simp only
  rw [awaitByte_junk_hmi DISPLAY_ERROR junk2 rest _ hj2 (by simp [UART_SendByte, State.log])]
  simp only
  rw [waitTicks_run_hmi 20 (by decide) _
    (by simp [LCD_DisplayString, LCD_MoveCursor, LCD_ClearString, Timer1_SetCallBack,
      Timer1_NonPWm_Mode_Init, UART_SendByte, State.log])
    (by simp [LCD_DisplayString, LCD_MoveCursor, LCD_ClearString, Timer1_SetCallBack,
      Timer1_NonPWm_Mode_Init, State.log])
    (by simp [LCD_DisplayString, LCD_MoveCursor, LCD_ClearString, Timer1_SetCallBack,
      State.log])]
  simp [LCD_DisplayString, LCD_MoveCursor, LCD_ClearString, Timer1_SetCallBack,
    Timer1_NonPWm_Mode_Init, Timer1_DeInit, UART_SendByte, State.log]

/-! ### What the functions of the HMI node leave alone -/

theorem capture_loop_frame (first : Bool) :
    ∀ (k : Nat) (s t : State), capture.loop first k s = some t →
      t.HMI_ECU_Sequence = s.HMI_ECU_Sequence ∧ t.G_Timer1_Count = s.G_Timer1_Count ∧
      t.i = s.i ∧ t.rx = s.rx := by
  intro k
  induction k with
  | zero =>
    intro s t h
    simp only [capture.loop] at h
    split at h
    · exact absurd h (by simp)
    · simp only [Option.some.injEq] at h
      subst h
      exact ⟨rfl, rfl, rfl, rfl⟩
  | succ k ih =>
    intro s t h
    simp only [capture.loop] at h
    split at h
    · split at h
      · exact absurd h (by simp)
      · rename_i key s1 hkey
        obtain ⟨r, -, rfl⟩ := KEYPAD_GetPressedKey_some _ _ _ hkey
        obtain ⟨h1, h2, h3, h4⟩ := ih _ _ h
        by_cases hk : key ≤ 9
        · cases first <;>
            simpa [hk, LCD_DisplayCharacter, State.log] using And.intro h1 (And.intro h2
              (And.intro h3 h4))
        · simpa [hk] using And.intro h1 (And.intro h2 (And.intro h3 h4))
    · simp only [Option.some.injEq] at h
      subst h
      exact ⟨rfl, rfl, rfl, rfl⟩

theorem awaitEnter_loop_frame :
    ∀ (k : Nat) (s t : State), awaitEnter.loop k s = some t →
      t.HMI_ECU_Sequence = s.HMI_ECU_Sequence ∧ t.G_Timer1_Count = s.G_Timer1_Count ∧
      t.i = s.i ∧ t.rx = s.rx ∧ t.PassArr1_Send = s.PassArr1_Send ∧
      t.PassArr2_Send = s.PassArr2_Send ∧ t.Key_Pressed = EQUALS := by
  intro k
  induction k with
  | zero =>
    intro s t h
    simp only [awaitEnter.loop] at h
    split at h
    · exact absurd h (by simp)
    · rename_i hc
      simp only [Option.some.injEq] at h
      subst h
      exact ⟨rfl, rfl, rfl, rfl, rfl, rfl, by simpa using hc⟩
  | succ k ih =>
    intro s t h
    simp only [awaitEnter.loop] at h
    split at h
    · split at h
      · exact absurd h (by simp)
      · rename_i key s1 hkey
        obtain ⟨r, -, rfl⟩ := KEYPAD_GetPressedKey_some _ _ _ hkey
        have hh := ih _ _ h
        simpa using hh
    · rename_i hc
      simp only [Option.some.injEq] at h
      subst h
      exact ⟨rfl, rfl, rfl, rfl, rfl, rfl, by simpa using hc⟩

theorem awaitOption_loop_frame :
    ∀ (k : Nat) (s t : State), awaitOption.loop k s = some t →
      t.HMI_ECU_Sequence = s.HMI_ECU_Sequence ∧ t.G_Timer1_Count = s.G_Timer1_Count ∧
      t.i = s.i ∧ t.rx = s.rx := by
  intro k
  induction k with
  | zero =>
    intro s t h
    simp only [awaitOption.loop] at h
    split at h
    · exact absurd h (by simp)
    · simp only [Option.some.injEq] at h
      subst h
      exact ⟨rfl, rfl, rfl, rfl⟩
  | succ k ih =>
    intro s t h
    simp only [awaitOption.loop] at h
    split at h
    · split at h
      · exact absurd h (by simp)
      · rename_i key s1 hkey
        obtain ⟨r, -, rfl⟩ := KEYPAD_GetPressedKey_some _ _ _ hkey
        have hh := ih _ _ h
        simpa using hh
    · simp only [Option.some.injEq] at h
      subst h
      exact ⟨rfl, rfl, rfl, rfl⟩

/-- A call of `EnterPassword` that returns leaves `'='` in `Key_Pressed` and
changes neither the sequence variable, nor the tick counter, nor the failure
counter. -/
theorem EnterPassword_frame (s t : State) (h : EnterPassword s = some t) :
    t.HMI_ECU_Sequence = s.HMI_ECU_Sequence ∧ t.G_Timer1_Count = s.G_Timer1_Count ∧
    t.i = s.i ∧ t.Key_Pressed = EQUALS := by
  unfold EnterPassword at h
  simp only at h
  split at h
  · exact absurd h (by simp)
  · rename_i s2 hcap
    obtain ⟨a1, a2, a3, -⟩ := capture_loop_frame _ _ _ _ hcap
    split at h
    · exact absurd h (by simp)
    · rename_i s3 hent
      obtain ⟨b1, b2, b3, -, -, -, b4⟩ := awaitEnter_loop_frame _ _ _ hent
      obtain ⟨junk, junk2, rest, -, -, rfl⟩ := SendPassword_some _ _ _ h
      simp only [b1, b2, b3, b4, a1, a2, a3]
      simp [LCD_MoveCursor, LCD_DisplayString, LCD_ClearString, State.log]

/-- A call of `ConfirmPassword` that returns leaves `'='` in `Key_Pressed` and
changes neither the sequence variable, nor the tick counter, nor the failure
counter. -/
theorem ConfirmPassword_frame (s t : State) (h : ConfirmPassword s = some t) :
    t.HMI_ECU_Sequence = s.HMI_ECU_Sequence ∧ t.G_Timer1_Count = s.G_Timer1_Count ∧
    t.i = s.i ∧ t.Key_Pressed = EQUALS := by
  unfold ConfirmPassword at h
  simp only at h
  split at h
  · exact absurd h (by simp)
  · rename_i s2 hcap
    obtain ⟨a1, a2, a3, -⟩ := capture_loop_frame _ _ _ _ hcap
    split at h
    · exact absurd h (by simp)
    · rename_i s3 hent
      obtain ⟨b1, b2, b3, -, -, -, b4⟩ := awaitEnter_loop_frame _ _ _ hent
      obtain ⟨junk, junk2, rest, -, -, rfl⟩ := SendPassword_some _ _ _ h
      simp only [b1, b2, b3, b4, a1, a2, a3]
      simp [LCD_MoveCursor, LCD_DisplayString, LCD_ClearString, State.log]

/-- The verdict part of a pass in `MAIN_OPTIONS_DISPLAY` that returns: on the
verdict `PASSWORDS_MATCHED` the state is the one given for a match and the
failure counter is kept; on any other verdict the failure counter is
incremented and the state is `MAIN_OPTIONS_DISPLAY`. -/
theorem mainOptionBranch_frame (onMatch : Nat) (s t : State)
    (h : mainOptionBranch onMatch s = some t) :
    t.G_Timer1_Count = s.G_Timer1_Count ∧ t.Key_Pressed = EQUALS ∧
    ((t.HMI_ECU_Sequence = onMatch ∧ t.i = s.i) ∨
      (t.HMI_ECU_Sequence = MAIN_OPTIONS_DISPLAY ∧ t.i = (s.i + 1) % 256)) := by
  unfold mainOptionBranch at h
  split at h
  · exact absurd h (by simp)
  · rename_i s1 hent
    obtain ⟨a1, a2, a3, a4⟩ := EnterPassword_frame _ _ hent
    split at h
    · exact absurd h (by simp)
    · rename_i s2 hw
      obtain ⟨junk, rest, -, -, rfl⟩ := awaitByte_exact_hmi _ _ _ hw
      split at h
      · exact absurd h (by simp)
      · rename_i v s3 hrecv
        obtain ⟨r, -, rfl⟩ := UART_ReceiveByte_some_hmi _ _ _ hrecv
        split at h
        · replace h := Option.some.inj h
          rw [← h]
          simp [UART_SendByte, State.log, LCD_ClearString, LCD_DisplayString, _delay_ms, a2, a3,
            a4]
        · replace h := Option.some.inj h
          rw [← h]
          simp [UART_SendByte, State.log, LCD_ClearString, LCD_DisplayString, _delay_ms,
            LCD_MoveCursor, a2, a3, a4]

/-- The states of the HMI node at the top of its loop that the claims about
runs from boot rely on: the tick counter is 0, the state is one of the five
cases, and `Key_Pressed` holds `'='` unless the state is `ENTER_PASSWORD`. -/
theorem step_inv_hmi (s t : State) (hc : s.G_Timer1_Count = 0)
    (hk : s.HMI_ECU_Sequence = ENTER_PASSWORD ∨ s.Key_Pressed = EQUALS)
    (h : step s = some t) :
    t.G_Timer1_Count = 0 ∧
    (t.HMI_ECU_Sequence = ENTER_PASSWORD ∨ t.Key_Pressed = EQUALS) := by
  unfold step at h
  split at h
  · unfold case_ENTER_PASSWORD at h
    split at h
    · exact absurd h (by simp)
    · rename_i s1 h1
      obtain ⟨a1, a2, a3, a4⟩ := EnterPassword_frame _ _ h1
      replace h := Option.some.inj h
      rw [← h]
      exact ⟨by simpa using a2.trans hc, Or.inr (by simpa using a4)⟩
  · split at h
    · unfold case_CONFIRM_PASSWORD at h
      split at h
      · exact absurd h (by simp)
      · rename_i s1 h1
        obtain ⟨a1, a2, a3, a4⟩ := ConfirmPassword_frame _ _ h1
        split at h
        · exact absurd h (by simp)
        · rename_i s2 hw
          obtain ⟨junk, rest, -, -, rfl⟩ := awaitByte_exact_hmi _ _ _ hw
          split at h
          · exact absurd h (by simp)
          · rename_i v s3 hrecv
            obtain ⟨r, -, rfl⟩ := UART_ReceiveByte_some_hmi _ _ _ hrecv
            split at h
            · replace h := Option.some.inj h
              rw [← h]
              simp [UART_SendByte, State.log, LCD_ClearString, LCD_DisplayString, _delay_ms,
                LCD_MoveCursor, a2, a4, hc]
            · replace h := Option.some.inj h
              rw [← h]
              simp [UART_SendByte, State.log, LCD_ClearString, LCD_DisplayString, _delay_ms,
                LCD_MoveCursor, a2, a4, hc]
    · split at h
      · unfold case_MAIN_OPTIONS_DISPLAY at h
        split at h
        · exact absurd h (by simp)
        · rename_i s1 hmain
          obtain ⟨b1, b2, b3, -⟩ := awaitOption_loop_frame _ _ _ hmain
          split at h
          · exact absurd h (by simp)
          · rename_i s2 hw
            obtain ⟨junk, rest, -, -, rfl⟩ := awaitByte_exact_hmi _ _ _ hw
            simp only at h
            split at h
            · exact absurd h (by simp)
            · rename_i s4 hbranch
              have hb : ∃ onMatch s3, s3.G_Timer1_Count = s1.G_Timer1_Count ∧
                  mainOptionBranch onMatch s3 = some s4 := by
                split at hbranch
                · exact ⟨_, _, by simp [UART_SendByte, State.log], hbranch⟩
                · exact ⟨_, _, by simp [UART_SendByte, State.log], hbranch⟩
              obtain ⟨onMatch, s3, h3c, hbr⟩ := hb
              obtain ⟨c1, c2, -⟩ := mainOptionBranch_frame _ _ _ hbr
              have hcnt : s4.G_Timer1_Count = 0 := by
                rw [c1, h3c, b2]
                simpa [LCD_DisplayString, LCD_MoveCursor, LCD_ClearString, State.log] using hc
              split at h
              · replace h := Option.some.inj h
                rw [← h]
                exact ⟨hcnt, Or.inr c2⟩
              · replace h := Option.some.inj h
                rw [← h]
                exact ⟨hcnt, Or.inr c2⟩
      · split at h
        · rename_i hs0 hs1 hs2 hs4
          have hkey : s.Key_Pressed = EQUALS := by
            rcases hk with e | e
            · exact absurd e hs0
            · exact e
          unfold case_OPENING_DOOR at h
          split at h
          · exact absurd h (by simp)
          · rename_i s1 hw
            obtain ⟨junk, rest, -, -, rfl⟩ := awaitByte_exact_hmi _ _ _ hw
            simp only at h
            split at h
            · exact absurd h (by simp)
            · rename_i s4 ht1
              obtain ⟨c1, ev1, rfl, -⟩ := waitTicks_some_hmi _ _ _ ht1
              split at h
              · exact absurd h (by simp)
              · rename_i s6 ht2
                obtain ⟨c2, ev2, rfl, -⟩ := waitTicks_some_hmi _ _ _ ht2
                replace h := Option.some.inj h
                rw [← h]
                simp [UART_SendByte, State.log, Timer1_NonPWm_Mode_Init, Timer1_SetCallBack,
                  LCD_ClearString, LCD_DisplayString, LCD_MoveCursor, Timer1_DeInit, hkey]
        · split at h
          · rename_i hs0 hs1 hs2 hs4 hs5
            have hkey : s.Key_Pressed = EQUALS := by
              rcases hk with e | e
              · exact absurd e hs0
              · exact e
            unfold case_PASSWORD_ERROR at h
            split at h
            · exact absurd h (by simp)
            · rename_i s1 hw
              obtain ⟨junk, rest, -, -, rfl⟩ := awaitByte_exact_hmi _ _ _ hw
              split at h
              · exact absurd h (by simp)
              · rename_i s2 hw2
                obtain ⟨junk2, rest2, -, -, rfl⟩ := awaitByte_exact_hmi _ _ _ hw2
                simp only at h
                split at h
                · exact absurd h (by simp)
                · rename_i s5 ht1
                  obtain ⟨c1, ev1, rfl, -⟩ := waitTicks_some_hmi _ _ _ ht1
                  replace h := Option.some.inj h
                  rw [← h]
                  simp [UART_SendByte, State.log, Timer1_NonPWm_Mode_Init, Timer1_SetCallBack,
                    LCD_ClearString, LCD_DisplayString, LCD_MoveCursor, Timer1_DeInit, hkey]
          · exact absurd h (by simp)

/-- From boot on, whenever the HMI node is at the top of its loop, the tick
counter is 0 and `Key_Pressed` holds `'='` unless the state is
`ENTER_PASSWORD`. -/
theorem run_boot_inv_hmi (i0 : Nat) (rx keys : List Nat) (s0 : State)
    (hb : boot i0 rx keys = some s0) :
    ∀ (n : Nat) (s : State), run n s0 = some s →
      s.G_Timer1_Count = 0 ∧ (s.HMI_ECU_Sequence = ENTER_PASSWORD ∨ s.Key_Pressed = EQUALS) := by
  have gen : ∀ (n : Nat) (a s : State), a.G_Timer1_Count = 0 →
      (a.HMI_ECU_Sequence = ENTER_PASSWORD ∨ a.Key_Pressed = EQUALS) → run n a = some s →
      s.G_Timer1_Count = 0 ∧
        (s.HMI_ECU_Sequence = ENTER_PASSWORD ∨ s.Key_Pressed = EQUALS) := by
    intro n
    induction n with
    | zero =>
      intro a s hc hk h
      simp only [run, Option.some.injEq] at h
      subst h
      exact ⟨hc, hk⟩
    | succ n ih =>
      intro a s hc hk h
      simp only [run] at h
      split at h
      · exact absurd h (by simp)
      · rename_i s1 hs1
        obtain ⟨c1, k1⟩ := step_inv_hmi a s1 hc hk hs1
        exact ih s1 s c1 k1 h
  unfold boot at hb
  obtain ⟨junk, rest, -, -, rfl⟩ := awaitByte_exact_hmi _ _ _ hb
  intro n s h
  exact gen n _ s rfl (Or.inl rfl) h

end HMI

/-! ### The door cycle and the lockout -/

namespace Control

theorem step_OPEN_THE_DOOR_run (s : State) (junk junk2 rest : List Nat)
    (hseq : s.Control_ECU_Sequence = OPEN_THE_DOOR)
    (hc : s.G_Timer1_Count = 0) (hj : HMI_READY ∉ junk) (hj2 : OPEN_THE_DOOR ∉ junk2)
    (hrx : s.rx = junk ++ HMI_READY :: (junk2 ++ OPEN_THE_DOOR :: rest)) :
    ∃ t, step s = some t ∧
      t.trace = s.trace ++ (junk.map Ev.recv ++ [Ev.recv HMI_READY, Ev.send CONTROL_READY] ++
          (junk2.map Ev.recv ++ [Ev.recv OPEN_THE_DOOR])) ++
          ([Ev.timer0Init, Ev.timer1Init, Ev.timer1SetCallBack, Ev.motor DcMotor_State.CW 100] ++
            List.replicate 5 Ev.tick ++ [Ev.motor DcMotor_State.STOP 0] ++
            List.replicate 1 Ev.tick ++ [Ev.motor DcMotor_State.A_CW 100] ++
            List.replicate 5 Ev.tick ++
            [Ev.motor DcMotor_State.STOP 0, Ev.timer1DeInit, Ev.timer0DeInit]) ∧
      t.rx = rest ∧ t.G_Timer1_Count = 0 ∧ t.Control_ECU_Sequence = RECEIVING_MAIN_OPTION := by
  refine ⟨_, (step_OPEN_THE_DOOR s hseq).trans
    (case_OPEN_THE_DOOR_run s junk junk2 rest hc hj hj2 hrx), rfl, rfl, rfl, rfl⟩

theorem step_PASSWORD_ERROR_run (s : State) (junk rest : List Nat)
    (hseq : s.Control_ECU_Sequence = PASSWORD_ERROR)
    (hc : s.G_Timer1_Count = 0) (hj : HMI_READY ∉ junk)
    (hrx : s.rx = junk ++ HMI_READY :: rest) :
    ∃ t, step s = some t ∧
      t.trace = s.trace ++ (Ev.send CONTROL_READY :: (junk.map Ev.recv ++
          [Ev.recv HMI_READY, Ev.send DISPLAY_ERROR])) ++
          ([Ev.timer1Init, Ev.timer1SetCallBack, Ev.buzzer true] ++
            List.replicate 20 Ev.tick ++ [Ev.buzzer false, Ev.timer1DeInit]) ∧
      t.rx = rest ∧ t.G_Timer1_Count = 0 ∧ t.Control_ECU_Sequence = RECEIVING_MAIN_OPTION := by
  refine ⟨_, (step_PASSWORD_ERROR s hseq).trans
    (case_PASSWORD_ERROR_run s junk rest hc hj hrx), rfl, rfl, rfl, rfl⟩

end Control

namespace HMI

theorem step_OPENING_DOOR (s : State) (h : s.HMI_ECU_Sequence = OPENING_DOOR) :
    step s = case_OPENING_DOOR s := by
  simp [step, h]

theorem step_PASSWORD_ERROR_hmi (s : State) (h : s.HMI_ECU_Sequence = PASSWORD_ERROR) :
    step s = case_PASSWORD_ERROR s := by
  simp [step, h]

theorem step_MAIN_OPTIONS_DISPLAY (s : State) (h : s.HMI_ECU_Sequence = MAIN_OPTIONS_DISPLAY) :
    step s = case_MAIN_OPTIONS_DISPLAY s := by
  simp [step, h]

end HMI

namespace HMI

theorem awaitOption_loop_done (k : Nat) (s : State)
    (h : s.Key_Pressed = PLUS ∨ s.Key_Pressed = MINUS) : awaitOption.loop k s = some s := by
  have hc : ¬ (s.Key_Pressed ≠ PLUS ∧ s.Key_Pressed ≠ MINUS) := by
    rcases h with e | e
    · exact fun c => c.1 e
    · exact fun c => c.2 e
  cases k <;> simp only [awaitOption.loop, hc, if_false]

/-- The wait loop of `MainOptions`, entered when `Key_Pressed` holds neither
`'+'` nor `'-'`: when it returns, it has read the keys before the first `'+'`
or `'-'`, then that key, which it leaves in `Key_Pressed`, and nothing
else. -/
theorem awaitOption_loop_exact :
    ∀ (k : Nat) (s t : State), s.Key_Pressed ≠ PLUS → s.Key_Pressed ≠ MINUS →
      awaitOption.loop k s = some t →
      ∃ (polled : List Nat) (cmd : Nat) (rest : List Nat),
        s.keys = polled ++ cmd :: rest ∧ (cmd = PLUS ∨ cmd = MINUS) ∧
        PLUS ∉ polled ∧ MINUS ∉ polled ∧
        t = { s with Key_Pressed := cmd, keys := rest,
                     trace := s.trace ++ (polled ++ [cmd]).map Ev.key } := by
  intro k
  induction k with
  | zero =>
    intro s t h1 h2 h
    simp [awaitOption.loop, h1, h2] at h
  | succ k ih =>
    intro s t h1 h2 h
    simp only [awaitOption.loop, ne_eq, h1, not_false_eq_true, h2, and_self, if_true] at h
    split at h
    · exact absurd h (by simp)
    · rename_i a s1 hkey
      obtain ⟨r, hr, rfl⟩ := KEYPAD_GetPressedKey_some _ _ _ hkey
      by_cases ha : a = PLUS ∨ a = MINUS
      · rw [awaitOption_loop_done k _ ha] at h
        replace h := Option.some.inj h
        exact ⟨[], a, r, by simpa using hr, ha, by simp, by simp, by rw [← h]; simp⟩
      · have ha1 : a ≠ PLUS := fun e => ha (Or.inl e)
        have ha2 : a ≠ MINUS := fun e => ha (Or.inr e)
        obtain ⟨polled, cmd, rest, e1, e2, e3, e4, e5⟩ := ih _ _ ha1 ha2 h
        simp only at e1
        refine ⟨a :: polled, cmd, rest, by simp [hr, e1], e2, ?_, ?_, ?_⟩
        · simp only [List.mem_cons, not_or]
          exact ⟨fun e => ha1 e.symm, e3⟩
        · simp only [List.mem_cons, not_or]
          exact ⟨fun e => ha2 e.symm, e4⟩
        · rw [e5]
          simp

/-- The wait loop of `MainOptions`, entered when `Key_Pressed` holds neither
`'+'` nor `'-'`, on keys `polled`, in which neither occurs, then a key `cmd`
that is one of them, then `rest`: the loop returns, having read `polled` and
`cmd`. -/
theorem awaitOption_loop_run (polled : List Nat) (cmd : Nat) (rest : List Nat)
    (hcmd : cmd = PLUS ∨ cmd = MINUS) (hp : PLUS ∉ polled) (hm : MINUS ∉ polled) :
    ∀ (k : Nat) (s : State), polled.length < k → s.Key_Pressed ≠ PLUS →
      s.Key_Pressed ≠ MINUS → s.keys = polled ++ cmd :: rest →
      awaitOption.loop k s =
        some { s with Key_Pressed := cmd, keys := rest,
                      trace := s.trace ++ (polled ++ [cmd]).map Ev.key } := by
  induction polled with
  | nil =>
    intro k s hk h1 h2 h
    cases k with
    | zero => omega
    | succ k =>
      simp only [List.nil_append] at h
      simp only [awaitOption.loop, ne_eq, h1, not_false_eq_true, h2, and_self, if_true,
        KEYPAD_GetPressedKey, h]
      rw [awaitOption_loop_done k _ hcmd]
      simp
  | cons a t ih =>
    intro k s hk h1 h2 h
    cases k with
    | zero => omega
    | succ k =>
      have ha1 : a ≠ PLUS := fun e => hp (by simp [e])
      have ha2 : a ≠ MINUS := fun e => hm (by simp [e])
      have ht1 : PLUS ∉ t := fun e => hp (by simp [e])
      have ht2 : MINUS ∉ t := fun e => hm (by simp [e])
      simp only [List.cons_append] at h
      simp only [awaitOption.loop, ne_eq, h1, not_false_eq_true, h2, and_self, if_true,
        KEYPAD_GetPressedKey, h]
      rw [ih ht1 ht2 k _ (by simpa using hk) ha1 ha2 rfl]
      simp

end HMI

/-! ### The command sent from the main options -/

/-- C19: the HMI node at the top of its loop in `MAIN_OPTIONS_DISPLAY`, in a
run from boot. First, `MainOptions` called there reads at least one key: on
keys `polled`, none of which is `'+'` or `'-'`, then a key `cmd` that is `'+'`
or `'-'`, it shows the menu, reads `polled` and `cmd`, whatever `Key_Pressed`
held before, leaves `cmd` in `Key_Pressed` and returns. Second, in every pass
from there that returns, the keys read after the menu are such keys `polled`
and `cmd`, and the pass then sends `HMI_READY`, receives up to
`CONTROL_READY`, and sends `cmd`. -/
theorem C19_command_forwarding (i0 : Nat) (rx0 keys0 : List Nat) (s0 s : HMI.State) (n : Nat)
    (hboot : HMI.boot i0 rx0 keys0 = some s0) (hrun : HMI.run n s0 = some s)
    (hseq : s.HMI_ECU_Sequence = HMI.MAIN_OPTIONS_DISPLAY) :
    (∀ (polled : List Nat) (cmd : Nat) (restKeys : List Nat),
      (cmd = HMI.PLUS ∨ cmd = HMI.MINUS) → HMI.PLUS ∉ polled → HMI.MINUS ∉ polled →
      s.keys = polled ++ cmd :: restKeys →
      HMI.MainOptions s =
        some { s with Key_Pressed := cmd, keys := restKeys,
                      trace := s.trace ++ [Ev.lcdClear, Ev.lcdString "+ : Open Door ",
                        Ev.lcdMove 1 0, Ev.lcdString "- : Change Pass "] ++
                        (polled ++ [cmd]).map Ev.key }) ∧
    (∀ t : HMI.State, HMI.step s = some t →
      ∃ (polled : List Nat) (cmd : Nat) (restKeys junk : List Nat) (tail : List Ev),
        s.keys = polled ++ cmd :: restKeys ∧ (cmd = HMI.PLUS ∨ cmd = HMI.MINUS) ∧
        HMI.PLUS ∉ polled ∧ HMI.MINUS ∉ polled ∧ HMI.CONTROL_READY ∉ junk ∧
        t.trace = s.trace ++ [Ev.lcdClear, Ev.lcdString "+ : Open Door ", Ev.lcdMove 1 0,
            Ev.lcdString "- : Change Pass "] ++ (polled ++ [cmd]).map Ev.key ++
            (Ev.send HMI.HMI_READY :: (junk.map Ev.recv ++
              [Ev.recv HMI.CONTROL_READY, Ev.send cmd])) ++ tail) := by
  have hkey : s.Key_Pressed = HMI.EQUALS := by
    rcases (HMI.run_boot_inv_hmi i0 rx0 keys0 s0 hboot n s hrun).2 with e | e
    · rw [hseq] at e
      exact absurd e (by decide)
    · exact e
  constructor
  · intro polled cmd restKeys hcmd hp hm hk
    unfold HMI.MainOptions
    simp only
    rw [HMI.awaitOption_loop_run polled cmd restKeys hcmd hp hm _ _
      (by simp [HMI.LCD_DisplayString, HMI.LCD_MoveCursor, HMI.LCD_ClearString, HMI.State.log,
        hk])
      (by simp [HMI.LCD_DisplayString, HMI.LCD_MoveCursor, HMI.LCD_ClearString, HMI.State.log,
        hkey])
      (by simp [HMI.LCD_DisplayString, HMI.LCD_MoveCursor, HMI.LCD_ClearString, HMI.State.log,
        hkey])
      (by simpa [HMI.LCD_DisplayString, HMI.LCD_MoveCursor, HMI.LCD_ClearString,
        HMI.State.log] using hk)]
    simp [HMI.LCD_DisplayString, HMI.LCD_MoveCursor, HMI.LCD_ClearString, HMI.State.log]
  intro t hstep
  rw [HMI.step_MAIN_OPTIONS_DISPLAY s hseq] at hstep
  unfold HMI.case_MAIN_OPTIONS_DISPLAY at hstep
  split at hstep
  · exact absurd hstep (by simp)
  · rename_i s1 hmain
    unfold HMI.MainOptions at hmain
    obtain ⟨polled, cmd, restKeys, e1, e2, e3, e4, rfl⟩ := HMI.awaitOption_loop_exact _ _ _
      (by simp [HMI.LCD_DisplayString, HMI.LCD_MoveCursor, HMI.LCD_ClearString, HMI.State.log,
        hkey])
      (by simp [HMI.LCD_DisplayString, HMI.LCD_MoveCursor, HMI.LCD_ClearString, HMI.State.log,
        hkey]) hmain
    split at hstep
    · exact absurd hstep (by simp)
    · rename_i s2 hw
      obtain ⟨junk, rest, hj, -, rfl⟩ := HMI.awaitByte_exact_hmi _ _ _ hw
      simp only at hstep
      split at hstep
      · exact absurd hstep (by simp)
      · rename_i s4 hbranch
        have hb : ∃ onMatch s3, s3.trace = s.trace ++ [Ev.lcdClear,
              Ev.lcdString "+ : Open Door ", Ev.lcdMove 1 0, Ev.lcdString "- : Change Pass "] ++
              (polled ++ [cmd]).map Ev.key ++ (Ev.send HMI.HMI_READY :: (junk.map Ev.recv ++
                [Ev.recv HMI.CONTROL_READY, Ev.send cmd])) ∧
            HMI.mainOptionBranch onMatch s3 = some s4 := by
          split at hbranch
          · exact ⟨_, _, by simp [HMI.UART_SendByte, HMI.State.log, HMI.LCD_DisplayString,
              HMI.LCD_MoveCursor, HMI.LCD_ClearString], hbranch⟩
          · exact ⟨_, _, by simp [HMI.UART_SendByte, HMI.State.log, HMI.LCD_DisplayString,
              HMI.LCD_MoveCursor, HMI.LCD_ClearString], hbranch⟩
        obtain ⟨onMatch, s3, h3t, hbr⟩ := hb
        obtain ⟨tail, h4⟩ := HMI.mainOptionBranch_some_hmi _ _ _ hbr
        have htr : t.trace = s4.trace := by
          split at hstep
          · replace hstep := Option.some.inj hstep
            rw [← hstep]
          · replace hstep := Option.some.inj hstep
            rw [← hstep]
        refine ⟨polled, cmd, restKeys, junk, tail, ?_, e2, e3, e4, hj, ?_⟩
        · simpa [HMI.LCD_DisplayString, HMI.LCD_MoveCursor, HMI.LCD_ClearString,
            HMI.State.log] using e1
        · rw [htr, h4, h3t]

set_option maxRecDepth 100000 in
/-- C19 on a concrete run: after enrollment the user presses `'+'` and enters
1,2,3,4,5. -/
theorem C19_command_forwarding_witness :
    (∀ (polled : List Nat) (cmd : Nat) (restKeys : List Nat),
      (cmd = HMI.PLUS ∨ cmd = HMI.MINUS) → HMI.PLUS ∉ polled → HMI.MINUS ∉ polled →
      HMI.menuSample.keys = polled ++ cmd :: restKeys →
      HMI.MainOptions HMI.menuSample =
        some { HMI.menuSample with
               Key_Pressed := cmd, keys := restKeys,
               trace := HMI.menuSample.trace ++ [Ev.lcdClear, Ev.lcdString "+ : Open Door ",
                 Ev.lcdMove 1 0, Ev.lcdString "- : Change Pass "] ++
                 (polled ++ [cmd]).map Ev.key }) ∧
    (∀ t : HMI.State, HMI.step HMI.menuSample = some t →
      ∃ (polled : List Nat) (cmd : Nat) (restKeys junk : List Nat) (tail : List Ev),
        HMI.menuSample.keys = polled ++ cmd :: restKeys ∧ (cmd = HMI.PLUS ∨ cmd = HMI.MINUS) ∧
        HMI.PLUS ∉ polled ∧ HMI.MINUS ∉ polled ∧ HMI.CONTROL_READY ∉ junk ∧
        t.trace = HMI.menuSample.trace ++ [Ev.lcdClear, Ev.lcdString "+ : Open Door ",
            Ev.lcdMove 1 0, Ev.lcdString "- : Change Pass "] ++ (polled ++ [cmd]).map Ev.key ++
            (Ev.send HMI.HMI_READY :: (junk.map Ev.recv ++
              [Ev.recv HMI.CONTROL_READY, Ev.send cmd])) ++ tail) ∧
    (HMI.step HMI.menuSample).isSome = true :=
  ⟨(C19_command_forwarding 0 _ _ (HMI.doorBoot []) HMI.menuSample 2
      (Control.some_getD_of_isSome _ _ (by decide)) (Control.some_getD_of_isSome _ _ (by decide))
      (by decide)).1,
   (C19_command_forwarding 0 _ _ (HMI.doorBoot []) HMI.menuSample 2
      (Control.some_getD_of_isSome _ _ (by decide)) (Control.some_getD_of_isSome _ _ (by decide))
      (by decide)).2,
   by decide⟩

namespace Control

/-- The call of `ReceivePassword` on an input that holds `HMI_READY` and then
five bytes: the bytes before the first `HMI_READY` are dropped, the five bytes
fill the buffer in index order. -/
theorem ReceivePassword_run_junk (pass : Buf) (s : State) (junk : List Nat)
    (p0 p1 p2 p3 p4 : Nat) (rest : List Nat) (hj : HMI_READY ∉ junk)
    (h : s.rx = junk ++ HMI_READY :: p0 :: p1 :: p2 :: p3 :: p4 :: rest) :
    ReceivePassword pass s =
      some (((((pass.store 0 p0).store 1 p1).store 2 p2).store 3 p3).store 4 p4,
        { s with rx := rest,
                 trace := s.trace ++ (junk.map Ev.recv ++ [Ev.recv HMI_READY,
                   Ev.send CONTROL_READY, Ev.recv p0, Ev.recv p1, Ev.recv p2, Ev.recv p3,
                   Ev.recv p4, Ev.send PASS_RECEIVED]) }) := by
  obtain ⟨seq, g1, g2, cnt, i, rx, bus, t1, cb, tr⟩ := s
  simp only at h
  subst h
  unfold ReceivePassword
  rw [awaitByte_junk HMI_READY junk _ _ hj rfl]
  simp [ReceivePassword.loop, UART_ReceiveByte, UART_SendByte, State.log]

/-- A pass in `RECEIVE_AND_CHECK_CONFIRMED_PASSWORD` on an input that holds
`HMI_READY`, five bytes and later `HMI_READY`: the pass returns. Its events
are those of the reception and of the ready exchange, then the verdict, then,
on a match only, the events `ev` of `SavePassword`, which are five calls of
`EEPROM_WriteByte`, one per address `0..4`, whatever they return. Nothing but
the bus and the trace depends on what the bus does. -/
theorem case_RECEIVE_AND_CHECK_CONFIRMED_PASSWORD_run_junk (s : State) (junk junk2 : List Nat)
    (q0 q1 q2 q3 q4 : Nat) (rest : List Nat) (hj : HMI_READY ∉ junk) (hj2 : HMI_READY ∉ junk2)
    (h : s.rx = junk ++ HMI_READY :: q0 :: q1 :: q2 :: q3 :: q4 :: (junk2 ++ HMI_READY :: rest)) :
    ∃ (b : Bus) (ev : List Ev),
      case_RECEIVE_AND_CHECK_CONFIRMED_PASSWORD s =
        some { s with
          rx := rest, bus := b,
          G_Pass2 := ((((s.G_Pass2.store 0 q0).store 1 q1).store 2 q2).store 3 q3).store 4 q4,
          Control_ECU_Sequence :=
            if Buf.first5 s.G_Pass1 = [q0, q1, q2, q3, q4] then
              (s.Control_ECU_Sequence + 1) % 256
            else RECEIVE_FIRST_PASSWORD,
          trace := s.trace ++ (junk.map Ev.recv ++ [Ev.recv HMI_READY, Ev.send CONTROL_READY,
              Ev.recv q0, Ev.recv q1, Ev.recv q2, Ev.recv q3, Ev.recv q4, Ev.send PASS_RECEIVED,
              Ev.send CONTROL_READY]) ++ (junk2.map Ev.recv ++ [Ev.recv HMI_READY]) ++
            [Ev.send (if Buf.first5 s.G_Pass1 = [q0, q1, q2, q3, q4] then PASSWORDS_MATCHED
              else PASSWORDS_UNMATCHED)] ++ ev } ∧
      sentOf ev = [] ∧ readResultsOf ev = [] ∧
      (if Buf.first5 s.G_Pass1 = [q0, q1, q2, q3, q4] then
        writesOf ev = [(0, s.G_Pass1 0), (1, s.G_Pass1 1), (2, s.G_Pass1 2), (3, s.G_Pass1 3),
          (4, s.G_Pass1 4)] ∧ (writeResultsOf ev).length = 5
       else ev = [] ∧ b = s.bus) := by
  have hc : (ComparePasswords s.G_Pass1
      (((((s.G_Pass2.store 0 q0).store 1 q1).store 2 q2).store 3 q3).store 4 q4) = PASSWORDS_MATCHED)
      ↔ Buf.first5 s.G_Pass1 = [q0, q1, q2, q3, q4] := by
    rw [ComparePasswords_matched_iff, first5_store5]
  simp only [case_RECEIVE_AND_CHECK_CONFIRMED_PASSWORD,
    ReceivePassword_run_junk s.G_Pass2 s junk q0 q1 q2 q3 q4 (junk2 ++ HMI_READY :: rest) hj h]
  rw [awaitByte_junk HMI_READY junk2 rest _ hj2 (by simp [UART_SendByte, State.log])]
  simp only [hc]
  by_cases hm : Buf.first5 s.G_Pass1 = [q0, q1, q2, q3, q4]
  · simp only [hm, if_true]
    generalize hX : UART_SendByte PASSWORDS_MATCHED _ = X
    generalize hG : State.G_Pass1 _ = G
    have hg : G = s.G_Pass1 := by
      rw [← hG]
      rfl
    subst hg
    obtain ⟨b, ev3, hsave, c1, c2, c3, c4, -⟩ := SavePassword_shape s.G_Pass1 X
    refine ⟨b, ev3, ?_, c1, c2, c3, c4⟩
    rw [hsave]
    subst hX
    simp [UART_SendByte, State.log]
  · simp only [hm, if_false]
    refine ⟨s.bus, [], ?_, rfl, rfl, rfl, rfl⟩
    simp [UART_SendByte, State.log]

/-- C20: one pass of the Control node in
`RECEIVE_AND_CHECK_CONFIRMED_PASSWORD`, run twice from the same state and on
the same bytes to arrive (which hold `HMI_READY`, five bytes and later
`HMI_READY`), on two buses `b1` and `b2` that may answer the byte writes
differently. Both passes return. They send the same bytes and end in the same
state of the sequence, which is `RECEIVING_MAIN_OPTION` or
`RECEIVE_FIRST_PASSWORD`; they leave the same bytes unread, the same buffers
and the same failure counter. Both make the same calls of `EEPROM_WriteByte`:
none when the two entries differ, and otherwise exactly one per address
`0..4`, in this order, whatever the calls return; so whenever the results of
the writes differ between the two passes, there were five writes in each. -/
theorem C20_storage_result_not_inspected (s : State) (b1 b2 : Bus) (junk junk2 : List Nat)
    (q0 q1 q2 q3 q4 : Nat) (rest : List Nat)
    (hseq : s.Control_ECU_Sequence = RECEIVE_AND_CHECK_CONFIRMED_PASSWORD)
    (hj : HMI_READY ∉ junk) (hj2 : HMI_READY ∉ junk2)
    (hrx : s.rx =
      junk ++ HMI_READY :: q0 :: q1 :: q2 :: q3 :: q4 :: (junk2 ++ HMI_READY :: rest)) :
    ∃ (t1 t2 : State) (ev1 ev2 : List Ev),
      step { s with bus := b1 } = some t1 ∧ step { s with bus := b2 } = some t2 ∧
      t1.trace = s.trace ++ ev1 ∧ t2.trace = s.trace ++ ev2 ∧
      sentOf ev1 = sentOf ev2 ∧
      t1.Control_ECU_Sequence = t2.Control_ECU_Sequence ∧
      (t1.Control_ECU_Sequence = RECEIVING_MAIN_OPTION ∨
        t1.Control_ECU_Sequence = RECEIVE_FIRST_PASSWORD) ∧
      t1.rx = t2.rx ∧ t1.i = t2.i ∧ t1.G_Pass1 = t2.G_Pass1 ∧ t1.G_Pass2 = t2.G_Pass2 ∧
      writesOf ev1 = writesOf ev2 ∧
      (writesOf ev1 = [] ∨
        writesOf ev1 = [(0, s.G_Pass1 0), (1, s.G_Pass1 1), (2, s.G_Pass1 2), (3, s.G_Pass1 3),
          (4, s.G_Pass1 4)]) ∧
      (writeResultsOf ev1 ≠ writeResultsOf ev2 →
        writesOf ev1 = [(0, s.G_Pass1 0), (1, s.G_Pass1 1), (2, s.G_Pass1 2), (3, s.G_Pass1 3),
          (4, s.G_Pass1 4)]) := by
  obtain ⟨c1, e1, h1, s1, r1, w1⟩ := case_RECEIVE_AND_CHECK_CONFIRMED_PASSWORD_run_junk
    { s with bus := b1 } junk junk2 q0 q1 q2 q3 q4 rest hj hj2 hrx
  obtain ⟨c2, e2, h2, s2, r2, w2⟩ := case_RECEIVE_AND_CHECK_CONFIRMED_PASSWORD_run_junk
    { s with bus := b2 } junk junk2 q0 q1 q2 q3 q4 rest hj hj2 hrx
  simp only at h1 h2 w1 w2
  refine ⟨_, _,
    (junk.map Ev.recv ++ [Ev.recv HMI_READY, Ev.send CONTROL_READY, Ev.recv q0, Ev.recv q1,
      Ev.recv q2, Ev.recv q3, Ev.recv q4, Ev.send PASS_RECEIVED, Ev.send CONTROL_READY]) ++
      (junk2.map Ev.recv ++ [Ev.recv HMI_READY]) ++
      [Ev.send (if Buf.first5 s.G_Pass1 = [q0, q1, q2, q3, q4] then PASSWORDS_MATCHED
        else PASSWORDS_UNMATCHED)] ++ e1,
    (junk.map Ev.recv ++ [Ev.recv HMI_READY, Ev.send CONTROL_READY, Ev.recv q0, Ev.recv q1,
      Ev.recv q2, Ev.recv q3, Ev.recv q4, Ev.send PASS_RECEIVED, Ev.send CONTROL_READY]) ++
      (junk2.map Ev.recv ++ [Ev.recv HMI_READY]) ++
      [Ev.send (if Buf.first5 s.G_Pass1 = [q0, q1, q2, q3, q4] then PASSWORDS_MATCHED
        else PASSWORDS_UNMATCHED)] ++ e2,
    (step_RECEIVE_AND_CHECK_CONFIRMED_PASSWORD { s with bus := b1 } hseq).trans h1,
    (step_RECEIVE_AND_CHECK_CONFIRMED_PASSWORD { s with bus := b2 } hseq).trans h2,
    (by simp only [List.append_assoc]), (by simp only [List.append_assoc]), ?_, rfl, ?_, rfl, rfl,
    rfl, rfl, ?_, ?_, ?_⟩
  · simp [sentOf_append, sentOf, s1, s2]
  · simp only [hseq]
    split
    · left
      rfl
    · right
      rfl
  · by_cases hm : Buf.first5 s.G_Pass1 = [q0, q1, q2, q3, q4]
    · simp only [hm, if_true] at w1 w2
      simp [writesOf_append, writesOf, w1.1, w2.1]
    · simp only [hm, if_false] at w1 w2
      simp [writesOf_append, writesOf, w1.1, w2.1]
  · by_cases hm : Buf.first5 s.G_Pass1 = [q0, q1, q2, q3, q4]
    · simp only [hm, if_true] at w1
      right
      simp [writesOf_append, w1.1, writesOf, (Quiet_recv junk).2.1, (Quiet_recv junk2).2.1]
    · simp only [hm, if_false] at w1
      left
      simp [writesOf_append, w1.1, writesOf, (Quiet_recv junk).2.1, (Quiet_recv junk2).2.1]
  · intro hne
    by_cases hm : Buf.first5 s.G_Pass1 = [q0, q1, q2, q3, q4]
    · simp only [hm, if_true] at w1
      simp [writesOf_append, w1.1, writesOf, (Quiet_recv junk).2.1, (Quiet_recv junk2).2.1]
    · simp only [hm, if_false] at w1 w2
      exact absurd (by simp [w1.1, w2.1]) hne

set_option maxRecDepth 100000 in
/-- C20 on a concrete pass: the confirmation 1,2,3,4,5 of the entry 1,2,3,4,5
arrives, once on a bus where every write succeeds and once on a bus where
every write fails at its first status check. -/
theorem C20_storage_result_not_inspected_witness :
    ∃ (t1 t2 : State) (ev1 ev2 : List Ev),
      step { firstEntered with bus := Bus.init goodSave (fun _ => 255) } = some t1 ∧
      step { firstEntered with bus := Bus.init [] (fun _ => 255) } = some t2 ∧
      t1.trace = firstEntered.trace ++ ev1 ∧ t2.trace = firstEntered.trace ++ ev2 ∧
      sentOf ev1 = sentOf ev2 ∧
      t1.Control_ECU_Sequence = t2.Control_ECU_Sequence ∧
      (t1.Control_ECU_Sequence = RECEIVING_MAIN_OPTION ∨
        t1.Control_ECU_Sequence = RECEIVE_FIRST_PASSWORD) ∧
      t1.rx = t2.rx ∧ t1.i = t2.i ∧ t1.G_Pass1 = t2.G_Pass1 ∧ t1.G_Pass2 = t2.G_Pass2 ∧
      writesOf ev1 = writesOf ev2 ∧
      (writesOf ev1 = [] ∨
        writesOf ev1 = [(0, firstEntered.G_Pass1 0), (1, firstEntered.G_Pass1 1),
          (2, firstEntered.G_Pass1 2), (3, firstEntered.G_Pass1 3),
          (4, firstEntered.G_Pass1 4)]) ∧
      (writeResultsOf ev1 ≠ writeResultsOf ev2 →
        writesOf ev1 = [(0, firstEntered.G_Pass1 0), (1, firstEntered.G_Pass1 1),
          (2, firstEntered.G_Pass1 2), (3, firstEntered.G_Pass1 3),
          (4, firstEntered.G_Pass1 4)]) :=
  C20_storage_result_not_inspected firstEntered (Bus.init goodSave (fun _ => 255))
    (Bus.init [] (fun _ => 255)) [] [] 1 2 3 4 5 [] (by decide) (by decide) (by decide)
    (by decide)

end Control

/-! ### The failure counter of the HMI node -/

namespace HMI

/-- The verdict part of a pass in `MAIN_OPTIONS_DISPLAY` that returns, with
the verdict byte `v` it has received: on `PASSWORDS_MATCHED` the state is the
one given for a match and the failure counter is kept; on any other byte the
failure counter is incremented and the state is `MAIN_OPTIONS_DISPLAY`.
Nothing is received after the verdict. -/
theorem mainOptionBranch_rule (onMatch : Nat) (s t : State)
    (h : mainOptionBranch onMatch s = some t) :
    ∃ (v : Nat) (pre tail : List Ev),
      t.trace = s.trace ++ pre ++ [Ev.send HMI_READY, Ev.recv v] ++ tail ∧ recvOf tail = [] ∧
      ((v = PASSWORDS_MATCHED ∧ t.HMI_ECU_Sequence = onMatch ∧ t.i = s.i) ∨
        (v ≠ PASSWORDS_MATCHED ∧ t.HMI_ECU_Sequence = MAIN_OPTIONS_DISPLAY ∧
          t.i = (s.i + 1) % 256)) := by
  unfold mainOptionBranch at h
  split at h
  · exact absurd h (by simp)
  · rename_i s1 hent
    obtain ⟨ev1, h1⟩ := EnterPassword_some _ _ hent
    obtain ⟨-, -, a3, -⟩ := EnterPassword_frame _ _ hent
    split at h
    · exact absurd h (by simp)
    · rename_i s2 hw
      obtain ⟨junk, rest, -, -, rfl⟩ := awaitByte_exact_hmi _ _ _ hw
      split at h
      · exact absurd h (by simp)
      · rename_i v s3 hrecv
        obtain ⟨r, -, rfl⟩ := UART_ReceiveByte_some_hmi _ _ _ hrecv
        split at h
        · rename_i hv
          replace h := Option.some.inj h
          refine ⟨v, ev1 ++ (junk.map Ev.recv ++ [Ev.recv CONTROL_READY]),
            [Ev.lcdClear, Ev.lcdString "Successful!", Ev.delay 2000], ?_, rfl, Or.inl ⟨hv, ?_, ?_⟩⟩
          · rw [← h]
            simp [h1, UART_SendByte, State.log, LCD_ClearString, LCD_DisplayString, _delay_ms]
          · rw [← h]
          · rw [← h]
            simpa [UART_SendByte, State.log, LCD_ClearString, LCD_DisplayString, _delay_ms]
              using a3
        · rename_i hv
          replace h := Option.some.inj h
          refine ⟨v, ev1 ++ (junk.map Ev.recv ++ [Ev.recv CONTROL_READY]),
            [Ev.lcdClear, Ev.lcdString "ERROR!", Ev.lcdMove 1 0, Ev.lcdString "Wrong Password",
              Ev.delay 2000], ?_, rfl, Or.inr ⟨hv, ?_, ?_⟩⟩
          · rw [← h]
            simp [h1, UART_SendByte, State.log, LCD_ClearString, LCD_DisplayString, _delay_ms,
              LCD_MoveCursor]
          · rw [← h]
          · rw [← h]
            simp [UART_SendByte, State.log, LCD_ClearString, LCD_DisplayString, _delay_ms,
              LCD_MoveCursor, a3]

/-- A pass of the HMI node in `MAIN_OPTIONS_DISPLAY` that returns, with the
verdict byte `v` it has received last: the failure counter `i` grows by one
exactly when `v` is not `PASSWORDS_MATCHED`; the final test `i == 3` then
decides between `PASSWORD_ERROR` with `i = 0` and the state chosen before.
This is the rule of the Control node in `RECEIVING_MAIN_OPTION`, applied to
the counter of the HMI node. -/
theorem case_MAIN_OPTIONS_DISPLAY_rule (s t : State)
    (h : case_MAIN_OPTIONS_DISPLAY s = some t) :
    ∃ (v cmd : Nat) (pre tail : List Ev),
      t.trace = s.trace ++ pre ++ [Ev.send HMI_READY, Ev.recv v] ++ tail ∧ recvOf tail = [] ∧
      (cmd = PLUS ∨ cmd = MINUS) ∧
      ((v = PASSWORDS_MATCHED ∧
          t.i = (if s.i = 3 then 0 else s.i) ∧
          t.HMI_ECU_Sequence =
            (if s.i = 3 then PASSWORD_ERROR
             else if cmd = PLUS then OPENING_DOOR else ENTER_PASSWORD)) ∨
        (v ≠ PASSWORDS_MATCHED ∧
          t.i = (if (s.i + 1) % 256 = 3 then 0 else (s.i + 1) % 256) ∧
          t.HMI_ECU_Sequence =
            (if (s.i + 1) % 256 = 3 then PASSWORD_ERROR else MAIN_OPTIONS_DISPLAY))) := by
  unfold case_MAIN_OPTIONS_DISPLAY at h
  split at h
  · exact absurd h (by simp)
  · rename_i s1 hmain
    obtain ⟨pre0, p1, -, p3⟩ := MainOptions_some _ _ hmain
    unfold MainOptions at hmain
    obtain ⟨-, -, b3, -⟩ := awaitOption_loop_frame _ _ _ hmain
    have hi1 : s1.i = s.i := by
      simpa [LCD_DisplayString, LCD_MoveCursor, LCD_ClearString, State.log] using b3
    split at h
    · exact absurd h (by simp)
    · rename_i s2 hw
      obtain ⟨junk, rest, -, -, rfl⟩ := awaitByte_exact_hmi _ _ _ hw
      simp only at h
      split at h
      · exact absurd h (by simp)
      · rename_i s4 hbranch
        have hb : ∃ onMatch s3,
            onMatch = (if s1.Key_Pressed = PLUS then OPENING_DOOR else ENTER_PASSWORD) ∧
            s3.i = s1.i ∧
            s3.trace = s1.trace ++ (Ev.send HMI_READY :: (junk.map Ev.recv ++
                [Ev.recv CONTROL_READY, Ev.send s1.Key_Pressed])) ∧
            mainOptionBranch onMatch s3 = some s4 := by
          split at hbranch
          · rename_i hk
            refine ⟨_, _, ?_, ?_, ?_, hbranch⟩
            · have hk2 : s1.Key_Pressed = PLUS := by
                simpa [UART_SendByte, State.log] using hk
              simp [hk2]
            · simp [UART_SendByte, State.log]
            · simp [UART_SendByte, State.log]
          · rename_i hk
            refine ⟨_, _, ?_, ?_, ?_, hbranch⟩
            · have hk2 : ¬ s1.Key_Pressed = PLUS := by
                simpa [UART_SendByte, State.log] using hk
              simp [hk2]
            · simp [UART_SendByte, State.log]
            · simp [UART_SendByte, State.log]
        obtain ⟨onMatch, s3, hon, h3i, h3t, hbr⟩ := hb
        obtain ⟨v, pre, tail, ht, hq, hcase⟩ := mainOptionBranch_rule _ _ _ hbr
        have htr : t.trace = s4.trace := by
          split at h
          · replace h := Option.some.inj h
            rw [← h]
          · replace h := Option.some.inj h
            rw [← h]
        refine ⟨v, s1.Key_Pressed, pre0 ++ (Ev.send HMI_READY :: (junk.map Ev.recv ++
          [Ev.recv CONTROL_READY, Ev.send s1.Key_Pressed])) ++ pre, tail, ?_, hq, p3, ?_⟩
        · rw [htr, ht, h3t, p1]
          simp
        · rcases hcase with ⟨hv, hs, hi⟩ | ⟨hv, hs, hi⟩
          · left
            refine ⟨hv, ?_⟩
            rw [h3i, hi1] at hi
            split at h
            · rename_i h3
              replace h := Option.some.inj h
              rw [← h]
              rw [hi] at h3
              simp [h3]
            · rename_i h3
              replace h := Option.some.inj h
              rw [← h]
              rw [hi] at h3
              simp [h3, hi, hs, hon]
          · right
            refine ⟨hv, ?_⟩
            rw [h3i, hi1] at hi
            split at h
            · rename_i h3
              replace h := Option.some.inj h
              rw [← h]
              rw [hi] at h3
              simp [h3]
            · rename_i h3
              replace h := Option.some.inj h
              rw [← h]
              rw [hi] at h3
              simp [h3, hi, hs]

end HMI

theorem recvOf_getLast (l pre tail : List Ev) (v : Nat) (h : recvOf tail = []) :
    (recvOf (l ++ pre ++ [Ev.send HMI.HMI_READY, Ev.recv v] ++ tail)).getLast? = some v := by
  simp [recvOf_append, recvOf, h]

/-- The two failure counters move together: a pass of the HMI node in
`MAIN_OPTIONS_DISPLAY` and a pass of the Control node in
`RECEIVING_MAIN_OPTION` that both return, entered with the same value of `i`,
the verdict received by the one being the verdict sent by the other, end with
the same value of `i`, and either both in `PASSWORD_ERROR` or neither. -/
theorem lockout_in_step (s t : HMI.State) (c d : Control.State)
    (hs : HMI.case_MAIN_OPTIONS_DISPLAY s = some t)
    (hc : Control.case_RECEIVING_MAIN_OPTION c = some d) (hi : s.i = c.i)
    (hv : (recvOf t.trace).getLast? = (sentOf d.trace).getLast?) :
    t.i = d.i ∧
    (t.HMI_ECU_Sequence = HMI.PASSWORD_ERROR ↔
      d.Control_ECU_Sequence = Control.PASSWORD_ERROR) := by
  obtain ⟨v, cmd, pre, tail, ht, hq, hcmd, hrule⟩ := HMI.case_MAIN_OPTIONS_DISPLAY_rule s t hs
  obtain ⟨Result, p, p2, r, b, ev, -, -, -, hcase⟩ :=
    Control.case_RECEIVING_MAIN_OPTION_some c d hc
  rw [ht, recvOf_getLast _ _ _ _ hq] at hv
  rcases hcase with ⟨hsent, rfl⟩ | ⟨hsent, rfl⟩
  · simp only [Control.sentOf_append, hsent] at hv
    have hv2 : v = HMI.PASSWORDS_MATCHED := by
      have := Control.getLast?_append_verdict (sentOf c.trace)
        [Control.CONTROL_READY, Control.CONTROL_READY, Control.PASS_RECEIVED,
          Control.CONTROL_READY] Control.PASSWORDS_MATCHED
      simp only [List.cons_append, List.nil_append] at this
      rw [this] at hv
      exact Option.some.inj hv
    rcases hrule with ⟨-, h1, h2⟩ | ⟨hne, -, -⟩
    · simp only
      rw [h1, h2, hi]
      refine ⟨rfl, ?_⟩
      by_cases h3 : c.i = 3
      · simp [h3]
      · simp only [h3, if_false]
        rcases hcmd with e | e
        · simp only [e, if_true]
          constructor
          · intro x
            exact absurd x (by decide)
          · intro x
            split at x <;> exact absurd x (by decide)
        · have e2 : ¬ cmd = HMI.PLUS := by
            rw [e]
            decide
          simp only [e2, if_false]
          constructor
          · intro x
            exact absurd x (by decide)
          · intro x
            split at x <;> exact absurd x (by decide)
    · exact absurd hv2 hne
  · simp only [Control.sentOf_append, hsent] at hv
    have hv2 : v = HMI.PASSWORDS_UNMATCHED := by
      have := Control.getLast?_append_verdict (sentOf c.trace)
        [Control.CONTROL_READY, Control.CONTROL_READY, Control.PASS_RECEIVED,
          Control.CONTROL_READY] Control.PASSWORDS_UNMATCHED
      simp only [List.cons_append, List.nil_append] at this
      rw [this] at hv
      exact Option.some.inj hv
    rcases hrule with ⟨he, -, -⟩ | ⟨-, h1, h2⟩
    · rw [hv2] at he
      exact absurd he (by decide)
    · simp only
      rw [h1, h2, hi]
      refine ⟨rfl, ?_⟩
      by_cases h3 : (c.i + 1) % 256 = 3
      · simp [h3]
      · simp only [h3, if_false]
        constructor
        · intro x
          exact absurd x (by decide)
        · intro x
          exact absurd x (by decide)

/-! ### The two nodes side by side -/

set_option maxRecDepth 1000000 in
/-- C14, a run in which the phases part: the HMI node boots with its local `i`
holding 2, the Control node boots as always, the storage does not fail, and
the user enrols 1,2,3,4,5 and then enters 1,2,3,4,0 with `'+'`. The events of
the two nodes fit together over the link, with every byte sent received. After
three passes each, both nodes are at the top of their loops: the Control node
in `RECEIVING_MAIN_OPTION`, the HMI node in `PASSWORD_ERROR`. -/
theorem C14_phases_part_when_i_boots_at_2 :
    (HMI.oneWrongFrom 2).map (fun t => (t.HMI_ECU_Sequence, t.rx, t.keys)) =
      some (HMI.PASSWORD_ERROR, [], []) ∧
    Control.oneWrong.map (fun t => (t.Control_ECU_Sequence, t.rx)) =
      some (Control.RECEIVING_MAIN_OPTION, []) ∧
    Control.oneWrong.map
        (fun t => (writeResultsOf t.trace ++ readResultsOf t.trace).all
          (fun r => decide (r = Control.SUCCESS))) = some true ∧
    ((HMI.oneWrongFrom 2).bind fun tH =>
      Control.oneWrong.map fun tC => decide (Linked tH.trace tC.trace)) = some true ∧
    (Control.RECEIVING_MAIN_OPTION, HMI.PASSWORD_ERROR) ∉
      [(Control.RECEIVE_FIRST_PASSWORD, HMI.ENTER_PASSWORD),
       (Control.RECEIVE_AND_CHECK_CONFIRMED_PASSWORD, HMI.CONFIRM_PASSWORD),
       (Control.RECEIVING_MAIN_OPTION, HMI.MAIN_OPTIONS_DISPLAY),
       (Control.OPEN_THE_DOOR, HMI.OPENING_DOOR),
       (Control.PASSWORD_ERROR, HMI.PASSWORD_ERROR)] := by
  refine ⟨by decide, by decide, by decide, by decide, by decide⟩

set_option maxRecDepth 1000000 in
/-- C15, a run in which the HMI node locks out alone: it boots with its local
`i` holding 2, the password 1,2,3,4,5 is enrolled, and the first verdict it
receives in `MAIN_OPTIONS_DISPLAY` is `PASSWORDS_UNMATCHED`. At the end of that
cycle the HMI node is in `PASSWORD_ERROR` with `i = 0`, after one mismatch;
the Control node, which has sent that verdict, is in `RECEIVING_MAIN_OPTION`
with `i = 1`. Booted with `i` holding 0, the HMI node is in
`MAIN_OPTIONS_DISPLAY` with `i = 1` after the same keys and bytes. -/
theorem C15_hmi_locks_out_after_one_mismatch :
    (HMI.oneWrongFrom 2).map (fun t => (t.HMI_ECU_Sequence, t.i)) =
      some (HMI.PASSWORD_ERROR, 0) ∧
    (HMI.oneWrongFrom 2).map (fun t => (recvOf t.trace).filter
        (fun b => decide (b = HMI.PASSWORDS_MATCHED ∨ b = HMI.PASSWORDS_UNMATCHED))) =
      some [HMI.PASSWORDS_MATCHED, HMI.PASSWORDS_UNMATCHED] ∧
    Control.oneWrong.map (fun t => (t.Control_ECU_Sequence, t.i)) =
      some (Control.RECEIVING_MAIN_OPTION, 1) ∧
    Control.oneWrong.map (fun t => (sentOf t.trace).filter
        (fun b => decide (b = Control.PASSWORDS_MATCHED ∨ b = Control.PASSWORDS_UNMATCHED))) =
      some [Control.PASSWORDS_MATCHED, Control.PASSWORDS_UNMATCHED] ∧
    (HMI.oneWrongFrom 0).map (fun t => (t.HMI_ECU_Sequence, t.i)) =
      some (HMI.MAIN_OPTIONS_DISPLAY, 1) := by
  refine ⟨by decide, by decide, by decide, by decide, by decide⟩

namespace Control

/-! ### The status checks of `EEPROM.c` -/

theorem TWI_GetStatus_fst (b : Bus) : (TWI_GetStatus b).1 = statusAt b 0 := by
  obtain ⟨tw, ee, fr, p, pe, ops⟩ := b
  cases tw <;> simp [TWI_GetStatus, statusAt]

theorem TWI_GetStatus_statusAt (b : Bus) (k : Nat) :
    statusAt (TWI_GetStatus b).2 k = statusAt b (k + 1) := by
  obtain ⟨tw, ee, fr, p, pe, ops⟩ := b
  cases tw <;> simp [TWI_GetStatus, statusAt]

theorem TWI_GetStatus_ops (b : Bus) :
    (TWI_GetStatus b).2.ops = b.ops ++ [TwiOp.status (statusAt b 0)] := by
  obtain ⟨tw, ee, fr, p, pe, ops⟩ := b
  cases tw <;> simp [TWI_GetStatus, statusAt]

theorem TWI_Start_statusAt (b : Bus) (k : Nat) :
    statusAt (TWI_Start b) k = statusAt b k := rfl

theorem TWI_Start_ops (b : Bus) : (TWI_Start b).ops = b.ops ++ [TwiOp.start] := rfl

theorem TWI_WriteByte_statusAt (x : Nat) (b : Bus) (k : Nat) :
    statusAt (TWI_WriteByte x b) k = statusAt b k := by
  unfold TWI_WriteByte statusAt
  split <;> (try split) <;> rfl

theorem TWI_WriteByte_ops (x : Nat) (b : Bus) :
    (TWI_WriteByte x b).ops = b.ops ++ [TwiOp.write x] := by
  unfold TWI_WriteByte
  split <;> (try split) <;> rfl

theorem TWI_ReadByteWithNACK_statusAt (b : Bus) (k : Nat) :
    statusAt (TWI_ReadByteWithNACK b).2 k = statusAt b k := rfl

theorem TWI_ReadByteWithNACK_ops (b : Bus) :
    (TWI_ReadByteWithNACK b).2.ops = b.ops ++ [TwiOp.readNack (TWI_ReadByteWithNACK b).1] := rfl

theorem TWI_Stop_ops (b : Bus) : (TWI_Stop b).ops = b.ops ++ [TwiOp.stop] := by
  unfold TWI_Stop
  split <;> rfl

/-- The steps `EEPROM_WriteByte` takes on the bus, by the first status check
that fails. -/
theorem EEPROM_WriteByte_body_steps (a d : Nat) (b : Bus) :
    ((EEPROM_WriteByte.body a d b).1 = SUCCESS ↔
      statusAt b 0 = 0x08 ∧ statusAt b 1 = 0x18 ∧ statusAt b 2 = 0x28 ∧
        statusAt b 3 = 0x28) ∧
    ((EEPROM_WriteByte.body a d b).1 = SUCCESS →
      (EEPROM_WriteByte.body a d b).2.ops = b.ops ++
        [TwiOp.start, TwiOp.status 0x08,
         TwiOp.write ((0xA0 ||| ((a &&& 0x0700) >>> 7)) % 256), TwiOp.status 0x18,
         TwiOp.write (a % 256), TwiOp.status 0x28,
         TwiOp.write d, TwiOp.status 0x28, TwiOp.stop]) ∧
    (∀ k, k < 4 → (∀ j, j < k → statusAt b j = [0x08, 0x18, 0x28, 0x28].getD j 0) →
      statusAt b k ≠ [0x08, 0x18, 0x28, 0x28].getD k 0 →
      (EEPROM_WriteByte.body a d b).1 = ERROR ∧
      (EEPROM_WriteByte.body a d b).2.ops = b.ops ++
        ([TwiOp.start, TwiOp.status (statusAt b 0),
          TwiOp.write ((0xA0 ||| ((a &&& 0x0700) >>> 7)) % 256),
          TwiOp.status (statusAt b 1),
          TwiOp.write (a % 256), TwiOp.status (statusAt b 2),
          TwiOp.write d, TwiOp.status (statusAt b 3), TwiOp.stop].take (2 * k + 2))) := by
  unfold EEPROM_WriteByte.body
  simp only [TWI_GetStatus_fst, TWI_GetStatus_statusAt, TWI_Start_statusAt,
    TWI_WriteByte_statusAt]
  refine ⟨?_, ?_, ?_⟩
  · by_cases h0 : statusAt b 0 = 0x08 <;> by_cases h1 : statusAt b 1 = 0x18 <;>
      by_cases h2 : statusAt b 2 = 0x28 <;> by_cases h3 : statusAt b 3 = 0x28 <;>
      simp [h0, h1, h2, h3]
  · by_cases h0 : statusAt b 0 = 0x08 <;> by_cases h1 : statusAt b 1 = 0x18 <;>
      by_cases h2 : statusAt b 2 = 0x28 <;> by_cases h3 : statusAt b 3 = 0x28 <;>
      simp [h0, h1, h2, h3, TWI_GetStatus_ops, TWI_Start_ops, TWI_WriteByte_ops,
        TWI_Stop_ops, TWI_GetStatus_statusAt, TWI_Start_statusAt, TWI_WriteByte_statusAt]
  · intro k hk hj hne
    have q0 : 0 < k → statusAt b 0 = 0x08 := fun h => by simpa using hj 0 h
    have q1 : 1 < k → statusAt b 1 = 0x18 := fun h => by simpa using hj 1 h
    have q2 : 2 < k → statusAt b 2 = 0x28 := fun h => by simpa using hj 2 h
    interval_cases k <;>
      simp_all [TWI_GetStatus_ops, TWI_Start_ops, TWI_WriteByte_ops,
        TWI_GetStatus_statusAt, TWI_Start_statusAt, TWI_WriteByte_statusAt]

/-- The steps `EEPROM_ReadByte` takes on the bus, and the byte it leaves in
`*EEPROM_Data`, by the first status check that fails. -/
theorem EEPROM_ReadByte_body_steps (a old : Nat) (b : Bus) :
    ((EEPROM_ReadByte.body a old b).1 = SUCCESS ↔
      statusAt b 0 = 0x08 ∧ statusAt b 1 = 0x18 ∧ statusAt b 2 = 0x28 ∧
        statusAt b 3 = 0x10 ∧ statusAt b 4 = 0x40 ∧ statusAt b 5 = 0x58) ∧
    ((EEPROM_ReadByte.body a old b).1 = SUCCESS →
      (EEPROM_ReadByte.body a old b).2.2.ops = b.ops ++
        [TwiOp.start, TwiOp.status 0x08,
         TwiOp.write ((0xA0 ||| ((a &&& 0x0700) >>> 7)) % 256), TwiOp.status 0x18,
         TwiOp.write (a % 256), TwiOp.status 0x28,
         TwiOp.start, TwiOp.status 0x10,
         TwiOp.write ((0xA0 ||| ((a &&& 0x0700) >>> 7) ||| 1) % 256), TwiOp.status 0x40,
         TwiOp.readNack (EEPROM_ReadByte.body a old b).2.1, TwiOp.status 0x58,
         TwiOp.stop]) ∧
    (∀ k, k < 6 →
      (∀ j, j < k → statusAt b j = [0x08, 0x18, 0x28, 0x10, 0x40, 0x58].getD j 0) →
      statusAt b k ≠ [0x08, 0x18, 0x28, 0x10, 0x40, 0x58].getD k 0 →
      (EEPROM_ReadByte.body a old b).1 = ERROR ∧
      (k < 5 → (EEPROM_ReadByte.body a old b).2.1 = old) ∧
      (EEPROM_ReadByte.body a old b).2.2.ops = b.ops ++
        ([TwiOp.start, TwiOp.status (statusAt b 0),
          TwiOp.write ((0xA0 ||| ((a &&& 0x0700) >>> 7)) % 256),
          TwiOp.status (statusAt b 1),
          TwiOp.write (a % 256), TwiOp.status (statusAt b 2),
          TwiOp.start, TwiOp.status (statusAt b 3),
          TwiOp.write ((0xA0 ||| ((a &&& 0x0700) >>> 7) ||| 1) % 256),
          TwiOp.status (statusAt b 4),
          TwiOp.readNack (EEPROM_ReadByte.body a old b).2.1, TwiOp.status (statusAt b 5),
          TwiOp.stop].take (2 * k + 2))) := by
  unfold EEPROM_ReadByte.body
  simp only [TWI_GetStatus_fst, TWI_GetStatus_statusAt, TWI_Start_statusAt,
    TWI_WriteByte_statusAt, TWI_ReadByteWithNACK_statusAt]
  refine ⟨?_, ?_, ?_⟩
  · by_cases h0 : statusAt b 0 = 0x08 <;> by_cases h1 : statusAt b 1 = 0x18 <;>
      by_cases h2 : statusAt b 2 = 0x28 <;> by_cases h3 : statusAt b 3 = 0x10 <;>
      by_cases h4 : statusAt b 4 = 0x40 <;> by_cases h5 : statusAt b 5 = 0x58 <;>
      simp [h0, h1, h2, h3, h4, h5]
  · by_cases h0 : statusAt b 0 = 0x08 <;> by_cases h1 : statusAt b 1 = 0x18 <;>
      by_cases h2 : statusAt b 2 = 0x28 <;> by_cases h3 : statusAt b 3 = 0x10 <;>
      by_cases h4 : statusAt b 4 = 0x40 <;> by_cases h5 : statusAt b 5 = 0x58 <;>
      simp [h0, h1, h2, h3, h4, h5, TWI_GetStatus_ops, TWI_Start_ops, TWI_WriteByte_ops,
        TWI_Stop_ops, TWI_ReadByteWithNACK_ops, TWI_GetStatus_statusAt, TWI_Start_statusAt,
        TWI_WriteByte_statusAt, TWI_ReadByteWithNACK_statusAt]
  · intro k hk hj hne
    have q0 : 0 < k → statusAt b 0 = 0x08 := fun h => by simpa using hj 0 h
    have q1 : 1 < k → statusAt b 1 = 0x18 := fun h => by simpa using hj 1 h
    have q2 : 2 < k → statusAt b 2 = 0x28 := fun h => by simpa using hj 2 h
    have q3 : 3 < k → statusAt b 3 = 0x10 := fun h => by simpa using hj 3 h
    have q4 : 4 < k → statusAt b 4 = 0x40 := fun h => by simpa using hj 4 h
    interval_cases k <;>
      simp_all [TWI_GetStatus_ops, TWI_Start_ops, TWI_WriteByte_ops,
        TWI_ReadByteWithNACK_ops, TWI_GetStatus_statusAt, TWI_Start_statusAt,
        TWI_WriteByte_statusAt, TWI_ReadByteWithNACK_statusAt]

/-- Claim C21. `EEPROM_WriteByte` returns `SUCCESS` (1) exactly when its four
status checks read 0x08, 0x18, 0x28, 0x28, and `EEPROM_ReadByte` exactly when
its six checks read 0x08, 0x18, 0x28, 0x10, 0x40, 0x58. Each returns `SUCCESS`
or `ERROR` (0). When check number `k` is the first to fail, the call returns
`ERROR`, the steps it has taken on the bus are the first `2 * k + 2` steps of
a complete call (up to and including the read of the failing status), and no
stop condition is among them. -/
theorem C21_storage_failure_signalling (a d old : Nat) (b : Bus) :
    ((EEPROM_WriteByte.body a d b).1 = SUCCESS ↔
      statusAt b 0 = 0x08 ∧ statusAt b 1 = 0x18 ∧ statusAt b 2 = 0x28 ∧
        statusAt b 3 = 0x28) ∧
    ((EEPROM_ReadByte.body a old b).1 = SUCCESS ↔
      statusAt b 0 = 0x08 ∧ statusAt b 1 = 0x18 ∧ statusAt b 2 = 0x28 ∧
        statusAt b 3 = 0x10 ∧ statusAt b 4 = 0x40 ∧ statusAt b 5 = 0x58) ∧
    (((EEPROM_WriteByte.body a d b).1 = SUCCESS ∧ SUCCESS = 1) ∨
      ((EEPROM_WriteByte.body a d b).1 = ERROR ∧ ERROR = 0)) ∧
    (((EEPROM_ReadByte.body a old b).1 = SUCCESS ∧ SUCCESS = 1) ∨
      ((EEPROM_ReadByte.body a old b).1 = ERROR ∧ ERROR = 0)) ∧
    (∀ k, k < 4 → (∀ j, j < k → statusAt b j = [0x08, 0x18, 0x28, 0x28].getD j 0) →
      statusAt b k ≠ [0x08, 0x18, 0x28, 0x28].getD k 0 →
      (EEPROM_WriteByte.body a d b).1 = ERROR ∧
      (EEPROM_WriteByte.body a d b).2.ops = b.ops ++
        ([TwiOp.start, TwiOp.status (statusAt b 0),
          TwiOp.write ((0xA0 ||| ((a &&& 0x0700) >>> 7)) % 256),
          TwiOp.status (statusAt b 1),
          TwiOp.write (a % 256), TwiOp.status (statusAt b 2),
          TwiOp.write d, TwiOp.status (statusAt b 3), TwiOp.stop].take (2 * k + 2)) ∧
      TwiOp.stop ∉ (EEPROM_WriteByte.body a d b).2.ops.drop b.ops.length) ∧
    (∀ k, k < 6 →
      (∀ j, j < k → statusAt b j = [0x08, 0x18, 0x28, 0x10, 0x40, 0x58].getD j 0) →
      statusAt b k ≠ [0x08, 0x18, 0x28, 0x10, 0x40, 0x58].getD k 0 →
      (EEPROM_ReadByte.body a old b).1 = ERROR ∧
      (EEPROM_ReadByte.body a old b).2.2.ops = b.ops ++
        ([TwiOp.start, TwiOp.status (statusAt b 0),
          TwiOp.write ((0xA0 ||| ((a &&& 0x0700) >>> 7)) % 256),
          TwiOp.status (statusAt b 1),
          TwiOp.write (a % 256), TwiOp.status (statusAt b 2),
          TwiOp.start, TwiOp.status (statusAt b 3),
          TwiOp.write ((0xA0 ||| ((a &&& 0x0700) >>> 7) ||| 1) % 256),
          TwiOp.status (statusAt b 4),
          TwiOp.readNack (EEPROM_ReadByte.body a old b).2.1, TwiOp.status (statusAt b 5),
          TwiOp.stop].take (2 * k + 2)) ∧
      TwiOp.stop ∉ (EEPROM_ReadByte.body a old b).2.2.ops.drop b.ops.length) := by
  obtain ⟨w1, -, w3⟩ := EEPROM_WriteByte_body_steps a d b
  obtain ⟨r1, -, r3⟩ := EEPROM_ReadByte_body_steps a old b
  refine ⟨w1, r1, ?_, ?_, ?_, ?_⟩
  · unfold EEPROM_WriteByte.body
    dsimp only
    split_ifs <;> simp
  · unfold EEPROM_ReadByte.body
    dsimp only
    split_ifs <;> simp
  · intro k hk hj hne
    obtain ⟨h1, h2⟩ := w3 k hk hj hne
    refine ⟨h1, h2, ?_⟩
    rw [h2, List.drop_left]
    interval_cases k <;> simp
  · intro k hk hj hne
    obtain ⟨h1, -, h2⟩ := r3 k hk hj hne
    refine ⟨h1, h2, ?_⟩
    rw [h2, List.drop_left]
    interval_cases k <;> simp

/-- Claim C21, at a bus where the memory address is not acknowledged (status
0x30 at the third check): both calls return `ERROR` after six steps, none of
them a stop condition. -/
theorem C21_storage_failure_signalling_witness :
    (EEPROM_WriteByte.body 3 7 (Bus.init [0x08, 0x18, 0x30] (fun _ => 255))).1 = ERROR ∧
    (EEPROM_WriteByte.body 3 7 (Bus.init [0x08, 0x18, 0x30] (fun _ => 255))).2.ops =
      [TwiOp.start, TwiOp.status 0x08, TwiOp.write 0xA0, TwiOp.status 0x18,
       TwiOp.write 3, TwiOp.status 0x30] ∧
    (EEPROM_ReadByte.body 3 9 (Bus.init [0x08, 0x18, 0x30] (fun _ => 255))).1 = ERROR ∧
    (EEPROM_ReadByte.body 3 9 (Bus.init [0x08, 0x18, 0x30] (fun _ => 255))).2.2.ops =
      [TwiOp.start, TwiOp.status 0x08, TwiOp.write 0xA0, TwiOp.status 0x18,
       TwiOp.write 3, TwiOp.status 0x30] :=
  have hw := (C21_storage_failure_signalling 3 7 9
    (Bus.init [0x08, 0x18, 0x30] (fun _ => 255))).2.2.2.2.1 2 (by decide) (by decide)
    (by decide)
  have hr := (C21_storage_failure_signalling 3 7 9
    (Bus.init [0x08, 0x18, 0x30] (fun _ => 255))).2.2.2.2.2 2 (by decide) (by decide)
    (by decide)
  ⟨hw.1, hw.2.1, hr.1, hr.2.1⟩

/-! ### `CheckPassword` when the reads fail before the data phase -/

/-- The reading loop of `CheckPassword`, one more iteration at the end. -/
theorem CheckPassword_readLoop_succ (k : Nat) : ∀ (i : Nat) (B : Buf) (s : State),
    CheckPassword.readLoop (k + 1) i B s =
      ((CheckPassword.readLoop k i B s).1.store (i + k)
        (EEPROM_ReadByte (0x0000 + (i + k)) ((CheckPassword.readLoop k i B s).1 (i + k))
          (CheckPassword.readLoop k i B s).2).2.1,
       _delay_ms 10
        (EEPROM_ReadByte (0x0000 + (i + k)) ((CheckPassword.readLoop k i B s).1 (i + k))
          (CheckPassword.readLoop k i B s).2).2.2) := by
  induction k with
  | zero => intro i B s; simp [CheckPassword.readLoop]
  | succ k ih =>
    intro i B s
    rw [CheckPassword.readLoop]
    have hh := ih (i + 1) (B.store i (EEPROM_ReadByte (0x0000 + i) (B i) s).2.1)
      (_delay_ms 10 (EEPROM_ReadByte (0x0000 + i) (B i) s).2.2)
    simp only [hh]
    have e : i + 1 + k = i + (k + 1) := by omega
    rw [e]
    conv_rhs => rw [CheckPassword.readLoop]

/-- Storing the byte a cell holds changes nothing. -/
theorem Buf_store_self (B : Buf) (i : Nat) : B.store i (B i) = B := by
  funext k
  unfold Buf.store
  split_ifs with h
  · rw [h]
  · rfl

/-- A read that fails at one of its first five status checks returns `ERROR`
and leaves `*EEPROM_Data` as it was. -/
theorem EEPROM_ReadByte_early_failure (a old : Nat) (s : State)
    (h : ∃ k, k < 5 ∧
      (∀ j, j < k → statusAt s.bus j = [0x08, 0x18, 0x28, 0x10, 0x40, 0x58].getD j 0) ∧
      statusAt s.bus k ≠ [0x08, 0x18, 0x28, 0x10, 0x40, 0x58].getD k 0) :
    (EEPROM_ReadByte a old s).1 = ERROR ∧ (EEPROM_ReadByte a old s).2.1 = old := by
  obtain ⟨k, hk, hj, hne⟩ := h
  obtain ⟨h1, h2, -⟩ := (EEPROM_ReadByte_body_steps a old s.bus).2.2 k (by omega) hj hne
  exact ⟨h1, h2 hk⟩

/-- When every read of `CheckPassword` fails at one of its first five status
checks, the buffer is as before after any number of iterations. -/
theorem CheckPassword_readLoop_failed (B : Buf) (s : State) (m : Nat)
    (h : ∀ n, n < m → ∃ k, k < 5 ∧
      (∀ j, j < k → statusAt (CheckPassword.readLoop n 0 B s).2.bus j =
        [0x08, 0x18, 0x28, 0x10, 0x40, 0x58].getD j 0) ∧
      statusAt (CheckPassword.readLoop n 0 B s).2.bus k ≠
        [0x08, 0x18, 0x28, 0x10, 0x40, 0x58].getD k 0) :
    (CheckPassword.readLoop m 0 B s).1 = B := by
  induction m with
  | zero => rfl
  | succ m ih =>
    have hB := ih (fun n hn => h n (by omega))
    rw [CheckPassword_readLoop_succ]
    have hf := EEPROM_ReadByte_early_failure (0x0000 + (0 + m))
      ((CheckPassword.readLoop m 0 B s).1 (0 + m)) (CheckPassword.readLoop m 0 B s).2
      (h m (by omega))
    rw [hB] at hf
    simp only [hB, hf.2, Buf_store_self]

/-- Claim C28. A call of `EEPROM_ReadByte` whose first failing status check is
one of the first five returns `ERROR` and leaves `*EEPROM_Data` as it was.
Hence, when each of the five reads of `CheckPassword(A, B)` (read number `n`
runs on the bus the first `n` iterations leave) fails at one of its first five
checks, `CheckPassword` leaves `B` as it was and returns what
`ComparePasswords(A, B)` returns on it. -/
theorem C28_CheckPassword_under_failed_reads (A B : Buf) (s : State) (a old : Nat)
    (b : Bus) :
    (∀ k, k < 5 →
      (∀ j, j < k → statusAt b j = [0x08, 0x18, 0x28, 0x10, 0x40, 0x58].getD j 0) →
      statusAt b k ≠ [0x08, 0x18, 0x28, 0x10, 0x40, 0x58].getD k 0 →
      (EEPROM_ReadByte.body a old b).1 = ERROR ∧
      (EEPROM_ReadByte.body a old b).2.1 = old) ∧
    ((∀ n, n < 5 → ∃ k, k < 5 ∧
        (∀ j, j < k → statusAt (CheckPassword.readLoop n 0 B s).2.bus j =
          [0x08, 0x18, 0x28, 0x10, 0x40, 0x58].getD j 0) ∧
        statusAt (CheckPassword.readLoop n 0 B s).2.bus k ≠
          [0x08, 0x18, 0x28, 0x10, 0x40, 0x58].getD k 0) →
      (CheckPassword A B s).2.1 = B ∧
      (CheckPassword A B s).1 = ComparePasswords A B) := by
  refine ⟨?_, ?_⟩
  · intro k hk hj hne
    obtain ⟨h1, h2, -⟩ := (EEPROM_ReadByte_body_steps a old b).2.2 k (by omega) hj hne
    exact ⟨h1, h2 hk⟩
  · intro h
    have hB := CheckPassword_readLoop_failed B s 5 h
    have e : (CheckPassword A B s).2.1 = B := hB
    refine ⟨e, ?_⟩
    have e1 : (CheckPassword A B s).1 =
        CheckPassword.compareLoop A (CheckPassword A B s).2.1 PASSWORD_SIZE 0 := rfl
    rw [e1, e, CheckPassword_compareLoop_eq]
    rfl

set_option maxRecDepth 100000 in
/-- Claim C28, at a bus where the five reads fail at the second, third, first,
fourth and fifth check: the entry 1 2 3 4 5 is found to match the buffer
1 2 3 4 5 although every cell of the memory holds 255. -/
theorem C28_CheckPassword_under_failed_reads_witness :
    (CheckPassword (Buf.ofList [1, 2, 3, 4, 5]) (Buf.ofList [1, 2, 3, 4, 5])
      (boot [] [0x08, 0x20, 0x08, 0x18, 0x30, 0x00, 0x08, 0x18, 0x28, 0x18,
        0x08, 0x18, 0x28, 0x10, 0x48] (fun _ => 255))).2.1 = Buf.ofList [1, 2, 3, 4, 5] ∧
    (CheckPassword (Buf.ofList [1, 2, 3, 4, 5]) (Buf.ofList [1, 2, 3, 4, 5])
      (boot [] [0x08, 0x20, 0x08, 0x18, 0x30, 0x00, 0x08, 0x18, 0x28, 0x18,
        0x08, 0x18, 0x28, 0x10, 0x48] (fun _ => 255))).1 = PASSWORDS_MATCHED :=
  have h := (C28_CheckPassword_under_failed_reads (Buf.ofList [1, 2, 3, 4, 5])
    (Buf.ofList [1, 2, 3, 4, 5])
    (boot [] [0x08, 0x20, 0x08, 0x18, 0x30, 0x00, 0x08, 0x18, 0x28, 0x18,
      0x08, 0x18, 0x28, 0x10, 0x48] (fun _ => 255)) 0 0 (Bus.init [] (fun _ => 0))).2
    (by decide)
  ⟨h.1, h.2.trans (by decide)⟩

end Control

/-! ### The tokens of the two nodes -/

/-- Claim C22. The macros of `Control_ECU.c` and of `HMI_ECU.c` give each
shared token the same value, the one of the protocol table: `HMI_READY` 0x10,
`CONTROL_READY` 0x20, `PASSWORDS_UNMATCHED` 0x30, `PASSWORDS_MATCHED` 0x40,
`PASS_RECEIVED` 0x06, `DISPLAY_ERROR` 0x0C, `OPEN_THE_DOOR` 0x03,
`CHANGE_PASSWORD` 0x04, `PASSWORD_SIZE` 5. -/
theorem C22_protocol_constants :
    (Control.HMI_READY = HMI.HMI_READY ∧ HMI.HMI_READY = 0x10) ∧
    (Control.CONTROL_READY = HMI.CONTROL_READY ∧ HMI.CONTROL_READY = 0x20) ∧
    (Control.PASSWORDS_UNMATCHED = HMI.PASSWORDS_UNMATCHED ∧
      HMI.PASSWORDS_UNMATCHED = 0x30) ∧
    (Control.PASSWORDS_MATCHED = HMI.PASSWORDS_MATCHED ∧ HMI.PASSWORDS_MATCHED = 0x40) ∧
    (Control.PASS_RECEIVED = HMI.PASS_RECEIVED ∧ HMI.PASS_RECEIVED = 0x06) ∧
    (Control.DISPLAY_ERROR = HMI.DISPLAY_ERROR ∧ HMI.DISPLAY_ERROR = 0x0C) ∧
    (Control.OPEN_THE_DOOR = HMI.OPEN_THE_DOOR ∧ HMI.OPEN_THE_DOOR = 0x03) ∧
    (Control.CHANGE_PASSWORD = HMI.CHANGE_PASSWORD ∧ HMI.CHANGE_PASSWORD = 0x04) ∧
    (Control.PASSWORD_SIZE = HMI.PASSWORD_SIZE ∧ HMI.PASSWORD_SIZE = 5) := by
  decide

namespace Control

/-! ### The failure counter inside a pass in `RECEIVING_MAIN_OPTION` -/

/-- A pass in `RECEIVING_MAIN_OPTION` that returns, cut before the final test
`if (i == 3)`: the verdict part has run from a state with the counter of the
start and has left the state `mid`, to which the final test is applied. -/
theorem case_RECEIVING_MAIN_OPTION_mid (s s1 : State)
    (h : case_RECEIVING_MAIN_OPTION s = some s1) :
    ∃ (onMatch : Nat) (s2 mid : State),
      (onMatch = OPEN_THE_DOOR ∨ onMatch = RECEIVE_FIRST_PASSWORD) ∧ s2.i = s.i ∧
      mainOptionBranch onMatch s2 = some mid ∧
      s1 = (if mid.i = 3 then { mid with Control_ECU_Sequence := PASSWORD_ERROR, i := 0 }
            else mid) := by
  unfold case_RECEIVING_MAIN_OPTION at h
  split at h
  · exact absurd h (by simp)
  · rename_i s2 hwait
    obtain ⟨r1, ev1, rfl, -⟩ := awaitByte_some _ _ _ hwait
    split at h
    · exact absurd h (by simp)
    · rename_i Result s3 hrecv
      obtain ⟨r2, _, rfl⟩ := UART_ReceiveByte_some _ _ _ hrecv
      split at h
      · exact absurd h (by simp)
      · rename_i s4 hbranch
        by_cases hR : Result = 43
        · rw [if_pos hR] at hbranch
          refine ⟨OPEN_THE_DOOR, _, s4, Or.inl rfl, ?_, hbranch, ?_⟩
          · simp [UART_SendByte, State.log]
          · split at h
            · rename_i h3
              rw [if_pos h3]
              exact (Option.some.inj h).symm
            · rename_i h3
              rw [if_neg h3]
              exact (Option.some.inj h).symm
        · rw [if_neg hR] at hbranch
          refine ⟨RECEIVE_FIRST_PASSWORD, _, s4, Or.inr rfl, ?_, hbranch, ?_⟩
          · simp [UART_SendByte, State.log]
          · split at h
            · rename_i h3
              rw [if_pos h3]
              exact (Option.some.inj h).symm
            · rename_i h3
              rw [if_neg h3]
              exact (Option.some.inj h).symm

/-- A pass outside `RECEIVING_MAIN_OPTION` that returns leaves the failure
counter as it was. -/
theorem step_i_unchanged (s s1 : State) (hq : s.Control_ECU_Sequence ≠ RECEIVING_MAIN_OPTION)
    (h : step s = some s1) : s1.i = s.i := by
  by_cases h0 : s.Control_ECU_Sequence = RECEIVE_FIRST_PASSWORD
  · rw [step_RECEIVE_FIRST_PASSWORD s h0] at h
    obtain ⟨p, r, ev, rfl, -⟩ := case_RECEIVE_FIRST_PASSWORD_some s s1 h
    rfl
  by_cases h1 : s.Control_ECU_Sequence = RECEIVE_AND_CHECK_CONFIRMED_PASSWORD
  · rw [step_RECEIVE_AND_CHECK_CONFIRMED_PASSWORD s h1] at h
    obtain ⟨p, r, ev, _, _, _, _, hc⟩ := case_RECEIVE_AND_CHECK_CONFIRMED_PASSWORD_some s s1 h
    rcases hc with ⟨_, b, ev2, rfl, -⟩ | ⟨_, rfl⟩ <;> rfl
  by_cases h3 : s.Control_ECU_Sequence = OPEN_THE_DOOR
  · rw [step_OPEN_THE_DOOR s h3] at h
    obtain ⟨r, ev, rfl, -⟩ := case_OPEN_THE_DOOR_some s s1 h
    rfl
  by_cases h4 : s.Control_ECU_Sequence = PASSWORD_ERROR
  · rw [step_PASSWORD_ERROR s h4] at h
    obtain ⟨r, ev, rfl, -⟩ := case_PASSWORD_ERROR_some s s1 h
    rfl
  rw [step_other s h0 h1 hq h3 h4] at h
  rw [← Option.some.inj h]

/-- Claim C26. In every run of the Control node from boot, at the top of the
loop `Control_ECU_Sequence` is in 0..4 and the failure counter `i` is below 3.
A pass outside `RECEIVING_MAIN_OPTION` leaves the counter as it was. In a pass
in `RECEIVING_MAIN_OPTION` the verdict part starts with the counter of the
loop top and leaves a state `mid`; the counter of `mid` is 3 exactly when the
pass ends in `PASSWORD_ERROR` (with the counter back at 0). After the verdict
`PASSWORDS_MATCHED` the counter is unchanged and the pass does not end in
`PASSWORD_ERROR`; after `PASSWORDS_UNMATCHED` it is one more than before. -/
theorem C26_control_state_invariant (rx twsr : List Nat) (ee : Nat → Nat) (n : Nat)
    (s : State) (h : run n (boot rx twsr ee) = some s) :
    (s.Control_ECU_Sequence ≤ 4 ∧ s.i < 3) ∧
    (∀ s1, step s = some s1 → s.Control_ECU_Sequence ≠ RECEIVING_MAIN_OPTION →
      s1.i = s.i) ∧
    (∀ s1, step s = some s1 → s.Control_ECU_Sequence = RECEIVING_MAIN_OPTION →
      ∃ (onMatch : Nat) (s2 mid : State) (ev : List Ev),
        s2.i = s.i ∧ mainOptionBranch onMatch s2 = some mid ∧
        mid.trace = s2.trace ++ ev ∧
        s1 = (if mid.i = 3 then { mid with Control_ECU_Sequence := PASSWORD_ERROR, i := 0 }
              else mid) ∧
        (mid.i = 3 ↔ s1.Control_ECU_Sequence = PASSWORD_ERROR) ∧
        (((sentOf ev).getLast? = some PASSWORDS_MATCHED ∧ mid.i = s.i ∧
            s1.Control_ECU_Sequence ≠ PASSWORD_ERROR ∧ s1.i = s.i) ∨
          ((sentOf ev).getLast? = some PASSWORDS_UNMATCHED ∧ mid.i = s.i + 1 ∧
            s1.i = (if s.i = 2 then 0 else s.i + 1)))) := by
  obtain ⟨hi, hq⟩ := run_boot_inv rx twsr ee n s h
  refine ⟨⟨hq, hi⟩, fun s1 hs hne => step_i_unchanged s s1 hne hs, ?_⟩
  intro s1 hs h2
  rw [step_RECEIVING_MAIN_OPTION s h2] at hs
  obtain ⟨onMatch, s2, mid, hon, hs2, hb, hs1⟩ := case_RECEIVING_MAIN_OPTION_mid s s1 hs
  obtain ⟨p, p2, r, b, ev, -, -, -, hc⟩ := mainOptionBranch_some onMatch s2 mid hb
  have hon4 : onMatch ≠ PASSWORD_ERROR := by
    rcases hon with rfl | rfl <;> decide
  rcases hc with ⟨hsent, hmid⟩ | ⟨hsent, hmid⟩
  · have hmi : mid.i = s.i := by rw [hmid]; exact hs2
    have hmq : mid.Control_ECU_Sequence = onMatch := by rw [hmid]
    have hmt : mid.trace = s2.trace ++ ev := by rw [hmid]
    have h3 : mid.i ≠ 3 := by omega
    rw [if_neg h3] at hs1
    refine ⟨onMatch, s2, mid, ev, hs2, hb, hmt, ?_, ?_, Or.inl ⟨?_, hmi, ?_, ?_⟩⟩
    · rw [if_neg h3]; exact hs1
    · rw [hs1, hmq]
      exact ⟨fun q => absurd q h3, fun q => absurd q hon4⟩
    · rw [hsent]; rfl
    · rw [hs1, hmq]; exact hon4
    · rw [hs1]; exact hmi
  · have hmi : mid.i = s.i + 1 := by
      rw [hmid]
      show (s2.i + 1) % 256 = s.i + 1
      rw [hs2]
      exact Nat.mod_eq_of_lt (by omega)
    have hmq : mid.Control_ECU_Sequence = RECEIVING_MAIN_OPTION := by rw [hmid]
    have hmt : mid.trace = s2.trace ++ ev := by rw [hmid]
    refine ⟨onMatch, s2, mid, ev, hs2, hb, hmt, hs1, ?_, Or.inr ⟨?_, hmi, ?_⟩⟩
    · rw [hs1]
      by_cases h3 : mid.i = 3
      · simp [h3]
      · simp only [if_neg h3, hmq]
        exact ⟨fun q => absurd q h3, fun q => absurd q (by decide)⟩
    · rw [hsent]; rfl
    · rw [hs1]
      by_cases h3 : mid.i = 3
      · have e : s.i = 2 := by omega
        simp [h3, e]
      · have e : s.i ≠ 2 := by omega
        simp only [if_neg h3, if_neg e]
        exact hmi

set_option maxRecDepth 100000 in
/-- Claim C26, on the run in which the password 1,2,3,4,5 is saved and two
wrong entries follow: at the top of the fifth pass the state is among the five
cases and the counter is below 3. -/
theorem C26_control_state_invariant_witness :
    ((run 4 (boot (enrollInput [1, 2, 3, 4, 5] [1, 2, 3, 4, 5] ++ threeWrong ++ [HMI_READY])
        (goodSave ++ goodCheck ++ goodCheck ++ goodCheck) (fun _ => 255))).getD
      (boot [] [] (fun _ => 255))).Control_ECU_Sequence ≤ 4 ∧
    ((run 4 (boot (enrollInput [1, 2, 3, 4, 5] [1, 2, 3, 4, 5] ++ threeWrong ++ [HMI_READY])
        (goodSave ++ goodCheck ++ goodCheck ++ goodCheck) (fun _ => 255))).getD
      (boot [] [] (fun _ => 255))).i < 3 :=
  (C26_control_state_invariant _ _ _ 4 _ (some_getD_of_isSome _ _ (by decide))).1

end Control

namespace HMI

/-! ### The states the HMI node takes -/

/-- One pass of the loop that returns ends in one of the five cases: each
case sets the sequence variable to one of them. -/
theorem step_seq_hmi (s t : State) (h : step s = some t) :
    t.HMI_ECU_Sequence = ENTER_PASSWORD ∨ t.HMI_ECU_Sequence = CONFIRM_PASSWORD ∨
      t.HMI_ECU_Sequence = MAIN_OPTIONS_DISPLAY ∨ t.HMI_ECU_Sequence = OPENING_DOOR ∨
      t.HMI_ECU_Sequence = PASSWORD_ERROR := by
  unfold step at h
  split at h
  · rename_i hs0
    unfold case_ENTER_PASSWORD at h
    split at h
    · exact absurd h (by simp)
    · rename_i s1 h1
      obtain ⟨a1, a2, a3, a4⟩ := EnterPassword_frame _ _ h1
      replace h := Option.some.inj h
      rw [← h]
      right; left
      show (s1.HMI_ECU_Sequence + 1) % 256 = CONFIRM_PASSWORD
      rw [a1, hs0]
      rfl
  · split at h
    · rename_i hs0 hs1
      unfold case_CONFIRM_PASSWORD at h
      split at h
      · exact absurd h (by simp)
      · rename_i s1 h1
        obtain ⟨a1, a2, a3, a4⟩ := ConfirmPassword_frame _ _ h1
        split at h
        · exact absurd h (by simp)
        · rename_i s2 hw
          obtain ⟨junk, rest, -, -, rfl⟩ := awaitByte_exact_hmi _ _ _ hw
          split at h
          · exact absurd h (by simp)
          · rename_i v s3 hrecv
            obtain ⟨r, -, rfl⟩ := UART_ReceiveByte_some_hmi _ _ _ hrecv
            split at h
            · replace h := Option.some.inj h
              rw [← h]
              right; right; left
              simp [UART_SendByte, State.log, LCD_ClearString, LCD_DisplayString, _delay_ms,
                LCD_MoveCursor, a1, hs1, CONFIRM_PASSWORD, MAIN_OPTIONS_DISPLAY]
            · replace h := Option.some.inj h
              rw [← h]
              left
              rfl
    · split at h
      · unfold case_MAIN_OPTIONS_DISPLAY at h
        split at h
        · exact absurd h (by simp)
        · rename_i s1 hmain
          split at h
          · exact absurd h (by simp)
          · rename_i s2 hw
            simp only at h
            split at h
            · exact absurd h (by simp)
            · rename_i s4 hbranch
              have hb : ∃ onMatch s3, (onMatch = OPENING_DOOR ∨ onMatch = ENTER_PASSWORD) ∧
                  mainOptionBranch onMatch s3 = some s4 := by
                split at hbranch
                · exact ⟨_, _, Or.inl rfl, hbranch⟩
                · exact ⟨_, _, Or.inr rfl, hbranch⟩
              obtain ⟨onMatch, s3, hon, hbr⟩ := hb
              obtain ⟨-, -, c3⟩ := mainOptionBranch_frame _ _ _ hbr
              split at h
              · replace h := Option.some.inj h
                rw [← h]
                right; right; right; right
                rfl
              · replace h := Option.some.inj h
                rw [← h]
                rcases c3 with ⟨c, -⟩ | ⟨c, -⟩
                · rcases hon with e | e
                  · right; right; right; left
                    rw [c, e]
                  · left
                    rw [c, e]
                · right; right; left
                  exact c
      · split at h
        · unfold case_OPENING_DOOR at h
          split at h
          · exact absurd h (by simp)
          · rename_i s1 hw
            simp only at h
            split at h
            · exact absurd h (by simp)
            · rename_i s4 ht1
              split at h
              · exact absurd h (by simp)
              · rename_i s6 ht2
                replace h := Option.some.inj h
                rw [← h]
                right; right; left
                rfl
        · split at h
          · unfold case_PASSWORD_ERROR at h
            split at h
            · exact absurd h (by simp)
            · rename_i s1 hw
              split at h
              · exact absurd h (by simp)
              · rename_i s2 hw2
                simp only at h
                split at h
                · exact absurd h (by simp)
                · rename_i s5 ht1
                  replace h := Option.some.inj h
                  rw [← h]
                  right; right; left
                  rfl
          · exact absurd h (by simp)

/-- From boot on, whenever the HMI node is at the top of its loop, the state
is one of the five cases. -/
theorem run_boot_seq_hmi (i0 : Nat) (rx keys : List Nat) (s0 : State)
    (hb : boot i0 rx keys = some s0) :
    ∀ (n : Nat) (s : State), run n s0 = some s →
      s.HMI_ECU_Sequence = ENTER_PASSWORD ∨ s.HMI_ECU_Sequence = CONFIRM_PASSWORD ∨
      s.HMI_ECU_Sequence = MAIN_OPTIONS_DISPLAY ∨ s.HMI_ECU_Sequence = OPENING_DOOR ∨
      s.HMI_ECU_Sequence = PASSWORD_ERROR := by
  have gen : ∀ (n : Nat) (a s : State),
      (a.HMI_ECU_Sequence = ENTER_PASSWORD ∨ a.HMI_ECU_Sequence = CONFIRM_PASSWORD ∨
        a.HMI_ECU_Sequence = MAIN_OPTIONS_DISPLAY ∨ a.HMI_ECU_Sequence = OPENING_DOOR ∨
        a.HMI_ECU_Sequence = PASSWORD_ERROR) → run n a = some s →
      (s.HMI_ECU_Sequence = ENTER_PASSWORD ∨ s.HMI_ECU_Sequence = CONFIRM_PASSWORD ∨
        s.HMI_ECU_Sequence = MAIN_OPTIONS_DISPLAY ∨ s.HMI_ECU_Sequence = OPENING_DOOR ∨
        s.HMI_ECU_Sequence = PASSWORD_ERROR) := by
    intro n
    induction n with
    | zero =>
      intro a s hq h
      simp only [run, Option.some.injEq] at h
      subst h
      exact hq
    | succ n ih =>
      intro a s hq h
      simp only [run] at h
      split at h
      · exact absurd h (by simp)
      · rename_i s1 hs1
        exact ih s1 s (step_seq_hmi a s1 hs1) h
  unfold boot at hb
  obtain ⟨junk, rest, -, -, rfl⟩ := awaitByte_exact_hmi _ _ _ hb
  intro n s h
  exact gen n _ s (Or.inl rfl) h

/-- Claim C25. In every run of the HMI node from boot, whatever the local `i`
holds at boot, `HMI_ECU_Sequence` at the top of the loop is one of
`ENTER_PASSWORD` (0), `CONFIRM_PASSWORD` (1), `MAIN_OPTIONS_DISPLAY` (2),
`OPENING_DOOR` (4), `PASSWORD_ERROR` (5), and never `MAIN_OPTION_SELECTION`
(3); so the `switch` of the next pass enters one of its five cases and not its
`default:` branch. -/
theorem C25_hmi_reachable_states (i0 : Nat) (rx keys : List Nat) (s0 : State) (n : Nat)
    (s : State) (hb : boot i0 rx keys = some s0) (h : run n s0 = some s) :
    (s.HMI_ECU_Sequence = 0 ∨ s.HMI_ECU_Sequence = 1 ∨ s.HMI_ECU_Sequence = 2 ∨
      s.HMI_ECU_Sequence = 4 ∨ s.HMI_ECU_Sequence = 5) ∧
    s.HMI_ECU_Sequence ≠ MAIN_OPTION_SELECTION ∧
    step s =
      (if s.HMI_ECU_Sequence = ENTER_PASSWORD then case_ENTER_PASSWORD s
       else if s.HMI_ECU_Sequence = CONFIRM_PASSWORD then case_CONFIRM_PASSWORD s
       else if s.HMI_ECU_Sequence = MAIN_OPTIONS_DISPLAY then case_MAIN_OPTIONS_DISPLAY s
       else if s.HMI_ECU_Sequence = OPENING_DOOR then case_OPENING_DOOR s
       else case_PASSWORD_ERROR s) := by
  have hq := run_boot_seq_hmi i0 rx keys s0 hb n s h
  refine ⟨hq, ?_, ?_⟩
  · rcases hq with e | e | e | e | e <;> rw [e] <;> decide
  · unfold step
    rcases hq with e | e | e | e | e <;> simp [e]

set_option maxRecDepth 100000 in
/-- Claim C25, on the run in which the password 1,2,3,4,5 is enrolled and
entered again with the command `'+'`: three passes after boot the node is in
one of the five cases (in `OPENING_DOOR`). -/
theorem C25_hmi_reachable_states_witness :
    (doorSample.HMI_ECU_Sequence = 0 ∨ doorSample.HMI_ECU_Sequence = 1 ∨
      doorSample.HMI_ECU_Sequence = 2 ∨ doorSample.HMI_ECU_Sequence = 4 ∨
      doorSample.HMI_ECU_Sequence = 5) ∧
    doorSample.HMI_ECU_Sequence ≠ MAIN_OPTION_SELECTION :=
  have h := C25_hmi_reachable_states 0 _ _ (doorBoot [CONTROL_READY]) 3 doorSample
    (Control.some_getD_of_isSome _ _ (by decide)) (Control.some_getD_of_isSome _ _ (by decide))
  ⟨h.1, h.2.1⟩

end HMI

namespace Control

/-! ### The ticks of the timed passes -/

/-- A pass in `OPEN_THE_DOOR` entered with the tick counter at 0 that returns:
after the exchange with the HMI node its waits let 5, 1 and 5 ticks pass, and
the tick counter is 0 at the end. -/
theorem case_OPEN_THE_DOOR_ticks (s d : State) (hc : s.G_Timer1_Count = 0)
    (h : case_OPEN_THE_DOOR s = some d) :
    d.G_Timer1_Count = 0 ∧ ∃ pre : List Ev, d.trace = s.trace ++ pre ++
      ([Ev.timer0Init, Ev.timer1Init, Ev.timer1SetCallBack, Ev.motor DcMotor_State.CW 100] ++
        List.replicate 5 Ev.tick ++ [Ev.motor DcMotor_State.STOP 0] ++
        List.replicate 1 Ev.tick ++ [Ev.motor DcMotor_State.A_CW 100] ++
        List.replicate 5 Ev.tick ++
        [Ev.motor DcMotor_State.STOP 0, Ev.timer1DeInit, Ev.timer0DeInit]) := by
  have h0 := h
  unfold case_OPEN_THE_DOOR at h
  split at h
  · exact absurd h (by simp)
  · rename_i s1 hw1
    obtain ⟨junk, rest0, hj, hrx, rfl⟩ := awaitByte_exact _ _ _ hw1
    split at h
    · exact absurd h (by simp)
    · rename_i s2 hw2
      obtain ⟨junk2, rest, hj2, hrx2, -⟩ := awaitByte_exact _ _ _ hw2
      have hrx2b : rest0 = junk2 ++ OPEN_THE_DOOR :: rest := by
        simpa [UART_SendByte, State.log] using hrx2
      rw [case_OPEN_THE_DOOR_run s junk junk2 rest hc hj hj2 (by rw [hrx, hrx2b])] at h0
      replace h0 := Option.some.inj h0
      rw [← h0]
      exact ⟨rfl, _, rfl⟩

/-- A pass in `PASSWORD_ERROR` entered with the tick counter at 0 that
returns: after the exchange with the HMI node its wait lets 20 ticks pass, and
the tick counter is 0 at the end. -/
theorem case_PASSWORD_ERROR_ticks (s d : State) (hc : s.G_Timer1_Count = 0)
    (h : case_PASSWORD_ERROR s = some d) :
    d.G_Timer1_Count = 0 ∧ ∃ pre : List Ev, d.trace = s.trace ++ pre ++
      ([Ev.timer1Init, Ev.timer1SetCallBack, Ev.buzzer true] ++
        List.replicate 20 Ev.tick ++ [Ev.buzzer false, Ev.timer1DeInit]) := by
  have h0 := h
  unfold case_PASSWORD_ERROR at h
  split at h
  · exact absurd h (by simp)
  · rename_i s1 hw1
    obtain ⟨junk, rest, hj, hrx, -⟩ := awaitByte_exact _ _ _ hw1
    have hrxb : s.rx = junk ++ HMI_READY :: rest := by
      simpa [UART_SendByte, State.log] using hrx
    rw [case_PASSWORD_ERROR_run s junk rest hc hj hrxb] at h0
    replace h0 := Option.some.inj h0
    rw [← h0]
    exact ⟨rfl, _, rfl⟩

end Control

namespace HMI

/-- A pass in `OPENING_DOOR` of the HMI node entered with the tick counter at
0 that returns: after the exchange with the Control node its waits let 6 and 5
ticks pass, and the tick counter is 0 at the end. -/
theorem case_OPENING_DOOR_ticks (s d : State) (hc : s.G_Timer1_Count = 0)
    (h : case_OPENING_DOOR s = some d) :
    d.G_Timer1_Count = 0 ∧ ∃ pre : List Ev, d.trace = s.trace ++ pre ++
      ([Ev.timer1Init, Ev.timer1SetCallBack, Ev.lcdClear, Ev.lcdString "Door is",
        Ev.lcdMove 1 0, Ev.lcdString "Unlocking..."] ++ List.replicate 6 Ev.tick ++
        [Ev.lcdClear, Ev.lcdString "Door is", Ev.lcdMove 1 0, Ev.lcdString "Locking..."] ++
        List.replicate 5 Ev.tick ++ [Ev.timer1DeInit]) := by
  have h0 := h
  unfold case_OPENING_DOOR at h
  split at h
  · exact absurd h (by simp)
  · rename_i s1 hw1
    obtain ⟨junk, rest, hj, hrx, -⟩ := awaitByte_exact_hmi _ _ _ hw1
    have hrxb : s.rx = junk ++ CONTROL_READY :: rest := by
      simpa [UART_SendByte, State.log] using hrx
    rw [case_OPENING_DOOR_run s junk rest hc hj hrxb] at h0
    replace h0 := Option.some.inj h0
    rw [← h0]
    exact ⟨rfl, _, rfl⟩

/-- A pass in `PASSWORD_ERROR` of the HMI node entered with the tick counter
at 0 that returns: after the exchange with the Control node its wait lets 20
ticks pass, and the tick counter is 0 at the end. -/
theorem case_PASSWORD_ERROR_ticks_hmi (s d : State) (hc : s.G_Timer1_Count = 0)
    (h : case_PASSWORD_ERROR s = some d) :
    d.G_Timer1_Count = 0 ∧ ∃ pre : List Ev, d.trace = s.trace ++ pre ++
      ([Ev.timer1Init, Ev.timer1SetCallBack, Ev.lcdClear, Ev.lcdString "ERROR Happened!",
        Ev.lcdMove 1 0, Ev.lcdString "Try Again Later"] ++ List.replicate 20 Ev.tick ++
        [Ev.timer1DeInit]) := by
  have h0 := h
  unfold case_PASSWORD_ERROR at h
  split at h
  · exact absurd h (by simp)
  · rename_i s1 hw1
    obtain ⟨junk, rest0, hj, hrx, rfl⟩ := awaitByte_exact_hmi _ _ _ hw1
    split at h
    · exact absurd h (by simp)
    · rename_i s2 hw2
      obtain ⟨junk2, rest, hj2, hrx2, -⟩ := awaitByte_exact_hmi _ _ _ hw2
      have hrx2b : rest0 = junk2 ++ DISPLAY_ERROR :: rest := by
        simpa [UART_SendByte, State.log] using hrx2
      rw [case_PASSWORD_ERROR_run_hmi s junk junk2 rest hc hj hj2 (by rw [hrx, hrx2b])] at h0
      replace h0 := Option.some.inj h0
      rw [← h0]
      exact ⟨rfl, _, rfl⟩

end HMI
/-- Claim C23. On both nodes the tick counter `G_Timer1_Count` is 0 at boot
and whenever the node is at the top of its loop, in every run from boot. A
timed pass that returns (`OPEN_THE_DOOR` and `PASSWORD_ERROR` on the Control
node, `OPENING_DOOR` and `PASSWORD_ERROR` on the HMI node) ends with the
counter at 0, and each of its waits lets exactly its threshold of ticks pass
(5, 1, 5 and 20 on the Control node, 6, 5 and 20 on the HMI node): every wait
starts counting from 0. -/
theorem C23_tick_counter_teardown (crx0 twsr0 : List Nat) (ee0 : Nat → Nat) (m : Nat)
    (c : Control.State) (i0 : Nat) (rx0 keys0 : List Nat) (s0 s : HMI.State) (n : Nat)
    (hcrun : Control.run m (Control.boot crx0 twsr0 ee0) = some c)
    (hboot : HMI.boot i0 rx0 keys0 = some s0) (hrun : HMI.run n s0 = some s) :
    (Control.boot crx0 twsr0 ee0).G_Timer1_Count = 0 ∧ s0.G_Timer1_Count = 0 ∧
    c.G_Timer1_Count = 0 ∧ s.G_Timer1_Count = 0 ∧
    (∀ d, c.Control_ECU_Sequence = Control.OPEN_THE_DOOR → Control.step c = some d →
      d.G_Timer1_Count = 0 ∧ ∃ pre : List Ev, d.trace = c.trace ++ pre ++
        ([Ev.timer0Init, Ev.timer1Init, Ev.timer1SetCallBack,
            Ev.motor DcMotor_State.CW 100] ++
          List.replicate 5 Ev.tick ++ [Ev.motor DcMotor_State.STOP 0] ++
          List.replicate 1 Ev.tick ++ [Ev.motor DcMotor_State.A_CW 100] ++
          List.replicate 5 Ev.tick ++
          [Ev.motor DcMotor_State.STOP 0, Ev.timer1DeInit, Ev.timer0DeInit])) ∧
    (∀ d, c.Control_ECU_Sequence = Control.PASSWORD_ERROR → Control.step c = some d →
      d.G_Timer1_Count = 0 ∧ ∃ pre : List Ev, d.trace = c.trace ++ pre ++
        ([Ev.timer1Init, Ev.timer1SetCallBack, Ev.buzzer true] ++
          List.replicate 20 Ev.tick ++ [Ev.buzzer false, Ev.timer1DeInit])) ∧
    (∀ t, s.HMI_ECU_Sequence = HMI.OPENING_DOOR → HMI.step s = some t →
      t.G_Timer1_Count = 0 ∧ ∃ pre : List Ev, t.trace = s.trace ++ pre ++
        ([Ev.timer1Init, Ev.timer1SetCallBack, Ev.lcdClear, Ev.lcdString "Door is",
          Ev.lcdMove 1 0, Ev.lcdString "Unlocking..."] ++ List.replicate 6 Ev.tick ++
          [Ev.lcdClear, Ev.lcdString "Door is", Ev.lcdMove 1 0, Ev.lcdString "Locking..."] ++
          List.replicate 5 Ev.tick ++ [Ev.timer1DeInit])) ∧
    (∀ t, s.HMI_ECU_Sequence = HMI.PASSWORD_ERROR → HMI.step s = some t →
      t.G_Timer1_Count = 0 ∧ ∃ pre : List Ev, t.trace = s.trace ++ pre ++
        ([Ev.timer1Init, Ev.timer1SetCallBack, Ev.lcdClear, Ev.lcdString "ERROR Happened!",
          Ev.lcdMove 1 0, Ev.lcdString "Try Again Later"] ++ List.replicate 20 Ev.tick ++
          [Ev.timer1DeInit])) := by
  have hc := Control.run_boot_count crx0 twsr0 ee0 m c hcrun
  have hs := (HMI.run_boot_inv_hmi i0 rx0 keys0 s0 hboot n s hrun).1
  have hs0 := (HMI.run_boot_inv_hmi i0 rx0 keys0 s0 hboot 0 s0 rfl).1
  refine ⟨rfl, hs0, hc, hs, ?_, ?_, ?_, ?_⟩
  · intro d hq hd
    rw [Control.step_OPEN_THE_DOOR c hq] at hd
    exact Control.case_OPEN_THE_DOOR_ticks c d hc hd
  · intro d hq hd
    rw [Control.step_PASSWORD_ERROR c hq] at hd
    exact Control.case_PASSWORD_ERROR_ticks c d hc hd
  · intro t hq ht
    rw [HMI.step_OPENING_DOOR s hq] at ht
    exact HMI.case_OPENING_DOOR_ticks s t hs ht
  · intro t hq ht
    rw [HMI.step_PASSWORD_ERROR_hmi s hq] at ht
    exact HMI.case_PASSWORD_ERROR_ticks_hmi s t hs ht

set_option maxRecDepth 100000 in
/-- Claim C23, on the runs in which the password 1,2,3,4,5 is enrolled and
entered again with the command `'+'`: three passes after boot the tick counter
of each node is 0. -/
theorem C23_tick_counter_teardown_witness :
    Control.doorSample.G_Timer1_Count = 0 ∧ HMI.doorSample.G_Timer1_Count = 0 :=
  have h := C23_tick_counter_teardown _ _ _ 3 Control.doorSample 0 _ _
    (HMI.doorBoot [HMI.CONTROL_READY]) HMI.doorSample 3
    (Control.some_getD_of_isSome _ _ (by decide))
    (Control.some_getD_of_isSome _ _ (by decide)) (Control.some_getD_of_isSome _ _ (by decide))
  ⟨h.2.2.1, h.2.2.2.1⟩

namespace HMI

/-! ### The capture loop, one iteration at a time -/

/-- One iteration of the capture loop, entered with `Counter < PASSWORD_SIZE`
and a key to come: a key of value 0..9 is stored at the index `Counter`, which
then grows by one; any other key changes no buffer and leaves `Counter` as it
was (decremented and incremented modulo 256). -/
theorem capture_loop_step (first : Bool) (k : Nat) (s : State) (key : Nat) (r : List Nat)
    (hc : s.Counter < 5) (hk : s.keys = key :: r) :
    capture.loop first (k + 1) s =
      capture.loop first k
        (if key ≤ 9 then
          (if first then
            { s with Key_Pressed := key, keys := r, Counter := s.Counter + 1,
                     PassArr1_Send := s.PassArr1_Send.store s.Counter key,
                     trace := s.trace ++ [Ev.key key, Ev.lcdChar STAR] }
          else
            { s with Key_Pressed := key, keys := r, Counter := s.Counter + 1,
                     PassArr2_Send := s.PassArr2_Send.store s.Counter key,
                     trace := s.trace ++ [Ev.key key, Ev.lcdChar STAR] })
        else { s with Key_Pressed := key, keys := r, trace := s.trace ++ [Ev.key key] }) := by
  obtain ⟨seq, key0, cnt, ctr, p1, p2, i, rx, keys, t1, cb, tr⟩ := s
  simp only at hc hk
  subst hk
  by_cases ha : key ≤ 9
  · have hmod : (ctr + 1) % 256 = ctr + 1 := by omega
    cases first <;>
      simp [capture.loop, KEYPAD_GetPressedKey, ha, hc, hmod, LCD_DisplayCharacter, State.log]
  · have hmod : ((ctr + 255) % 256 + 1) % 256 = ctr := by omega
    simp [capture.loop, KEYPAD_GetPressedKey, ha, hc, hmod]

/-- The capture loop ends, without reading a key, as soon as `Counter` is not
below `PASSWORD_SIZE`. -/
theorem capture_loop_done (first : Bool) (k : Nat) (s : State) (hc : ¬ s.Counter < 5) :
    capture.loop first k s = some s := by
  cases k <;> simp [capture.loop, hc]

/-- A capture loop that returns, entered with `Counter < PASSWORD_SIZE`, has
found among the keys to come as many keys of value 0..9 as were missing, the
last key read being one of them. -/
theorem capture_loop_inv (first : Bool) :
    ∀ (k : Nat) (s t : State), s.Counter < 5 → capture.loop first k s = some t →
      ∃ (pre : List Nat) (d : Nat) (rest : List Nat),
        s.keys = pre ++ d :: rest ∧ d ≤ 9 ∧
        s.Counter + (pre.filter (fun k => decide (k ≤ 9))).length = 4 ∧ pre.length < k := by
  intro k
  induction k with
  | zero =>
    intro s t hc h
    simp [capture.loop, hc] at h
  | succ k ih =>
    intro s t hc h
    cases hkeys : s.keys with
    | nil =>
      simp [capture.loop, hc, KEYPAD_GetPressedKey, hkeys] at h
    | cons key r =>
      rw [capture_loop_step first k s key r hc hkeys] at h
      by_cases ha : key ≤ 9
      · by_cases h4 : s.Counter = 4
        · exact ⟨[], key, r, rfl, ha, by simp [h4], by simp⟩
        · have hc2 : s.Counter + 1 < 5 := by omega
          rw [if_pos ha] at h
          obtain ⟨pre, d, rest, e1, e2, e3, e4⟩ : ∃ (pre : List Nat) (d : Nat)
              (rest : List Nat), r = pre ++ d :: rest ∧ d ≤ 9 ∧
              s.Counter + 1 + (pre.filter (fun k => decide (k ≤ 9))).length = 4 ∧
              pre.length < k := by
            cases first
            · have hh := ih _ t (by simpa using hc2) h
              simpa using hh
            · have hh := ih _ t (by simpa using hc2) h
              simpa using hh
          refine ⟨key :: pre, d, rest, by simp [e1], e2, ?_, by simp; omega⟩
          simp [List.filter_cons, ha]
          omega
      · rw [if_neg ha] at h
        obtain ⟨pre, d, rest, e1, e2, e3, e4⟩ : ∃ (pre : List Nat) (d : Nat)
            (rest : List Nat), r = pre ++ d :: rest ∧ d ≤ 9 ∧
            s.Counter + (pre.filter (fun k => decide (k ≤ 9))).length = 4 ∧
            pre.length < k := by
          have hh := ih _ t (by simpa using hc) h
          simpa using hh
        refine ⟨key :: pre, d, rest, by simp [e1], e2, ?_, by simp; omega⟩
        simp [List.filter_cons, ha]
        omega

/-- A capture loop that returns has read the keys up to and including the
fifth key of value 0..9 and no more; its buffer holds these five keys at the
indices `0..4` and is unchanged elsewhere. -/
theorem capture_inv (first : Bool) (s t : State) (h : capture first s = some t) :
    ∃ (pre : List Nat) (d : Nat) (rest : List Nat) (B : Buf),
      s.keys = pre ++ d :: rest ∧ d ≤ 9 ∧
      (pre.filter (fun k => decide (k ≤ 9))).length = 4 ∧
      t = (if first then
            { s with Key_Pressed := d, Counter := 5, PassArr1_Send := B, keys := rest,
                     trace := s.trace ++ keyEvents (pre ++ [d]) }
          else
            { s with Key_Pressed := d, Counter := 5, PassArr2_Send := B, keys := rest,
                     trace := s.trace ++ keyEvents (pre ++ [d]) }) ∧
      Buf.first5 B = pre.filter (fun k => decide (k ≤ 9)) ++ [d] ∧
      (∀ j, 5 ≤ j → B j = (if first then s.PassArr1_Send else s.PassArr2_Send) j) := by
  have h0 := h
  unfold capture at h
  obtain ⟨pre, d, rest, e1, e2, e3, -⟩ := capture_loop_inv first _ _ t (by simp) h
  simp only [Nat.zero_add] at e3
  obtain ⟨B, hB, hB1, hB2⟩ := capture_run first pre d rest s e2 e3 e1
  rw [hB] at h0
  exact ⟨pre, d, rest, B, e1, e2, e3, (Option.some.inj h0).symm, hB1, hB2⟩

/-- A call of `EnterPassword` that returns has read the keys up to and
including the fifth key of value 0..9 in its capture loop; `PassArr1_Send`
holds these five keys at the indices `0..4` and is unchanged elsewhere, and
`PassArr2_Send` is unchanged. -/
theorem EnterPassword_capture (s u : State) (h : EnterPassword s = some u) :
    ∃ (pre : List Nat) (d : Nat) (rest : List Nat),
      s.keys = pre ++ d :: rest ∧ d ≤ 9 ∧
      (pre.filter (fun k => decide (k ≤ 9))).length = 4 ∧
      Buf.first5 u.PassArr1_Send = pre.filter (fun k => decide (k ≤ 9)) ++ [d] ∧
      (∀ j, 5 ≤ j → u.PassArr1_Send j = s.PassArr1_Send j) ∧
      u.PassArr2_Send = s.PassArr2_Send := by
  unfold EnterPassword at h
  simp only at h
  split at h
  · exact absurd h (by simp)
  · rename_i s2 hcap
    obtain ⟨pre, d, rest, B, e1, e2, e3, e4, e5, e6⟩ := capture_inv true _ s2 hcap
    split at h
    · exact absurd h (by simp)
    · rename_i s3 hent
      obtain ⟨-, -, -, -, b1, b2, -⟩ := awaitEnter_loop_frame _ _ _ hent
      obtain ⟨junk, junk2, rest2, -, -, rfl⟩ := SendPassword_some _ _ _ h
      simp only [if_true] at e4 e6
      refine ⟨pre, d, rest, ?_, e2, e3, ?_, ?_, ?_⟩
      · simpa [LCD_MoveCursor, LCD_DisplayString, LCD_ClearString, State.log] using e1
      · show Buf.first5 s3.PassArr1_Send = _
        rw [b1, e4]
        exact e5
      · intro j hj
        show s3.PassArr1_Send j = _
        rw [b1, e4]
        exact e6 j hj
      · show s3.PassArr2_Send = _
        rw [b2, e4]
        rfl

/-- A call of `ConfirmPassword` that returns has read the keys up to and
including the fifth key of value 0..9 in its capture loop; `PassArr2_Send`
holds these five keys at the indices `0..4` and is unchanged elsewhere, and
`PassArr1_Send` is unchanged. -/
theorem ConfirmPassword_capture (s u : State) (h : ConfirmPassword s = some u) :
    ∃ (pre : List Nat) (d : Nat) (rest : List Nat),
      s.keys = pre ++ d :: rest ∧ d ≤ 9 ∧
      (pre.filter (fun k => decide (k ≤ 9))).length = 4 ∧
      Buf.first5 u.PassArr2_Send = pre.filter (fun k => decide (k ≤ 9)) ++ [d] ∧
      (∀ j, 5 ≤ j → u.PassArr2_Send j = s.PassArr2_Send j) ∧
      u.PassArr1_Send = s.PassArr1_Send := by
  unfold ConfirmPassword at h
  simp only at h
  split at h
  · exact absurd h (by simp)
  · rename_i s2 hcap
    obtain ⟨pre, d, rest, B, e1, e2, e3, e4, e5, e6⟩ := capture_inv false _ s2 hcap
    split at h
    · exact absurd h (by simp)
    · rename_i s3 hent
      obtain ⟨-, -, -, -, b1, b2, -⟩ := awaitEnter_loop_frame _ _ _ hent
      obtain ⟨junk, junk2, rest2, -, -, rfl⟩ := SendPassword_some _ _ _ h
      simp only [Bool.false_eq_true, if_false] at e4 e6
      refine ⟨pre, d, rest, ?_, e2, e3, ?_, ?_, ?_⟩
      · simpa [LCD_MoveCursor, LCD_DisplayString, LCD_ClearString, State.log] using e1
      · show Buf.first5 s3.PassArr2_Send = _
        rw [b2, e4]
        exact e5
      · intro j hj
        show s3.PassArr2_Send j = _
        rw [b2, e4]
        exact e6 j hj
      · show s3.PassArr1_Send = _
        rw [b1, e4]
        rfl

/-- Claim C27. The capture loop of `EnterPassword` (`first = true`) and of
`ConfirmPassword` (`first = false`), for every state and key stream. An
iteration runs only while `Counter < 5`; on a key of value 0..9 it writes the
buffer at the index `Counter` (so in 0..4) and `Counter` grows by one; on any
other key it writes no buffer and leaves `Counter` as it was, also at
`Counter = 0`, where the decrement gives 255 and the increment gives 0 again.
Once `Counter` is not below 5 the loop ends without another write. So a loop
that returns has read exactly up to the fifth key of value 0..9, its buffer is
unchanged at every index from 5 on, and on every stream that holds five such
keys it returns; the same holds of the two functions. -/
theorem C27_capture_index_safety (first : Bool) (s : State) :
    (∀ (k key : Nat) (r : List Nat), s.Counter < 5 → s.keys = key :: r →
      capture.loop first (k + 1) s =
        capture.loop first k
          (if key ≤ 9 then
            (if first then
              { s with Key_Pressed := key, keys := r, Counter := s.Counter + 1,
                       PassArr1_Send := s.PassArr1_Send.store s.Counter key,
                       trace := s.trace ++ [Ev.key key, Ev.lcdChar STAR] }
            else
              { s with Key_Pressed := key, keys := r, Counter := s.Counter + 1,
                       PassArr2_Send := s.PassArr2_Send.store s.Counter key,
                       trace := s.trace ++ [Ev.key key, Ev.lcdChar STAR] })
          else { s with Key_Pressed := key, keys := r, trace := s.trace ++ [Ev.key key] })) ∧
    (s.Counter = 0 →
      (s.Counter + 255) % 256 = 255 ∧ ((s.Counter + 255) % 256 + 1) % 256 = 0) ∧
    (∀ k, ¬ s.Counter < 5 → capture.loop first k s = some s) ∧
    (∀ t, capture first s = some t →
      ∃ (pre : List Nat) (d : Nat) (rest : List Nat) (B : Buf),
        s.keys = pre ++ d :: rest ∧ d ≤ 9 ∧
        (pre.filter (fun k => decide (k ≤ 9))).length = 4 ∧
        t = (if first then
              { s with Key_Pressed := d, Counter := 5, PassArr1_Send := B, keys := rest,
                       trace := s.trace ++ keyEvents (pre ++ [d]) }
            else
              { s with Key_Pressed := d, Counter := 5, PassArr2_Send := B, keys := rest,
                       trace := s.trace ++ keyEvents (pre ++ [d]) }) ∧
        Buf.first5 B = pre.filter (fun k => decide (k ≤ 9)) ++ [d] ∧
        (∀ j, 5 ≤ j → B j = (if first then s.PassArr1_Send else s.PassArr2_Send) j)) ∧
    (∀ (pre : List Nat) (d : Nat) (rest : List Nat), d ≤ 9 →
      (pre.filter (fun k => decide (k ≤ 9))).length = 4 → s.keys = pre ++ d :: rest →
      ∃ t, capture first s = some t ∧ t.Counter = 5 ∧ t.keys = rest) ∧
    (∀ u, EnterPassword s = some u →
      ∃ (pre : List Nat) (d : Nat) (rest : List Nat),
        s.keys = pre ++ d :: rest ∧ d ≤ 9 ∧
        (pre.filter (fun k => decide (k ≤ 9))).length = 4 ∧
        Buf.first5 u.PassArr1_Send = pre.filter (fun k => decide (k ≤ 9)) ++ [d] ∧
        (∀ j, 5 ≤ j → u.PassArr1_Send j = s.PassArr1_Send j) ∧
        u.PassArr2_Send = s.PassArr2_Send) ∧
    (∀ u, ConfirmPassword s = some u →
      ∃ (pre : List Nat) (d : Nat) (rest : List Nat),
        s.keys = pre ++ d :: rest ∧ d ≤ 9 ∧
        (pre.filter (fun k => decide (k ≤ 9))).length = 4 ∧
        Buf.first5 u.PassArr2_Send = pre.filter (fun k => decide (k ≤ 9)) ++ [d] ∧
        (∀ j, 5 ≤ j → u.PassArr2_Send j = s.PassArr2_Send j) ∧
        u.PassArr1_Send = s.PassArr1_Send) := by
  refine ⟨fun k key r hc hk => capture_loop_step first k s key r hc hk, ?_,
    fun k hc => capture_loop_done first k s hc, fun t h => capture_inv first s t h, ?_,
    fun u h => EnterPassword_capture s u h, fun u h => ConfirmPassword_capture s u h⟩
  · intro h0
    rw [h0]
    exact ⟨rfl, rfl⟩
  · intro pre d rest hd hpre hkeys
    obtain ⟨B, hB, -, -⟩ := capture_run first pre d rest s hd hpre hkeys
    refine ⟨_, hB, ?_, ?_⟩
    · cases first <;> rfl
    · cases first <;> rfl

set_option maxRecDepth 100000 in
/-- Claim C27, on the keys `'-'`, 1, `'+'`, 2, 3, 4, 5, `'='`, where a key
that is no digit comes while `Counter` is 0: the capture loop returns after
the key 5, with `Counter` at 5 and `'='` still to be read. -/
theorem C27_capture_index_safety_witness :
    ∃ t, capture true (sample 0 0 [] [MINUS, 1, PLUS, 2, 3, 4, 5, EQUALS]) = some t ∧
      t.Counter = 5 ∧ t.keys = [EQUALS] :=
  (C27_capture_index_safety true (sample 0 0 [] [MINUS, 1, PLUS, 2, 3, 4, 5, EQUALS])).2.2.2.2.1
    [MINUS, 1, PLUS, 2, 3, 4] 5 [EQUALS] (by decide) (by decide) (by decide)

end HMI

namespace Keypad

/-! ### The scan of the keypad matrix -/

/-- While the row `row` alone is driven low, a column reads low exactly when
the key of that row and column is held. -/
theorem GPIO_ReadPin_row (held : Nat → Nat → Bool) (p : Pins) (row c : Nat) (hr : row < 4)
    (hp : ∀ r, r < 4 → p.direction (KEYPAD_ROW0_PIN_ID + r) = INPUT_PIN) :
    (GPIO_ReadPin held (KEYPAD_COL0_PIN_ID + c)
        (GPIO_WritePin (KEYPAD_ROW0_PIN_ID + row) LOGIC_LOW
          (GPIO_SetupPinDirection (KEYPAD_ROW0_PIN_ID + row) OUTPUT_PIN p)) = LOGIC_LOW) ↔
      held row c = true := by
  have h0 := hp 0 (by decide)
  have h1 := hp 1 (by decide)
  have h2 := hp 2 (by decide)
  have h3 := hp 3 (by decide)
  simp only [Nat.zero_add] at h0 h1 h2 h3
  have hrange : List.range 4 = [0, 1, 2, 3] := by decide
  unfold GPIO_ReadPin
  simp only [hrange, GPIO_WritePin, GPIO_SetupPinDirection, Nat.zero_add, Nat.add_sub_cancel_left]
  interval_cases row <;> simp [h0, h1, h2, h3]

/-- The column loop finds no key when none of the columns still to scan holds
a held key of the row. -/
theorem KEYPAD_GetPressedKey_cols_none (held : Nat → Nat → Bool) (row : Nat) (p : Pins)
    (hread : ∀ c, c < 4 →
      (GPIO_ReadPin held (KEYPAD_COL0_PIN_ID + c) p = LOGIC_LOW ↔ held row c = true)) :
    ∀ (k col : Nat), col + k ≤ 4 →
      (∀ c, col ≤ c → c < col + k → held row c = false) →
      KEYPAD_GetPressedKey.cols held row k col p = none := by
  intro k
  induction k with
  | zero => intro col _ _; rfl
  | succ k ih =>
    intro col hk hn
    have h1 : ¬ GPIO_ReadPin held (KEYPAD_COL0_PIN_ID + col) p = LOGIC_LOW := by
      rw [hread col (by omega), hn col (Nat.le_refl _) (by omega)]
      simp
    rw [KEYPAD_GetPressedKey.cols, if_neg h1]
    exact ih (col + 1) (by omega) (fun c hc1 hc2 => hn c (by omega) (by omega))

/-- The column loop returns the code of the first held key of the row among
the columns still to scan. -/
theorem KEYPAD_GetPressedKey_cols_some (held : Nat → Nat → Bool) (row : Nat) (p : Pins)
    (hrow : row < 4)
    (hread : ∀ c, c < 4 →
      (GPIO_ReadPin held (KEYPAD_COL0_PIN_ID + c) p = LOGIC_LOW ↔ held row c = true)) :
    ∀ (k col c : Nat), col + k ≤ 4 → col ≤ c → c < col + k → held row c = true →
      (∀ c2, col ≤ c2 → c2 < c → held row c2 = false) →
      KEYPAD_GetPressedKey.cols held row k col p =
        some (KEYPAD_4x4_AdjustKeyNumber (row * 4 + c + 1)) := by
  intro k
  induction k with
  | zero => intro col c _ h1 h2; omega
  | succ k ih =>
    intro col c hk h1 h2 hc hn
    rw [KEYPAD_GetPressedKey.cols]
    by_cases e : col = c
    · subst e
      rw [if_pos ((hread col (by omega)).mpr hc)]
      have hm : (row * KEYPAD_NUMBER_OF_COLUMNS + col + 1) % 256 = row * 4 + col + 1 :=
        Nat.mod_eq_of_lt (by simp only [KEYPAD_NUMBER_OF_COLUMNS]; omega)
      rw [hm]
    · have h3 : ¬ GPIO_ReadPin held (KEYPAD_COL0_PIN_ID + col) p = LOGIC_LOW := by
        rw [hread col (by omega), hn col (Nat.le_refl _) (by omega)]
        simp
      rw [if_neg h3]
      exact ih (col + 1) c (by omega) (by omega) (by omega) hc
        (fun c2 hc1 hc2 => hn c2 (by omega) hc2)

/-- Setting a row back to input after its scan leaves every row an input. -/
theorem rows_input_after (p : Pins) (row : Nat)
    (hp : ∀ r, r < 4 → p.direction (KEYPAD_ROW0_PIN_ID + r) = INPUT_PIN) :
    ∀ r, r < 4 →
      (GPIO_SetupPinDirection (KEYPAD_ROW0_PIN_ID + row) INPUT_PIN
        (GPIO_WritePin (KEYPAD_ROW0_PIN_ID + row) LOGIC_LOW
          (GPIO_SetupPinDirection (KEYPAD_ROW0_PIN_ID + row) OUTPUT_PIN p))).direction
        (KEYPAD_ROW0_PIN_ID + r) = INPUT_PIN := by
  intro r hr
  have := hp r hr
  simp only [GPIO_SetupPinDirection, GPIO_WritePin]
  split_ifs <;> simp_all

/-- The row loop finds no key when none of the rows still to scan holds a held
key, and leaves every row an input. -/
theorem KEYPAD_GetPressedKey_rows_none (held : Nat → Nat → Bool) :
    ∀ (k row : Nat) (p : Pins), row + k ≤ 4 →
      (∀ r, r < 4 → p.direction (KEYPAD_ROW0_PIN_ID + r) = INPUT_PIN) →
      (∀ r c, row ≤ r → r < row + k → c < 4 → held r c = false) →
      (KEYPAD_GetPressedKey.rows held k row p).1 = none ∧
      (∀ r, r < 4 → (KEYPAD_GetPressedKey.rows held k row p).2.direction
        (KEYPAD_ROW0_PIN_ID + r) = INPUT_PIN) := by
  intro k
  induction k with
  | zero => intro row p _ hp _; exact ⟨rfl, hp⟩
  | succ k ih =>
    intro row p hk hp hn
    have hc := KEYPAD_GetPressedKey_cols_none held row _
      (fun c _ => GPIO_ReadPin_row held p row c (by omega) hp) 4 0 (by omega)
      (fun c _ hc2 => hn row c (Nat.le_refl _) (by omega) (by omega))
    rw [KEYPAD_GetPressedKey.rows]
    simp only [hc]
    exact ih (row + 1) _ (by omega) (rows_input_after p row hp)
      (fun r c h1 h2 h3 => hn r c (by omega) (by omega) h3)

/-- The row loop returns the code of the first held key in scan order among
the rows still to scan. -/
theorem KEYPAD_GetPressedKey_rows_some (held : Nat → Nat → Bool) :
    ∀ (k row : Nat) (p : Pins) (r c : Nat), row + k ≤ 4 →
      (∀ r, r < 4 → p.direction (KEYPAD_ROW0_PIN_ID + r) = INPUT_PIN) →
      row ≤ r → r < row + k → c < 4 → held r c = true →
      (∀ r2 c2, row ≤ r2 → r2 < r → c2 < 4 → held r2 c2 = false) →
      (∀ c2, c2 < c → held r c2 = false) →
      (KEYPAD_GetPressedKey.rows held k row p).1 =
        some (KEYPAD_4x4_AdjustKeyNumber (r * 4 + c + 1)) := by
  intro k
  induction k with
  | zero => intro row p r c _ _ h1 h2; omega
  | succ k ih =>
    intro row p r c hk hp h1 h2 hc hh hn1 hn2
    rw [KEYPAD_GetPressedKey.rows]
    by_cases e : row = r
    · subst e
      have hs := KEYPAD_GetPressedKey_cols_some held row _ (by omega)
        (fun c _ => GPIO_ReadPin_row held p row c (by omega) hp) 4 0 c (by omega)
        (Nat.zero_le _) (by omega) hh (fun c2 _ h => hn2 c2 h)
      simp only [hs]
    · have hcn := KEYPAD_GetPressedKey_cols_none held row _
        (fun c _ => GPIO_ReadPin_row held p row c (by omega) hp) 4 0 (by omega)
        (fun c2 _ h => hn1 row c2 (Nat.le_refl _) (by omega) (by omega))
      simp only [hcn]
      exact ih (row + 1) _ r c (by omega) (rows_input_after p row hp) (by omega) (by omega)
        hc hh (fun r2 c2 g1 g2 g3 => hn1 r2 c2 (by omega) g2 g3) hn2

/-- The scan returns, in its first pass, the code of the first held key in
scan order. -/
theorem KEYPAD_GetPressedKey_first (held : Nat → Nat → Bool) (n : Nat) (p : Pins)
    (r c : Nat) (hr : r < 4) (hc : c < 4) (hh : held r c = true)
    (hn1 : ∀ r2 c2, r2 < r → c2 < 4 → held r2 c2 = false)
    (hn2 : ∀ c2, c2 < c → held r c2 = false) :
    KEYPAD_GetPressedKey held (n + 1) p =
      some (KEYPAD_4x4_AdjustKeyNumber (r * 4 + c + 1)) := by
  unfold KEYPAD_GetPressedKey
  rw [KEYPAD_GetPressedKey.loop]
  have hp : ∀ r, r < 4 →
      (GPIO_SetupPinDirection (KEYPAD_COL0_PIN_ID + 3) INPUT_PIN
      (GPIO_SetupPinDirection (KEYPAD_COL0_PIN_ID + 2) INPUT_PIN
      (GPIO_SetupPinDirection (KEYPAD_COL0_PIN_ID + 1) INPUT_PIN
      (GPIO_SetupPinDirection KEYPAD_COL0_PIN_ID INPUT_PIN
      (GPIO_SetupPinDirection (KEYPAD_ROW0_PIN_ID + 3) INPUT_PIN
      (GPIO_SetupPinDirection (KEYPAD_ROW0_PIN_ID + 2) INPUT_PIN
      (GPIO_SetupPinDirection (KEYPAD_ROW0_PIN_ID + 1) INPUT_PIN
      (GPIO_SetupPinDirection KEYPAD_ROW0_PIN_ID INPUT_PIN p)))))))).direction
        (KEYPAD_ROW0_PIN_ID + r) = INPUT_PIN := by
    intro r hr
    interval_cases r <;> simp [GPIO_SetupPinDirection]
  have hs := KEYPAD_GetPressedKey_rows_some held 4 0 _ r c (by omega) hp (Nat.zero_le _)
    (by omega) hc hh (fun r2 c2 _ g2 g3 => hn1 r2 c2 g2 g3) hn2
  generalize KEYPAD_GetPressedKey.rows held KEYPAD_NUMBER_OF_ROWS 0 _ = res at hs ⊢
  obtain ⟨a, b⟩ := res
  simp only at hs
  subst hs
  rfl

/-- The adjust table on the button numbers 1..16: no two buttons share a
code. -/
theorem KEYPAD_4x4_AdjustKeyNumber_injective :
    ∀ a, a < 17 → ∀ b, b < 17 → 1 ≤ a → 1 ≤ b →
      KEYPAD_4x4_AdjustKeyNumber a = KEYPAD_4x4_AdjustKeyNumber b → a = b := by
  decide

/-- The adjust table on the button numbers 1..16 reaches every digit. -/
theorem KEYPAD_4x4_AdjustKeyNumber_digits :
    ∀ d, d < 10 → ∃ a, a < 17 ∧ 1 ≤ a ∧ KEYPAD_4x4_AdjustKeyNumber a = d := by
  decide

/-- Among the held keys of the matrix, when there is one, there is a first in
scan order. -/
theorem first_held (held : Nat → Nat → Bool)
    (h : ∃ r c, r < 4 ∧ c < 4 ∧ held r c = true) :
    ∃ r c, r < 4 ∧ c < 4 ∧ held r c = true ∧
      (∀ r2 c2, r2 < r → c2 < 4 → held r2 c2 = false) ∧
      (∀ c2, c2 < c → held r c2 = false) := by
  classical
  have hex : ∃ r, r < 4 ∧ ∃ c, c < 4 ∧ held r c = true := by
    obtain ⟨r, c, h1, h2, h3⟩ := h
    exact ⟨r, h1, c, h2, h3⟩
  obtain ⟨hr, hcs⟩ := Nat.find_spec hex
  obtain ⟨hc, hh⟩ := Nat.find_spec hcs
  refine ⟨Nat.find hex, Nat.find hcs, hr, hc, hh, ?_, ?_⟩
  · intro r2 c2 h1 h2
    have := Nat.find_min hex h1
    by_contra hne
    exact this ⟨by omega, c2, h2, by simpa using hne⟩
  · intro c2 h1
    have := Nat.find_min hcs h1
    by_contra hne
    exact this ⟨by omega, by simpa using hne⟩

/-- Claim C24. With a non-empty set of keys of the 4x4 matrix held down
during the scan, `KEYPAD_GetPressedKey` returns, in its first pass and from
any pins, `KEYPAD_4x4_AdjustKeyNumber(row*4 + col + 1)` for the held key with
the smallest row and, within that row, the smallest column. The adjust table
maps the button numbers 1..16 to pairwise distinct codes, among them every
digit 0..9 and the keys `'+'`, `'-'` and `'='`. -/
theorem C24_keypad_scan_order (held : Nat → Nat → Bool) (n : Nat) (p : Pins)
    (h : ∃ r c, r < 4 ∧ c < 4 ∧ held r c = true) :
    (∃ r c, r < 4 ∧ c < 4 ∧ held r c = true ∧
      (∀ r2 c2, r2 < 4 → c2 < 4 → held r2 c2 = true → r < r2 ∨ (r = r2 ∧ c ≤ c2)) ∧
      KEYPAD_GetPressedKey held (n + 1) p =
        some (KEYPAD_4x4_AdjustKeyNumber (r * 4 + c + 1))) ∧
    (∀ a b, 1 ≤ a → a ≤ 16 → 1 ≤ b → b ≤ 16 →
      KEYPAD_4x4_AdjustKeyNumber a = KEYPAD_4x4_AdjustKeyNumber b → a = b) ∧
    (∀ d, d ≤ 9 → ∃ a, 1 ≤ a ∧ a ≤ 16 ∧ KEYPAD_4x4_AdjustKeyNumber a = d) ∧
    (∃ a, 1 ≤ a ∧ a ≤ 16 ∧ KEYPAD_4x4_AdjustKeyNumber a = HMI.PLUS) ∧
    (∃ a, 1 ≤ a ∧ a ≤ 16 ∧ KEYPAD_4x4_AdjustKeyNumber a = HMI.MINUS) ∧
    (∃ a, 1 ≤ a ∧ a ≤ 16 ∧ KEYPAD_4x4_AdjustKeyNumber a = HMI.EQUALS) := by
  refine ⟨?_, ?_, ?_, ⟨16, by decide, by decide, rfl⟩, ⟨12, by decide, by decide, rfl⟩,
    ⟨15, by decide, by decide, rfl⟩⟩
  · obtain ⟨r, c, hr, hc, hh, hn1, hn2⟩ := first_held held h
    refine ⟨r, c, hr, hc, hh, ?_, KEYPAD_GetPressedKey_first held n p r c hr hc hh hn1 hn2⟩
    intro r2 c2 h1 h2 h3
    by_cases e1 : r2 < r
    · rw [hn1 r2 c2 e1 h2] at h3
      exact absurd h3 (by simp)
    · by_cases e2 : r = r2
      · subst e2
        by_cases e3 : c2 < c
        · rw [hn2 c2 e3] at h3
          exact absurd h3 (by simp)
        · exact Or.inr ⟨rfl, by omega⟩
      · exact Or.inl (by omega)
  · intro a b ha1 ha2 hb1 hb2 hab
    exact KEYPAD_4x4_AdjustKeyNumber_injective a (by omega) b (by omega) ha1 hb1 hab
  · intro d hd
    obtain ⟨a, h1, h2, h3⟩ := KEYPAD_4x4_AdjustKeyNumber_digits d (by omega)
    exact ⟨a, h2, by omega, h3⟩

/-- Claim C24, with the keys (2,1), (1,3) and (1,2) held: there is a first
held key in scan order, and the scan returns its code. -/
theorem C24_keypad_scan_order_witness :
    ∃ r c, r < 4 ∧ c < 4 ∧ heldOf [(2, 1), (1, 3), (1, 2)] r c = true ∧
      (∀ r2 c2, r2 < 4 → c2 < 4 → heldOf [(2, 1), (1, 3), (1, 2)] r2 c2 = true →
        r < r2 ∨ (r = r2 ∧ c ≤ c2)) ∧
      KEYPAD_GetPressedKey (heldOf [(2, 1), (1, 3), (1, 2)]) (0 + 1) Pins.reset =
        some (KEYPAD_4x4_AdjustKeyNumber (r * 4 + c + 1)) :=
  (C24_keypad_scan_order (heldOf [(2, 1), (1, 3), (1, 2)]) 0 Pins.reset
    ⟨2, 1, by decide, by decide, by decide⟩).1

/-- The scan with the keys (2,1), (1,3) and (1,2) held returns 6, the code of
the key (1,2). -/
theorem KEYPAD_GetPressedKey_sample :
    KEYPAD_GetPressedKey (heldOf [(2, 1), (1, 3), (1, 2)]) 1 Pins.reset = some 6 := by
  decide

end Keypad

namespace Control

/-! ### The timed passes when the counter is read once -/

/-- The case `OPEN_THE_DOOR` is its form with the wait loops given, at
`waitTicks`. -/
theorem case_OPEN_THE_DOOR_via_waitTicks (s : State) :
    case_OPEN_THE_DOOR.via waitTicks s = case_OPEN_THE_DOOR s := rfl

/-- The case `PASSWORD_ERROR` is its form with the wait loop given, at
`waitTicks`. -/
theorem case_PASSWORD_ERROR_via_waitTicks (s : State) :
    case_PASSWORD_ERROR.via waitTicks s = case_PASSWORD_ERROR s := rfl

/-- A pass in `OPEN_THE_DOOR` that is past its exchange calls its first wait
in the state in which the motor has just been set to CW; when that wait does
not return, the pass does not return. -/
theorem case_OPEN_THE_DOOR_via_first_wait (wait : Nat → State → Option State) (s : State)
    (junk junk2 rest : List Nat) (hj : HMI_READY ∉ junk) (hj2 : OPEN_THE_DOOR ∉ junk2)
    (hrx : s.rx = junk ++ HMI_READY :: (junk2 ++ OPEN_THE_DOOR :: rest))
    (hw : wait 5 (DcMotor_Rotate DcMotor_State.CW 100
      (Timer1_SetCallBack (Timer1_NonPWm_Mode_Init (Timer0_PWM_Mode_Init
        { s with
          rx := rest,
          trace := s.trace ++ (junk.map Ev.recv ++ [Ev.recv HMI_READY, Ev.send CONTROL_READY] ++
            (junk2.map Ev.recv ++ [Ev.recv OPEN_THE_DOOR])) })))) = none) :
    case_OPEN_THE_DOOR.via wait s = none := by
  obtain ⟨seq, g1, g2, cnt, i, rx, bus, t1, cb, tr⟩ := s
  simp only at hrx
  subst hrx
  unfold case_OPEN_THE_DOOR.via
  rw [awaitByte_junk HMI_READY junk _ _ hj rfl]
  simp only
  rw [awaitByte_junk OPEN_THE_DOOR junk2 rest _ hj2 (by simp [UART_SendByte, State.log])]
  simp only
  have e : wait 5 (DcMotor_Rotate DcMotor_State.CW 100
      (Timer1_SetCallBack (Timer1_NonPWm_Mode_Init (Timer0_PWM_Mode_Init
        { (UART_SendByte CONTROL_READY
            { Control_ECU_Sequence := seq, G_Pass1 := g1, G_Pass2 := g2, G_Timer1_Count := cnt,
              i := i, rx := junk2 ++ OPEN_THE_DOOR :: rest, bus := bus, timer1 := t1,
              callBack := cb, trace := tr ++ (junk.map Ev.recv ++ [Ev.recv HMI_READY]) }) with
          rx := rest,
          trace := (UART_SendByte CONTROL_READY
            { Control_ECU_Sequence := seq, G_Pass1 := g1, G_Pass2 := g2, G_Timer1_Count := cnt,
              i := i, rx := junk2 ++ OPEN_THE_DOOR :: rest, bus := bus, timer1 := t1,
              callBack := cb, trace := tr ++ (junk.map Ev.recv ++ [Ev.recv HMI_READY]) }).trace ++
            (junk2.map Ev.recv ++ [Ev.recv OPEN_THE_DOOR]) })))) = none := by
    rw [← hw]
    congr 5
    simp [UART_SendByte, State.log]
  rw [e]

/-- A pass in `PASSWORD_ERROR` that is past its exchange calls its wait in the
state in which the buzzer has just been switched on; when that wait does not
return, the pass does not return. -/
theorem case_PASSWORD_ERROR_via_first_wait (wait : Nat → State → Option State) (s : State)
    (junk rest : List Nat) (hj : HMI_READY ∉ junk) (hrx : s.rx = junk ++ HMI_READY :: rest)
    (hw : wait 20 (Buzzer_ON (Timer1_SetCallBack (Timer1_NonPWm_Mode_Init
        { s with
          rx := rest,
          trace := s.trace ++ (Ev.send CONTROL_READY :: (junk.map Ev.recv ++
            [Ev.recv HMI_READY, Ev.send DISPLAY_ERROR])) }))) = none) :
    case_PASSWORD_ERROR.via wait s = none := by
  obtain ⟨seq, g1, g2, cnt, i, rx, bus, t1, cb, tr⟩ := s
  simp only at hrx
  subst hrx
  unfold case_PASSWORD_ERROR.via
  rw [awaitByte_junk HMI_READY junk rest _ hj (by simp [UART_SendByte, State.log])]
  simp only
  have e : wait 20 (Buzzer_ON (Timer1_SetCallBack (Timer1_NonPWm_Mode_Init
      (UART_SendByte DISPLAY_ERROR
        { (UART_SendByte CONTROL_READY
            { Control_ECU_Sequence := seq, G_Pass1 := g1, G_Pass2 := g2, G_Timer1_Count := cnt,
              i := i, rx := junk ++ HMI_READY :: rest, bus := bus, timer1 := t1,
              callBack := cb, trace := tr }) with
          rx := rest,
          trace := (UART_SendByte CONTROL_READY
            { Control_ECU_Sequence := seq, G_Pass1 := g1, G_Pass2 := g2, G_Timer1_Count := cnt,
              i := i, rx := junk ++ HMI_READY :: rest, bus := bus, timer1 := t1,
              callBack := cb, trace := tr }).trace ++
            (junk.map Ev.recv ++ [Ev.recv HMI_READY]) })))) = none := by
    rw [← hw]
    congr 4
    simp [UART_SendByte, State.log]
  rw [e]

/-- With the counter read once, a pass in `OPEN_THE_DOOR` entered with the
tick counter at 0 never returns, whatever arrives and however long Timer1
runs: its first wait tests 0 against 5 for ever. -/
theorem case_OPEN_THE_DOOR_via_readOnce (s : State) (hc : s.G_Timer1_Count = 0) :
    case_OPEN_THE_DOOR.via waitTicks.readOnce s = none := by
  unfold case_OPEN_THE_DOOR.via
  split
  · rfl
  · rename_i s1 hw1
    obtain ⟨r1, ev1, rfl, -⟩ := awaitByte_some _ _ _ hw1
    split
    · rfl
    · rename_i s2 hw2
      obtain ⟨r2, ev2, rfl, -⟩ := awaitByte_some _ _ _ hw2
      simp [waitTicks.readOnce, DcMotor_Rotate, Timer1_SetCallBack, Timer1_NonPWm_Mode_Init,
        Timer0_PWM_Mode_Init, UART_SendByte, State.log, hc]

/-- With the counter read once, a pass in `PASSWORD_ERROR` entered with the
tick counter at 0 never returns: its wait tests 0 against 20 for ever. -/
theorem case_PASSWORD_ERROR_via_readOnce (s : State) (hc : s.G_Timer1_Count = 0) :
    case_PASSWORD_ERROR.via waitTicks.readOnce s = none := by
  unfold case_PASSWORD_ERROR.via
  split
  · rfl
  · rename_i s1 hw1
    obtain ⟨r1, ev1, rfl, -⟩ := awaitByte_some _ _ _ hw1
    simp [waitTicks.readOnce, Buzzer_ON, Timer1_SetCallBack, Timer1_NonPWm_Mode_Init,
      UART_SendByte, State.log, hc]

set_option maxRecDepth 100000 in
/-- Claim C16, divergence. The Control node is at the top of its loop in
`OPEN_THE_DOOR`, three passes after boot, with the tick counter at 0 and
`HMI_READY` and the open command still to arrive. The pass reaches its first
wait in `doorWait`: the open command is received, Timer1 runs with the
callback registered, the motor has just been set to CW at 100, the counter is
0. Whatever the wait loop, the pass does not return unless that wait does.
With the counter read once the wait never returns, and so neither does the
pass: the motor is never stopped. With every tick seen the same pass returns
with 5, 1 and 5 ticks between the motor events, the counter at 0 and the next
state `RECEIVING_MAIN_OPTION`. -/
theorem C16_door_cycle_blocks_when_counter_read_once :
    doorSample.Control_ECU_Sequence = OPEN_THE_DOOR ∧ doorSample.G_Timer1_Count = 0 ∧
    doorSample.rx = [HMI_READY, OPEN_THE_DOOR] ∧
    doorWait.trace = doorSample.trace ++
      [Ev.recv HMI_READY, Ev.send CONTROL_READY, Ev.recv OPEN_THE_DOOR, Ev.timer0Init,
        Ev.timer1Init, Ev.timer1SetCallBack, Ev.motor DcMotor_State.CW 100] ∧
    doorWait.timer1 = true ∧ doorWait.callBack = true ∧ doorWait.G_Timer1_Count = 0 ∧
    (∀ wait : Nat → State → Option State, wait 5 doorWait = none →
      case_OPEN_THE_DOOR.via wait doorSample = none) ∧
    waitTicks.readOnce 5 doorWait = none ∧
    case_OPEN_THE_DOOR.via waitTicks.readOnce doorSample = none ∧
    (∃ t, case_OPEN_THE_DOOR.via waitTicks doorSample = some t ∧
      t.trace = doorWait.trace ++
        (List.replicate 5 Ev.tick ++ [Ev.motor DcMotor_State.STOP 0] ++
          List.replicate 1 Ev.tick ++ [Ev.motor DcMotor_State.A_CW 100] ++
          List.replicate 5 Ev.tick ++
          [Ev.motor DcMotor_State.STOP 0, Ev.timer1DeInit, Ev.timer0DeInit]) ∧
      t.G_Timer1_Count = 0 ∧ t.Control_ECU_Sequence = RECEIVING_MAIN_OPTION) := by
  have hseq : doorSample.Control_ECU_Sequence = OPEN_THE_DOOR := by decide
  have hc : doorSample.G_Timer1_Count = 0 := by decide
  have hrx : doorSample.rx = [HMI_READY, OPEN_THE_DOOR] := by decide
  refine ⟨hseq, hc, hrx, ?_, ?_, ?_, ?_, ?_, ?_, case_OPEN_THE_DOOR_via_readOnce _ hc, ?_⟩
  · simp [doorWait, DcMotor_Rotate, Timer1_SetCallBack, Timer1_NonPWm_Mode_Init,
      Timer0_PWM_Mode_Init, State.log]
  · simp [doorWait, DcMotor_Rotate, Timer1_SetCallBack, Timer1_NonPWm_Mode_Init,
      Timer0_PWM_Mode_Init, State.log]
  · simp [doorWait, DcMotor_Rotate, Timer1_SetCallBack, Timer1_NonPWm_Mode_Init,
      Timer0_PWM_Mode_Init, State.log]
  · simp [doorWait, DcMotor_Rotate, Timer1_SetCallBack, Timer1_NonPWm_Mode_Init,
      Timer0_PWM_Mode_Init, State.log, hc]
  · intro wait hw
    exact case_OPEN_THE_DOOR_via_first_wait wait doorSample [] [] [] (by simp) (by simp)
      (by simpa using hrx) hw
  · simp [waitTicks.readOnce, doorWait, DcMotor_Rotate, Timer1_SetCallBack,
      Timer1_NonPWm_Mode_Init, Timer0_PWM_Mode_Init, State.log, hc]
  · rw [case_OPEN_THE_DOOR_via_waitTicks,
      case_OPEN_THE_DOOR_run doorSample [] [] [] hc (by simp) (by simp) (by simpa using hrx)]
    refine ⟨_, rfl, ?_, rfl, rfl⟩
    simp [doorWait, DcMotor_Rotate, Timer1_SetCallBack, Timer1_NonPWm_Mode_Init,
      Timer0_PWM_Mode_Init, State.log]

end Control

namespace HMI

/-! ### The timed passes of the HMI node when the counter is read once -/

/-- The case `OPENING_DOOR` is its form with the wait loops given, at
`waitTicks`. -/
theorem case_OPENING_DOOR_via_waitTicks (s : State) :
    case_OPENING_DOOR.via waitTicks s = case_OPENING_DOOR s := rfl

/-- The case `PASSWORD_ERROR` of the HMI node is its form with the wait loop
given, at `waitTicks`. -/
theorem case_PASSWORD_ERROR_via_waitTicks_hmi (s : State) :
    case_PASSWORD_ERROR.via waitTicks s = case_PASSWORD_ERROR s := rfl

/-- A pass in `OPENING_DOOR` that is past its exchange calls its first wait in
the state in which the unlocking message has just been shown; when that wait
does not return, the pass does not return. -/
theorem case_OPENING_DOOR_via_first_wait (wait : Nat → State → Option State) (s : State)
    (junk rest : List Nat) (hj : CONTROL_READY ∉ junk)
    (hrx : s.rx = junk ++ CONTROL_READY :: rest)
    (hw : wait 6 (LCD_DisplayString "Unlocking..."
      (LCD_MoveCursor 1 0 (LCD_DisplayString "Door is" (LCD_ClearString
        (Timer1_SetCallBack (Timer1_NonPWm_Mode_Init
          { s with
            rx := rest,
            trace := s.trace ++ (Ev.send HMI_READY :: (junk.map Ev.recv ++
              [Ev.recv CONTROL_READY, Ev.send OPEN_THE_DOOR])) })))))) = none) :
    case_OPENING_DOOR.via wait s = none := by
  obtain ⟨seq, key, cnt, ctr, p1, p2, i, rx, keys, t1, cb, tr⟩ := s
  simp only at hrx
  subst hrx
  unfold case_OPENING_DOOR.via
  rw [awaitByte_junk_hmi CONTROL_READY junk rest _ hj (by simp [UART_SendByte, State.log])]
  simp only [UART_SendByte, State.log, Timer1_SetCallBack, Timer1_NonPWm_Mode_Init,
    LCD_DisplayString, LCD_MoveCursor, LCD_ClearString, List.append_assoc, List.cons_append,
    List.nil_append, List.singleton_append] at hw ⊢
  rw [hw]

/-- A pass in `PASSWORD_ERROR` of the HMI node that is past its exchange calls
its wait in the state in which the error message has just been shown; when
that wait does not return, the pass does not return. -/
theorem case_PASSWORD_ERROR_via_first_wait_hmi (wait : Nat → State → Option State)
    (s : State) (junk junk2 rest : List Nat) (hj : CONTROL_READY ∉ junk)
    (hj2 : DISPLAY_ERROR ∉ junk2)
    (hrx : s.rx = junk ++ CONTROL_READY :: (junk2 ++ DISPLAY_ERROR :: rest))
    (hw : wait 20 (LCD_DisplayString "Try Again Later"
      (LCD_MoveCursor 1 0 (LCD_DisplayString "ERROR Happened!" (LCD_ClearString
        (Timer1_SetCallBack (Timer1_NonPWm_Mode_Init
          { s with
            rx := rest,
            trace := s.trace ++ (junk.map Ev.recv ++
              [Ev.recv CONTROL_READY, Ev.send HMI_READY] ++
              (junk2.map Ev.recv ++ [Ev.recv DISPLAY_ERROR])) })))))) = none) :
    case_PASSWORD_ERROR.via wait s = none := by
  obtain ⟨seq, key, cnt, ctr, p1, p2, i, rx, keys, t1, cb, tr⟩ := s
  simp only at hrx
  subst hrx
  unfold case_PASSWORD_ERROR.via
  rw [awaitByte_junk_hmi CONTROL_READY junk _ _ hj rfl]
  simp only
  rw [awaitByte_junk_hmi DISPLAY_ERROR junk2 rest _ hj2 (by simp [UART_SendByte, State.log])]
  simp only [UART_SendByte, State.log, Timer1_SetCallBack, Timer1_NonPWm_Mode_Init,
    LCD_DisplayString, LCD_MoveCursor, LCD_ClearString, List.append_assoc, List.cons_append,
    List.nil_append, List.singleton_append] at hw ⊢
  rw [hw]

/-- With the counter read once, a pass in `OPENING_DOOR` entered with the tick
counter at 0 never returns: its first wait tests 0 against 6 for ever. -/
theorem case_OPENING_DOOR_via_readOnce (s : State) (hc : s.G_Timer1_Count = 0) :
    case_OPENING_DOOR.via waitTicks.readOnce s = none := by
  unfold case_OPENING_DOOR.via
  split
  · rfl
  · rename_i s1 hw1
    obtain ⟨junk, rest, -, -, rfl⟩ := awaitByte_exact_hmi _ _ _ hw1
    simp [waitTicks.readOnce, LCD_DisplayString, LCD_MoveCursor, LCD_ClearString,
      Timer1_SetCallBack, Timer1_NonPWm_Mode_Init, UART_SendByte, State.log, hc]

/-- With the counter read once, a pass in `PASSWORD_ERROR` of the HMI node
entered with the tick counter at 0 never returns: its wait tests 0 against 20
for ever. -/
theorem case_PASSWORD_ERROR_via_readOnce_hmi (s : State) (hc : s.G_Timer1_Count = 0) :
    case_PASSWORD_ERROR.via waitTicks.readOnce s = none := by
  unfold case_PASSWORD_ERROR.via
  split
  · rfl
  · rename_i s1 hw1
    obtain ⟨junk, rest, -, -, rfl⟩ := awaitByte_exact_hmi _ _ _ hw1
    split
    · rfl
    · rename_i s2 hw2
      obtain ⟨junk2, rest2, -, -, rfl⟩ := awaitByte_exact_hmi _ _ _ hw2
      simp [waitTicks.readOnce, LCD_DisplayString, LCD_MoveCursor, LCD_ClearString,
        Timer1_SetCallBack, Timer1_NonPWm_Mode_Init, UART_SendByte, State.log, hc]

set_option maxRecDepth 100000 in
/-- Claim C17, divergence. The HMI node is at the top of its loop in
`OPENING_DOOR`, three passes after boot, with the tick counter at 0 and
`CONTROL_READY` still to arrive. The pass reaches its first wait in
`doorWait`: the open command is sent, Timer1 runs with the callback
registered, the unlocking message is shown, the counter is 0. Whatever the
wait loop, the pass does not return unless that wait does. With the counter
read once the wait never returns, and so neither does the pass: the locking
message is never shown and `MAIN_OPTIONS_DISPLAY` is not reached. With every
tick seen the same pass returns with 6 and 5 ticks, the counter at 0 and the
next state `MAIN_OPTIONS_DISPLAY`. -/
theorem C17_hmi_door_cycle_blocks_when_counter_read_once :
    doorSample.HMI_ECU_Sequence = OPENING_DOOR ∧ doorSample.G_Timer1_Count = 0 ∧
    doorSample.rx = [CONTROL_READY] ∧
    doorWait.trace = doorSample.trace ++
      [Ev.send HMI_READY, Ev.recv CONTROL_READY, Ev.send OPEN_THE_DOOR, Ev.timer1Init,
        Ev.timer1SetCallBack, Ev.lcdClear, Ev.lcdString "Door is", Ev.lcdMove 1 0,
        Ev.lcdString "Unlocking..."] ∧
    doorWait.timer1 = true ∧ doorWait.callBack = true ∧ doorWait.G_Timer1_Count = 0 ∧
    (∀ wait : Nat → State → Option State, wait 6 doorWait = none →
      case_OPENING_DOOR.via wait doorSample = none) ∧
    waitTicks.readOnce 6 doorWait = none ∧
    case_OPENING_DOOR.via waitTicks.readOnce doorSample = none ∧
    (∃ t, case_OPENING_DOOR.via waitTicks doorSample = some t ∧
      t.trace = doorWait.trace ++
        (List.replicate 6 Ev.tick ++
          [Ev.lcdClear, Ev.lcdString "Door is", Ev.lcdMove 1 0, Ev.lcdString "Locking..."] ++
          List.replicate 5 Ev.tick ++ [Ev.timer1DeInit]) ∧
      t.G_Timer1_Count = 0 ∧ t.HMI_ECU_Sequence = MAIN_OPTIONS_DISPLAY) := by
  have hseq : doorSample.HMI_ECU_Sequence = OPENING_DOOR := by decide
  have hc : doorSample.G_Timer1_Count = 0 := by decide
  have hrx : doorSample.rx = [CONTROL_READY] := by decide
  refine ⟨hseq, hc, hrx, ?_, ?_, ?_, ?_, ?_, ?_, case_OPENING_DOOR_via_readOnce _ hc, ?_⟩
  · simp [doorWait, LCD_DisplayString, LCD_MoveCursor, LCD_ClearString, Timer1_SetCallBack,
      Timer1_NonPWm_Mode_Init, State.log]
  · simp [doorWait, LCD_DisplayString, LCD_MoveCursor, LCD_ClearString, Timer1_SetCallBack,
      Timer1_NonPWm_Mode_Init, State.log]
  · simp [doorWait, LCD_DisplayString, LCD_MoveCursor, LCD_ClearString, Timer1_SetCallBack,
      Timer1_NonPWm_Mode_Init, State.log]
  · simp [doorWait, LCD_DisplayString, LCD_MoveCursor, LCD_ClearString, Timer1_SetCallBack,
      Timer1_NonPWm_Mode_Init, State.log, hc]
  · intro wait hw
    exact case_OPENING_DOOR_via_first_wait wait doorSample [] [] (by simp)
      (by simpa using hrx) hw
  · simp [waitTicks.readOnce, doorWait, LCD_DisplayString, LCD_MoveCursor, LCD_ClearString,
      Timer1_SetCallBack, Timer1_NonPWm_Mode_Init, State.log, hc]
  · rw [case_OPENING_DOOR_via_waitTicks,
      case_OPENING_DOOR_run doorSample [] [] hc (by simp) (by simpa using hrx)]
    refine ⟨_, rfl, ?_, rfl, rfl⟩
    simp [doorWait, LCD_DisplayString, LCD_MoveCursor, LCD_ClearString, Timer1_SetCallBack,
      Timer1_NonPWm_Mode_Init, State.log]

end HMI

set_option maxRecDepth 100000 in
/-- Claim C18, divergence. Each node is at the top of its loop in
`PASSWORD_ERROR`, five passes after boot, with the tick counter at 0 and the
bytes of the exchange still to arrive. The Control pass reaches its wait in
`Control.lockoutWait`: `DISPLAY_ERROR` is sent, Timer1 runs with the callback
registered, the buzzer has just been switched on, the counter is 0. The HMI
pass reaches its wait in `HMI.lockoutWait`: `DISPLAY_ERROR` is received,
Timer1 runs, the error message is shown, the counter is 0. Whatever the wait
loop, neither pass returns unless its wait does. With the counter read once
neither wait returns: the buzzer is never switched off, and neither node
leaves `PASSWORD_ERROR`. With every tick seen each pass returns after 20
ticks, the counter at 0. -/
theorem C18_lockout_blocks_when_counter_read_once :
    (Control.lockoutSample.Control_ECU_Sequence = Control.PASSWORD_ERROR ∧
      Control.lockoutSample.G_Timer1_Count = 0 ∧
      Control.lockoutSample.rx = [Control.HMI_READY] ∧
      Control.lockoutWait.trace = Control.lockoutSample.trace ++
        [Ev.send Control.CONTROL_READY, Ev.recv Control.HMI_READY,
          Ev.send Control.DISPLAY_ERROR, Ev.timer1Init, Ev.timer1SetCallBack,
          Ev.buzzer true] ∧
      Control.lockoutWait.timer1 = true ∧ Control.lockoutWait.callBack = true ∧
      Control.lockoutWait.G_Timer1_Count = 0 ∧
      (∀ wait : Nat → Control.State → Option Control.State,
        wait 20 Control.lockoutWait = none →
        Control.case_PASSWORD_ERROR.via wait Control.lockoutSample = none) ∧
      Control.waitTicks.readOnce 20 Control.lockoutWait = none ∧
      Control.case_PASSWORD_ERROR.via Control.waitTicks.readOnce Control.lockoutSample = none ∧
      (∃ d, Control.case_PASSWORD_ERROR.via Control.waitTicks Control.lockoutSample = some d ∧
        d.trace = Control.lockoutWait.trace ++
          (List.replicate 20 Ev.tick ++ [Ev.buzzer false, Ev.timer1DeInit]) ∧
        d.G_Timer1_Count = 0 ∧
        d.Control_ECU_Sequence = Control.RECEIVING_MAIN_OPTION)) ∧
    (HMI.lockoutSample.HMI_ECU_Sequence = HMI.PASSWORD_ERROR ∧
      HMI.lockoutSample.G_Timer1_Count = 0 ∧
      HMI.lockoutSample.rx = [HMI.CONTROL_READY, HMI.DISPLAY_ERROR] ∧
      HMI.lockoutWait.trace = HMI.lockoutSample.trace ++
        [Ev.recv HMI.CONTROL_READY, Ev.send HMI.HMI_READY, Ev.recv HMI.DISPLAY_ERROR,
          Ev.timer1Init, Ev.timer1SetCallBack, Ev.lcdClear, Ev.lcdString "ERROR Happened!",
          Ev.lcdMove 1 0, Ev.lcdString "Try Again Later"] ∧
      HMI.lockoutWait.timer1 = true ∧ HMI.lockoutWait.callBack = true ∧
      HMI.lockoutWait.G_Timer1_Count = 0 ∧
      (∀ wait : Nat → HMI.State → Option HMI.State, wait 20 HMI.lockoutWait = none →
        HMI.case_PASSWORD_ERROR.via wait HMI.lockoutSample = none) ∧
      HMI.waitTicks.readOnce 20 HMI.lockoutWait = none ∧
      HMI.case_PASSWORD_ERROR.via HMI.waitTicks.readOnce HMI.lockoutSample = none ∧
      (∃ t, HMI.case_PASSWORD_ERROR.via HMI.waitTicks HMI.lockoutSample = some t ∧
        t.trace = HMI.lockoutWait.trace ++ (List.replicate 20 Ev.tick ++ [Ev.timer1DeInit]) ∧
        t.G_Timer1_Count = 0 ∧ t.HMI_ECU_Sequence = HMI.MAIN_OPTIONS_DISPLAY)) := by
  have cseq : Control.lockoutSample.Control_ECU_Sequence = Control.PASSWORD_ERROR := by decide
  have cc : Control.lockoutSample.G_Timer1_Count = 0 := by decide
  have crx : Control.lockoutSample.rx = [Control.HMI_READY] := by decide
  have hseq : HMI.lockoutSample.HMI_ECU_Sequence = HMI.PASSWORD_ERROR := by decide
  have hc : HMI.lockoutSample.G_Timer1_Count = 0 := by decide
  have hrx : HMI.lockoutSample.rx = [HMI.CONTROL_READY, HMI.DISPLAY_ERROR] := by decide
  refine ⟨⟨cseq, cc, crx, ?_, ?_, ?_, ?_, ?_, ?_,
      Control.case_PASSWORD_ERROR_via_readOnce _ cc, ?_⟩,
    ⟨hseq, hc, hrx, ?_, ?_, ?_, ?_, ?_, ?_,
      HMI.case_PASSWORD_ERROR_via_readOnce_hmi _ hc, ?_⟩⟩
  · simp [Control.lockoutWait, Control.Buzzer_ON, Control.Timer1_SetCallBack,
      Control.Timer1_NonPWm_Mode_Init, Control.State.log]
  · simp [Control.lockoutWait, Control.Buzzer_ON, Control.Timer1_SetCallBack,
      Control.Timer1_NonPWm_Mode_Init, Control.State.log]
  · simp [Control.lockoutWait, Control.Buzzer_ON, Control.Timer1_SetCallBack,
      Control.Timer1_NonPWm_Mode_Init, Control.State.log]
  · simp [Control.lockoutWait, Control.Buzzer_ON, Control.Timer1_SetCallBack,
      Control.Timer1_NonPWm_Mode_Init, Control.State.log, cc]
  · intro wait hw
    exact Control.case_PASSWORD_ERROR_via_first_wait wait Control.lockoutSample [] []
      (by simp) (by simpa using crx) hw
  · simp [Control.waitTicks.readOnce, Control.lockoutWait, Control.Buzzer_ON,
      Control.Timer1_SetCallBack, Control.Timer1_NonPWm_Mode_Init, Control.State.log, cc]
  · rw [Control.case_PASSWORD_ERROR_via_waitTicks,
      Control.case_PASSWORD_ERROR_run Control.lockoutSample [] [] cc (by simp)
        (by simpa using crx)]
    refine ⟨_, rfl, ?_, rfl, rfl⟩
    simp [Control.lockoutWait, Control.Buzzer_ON, Control.Timer1_SetCallBack,
      Control.Timer1_NonPWm_Mode_Init, Control.State.log]
  · simp [HMI.lockoutWait, HMI.LCD_DisplayString, HMI.LCD_MoveCursor, HMI.LCD_ClearString,
      HMI.Timer1_SetCallBack, HMI.Timer1_NonPWm_Mode_Init, HMI.State.log]
  · simp [HMI.lockoutWait, HMI.LCD_DisplayString, HMI.LCD_MoveCursor, HMI.LCD_ClearString,
      HMI.Timer1_SetCallBack, HMI.Timer1_NonPWm_Mode_Init, HMI.State.log]
  · simp [HMI.lockoutWait, HMI.LCD_DisplayString, HMI.LCD_MoveCursor, HMI.LCD_ClearString,
      HMI.Timer1_SetCallBack, HMI.Timer1_NonPWm_Mode_Init, HMI.State.log]
  · simp [HMI.lockoutWait, HMI.LCD_DisplayString, HMI.LCD_MoveCursor, HMI.LCD_ClearString,
      HMI.Timer1_SetCallBack, HMI.Timer1_NonPWm_Mode_Init, HMI.State.log, hc]
  · intro wait hw
    exact HMI.case_PASSWORD_ERROR_via_first_wait_hmi wait HMI.lockoutSample [] [] []
      (by simp) (by simp) (by simpa using hrx) hw
  · simp [HMI.waitTicks.readOnce, HMI.lockoutWait, HMI.LCD_DisplayString, HMI.LCD_MoveCursor,
      HMI.LCD_ClearString, HMI.Timer1_SetCallBack, HMI.Timer1_NonPWm_Mode_Init,
      HMI.State.log, hc]
  · rw [HMI.case_PASSWORD_ERROR_via_waitTicks_hmi,
      HMI.case_PASSWORD_ERROR_run_hmi HMI.lockoutSample [] [] [] hc (by simp) (by simp)
        (by simpa using hrx)]
    refine ⟨_, rfl, ?_, rfl, rfl⟩
    simp [HMI.lockoutWait, HMI.LCD_DisplayString, HMI.LCD_MoveCursor, HMI.LCD_ClearString,
      HMI.Timer1_SetCallBack, HMI.Timer1_NonPWm_Mode_Init, HMI.State.log]


end DoorLocker
